import Mathlib

/-!
The command-based I2C slave of avr-i2c (avr-i2c-cmdslave.c).

A shallow embedding of the command slave of `src/avr-i2c-cmdslave.c`:
the PEC table and accumulator, the deferred-command queue and the
interrupt handler `ISR(TWI_vect)`.

Conventions of the embedding.

* `uint8_t` / `uint16_t` objects are natural numbers; a `% 256` or `% 65536`
  is written wherever the C assignment can leave the range of the object.
* Application RAM is one byte-addressed map `ram : Nat → Nat`.  The
  application-owned bytes `I2C_PAGE[0]` and `I2C_STATUS_CML[0]` live in it at
  the addresses given by the configuration, as does every command's backing
  storage (`ramAddr`), so that a command may be backed by the page register
  or by the fault register, as in the applications of the library.
  Pointer arithmetic is addition of natural numbers.
* What the application supplies at build time is a `Config`: the sizes
  `I2C_CMD_BUFFER_SIZE` and `I2C_NUMPAGES`, the switch `I2C_ENABLE_PAGE`, the
  command table, and the two attribute masks `I2C_LEN` and `I2C_SKIP_BYTE`
  that the handler uses but the header of the repository does not define.
* The target is the AVR: `__BYTE_ORDER__ == __ORDER_LITTLE_ENDIAN__`, so the
  little-endian branch of each `#if` is the one embedded.  The optional
  per-page status word (`I2C_ENABLE_STATUS_WORD`) is not compiled in.
* The hardware registers `TWBR`, `TWAR` and `TWCR` (re-arming the TWI unit)
  are not part of the state; `TWSR` and the received `TWDR` are the bus
  event, the transmitted `TWDR` is a state component.
-/

namespace AvrI2C

/-! ## Constants of avr-i2c-cmdslave.h -/

def I2C_PAGED : Nat := 0x80
def I2C_BLOCK : Nat := 0x01
def I2C_UNSUPPORTED : Nat := 0xFF
def I2C_STATE_ERROR : Nat := 0x01

/-- Fault bits of the CML status byte.  The handler writes them as
`STATUS_CML_*`; the header gives their values under the names
`I2C_STATUS_CML_*`. -/
def STATUS_CML_CMD_FAULT : Nat := 0x80
def STATUS_CML_DATA_FAULT : Nat := 0x40
def STATUS_CML_PEC_FAULT : Nat := 0x20
def STATUS_CML_I2C_FAULT : Nat := 0x02

/-! TWI slave status codes (`enum I2CState`). -/

def I2C_STX_ADR_ACK : Nat := 0xA8
def I2C_STX_DATA_ACK : Nat := 0xB8
def I2C_STX_DATA_NACK : Nat := 0xC0
def I2C_STX_DATA_ACK_LAST_BYTE : Nat := 0xC8
def I2C_SRX_ADR_ACK : Nat := 0x60
def I2C_SRX_GEN_ACK : Nat := 0x70
def I2C_SRX_ADR_DATA_ACK : Nat := 0x80
def I2C_SRX_ADR_DATA_NACK : Nat := 0x88
def I2C_SRX_GEN_DATA_ACK : Nat := 0x90
def I2C_SRX_GEN_DATA_NACK : Nat := 0x98
def I2C_SRX_STOP_RESTART : Nat := 0xA0
def I2C_BUS_ERROR : Nat := 0x00

/-! ## Data model -/

/-- Command descriptor (`i2cCommand`); `ramAddr` is an address in `ram`. -/
structure i2cCommand where
  cmdCode : Nat
  attributes : Nat
  readBytes : Nat
  writeBytes : Nat
  ramAddr : Nat
deriving DecidableEq

/-- Deferred-command queue entry (`CmdBuffer`). -/
structure CmdBuffer where
  code : Nat
  page : Nat
deriving DecidableEq

/-- Build-time configuration supplied by the application. -/
structure Config where
  I2C_CMD_BUFFER_SIZE : Nat
  I2C_NUMPAGES : Nat
  I2C_ENABLE_PAGE : Bool
  I2C_LEN : Nat
  I2C_SKIP_BYTE : Nat
  i2c_registerMap : Nat → i2cCommand
  i2c_registerIndex : Nat → Nat
  I2C_PAGE : Nat
  I2C_STATUS_CML : Nat

/-- The global variables of avr-i2c-cmdslave.c and the application RAM. -/
structure Globals where
  ram : Nat → Nat
  cmdQueueHead : Nat
  cmdQueueTail : Nat
  cmdQueueFull : Nat
  cmdQueue : Nat → CmdBuffer
  i2c_registerMapIndex : Nat
  i2c_state : Nat
  i2c_pec : Nat
  i2c_baseAddress : Nat
  i2c_status : Nat
  i2c_buffer : Nat → Nat
  i2c_command : CmdBuffer
  i2c_rxIdx : Nat
  i2c_txIdx : Nat
  writeBytes : Nat
  i2c_busy : Nat
  TWDR : Nat

/-- A bus event: the TWI status code and the content of the data register
as the hardware presents them to the handler. -/
structure BusEvent where
  TWSR : Nat
  TWDR : Nat
deriving DecidableEq

/-! ## Deferred-command queue -/

/-- `i2cCmdQueueDepth`: `(uint8_t)(head - tail) % I2C_CMD_BUFFER_SIZE`, the
cast applying to the difference; the returned size is a `uint8_t`. -/
def i2cCmdQueueDepth (cfg : Config) (g : Globals) : Nat :=
  if g.cmdQueueFull ≠ 0 then
    cfg.I2C_CMD_BUFFER_SIZE % 256
  else
    ((g.cmdQueueHead + 256 - g.cmdQueueTail) % 256) % cfg.I2C_CMD_BUFFER_SIZE

/-- `i2cCmdQueuePush`: the returned flag and the globals afterwards. -/
def i2cCmdQueuePush (cfg : Config) (data : CmdBuffer) (g : Globals) : Nat × Globals :=
  if g.cmdQueueFull ≠ 0 then
    (0, g)
  else
    let q := Function.update g.cmdQueue g.cmdQueueHead { code := data.code, page := data.page }
    let h1 := (g.cmdQueueHead + 1) % 256
    let h := if h1 ≥ cfg.I2C_CMD_BUFFER_SIZE then 0 else h1
    let full := if h = g.cmdQueueTail then 1 else g.cmdQueueFull
    (1, { g with cmdQueue := q, cmdQueueHead := h, cmdQueueFull := full })

/-- `i2cCmdQueuePop`: the returned flag, the caller's entry afterwards and
the globals afterwards. -/
def i2cCmdQueuePop (cfg : Config) (data : CmdBuffer) (g : Globals) :
    Nat × CmdBuffer × Globals :=
  if i2cCmdQueueDepth cfg g = 0 then
    (0, data, g)
  else
    let out : CmdBuffer :=
      { code := (g.cmdQueue g.cmdQueueTail).code, page := (g.cmdQueue g.cmdQueueTail).page }
    let t1 := (g.cmdQueueTail + 1) % 256
    let t := if t1 ≥ cfg.I2C_CMD_BUFFER_SIZE then 0 else t1
    (1, out, { g with cmdQueueTail := t, cmdQueueFull := 0 })

/-! ## Packet error check -/

/-- Table of crc values (`crcTable`). -/
def crcTable : List Nat := [
  0x00, 0x07, 0x0e, 0x09, 0x1c, 0x1b, 0x12, 0x15,
  0x38, 0x3f, 0x36, 0x31, 0x24, 0x23, 0x2a, 0x2d,
  0x70, 0x77, 0x7e, 0x79, 0x6c, 0x6b, 0x62, 0x65,
  0x48, 0x4f, 0x46, 0x41, 0x54, 0x53, 0x5a, 0x5d,
  0xe0, 0xe7, 0xee, 0xe9, 0xfc, 0xfb, 0xf2, 0xf5,
  0xd8, 0xdf, 0xd6, 0xd1, 0xc4, 0xc3, 0xca, 0xcd,
  0x90, 0x97, 0x9e, 0x99, 0x8c, 0x8b, 0x82, 0x85,
  0xa8, 0xaf, 0xa6, 0xa1, 0xb4, 0xb3, 0xba, 0xbd,
  0xc7, 0xc0, 0xc9, 0xce, 0xdb, 0xdc, 0xd5, 0xd2,
  0xff, 0xf8, 0xf1, 0xf6, 0xe3, 0xe4, 0xed, 0xea,
  0xb7, 0xb0, 0xb9, 0xbe, 0xab, 0xac, 0xa5, 0xa2,
  0x8f, 0x88, 0x81, 0x86, 0x93, 0x94, 0x9d, 0x9a,
  0x27, 0x20, 0x29, 0x2e, 0x3b, 0x3c, 0x35, 0x32,
  0x1f, 0x18, 0x11, 0x16, 0x03, 0x04, 0x0d, 0x0a,
  0x57, 0x50, 0x59, 0x5e, 0x4b, 0x4c, 0x45, 0x42,
  0x6f, 0x68, 0x61, 0x66, 0x73, 0x74, 0x7d, 0x7a,
  0x89, 0x8e, 0x87, 0x80, 0x95, 0x92, 0x9b, 0x9c,
  0xb1, 0xb6, 0xbf, 0xb8, 0xad, 0xaa, 0xa3, 0xa4,
  0xf9, 0xfe, 0xf7, 0xf0, 0xe5, 0xe2, 0xeb, 0xec,
  0xc1, 0xc6, 0xcf, 0xc8, 0xdd, 0xda, 0xd3, 0xd4,
  0x69, 0x6e, 0x67, 0x60, 0x75, 0x72, 0x7b, 0x7c,
  0x51, 0x56, 0x5f, 0x58, 0x4d, 0x4a, 0x43, 0x44,
  0x19, 0x1e, 0x17, 0x10, 0x05, 0x02, 0x0b, 0x0c,
  0x21, 0x26, 0x2f, 0x28, 0x3d, 0x3a, 0x33, 0x34,
  0x4e, 0x49, 0x40, 0x47, 0x52, 0x55, 0x5c, 0x5b,
  0x76, 0x71, 0x78, 0x7f, 0x6a, 0x6d, 0x64, 0x63,
  0x3e, 0x39, 0x30, 0x37, 0x22, 0x25, 0x2c, 0x2b,
  0x06, 0x01, 0x08, 0x0f, 0x1a, 0x1d, 0x14, 0x13,
  0xae, 0xa9, 0xa0, 0xa7, 0xb2, 0xb5, 0xbc, 0xbb,
  0x96, 0x91, 0x98, 0x9f, 0x8a, 0x8d, 0x84, 0x83,
  0xde, 0xd9, 0xd0, 0xd7, 0xc2, 0xc5, 0xcc, 0xcb,
  0xe6, 0xe1, 0xe8, 0xef, 0xfa, 0xfd, 0xf4, 0xf3]

/-- The effect of `i2c_calculatePec` on the accumulator:
`i2c_pec ^= data; i2c_pec = crcTable[i2c_pec]`. -/
def pecStep (pec data : Nat) : Nat :=
  crcTable.getD (pec ^^^ data) 0

/-- `i2c_calculatePec` on the globals. -/
def i2c_calculatePec (data : Nat) (g : Globals) : Globals :=
  { g with i2c_pec := pecStep g.i2c_pec data }

/-- The accumulator after `i2c_calculatePec` has been called on each byte of
`bs` in turn, starting from `pec`. -/
def pecFold (pec : Nat) (bs : List Nat) : Nat :=
  bs.foldl pecStep pec

/-! ### Bit-by-bit reference CRC-8 (polynomial 0x07)

Follows the wording of the specification: CRC-8, polynomial 0x07, most
significant bit first, initial value 0, no reflection, no final XOR. -/

/-- One bit of the reference CRC: shift left, and reduce by the polynomial
when the bit shifted out is set. -/
def crc8RefBit (crc : Nat) : Nat :=
  if crc &&& 0x80 ≠ 0 then ((crc <<< 1) ^^^ 0x07) % 256 else (crc <<< 1) % 256

/-- One byte of the reference CRC: XOR the byte in, then eight bit steps. -/
def crc8RefByte (crc byte : Nat) : Nat :=
  crc8RefBit (crc8RefBit (crc8RefBit (crc8RefBit
    (crc8RefBit (crc8RefBit (crc8RefBit (crc8RefBit (crc ^^^ byte))))))))

/-- Reference CRC-8 of a byte sequence, initial value 0. -/
def crc8Ref (bs : List Nat) : Nat :=
  bs.foldl crc8RefByte 0

/-! ## Initialisation -/

/-- `i2c_slave_init` (the TWI registers apart). -/
def i2c_slave_init (cfg : Config) (i2c_address _i2c_all_call : Nat) (g : Globals) : Globals :=
  { g with
    i2c_busy := 0
    i2c_baseAddress := i2c_address
    i2c_pec := 0
    ram := Function.update g.ram cfg.I2C_STATUS_CML 0
    cmdQueueHead := 0
    cmdQueueTail := 0
    cmdQueueFull := 0
    cmdQueue := fun _ => { code := 0, page := 0 } }

/-! ## The interrupt handler -/

/-- The descriptor `i2c_registerMap[i2c_registerMapIndex]`. -/
def curCmd (cfg : Config) (g : Globals) : i2cCommand :=
  cfg.i2c_registerMap g.i2c_registerMapIndex

/-- `IS_PAGED`, which is `(0)` unless `I2C_ENABLE_PAGE` is defined. -/
def IS_PAGED (cfg : Config) (g : Globals) : Bool :=
  cfg.I2C_ENABLE_PAGE && ((curCmd cfg g).attributes &&& I2C_PAGED != 0)

/-- `IS_BLOCKCMD`. -/
def IS_BLOCKCMD (cfg : Config) (g : Globals) : Bool :=
  (curCmd cfg g).attributes &&& I2C_BLOCK != 0

/-- `IS_LBLOCK`. -/
def IS_LBLOCK (cfg : Config) (g : Globals) : Bool :=
  (curCmd cfg g).attributes &&& cfg.I2C_LEN != 0

/-- `(IS_LBLOCK?1:0)`. -/
def lenByte (cfg : Config) (g : Globals) : Nat :=
  if IS_LBLOCK cfg g then 1 else 0

/-- `i2c_status |= bits`. -/
def setStatus (bits : Nat) (g : Globals) : Globals :=
  { g with i2c_status := g.i2c_status ||| bits }

/-- The `uint16_t pageOffset` of the transmit path (lines 240 and 262):
`IS_PAGED ? I2C_PAGE[0] * (readBytes + (IS_LBLOCK?1:0)) : 0`. -/
def pageOffsetRead (cfg : Config) (g : Globals) : Nat :=
  if IS_PAGED cfg g then
    (g.ram cfg.I2C_PAGE * ((curCmd cfg g).readBytes + lenByte cfg g)) % 65536
  else 0

/-- The `uint16_t pageOffset` of the commit path (line 414):
`IS_PAGED ? I2C_PAGE[0] * (writeBytes + (IS_LBLOCK?1:0)) : 0`, with the
descriptor's `writeBytes`. -/
def pageOffsetWrite (cfg : Config) (g : Globals) : Nat :=
  if IS_PAGED cfg g then
    (g.ram cfg.I2C_PAGE * ((curCmd cfg g).writeBytes + lenByte cfg g)) % 65536
  else 0

/-- The address read for a data byte on the transmit path (lines 262-266):
the page offset, doubled for `I2C_SKIP_BYTE`, then
`ramAddr + pageOffset + (IS_LBLOCK?1:0) + txIndex - 1`. -/
def txDataAddr (cfg : Config) (g : Globals) (txIndex : Nat) : Nat :=
  let pageOffset := pageOffsetRead cfg g
  let pageOffset :=
    if (curCmd cfg g).attributes &&& cfg.I2C_SKIP_BYTE ≠ 0 then (pageOffset * 2) % 65536
    else pageOffset
  (curCmd cfg g).ramAddr + pageOffset + lenByte cfg g + txIndex - 1

/-- Body of `case I2C_STX_DATA_ACK` (lines 221-291), which
`case I2C_STX_ADR_ACK` falls through to. -/
def stxDataAck (cfg : Config) (g : Globals) : Globals :=
  let txIndex := if IS_BLOCKCMD cfg g then (g.i2c_txIdx + 65535) % 65536 else g.i2c_txIdx
  let g1 :=
    if I2C_UNSUPPORTED = cfg.i2c_registerIndex g.i2c_command.code then
      { g with TWDR := 0xFF }
    else if 0 = (curCmd cfg g).readBytes then
      { setStatus STATUS_CML_I2C_FAULT g with TWDR := 0xFF }
    else if IS_BLOCKCMD cfg g ∧ 1 = g.i2c_txIdx then
      let data :=
        if IS_LBLOCK cfg g then g.ram ((curCmd cfg g).ramAddr + pageOffsetRead cfg g)
        else (curCmd cfg g).readBytes
      i2c_calculatePec data { g with TWDR := data }
    else if txIndex ≤ (curCmd cfg g).readBytes then
      if IS_PAGED cfg g ∧ 0xFF = g.ram cfg.I2C_PAGE then
        { setStatus STATUS_CML_DATA_FAULT g with TWDR := 0x00 }
      else
        let data := g.ram (txDataAddr cfg g txIndex)
        i2c_calculatePec data { g with TWDR := data }
    else if txIndex = (curCmd cfg g).readBytes + 1 then
      { g with TWDR := g.i2c_pec }
    else
      { setStatus STATUS_CML_I2C_FAULT g with TWDR := 0xFF }
  { g1 with i2c_txIdx := (g1.i2c_txIdx + 1) % 65536, i2c_busy := 1 }

/-- Body of `case I2C_SRX_GEN_ACK` / `case I2C_SRX_ADR_ACK` (lines 300-304). -/
def srxAdrAck (g : Globals) : Globals :=
  let g := { g with i2c_pec := 0 }
  let g := { g with i2c_state := g.i2c_state &&& 0xFE }
  let g := i2c_calculatePec ((g.i2c_baseAddress <<< 1) % 256) g
  { g with i2c_rxIdx := 0 }

/-- The index `i2c_rxIdx-(IS_BLOCKCMD?2:1)` into `i2c_buffer` (line 387),
computed in 16-bit unsigned arithmetic. -/
def stageIdx (cfg : Config) (g : Globals) : Nat :=
  (g.i2c_rxIdx + 65536 - (if IS_BLOCKCMD cfg g then 2 else 1)) % 65536

/-- Body of `case I2C_SRX_ADR_DATA_ACK` / `case I2C_SRX_GEN_DATA_ACK`
(lines 309-391); `data` is the received `TWDR`. -/
def srxDataAck (cfg : Config) (data : Nat) (g : Globals) : Globals :=
  let g1 :=
    if 0 = g.i2c_rxIdx then
      let g := { g with i2c_command := { code := data, page := g.ram cfg.I2C_PAGE } }
      if I2C_UNSUPPORTED = cfg.i2c_registerIndex g.i2c_command.code then
        setStatus STATUS_CML_CMD_FAULT g
      else
        let g := { g with i2c_registerMapIndex := cfg.i2c_registerIndex g.i2c_command.code }
        let g := { g with writeBytes := (curCmd cfg g).writeBytes }
        i2c_calculatePec data g
    else if I2C_UNSUPPORTED = cfg.i2c_registerIndex g.i2c_command.code then
      g
    else if g.i2c_rxIdx > g.writeBytes then
      if g.i2c_rxIdx = g.writeBytes + 1 then
        if g.i2c_pec ≠ data ∧ (0 ≠ (curCmd cfg g).writeBytes ∨ 0 = (curCmd cfg g).readBytes) then
          if g.i2c_state &&& I2C_STATE_ERROR = 0 then setStatus STATUS_CML_PEC_FAULT g else g
        else if 0 = (curCmd cfg g).writeBytes ∧ (curCmd cfg g).readBytes > 0 then
          setStatus STATUS_CML_DATA_FAULT g
        else g
      else
        if g.i2c_state &&& I2C_STATE_ERROR = 0 then setStatus STATUS_CML_DATA_FAULT g else g
    else if IS_BLOCKCMD cfg g ∧ 1 = g.i2c_rxIdx then
      let g2 := if data > (curCmd cfg g).writeBytes then setStatus STATUS_CML_DATA_FAULT g else g
      i2c_calculatePec data { g2 with writeBytes := (data + 1) % 256 }
    else
      if 0x00 = (curCmd cfg g).cmdCode ∧ data ≥ cfg.I2C_NUMPAGES ∧ data < 0xFF then
        setStatus STATUS_CML_DATA_FAULT g
      else if IS_PAGED cfg g ∧ 0xFF = g.ram cfg.I2C_PAGE then
        setStatus STATUS_CML_DATA_FAULT g
      else
        i2c_calculatePec data
          { g with i2c_buffer := Function.update g.i2c_buffer (stageIdx cfg g) data }
  { g1 with i2c_rxIdx := (g1.i2c_rxIdx + 1) % 65536 }

/-- The copy loop of the commit (lines 419-427), little-endian branch:
for `i = 0 .. n-1` in turn, `*(dst + i) = i2c_buffer[i]`. -/
def commitLoop (dst : Nat) (buf : Nat → Nat) : Nat → (Nat → Nat) → (Nat → Nat)
  | 0, ram => ram
  | n + 1, ram => Function.update (commitLoop dst buf n ram) (dst + n) (buf n)

/-- The commit of lines 412-427: store the length byte for `IS_LBLOCK`
(`writeBytes - 1` as a `uint8_t`), then copy
`IS_BLOCKCMD ? writeBytes-1 : writeBytes` bytes. -/
def commit (cfg : Config) (g : Globals) : Globals :=
  let pageOffset := pageOffsetWrite cfg g
  let ram1 :=
    if IS_LBLOCK cfg g then
      Function.update g.ram ((curCmd cfg g).ramAddr + pageOffset) ((g.writeBytes + 255) % 256)
    else g.ram
  let n := if IS_BLOCKCMD cfg g then g.writeBytes - 1 else g.writeBytes
  { g with ram := commitLoop ((curCmd cfg g).ramAddr + pageOffset + lenByte cfg g)
                    g.i2c_buffer n ram1 }

/-- Body of `case I2C_SRX_STOP_RESTART` (lines 398-430). -/
def srxStopRestart (cfg : Config) (g : Globals) : Globals :=
  let g := { g with i2c_busy := 0 }
  if g.i2c_state &&& I2C_STATE_ERROR = 0 then
    if 0 = (curCmd cfg g).readBytes ∧ 0 = (curCmd cfg g).writeBytes then
      (i2cCmdQueuePush cfg g.i2c_command g).2
    else if g.i2c_rxIdx > g.writeBytes then
      commit cfg g
    else g
  else g

/-- The `switch (TWSR)` of the handler (lines 214-445). -/
def dispatch (cfg : Config) (ev : BusEvent) (g : Globals) : Globals :=
  if ev.TWSR = I2C_STX_ADR_ACK then
    stxDataAck cfg
      (i2c_calculatePec (((g.i2c_baseAddress <<< 1) + 1) % 256) { g with i2c_txIdx := 1 })
  else if ev.TWSR = I2C_STX_DATA_ACK then
    stxDataAck cfg g
  else if ev.TWSR = I2C_STX_DATA_NACK then
    { g with i2c_busy := 0 }
  else if ev.TWSR = I2C_SRX_GEN_ACK ∨ ev.TWSR = I2C_SRX_ADR_ACK then
    srxAdrAck g
  else if ev.TWSR = I2C_SRX_ADR_DATA_ACK ∨ ev.TWSR = I2C_SRX_GEN_DATA_ACK then
    srxDataAck cfg ev.TWDR g
  else if ev.TWSR = I2C_SRX_STOP_RESTART then
    srxStopRestart cfg g
  else if ev.TWSR = I2C_SRX_ADR_DATA_NACK ∨ ev.TWSR = I2C_SRX_GEN_DATA_NACK
      ∨ ev.TWSR = I2C_STX_DATA_ACK_LAST_BYTE ∨ ev.TWSR = I2C_BUS_ERROR then
    g
  else
    { g with i2c_busy := 0 }

/-- The status update that ends the handler (lines 447-459). -/
def statusUpdate (cfg : Config) (g : Globals) : Globals :=
  if g.i2c_status ≠ 0 then
    { g with
      ram := Function.update g.ram cfg.I2C_STATUS_CML
        (g.ram cfg.I2C_STATUS_CML ||| g.i2c_status)
      i2c_state := g.i2c_state ||| I2C_STATE_ERROR }
  else g

/-- `ISR(TWI_vect)`: clear `i2c_status`, dispatch on `TWSR`, update the
sticky status. -/
def isr (cfg : Config) (ev : BusEvent) (g : Globals) : Globals :=
  statusUpdate cfg (dispatch cfg ev { g with i2c_status := 0 })

/-- The handler run on a sequence of bus events. -/
def run (cfg : Config) (g : Globals) (evs : List BusEvent) : Globals :=
  evs.foldl (fun s ev => isr cfg ev s) g

/-- The fault bits raised (`i2c_status`) by the events of a sequence, ORed
together. -/
def raised (cfg : Config) (g : Globals) : List BusEvent → Nat
  | [] => 0
  | ev :: evs => (isr cfg ev g).i2c_status ||| raised cfg (isr cfg ev g) evs

/-- The bytes loaded into `TWDR` for transmission by the events of a
sequence: one for each `I2C_STX_ADR_ACK` and `I2C_STX_DATA_ACK`, in order. -/
def transmitted (cfg : Config) (g : Globals) : List BusEvent → List Nat
  | [] => []
  | ev :: evs =>
    if ev.TWSR = I2C_STX_ADR_ACK ∨ ev.TWSR = I2C_STX_DATA_ACK then
      (isr cfg ev g).TWDR :: transmitted cfg (isr cfg ev g) evs
    else transmitted cfg (isr cfg ev g) evs

/-! ### Bus events of a transaction -/

/-- Own address + write has been received. -/
def evWriteAddr : BusEvent := { TWSR := I2C_SRX_ADR_ACK, TWDR := 0 }

/-- A byte has been received while addressed for writing. -/
def evData (b : Nat) : BusEvent := { TWSR := I2C_SRX_ADR_DATA_ACK, TWDR := b }

/-- A STOP or repeated START has been received. -/
def evStop : BusEvent := { TWSR := I2C_SRX_STOP_RESTART, TWDR := 0 }

/-- Own address + read has been received. -/
def evReadAddr : BusEvent := { TWSR := I2C_STX_ADR_ACK, TWDR := 0 }

/-- A transmitted byte has been acknowledged. -/
def evTxAck : BusEvent := { TWSR := I2C_STX_DATA_ACK, TWDR := 0 }

/-! ## Calls of the queue interface -/

/-- A call of the queue interface by the application or the handler. -/
inductive QueueCall where
  | push (data : CmdBuffer)
  | pop
deriving DecidableEq

/-- One call on the globals: what the caller observes (the returned flag,
and the entry a successful pop wrote to the caller's buffer) and the globals
afterwards. -/
def queueCall (cfg : Config) : QueueCall → Globals → (Nat × Option CmdBuffer) × Globals
  | .push data, g => (((i2cCmdQueuePush cfg data g).1, none), (i2cCmdQueuePush cfg data g).2)
  | .pop, g =>
    let r := i2cCmdQueuePop cfg { code := 0, page := 0 } g
    ((r.1, if r.1 ≠ 0 then some r.2.1 else none), r.2.2)

/-- A sequence of calls: the observations in order and the globals at the
end. -/
def queueCalls (cfg : Config) : List QueueCall → Globals →
    List (Nat × Option CmdBuffer) × Globals
  | [], g => ([], g)
  | c :: cs, g =>
    let r := queueCall cfg c g
    let rs := queueCalls cfg cs r.2
    (r.1 :: rs.1, rs.2)

/-- The entries pushed successfully and not yet popped, oldest first, after
a sequence of calls starting from `pending` (bookkeeping on the results of
the calls, not on the ring indices). -/
def pendingAfter (cfg : Config) : List QueueCall → Globals → List CmdBuffer → List CmdBuffer
  | [], _, pending => pending
  | .push data :: cs, g, pending =>
    pendingAfter cfg cs (i2cCmdQueuePush cfg data g).2
      (if (i2cCmdQueuePush cfg data g).1 ≠ 0 then pending ++ [data] else pending)
  | .pop :: cs, g, pending =>
    pendingAfter cfg cs (i2cCmdQueuePop cfg { code := 0, page := 0 } g).2.2
      (if (i2cCmdQueuePop cfg { code := 0, page := 0 } g).1 ≠ 0 then pending.tail else pending)

/-! ### Bounded FIFO of the specification

Follows the wording of the specification: a queue of capacity N whose push
fails when it is full and whose pop fails when it is empty and otherwise
returns the oldest entry. -/

/-- One call on the bounded FIFO list of capacity `N`. -/
def fifoCall (N : Nat) : QueueCall → List CmdBuffer → (Nat × Option CmdBuffer) × List CmdBuffer
  | .push data, l => if l.length < N then ((1, none), l ++ [data]) else ((0, none), l)
  | .pop, [] => ((0, none), [])
  | .pop, e :: l => ((1, some e), l)

/-- A sequence of calls on the bounded FIFO list. -/
def fifoCalls (N : Nat) : List QueueCall → List CmdBuffer →
    List (Nat × Option CmdBuffer) × List CmdBuffer
  | [], l => ([], l)
  | c :: cs, l =>
    let r := fifoCall N c l
    let rs := fifoCalls N cs r.2
    (r.1 :: rs.1, rs.2)

/-- The running checksum of a write of the payload `ds` to command `c` by a
slave of address `addr`: over the address byte, the command code and the
payload. -/
def writePec (addr c : Nat) (ds : List Nat) : Nat :=
  pecFold 0 ([(addr <<< 1) % 256, c] ++ ds)

/-- The bus events of a write with PEC: write address-match, command code,
the payload bytes, a trailing byte equal to the running checksum, STOP. -/
def writeTxn (addr c : Nat) (ds : List Nat) : List BusEvent :=
  [evWriteAddr, evData c] ++ ds.map evData ++ [evData (writePec addr c ds), evStop]

/-- The bus events of a read of `m + 1` bytes: write address-match, command
code, repeated START, read address-match, `m` transmit-acknowledged events. -/
def readTxn (c m : Nat) : List BusEvent :=
  [evWriteAddr, evData c, evStop, evReadAddr] ++ List.replicate m evTxAck

/-- The scratch buffer after the bytes `ds` have been staged at the indices
`k, k+1, ...` in turn. -/
def stageBytes : Nat → List Nat → (Nat → Nat) → (Nat → Nat)
  | _, [], buf => buf
  | k, d :: ds, buf => stageBytes (k + 1) ds (Function.update buf k d)

/-! ## Concrete configurations and states -/

/-- The globals at program start: static storage is zero-initialised. -/
def startup (ram : Nat → Nat) : Globals :=
  { ram := ram
    cmdQueueHead := 0
    cmdQueueTail := 0
    cmdQueueFull := 0
    cmdQueue := fun _ => { code := 0, page := 0 }
    i2c_registerMapIndex := 0
    i2c_state := 0
    i2c_pec := 0
    i2c_baseAddress := 0
    i2c_status := 0
    i2c_buffer := fun _ => 0
    i2c_command := { code := 0, page := 0 }
    i2c_rxIdx := 0
    i2c_txIdx := 0
    writeBytes := 0
    i2c_busy := 0
    TWDR := 0 }

/-- A configuration with an empty command table and a queue of capacity
`n`. -/
def queueCfg (n : Nat) : Config :=
  { I2C_CMD_BUFFER_SIZE := n
    I2C_NUMPAGES := 1
    I2C_ENABLE_PAGE := false
    I2C_LEN := 0x04
    I2C_SKIP_BYTE := 0x08
    i2c_registerMap := fun _ => { cmdCode := 0, attributes := 0, readBytes := 0, writeBytes := 0, ramAddr := 0 }
    i2c_registerIndex := fun _ => I2C_UNSUPPORTED
    I2C_PAGE := 0
    I2C_STATUS_CML := 1 }

/-- The initialised globals of `queueCfg n`. -/
def queueInit (n : Nat) : Globals :=
  i2c_slave_init (queueCfg n) 0x20 0 (startup (fun _ => 0))

/-- A command table with the page-select command (code 0x00, backed by the
page register), a two-byte read/write word (0x10), a paged one-byte command
read with `I2C_SKIP_BYTE` (0x20), a send-byte command (0x30), a paged two-byte
word (0x40) and a read-only byte (0x50). -/
def demoMap : Nat → i2cCommand
  | 0 => { cmdCode := 0x00, attributes := 0x00, readBytes := 1, writeBytes := 1, ramAddr := 0 }
  | 1 => { cmdCode := 0x10, attributes := 0x00, readBytes := 2, writeBytes := 2, ramAddr := 0x10 }
  | 2 => { cmdCode := 0x20, attributes := 0x88, readBytes := 1, writeBytes := 1, ramAddr := 0x20 }
  | 3 => { cmdCode := 0x30, attributes := 0x00, readBytes := 0, writeBytes := 0, ramAddr := 0 }
  | 4 => { cmdCode := 0x40, attributes := 0x80, readBytes := 2, writeBytes := 2, ramAddr := 0x40 }
  | _ => { cmdCode := 0x50, attributes := 0x00, readBytes := 1, writeBytes := 0, ramAddr := 0x50 }

/-- The code-to-index table of `demoMap`. -/
def demoIndex (code : Nat) : Nat :=
  if code = 0x00 then 0
  else if code = 0x10 then 1
  else if code = 0x20 then 2
  else if code = 0x30 then 3
  else if code = 0x40 then 4
  else if code = 0x50 then 5
  else I2C_UNSUPPORTED

/-- A configuration with two pages, a queue of capacity 4, the page register
at address 0 and the fault register at address 1. -/
def demoCfg : Config :=
  { I2C_CMD_BUFFER_SIZE := 4
    I2C_NUMPAGES := 2
    I2C_ENABLE_PAGE := true
    I2C_LEN := 0x04
    I2C_SKIP_BYTE := 0x08
    i2c_registerMap := demoMap
    i2c_registerIndex := demoIndex
    I2C_PAGE := 0
    I2C_STATUS_CML := 1 }

/-- The initialised globals of `demoCfg`, slave address 0x20, RAM cleared. -/
def demoInit : Globals :=
  i2c_slave_init demoCfg 0x20 0 (startup (fun _ => 0))

/-- The initialised globals of `demoCfg` with page 1 selected. -/
def demoInitPage1 : Globals :=
  i2c_slave_init demoCfg 0x20 0 (startup (fun a => if a = 0 then 1 else 0))

/-- The number of events of a sequence that raise a fault bit (leave
`i2c_status` nonzero). -/
def faultCount (cfg : Config) (g : Globals) : List BusEvent → Nat
  | [] => 0
  | ev :: evs =>
    (if (isr cfg ev g).i2c_status ≠ 0 then 1 else 0) + faultCount cfg (isr cfg ev g) evs

/-- Two states of the globals hold the same deferred-command queue. -/
def sameQueue (g g' : Globals) : Prop :=
  g.cmdQueue = g'.cmdQueue ∧ g.cmdQueueHead = g'.cmdQueueHead ∧
  g.cmdQueueTail = g'.cmdQueueTail ∧ g.cmdQueueFull = g'.cmdQueueFull

/-- A command table with block commands: the page-select command (0x00), a
block command with stored length byte and up to four bytes (0x60), a read-only
block command with stored length byte (0x61), a paged block command with
stored length byte and up to two bytes (0x62), and a paged two-byte word
(0x63). -/
def blockMap : Nat → i2cCommand
  | 0 => { cmdCode := 0x00, attributes := 0x00, readBytes := 1, writeBytes := 1, ramAddr := 0 }
  | 1 => { cmdCode := 0x60, attributes := 0x05, readBytes := 4, writeBytes := 4, ramAddr := 0x60 }
  | 2 => { cmdCode := 0x61, attributes := 0x05, readBytes := 4, writeBytes := 0, ramAddr := 0x70 }
  | 3 => { cmdCode := 0x62, attributes := 0x85, readBytes := 2, writeBytes := 2, ramAddr := 0x80 }
  | _ => { cmdCode := 0x63, attributes := 0x80, readBytes := 2, writeBytes := 2, ramAddr := 0x90 }

/-- The code-to-index table of `blockMap`. -/
def blockIndex (code : Nat) : Nat :=
  if code = 0x00 then 0
  else if code = 0x60 then 1
  else if code = 0x61 then 2
  else if code = 0x62 then 3
  else if code = 0x63 then 4
  else I2C_UNSUPPORTED

/-- A configuration with the block commands of `blockMap`, two pages, the
page register at address 0 and the fault register at address 1. -/
def blockCfg : Config :=
  { I2C_CMD_BUFFER_SIZE := 4
    I2C_NUMPAGES := 2
    I2C_ENABLE_PAGE := true
    I2C_LEN := 0x04
    I2C_SKIP_BYTE := 0x08
    i2c_registerMap := blockMap
    i2c_registerIndex := blockIndex
    I2C_PAGE := 0
    I2C_STATUS_CML := 1 }

/-- The initialised globals of `blockCfg`, slave address 0x20, with the page
register holding `page` and every other RAM byte holding `fill`. -/
def blockInit (page fill : Nat) : Globals :=
  i2c_slave_init blockCfg 0x20 0 (startup (fun a => if a = 0 then page else fill))

/-- The general-call address has been received. -/
def evGenCall : BusEvent := { TWSR := I2C_SRX_GEN_ACK, TWDR := 0 }

/-- `i2cCmdQueueDepth` as run by the application when the interrupt handler
runs `i2cCmdQueuePush(&e)` between the test of `cmdQueueFull` (line 89, before
the atomic block) and the atomic block of lines 92-95: the returned size and
the globals afterwards. -/
def i2cCmdQueueDepthIrq (cfg : Config) (e : CmdBuffer) (g : Globals) : Nat × Globals :=
  let full := g.cmdQueueFull
  let g1 := (i2cCmdQueuePush cfg e g).2
  if full ≠ 0 then
    (cfg.I2C_CMD_BUFFER_SIZE % 256, g1)
  else
    (((g1.cmdQueueHead + 256 - g1.cmdQueueTail) % 256) % cfg.I2C_CMD_BUFFER_SIZE, g1)

/-- `i2cCmdQueuePop` whose call of `i2cCmdQueueDepth` (line 121) is
interrupted as in `i2cCmdQueueDepthIrq`. -/
def i2cCmdQueuePopIrq (cfg : Config) (e : CmdBuffer) (data : CmdBuffer) (g : Globals) :
    Nat × CmdBuffer × Globals :=
  let d := i2cCmdQueueDepthIrq cfg e g
  if d.1 = 0 then
    (0, data, d.2)
  else
    let out : CmdBuffer :=
      { code := (d.2.cmdQueue d.2.cmdQueueTail).code, page := (d.2.cmdQueue d.2.cmdQueueTail).page }
    let t1 := (d.2.cmdQueueTail + 1) % 256
    let t := if t1 ≥ cfg.I2C_CMD_BUFFER_SIZE then 0 else t1
    (1, out, { d.2 with cmdQueueTail := t, cmdQueueFull := 0 })

/-- A command table with the page-select command (0x00), a one-byte
read/write command backed by the fault register (0x7E), a paged command with
read length 2 and write length 1 (0x70), and a paged block command with
stored length byte and `I2C_SKIP_BYTE` (0x71). -/
def auxMap : Nat → i2cCommand
  | 0 => { cmdCode := 0x00, attributes := 0x00, readBytes := 1, writeBytes := 1, ramAddr := 0 }
  | 1 => { cmdCode := 0x7E, attributes := 0x00, readBytes := 1, writeBytes := 1, ramAddr := 1 }
  | 2 => { cmdCode := 0x70, attributes := 0x80, readBytes := 2, writeBytes := 1, ramAddr := 0x100 }
  | _ => { cmdCode := 0x71, attributes := 0x8D, readBytes := 2, writeBytes := 2, ramAddr := 0x200 }

/-- The code-to-index table of `auxMap`. -/
def auxIndex (code : Nat) : Nat :=
  if code = 0x00 then 0
  else if code = 0x7E then 1
  else if code = 0x70 then 2
  else if code = 0x71 then 3
  else I2C_UNSUPPORTED

/-- A configuration with the commands of `auxMap`, two pages, the page
register at address 0 and the fault register at address 1. -/
def auxCfg : Config :=
  { I2C_CMD_BUFFER_SIZE := 4
    I2C_NUMPAGES := 2
    I2C_ENABLE_PAGE := true
    I2C_LEN := 0x04
    I2C_SKIP_BYTE := 0x08
    i2c_registerMap := auxMap
    i2c_registerIndex := auxIndex
    I2C_PAGE := 0
    I2C_STATUS_CML := 1 }

/-- The initialised globals of `auxCfg`, slave address 0x20, with the page
register holding `page` and every other RAM byte holding the low byte of its
address. -/
def auxInit (page : Nat) : Globals :=
  i2c_slave_init auxCfg 0x20 0 (startup (fun a => if a = 0 then page else a % 256))

/-- The invariant of a write transaction after its command byte, for the
globals `s`, the fault bits `F` raised so far in the transaction and the value
`cml0` of the fault register at its start: the register holds `cml0 ||| F`;
`F` is empty or a single fault bit, and is empty exactly when the error flag
is clear; and for a supported command, no fault precedes the second byte, a
command without write length keeps the write length 0, and a fault other than
the data fault is followed only by bytes beyond the PEC byte. -/
def faultInv (cfg : Config) (cml0 : Nat) (s : Globals) (F : Nat) : Prop :=
  1 ≤ s.i2c_rxIdx ∧
  s.ram cfg.I2C_STATUS_CML = cml0 ||| F ∧
  (F = 0 ∨ F = STATUS_CML_CMD_FAULT ∨ F = STATUS_CML_DATA_FAULT ∨ F = STATUS_CML_PEC_FAULT) ∧
  (F = 0 ↔ s.i2c_state &&& I2C_STATE_ERROR = 0) ∧
  (cfg.i2c_registerIndex s.i2c_command.code ≠ I2C_UNSUPPORTED →
    (s.i2c_rxIdx = 1 → F = 0 ∧ s.writeBytes = (curCmd cfg s).writeBytes) ∧
    ((curCmd cfg s).writeBytes = 0 → s.writeBytes = 0) ∧
    (F ≠ 0 → F = STATUS_CML_DATA_FAULT ∨ s.i2c_rxIdx > s.writeBytes + 1))

/-- Two states of the globals that differ at most in the scratch buffer,
the second holding `buf`, and whose scratch buffers agree on the bytes staged
so far in a write that has raised no fault: the indices `j` whose receive
count `j + 1` (`j + 2` for a block command) is below the receive count and
within the write length in effect.  The receive count is a 16-bit value. -/
def bufRel (cfg : Config) (s s' : Globals) : Prop :=
  ∃ buf : Nat → Nat, s' = { s with i2c_buffer := buf } ∧
    s.i2c_rxIdx < 65536 ∧
    (s.i2c_state &&& I2C_STATE_ERROR = 0 → 1 ≤ s.i2c_rxIdx →
      cfg.i2c_registerIndex s.i2c_command.code ≠ I2C_UNSUPPORTED ∧
      ∀ j, j + (if IS_BLOCKCMD cfg s then 2 else 1) < s.i2c_rxIdx →
        j + (if IS_BLOCKCMD cfg s then 2 else 1) < s.writeBytes + 1 →
        s.i2c_buffer j = buf j)

/-- The path condition of the scratch-buffer write of line 387 for the
received byte `data`: the tests of lines 311, 327, 332 and 366 fail (a byte
after the command code, of a supported command, within the write length, not
the length byte of a block write), and so do the two tests of lines 374 and
379 (no illegal page value, no paged write with the page register at 0xFF). -/
def stagesByte (cfg : Config) (data : Nat) (g : Globals) : Prop :=
  ¬ (0 = g.i2c_rxIdx)
  ∧ ¬ (I2C_UNSUPPORTED = cfg.i2c_registerIndex g.i2c_command.code)
  ∧ ¬ (g.i2c_rxIdx > g.writeBytes)
  ∧ ¬ (IS_BLOCKCMD cfg g = true ∧ 1 = g.i2c_rxIdx)
  ∧ ¬ (0x00 = (curCmd cfg g).cmdCode ∧ data ≥ cfg.I2C_NUMPAGES ∧ data < 0xFF)
  ∧ ¬ (IS_PAGED cfg g = true ∧ 0xFF = g.ram cfg.I2C_PAGE)

/-- One step of the running system: a call of the queue interface by the
application, or a bus event handled by the interrupt handler (which itself
calls `i2cCmdQueuePush` at a STOP that ends a send-byte command). -/
inductive SysStep where
  | call (c : QueueCall)
  | bus (ev : BusEvent)
deriving DecidableEq

/-- The globals after one step. -/
def sysStep (cfg : Config) : SysStep → Globals → Globals
  | .call c, g => (queueCall cfg c g).2
  | .bus ev, g => isr cfg ev g

/-- The globals after a sequence of steps. -/
def sysRun (cfg : Config) (g : Globals) (steps : List SysStep) : Globals :=
  steps.foldl (fun s st => sysStep cfg st s) g

/-! ### The plain register-map slave (avr-i2c-slave.c) -/

/-- `I2CREG_ATTR_READONLY` of avr-i2c-slave.h. -/
def I2CREG_ATTR_READONLY : Nat := 0x01

/-- The global variables of avr-i2c-slave.c together with the application's
`i2c_registerMap`, `i2c_registerAttributes` and `i2c_registerMapSize`, and
the data register of the hardware. -/
structure SlaveGlobals where
  i2c_registerMap : Nat → Nat
  i2c_registerAttributes : Nat → Nat
  i2c_registerMapSize : Nat
  i2c_registerIdx : Nat
  i2c_rxIdx : Nat
  i2c_txIdx : Nat
  i2c_state : Nat
  i2c_busy : Nat
  TWDR : Nat

/-- Body of `case I2C_STX_DATA_ACK` of avr-i2c-slave.c (lines 50-56), which
`case I2C_STX_ADR_ACK` falls through to. -/
def slaveStxDataAck (g : SlaveGlobals) : SlaveGlobals :=
  let g1 :=
    if g.i2c_txIdx < g.i2c_registerMapSize then
      { g with TWDR := g.i2c_registerMap g.i2c_txIdx, i2c_txIdx := (g.i2c_txIdx + 1) % 256 }
    else
      { g with TWDR := 0xFF }
  { g1 with i2c_busy := 1 }

/-- Body of `case I2C_SRX_ADR_DATA_ACK` / `case I2C_SRX_GEN_DATA_ACK` of
avr-i2c-slave.c (lines 72-94); `i` is the received `TWDR`. -/
def slaveSrxDataAck (i : Nat) (g : SlaveGlobals) : SlaveGlobals :=
  let g1 :=
    if 0 = g.i2c_rxIdx then
      { g with i2c_registerIdx := i, i2c_rxIdx := i }
    else if g.i2c_rxIdx ≥ g.i2c_registerMapSize then
      if 255 ≠ g.i2c_rxIdx then { g with i2c_rxIdx := (g.i2c_rxIdx + 1) % 256 } else g
    else
      let g2 :=
        if g.i2c_registerAttributes g.i2c_rxIdx &&& I2CREG_ATTR_READONLY = 0 then
          { g with i2c_registerMap := Function.update g.i2c_registerMap g.i2c_rxIdx i }
        else g
      if 255 ≠ g2.i2c_rxIdx then { g2 with i2c_rxIdx := (g2.i2c_rxIdx + 1) % 256 } else g2
  { g1 with i2c_busy := 1 }

/-- The interrupt handler `ISR(TWI_vect)` of avr-i2c-slave.c (lines 42-118)
on one bus event. -/
def slaveIsr (ev : BusEvent) (g : SlaveGlobals) : SlaveGlobals :=
  if ev.TWSR = I2C_STX_ADR_ACK then
    slaveStxDataAck { g with i2c_txIdx := g.i2c_registerIdx }
  else if ev.TWSR = I2C_STX_DATA_ACK then
    slaveStxDataAck g
  else if ev.TWSR = I2C_STX_DATA_NACK then
    { g with i2c_busy := 0 }
  else if ev.TWSR = I2C_SRX_GEN_ACK ∨ ev.TWSR = I2C_SRX_ADR_ACK then
    { g with i2c_rxIdx := 0, i2c_busy := 1 }
  else if ev.TWSR = I2C_SRX_ADR_DATA_ACK ∨ ev.TWSR = I2C_SRX_GEN_DATA_ACK then
    slaveSrxDataAck ev.TWDR g
  else if ev.TWSR = I2C_SRX_STOP_RESTART then
    { g with i2c_busy := 0 }
  else if ev.TWSR = I2C_SRX_ADR_DATA_NACK ∨ ev.TWSR = I2C_SRX_GEN_DATA_NACK
      ∨ ev.TWSR = I2C_STX_DATA_ACK_LAST_BYTE ∨ ev.TWSR = I2C_BUS_ERROR then
    { g with i2c_state := ev.TWSR }
  else
    { g with i2c_state := ev.TWSR, i2c_busy := 0 }

/-- The handler of avr-i2c-slave.c run on a sequence of bus events. -/
def slaveRun (g : SlaveGlobals) (evs : List BusEvent) : SlaveGlobals :=
  evs.foldl (fun s ev => slaveIsr ev s) g

/-- A plain slave with eight registers holding zero, register 3 marked
read-only. -/
def slaveDemo : SlaveGlobals :=
  { i2c_registerMap := fun _ => 0
    i2c_registerAttributes := fun r => if r = 3 then I2CREG_ATTR_READONLY else 0
    i2c_registerMapSize := 8
    i2c_registerIdx := 0
    i2c_rxIdx := 0
    i2c_txIdx := 0
    i2c_state := 0xF8
    i2c_busy := 0
    TWDR := 0 }

/-- The addresses the commit of lines 412-427 stores into: the length byte
at `ramAddr + pageOffset` for an `IS_LBLOCK` command (line 417), and the
bytes copied by the loop of lines 419-427, from
`ramAddr + pageOffset + (IS_LBLOCK?1:0)` on, `writeBytes - 1` of them for a
block command and `writeBytes` otherwise. -/
def commitWrites (cfg : Config) (g : Globals) (a : Nat) : Prop :=
  (IS_LBLOCK cfg g = true ∧ a = (curCmd cfg g).ramAddr + pageOffsetWrite cfg g)
  ∨ ((curCmd cfg g).ramAddr + pageOffsetWrite cfg g + lenByte cfg g ≤ a
    ∧ a < (curCmd cfg g).ramAddr + pageOffsetWrite cfg g + lenByte cfg g
        + (if IS_BLOCKCMD cfg g then g.writeBytes - 1 else g.writeBytes))

/-! ## Lemmas on the packet error check -/

set_option maxRecDepth 100000 in
theorem crcTable_length : crcTable.length = 256 := by rfl

set_option maxRecDepth 100000 in
theorem crcTable_eq_ref : ∀ b, b < 256 → crcTable.getD b 0 = crc8RefByte 0 b := by
  decide

set_option maxRecDepth 100000 in
theorem crcTable_lt : ∀ b, b < 256 → crcTable.getD b 0 < 256 := by
  decide

theorem pecStep_lt (pec data : Nat) : pecStep pec data < 256 := by
  unfold pecStep
  by_cases h : pec ^^^ data < 256
  · exact crcTable_lt _ h
  · have hlen : crcTable.length ≤ pec ^^^ data := by
      have := crcTable_length
      omega
    rw [List.getD_eq_default _ _ hlen]
    decide

theorem pecStep_eq_ref (pec data : Nat) (hp : pec < 256) (hd : data < 256) :
    pecStep pec data = crc8RefByte pec data := by
  have hx : pec ^^^ data < 256 := Nat.xor_lt_two_pow (n := 8) hp hd
  unfold pecStep
  rw [crcTable_eq_ref _ hx]
  simp [crc8RefByte]

theorem pecFold_eq_ref (bs : List Nat) (pec : Nat) (hp : pec < 256)
    (hbs : ∀ b ∈ bs, b < 256) : pecFold pec bs = bs.foldl crc8RefByte pec := by
  induction bs generalizing pec with
  | nil => rfl
  | cons b rest ih =>
    have hb : b < 256 := hbs b (List.mem_cons_self _ _)
    simp only [pecFold, List.foldl_cons]
    rw [← pecStep_eq_ref pec b hp hb]
    exact ih (pecStep pec b) (pecStep_lt _ _) (fun x hx => hbs x (List.mem_cons_of_mem _ hx))

theorem pecFold_cons (pec b : Nat) (bs : List Nat) :
    pecFold pec (b :: bs) = pecFold (pecStep pec b) bs := rfl

theorem pecFold_append (pec : Nat) (xs ys : List Nat) :
    pecFold pec (xs ++ ys) = pecFold (pecFold pec xs) ys := by
  simp [pecFold, List.foldl_append]

theorem foldl_calculatePec_pec (bs : List Nat) (g : Globals) :
    (bs.foldl (fun s b => i2c_calculatePec b s) g).i2c_pec = pecFold g.i2c_pec bs := by
  induction bs generalizing g with
  | nil => rfl
  | cons b rest ih => simp only [List.foldl_cons, ih, pecFold_cons]; rfl

/-- C4: folding `i2c_calculatePec` over a byte sequence, starting from
accumulator 0, yields the bit-by-bit reference CRC-8 (polynomial 0x07,
MSB first, initial value 0, no reflection, no final XOR) of the sequence; and
every entry `crcTable[b]` is the reference CRC-8 of the single byte `b`. -/
theorem calculatePec_fold_eq_crc8 (g : Globals) (bs : List Nat) (hbs : ∀ b ∈ bs, b < 256) :
    (bs.foldl (fun s b => i2c_calculatePec b s) { g with i2c_pec := 0 }).i2c_pec = crc8Ref bs
    ∧ ∀ b, b < 256 → crcTable.getD b 0 = crc8Ref [b] := by
  constructor
  · rw [foldl_calculatePec_pec]
    exact pecFold_eq_ref bs 0 (by decide) hbs
  · intro b hb
    exact crcTable_eq_ref b hb

/-- C4 at the bytes `0x40, 0x10, 0xAA, 0xBB`. -/
theorem calculatePec_fold_eq_crc8_witness :
    ([0x40, 0x10, 0xAA, 0xBB].foldl (fun s b => i2c_calculatePec b s)
        { startup (fun _ => 0) with i2c_pec := 0 }).i2c_pec = crc8Ref [0x40, 0x10, 0xAA, 0xBB]
    ∧ ∀ b, b < 256 → crcTable.getD b 0 = crc8Ref [b] :=
  calculatePec_fold_eq_crc8 (startup (fun _ => 0)) [0x40, 0x10, 0xAA, 0xBB] (by decide)

/-! ## Runs of the handler -/

theorem run_nil (cfg : Config) (g : Globals) : run cfg g [] = g := rfl

theorem run_cons (cfg : Config) (g : Globals) (ev : BusEvent) (evs : List BusEvent) :
    run cfg g (ev :: evs) = run cfg (isr cfg ev g) evs := rfl

theorem run_append (cfg : Config) (g : Globals) (xs ys : List BusEvent) :
    run cfg g (xs ++ ys) = run cfg (run cfg g xs) ys := by
  simp [run, List.foldl_append]

theorem raised_append (cfg : Config) (g : Globals) (xs ys : List BusEvent) :
    raised cfg g (xs ++ ys) = raised cfg g xs ||| raised cfg (run cfg g xs) ys := by
  induction xs generalizing g with
  | nil => simp [raised, run_nil]
  | cons x xs ih => simp [raised, run_cons, ih, Nat.or_assoc]

theorem transmitted_append (cfg : Config) (g : Globals) (xs ys : List BusEvent) :
    transmitted cfg g (xs ++ ys) = transmitted cfg g xs ++ transmitted cfg (run cfg g xs) ys := by
  induction xs generalizing g with
  | nil => simp [transmitted, run_nil]
  | cons x xs ih =>
    simp only [List.cons_append, transmitted, run_cons]
    split_ifs <;> simp [ih]

/-! ## Frame lemmas for the status update -/

theorem statusUpdate_of_zero (cfg : Config) (g : Globals) (h : g.i2c_status = 0) :
    statusUpdate cfg g = g := by
  simp [statusUpdate, h]

theorem statusUpdate_ram (cfg : Config) (g : Globals) (a : Nat) (ha : a ≠ cfg.I2C_STATUS_CML) :
    (statusUpdate cfg g).ram a = g.ram a := by
  unfold statusUpdate
  split_ifs
  · simp [Function.update, ha]
  · rfl

theorem statusUpdate_fields (cfg : Config) (g : Globals) :
    (statusUpdate cfg g).i2c_rxIdx = g.i2c_rxIdx ∧
    (statusUpdate cfg g).writeBytes = g.writeBytes ∧
    (statusUpdate cfg g).i2c_registerMapIndex = g.i2c_registerMapIndex ∧
    (statusUpdate cfg g).i2c_command = g.i2c_command ∧
    (statusUpdate cfg g).i2c_pec = g.i2c_pec ∧
    (statusUpdate cfg g).i2c_status = g.i2c_status ∧
    (statusUpdate cfg g).i2c_buffer = g.i2c_buffer ∧
    (statusUpdate cfg g).i2c_baseAddress = g.i2c_baseAddress ∧
    (statusUpdate cfg g).i2c_txIdx = g.i2c_txIdx ∧
    (statusUpdate cfg g).TWDR = g.TWDR := by
  unfold statusUpdate
  split_ifs <;> exact ⟨rfl, rfl, rfl, rfl, rfl, rfl, rfl, rfl, rfl, rfl⟩

theorem statusUpdate_cmdQueue (cfg : Config) (g : Globals) :
    (statusUpdate cfg g).cmdQueue = g.cmdQueue ∧
    (statusUpdate cfg g).cmdQueueHead = g.cmdQueueHead ∧
    (statusUpdate cfg g).cmdQueueTail = g.cmdQueueTail ∧
    (statusUpdate cfg g).cmdQueueFull = g.cmdQueueFull := by
  unfold statusUpdate
  split_ifs <;> exact ⟨rfl, rfl, rfl, rfl⟩

/-- The error flag after the status update: latched when a fault bit was
raised, otherwise as before. -/
theorem statusUpdate_state (cfg : Config) (g : Globals) :
    (statusUpdate cfg g).i2c_state =
      if g.i2c_status ≠ 0 then g.i2c_state ||| I2C_STATE_ERROR else g.i2c_state := by
  unfold statusUpdate
  split_ifs <;> rfl

theorem and_error_of_or (x : Nat) : (x ||| I2C_STATE_ERROR) &&& I2C_STATE_ERROR ≠ 0 := by
  unfold I2C_STATE_ERROR
  intro h
  have := congrArg (fun n => n.testBit 0) h
  simp at this

theorem clear_error (x : Nat) : (x &&& 0xFE) &&& I2C_STATE_ERROR = 0 := by
  unfold I2C_STATE_ERROR
  rw [Nat.and_assoc]
  simp

theorem or_and_self_bit (x b : Nat) : (x ||| b) &&& b = b := by
  apply Nat.eq_of_testBit_eq
  intro i
  simp only [Nat.testBit_and, Nat.testBit_or]
  cases x.testBit i <;> cases b.testBit i <;> rfl

/-! ## Frame lemmas for the cases of the handler -/

theorem stxDataAck_ram (cfg : Config) (g : Globals) : (stxDataAck cfg g).ram = g.ram := by
  unfold stxDataAck
  dsimp only
  split_ifs <;> rfl

theorem stxDataAck_cmdQueue (cfg : Config) (g : Globals) :
    (stxDataAck cfg g).cmdQueue = g.cmdQueue ∧
    (stxDataAck cfg g).cmdQueueHead = g.cmdQueueHead ∧
    (stxDataAck cfg g).cmdQueueTail = g.cmdQueueTail ∧
    (stxDataAck cfg g).cmdQueueFull = g.cmdQueueFull := by
  unfold stxDataAck
  dsimp only
  split_ifs <;> exact ⟨rfl, rfl, rfl, rfl⟩

theorem srxDataAck_ram (cfg : Config) (b : Nat) (g : Globals) :
    (srxDataAck cfg b g).ram = g.ram := by
  unfold srxDataAck
  dsimp only
  split_ifs <;> rfl

theorem srxDataAck_state (cfg : Config) (b : Nat) (g : Globals) :
    (srxDataAck cfg b g).i2c_state = g.i2c_state := by
  unfold srxDataAck
  dsimp only
  split_ifs <;> rfl

theorem srxDataAck_rxIdx (cfg : Config) (b : Nat) (g : Globals) :
    (srxDataAck cfg b g).i2c_rxIdx = (g.i2c_rxIdx + 1) % 65536 := by
  unfold srxDataAck
  dsimp only
  split_ifs <;> rfl

theorem srxDataAck_cmdQueue (cfg : Config) (b : Nat) (g : Globals) :
    (srxDataAck cfg b g).cmdQueue = g.cmdQueue ∧
    (srxDataAck cfg b g).cmdQueueHead = g.cmdQueueHead ∧
    (srxDataAck cfg b g).cmdQueueTail = g.cmdQueueTail ∧
    (srxDataAck cfg b g).cmdQueueFull = g.cmdQueueFull := by
  unfold srxDataAck
  dsimp only
  split_ifs <;> exact ⟨rfl, rfl, rfl, rfl⟩

theorem srxDataAck_command (cfg : Config) (b : Nat) (g : Globals) (h : g.i2c_rxIdx ≠ 0) :
    (srxDataAck cfg b g).i2c_command = g.i2c_command ∧
    (srxDataAck cfg b g).i2c_registerMapIndex = g.i2c_registerMapIndex := by
  have h0 : ¬ (0 = g.i2c_rxIdx) := fun e => h e.symm
  unfold srxDataAck
  dsimp only
  rw [if_neg h0]
  split_ifs <;> exact ⟨rfl, rfl⟩

theorem srxDataAck_writeBytes (cfg : Config) (b : Nat) (g : Globals) (h : g.i2c_rxIdx ≠ 0)
    (hb : IS_BLOCKCMD cfg g = false) :
    (srxDataAck cfg b g).writeBytes = g.writeBytes := by
  have h0 : ¬ (0 = g.i2c_rxIdx) := fun e => h e.symm
  have h1 : ¬ (IS_BLOCKCMD cfg g = true ∧ 1 = g.i2c_rxIdx) := by simp [hb]
  unfold srxDataAck
  dsimp only
  rw [if_neg h0]
  split_ifs <;> rfl

/-- A STOP or repeated START with the error flag latched only clears
`i2c_busy`. -/
theorem srxStopRestart_of_error (cfg : Config) (g : Globals)
    (h : g.i2c_state &&& I2C_STATE_ERROR ≠ 0) :
    srxStopRestart cfg g = { g with i2c_busy := 0 } := by
  unfold srxStopRestart
  dsimp only
  rw [if_neg h]

/-- Every case of the `switch` other than `I2C_SRX_STOP_RESTART` leaves the
RAM and the queue alone. -/
theorem dispatch_frame (cfg : Config) (ev : BusEvent) (g : Globals)
    (h : ev.TWSR ≠ I2C_SRX_STOP_RESTART) :
    (dispatch cfg ev g).ram = g.ram ∧
    (dispatch cfg ev g).cmdQueue = g.cmdQueue ∧
    (dispatch cfg ev g).cmdQueueHead = g.cmdQueueHead ∧
    (dispatch cfg ev g).cmdQueueTail = g.cmdQueueTail ∧
    (dispatch cfg ev g).cmdQueueFull = g.cmdQueueFull := by
  unfold dispatch
  split_ifs
  · exact ⟨stxDataAck_ram _ _, stxDataAck_cmdQueue _ _⟩
  · exact ⟨stxDataAck_ram _ _, stxDataAck_cmdQueue _ _⟩
  · exact ⟨rfl, rfl, rfl, rfl, rfl⟩
  · exact ⟨rfl, rfl, rfl, rfl, rfl⟩
  · exact ⟨srxDataAck_ram _ _ _, srxDataAck_cmdQueue _ _ _⟩
  · exact ⟨rfl, rfl, rfl, rfl, rfl⟩
  · exact ⟨rfl, rfl, rfl, rfl, rfl⟩

theorem dispatch_stop (cfg : Config) (ev : BusEvent) (g : Globals)
    (h : ev.TWSR = I2C_SRX_STOP_RESTART) :
    dispatch cfg ev g = srxStopRestart cfg g := by
  unfold dispatch
  simp [h, I2C_SRX_STOP_RESTART, I2C_STX_ADR_ACK, I2C_STX_DATA_ACK, I2C_STX_DATA_NACK,
    I2C_SRX_GEN_ACK, I2C_SRX_ADR_ACK, I2C_SRX_ADR_DATA_ACK, I2C_SRX_GEN_DATA_ACK]

/-- C2: backing storage is modified only at the commit point.  For every
state of the globals and every bus event, a byte of RAM other than the sticky
fault register `I2C_STATUS_CML[0]` differs after the handler only if the event
is STOP/repeated START and the error flag was not latched; and a
STOP/repeated START arriving with the error flag latched changes neither the
RAM nor the deferred-command queue. -/
theorem storage_modified_only_at_commit (cfg : Config) (g : Globals) (ev : BusEvent) :
    (∀ a, a ≠ cfg.I2C_STATUS_CML → (isr cfg ev g).ram a ≠ g.ram a →
      ev.TWSR = I2C_SRX_STOP_RESTART ∧ g.i2c_state &&& I2C_STATE_ERROR = 0)
    ∧ (ev.TWSR = I2C_SRX_STOP_RESTART → g.i2c_state &&& I2C_STATE_ERROR ≠ 0 →
      (isr cfg ev g).ram = g.ram ∧ (isr cfg ev g).cmdQueue = g.cmdQueue ∧
      (isr cfg ev g).cmdQueueHead = g.cmdQueueHead ∧
      (isr cfg ev g).cmdQueueTail = g.cmdQueueTail ∧
      (isr cfg ev g).cmdQueueFull = g.cmdQueueFull) := by
  have hlatched : ev.TWSR = I2C_SRX_STOP_RESTART → g.i2c_state &&& I2C_STATE_ERROR ≠ 0 →
      isr cfg ev g = { g with i2c_status := 0, i2c_busy := 0 } := by
    intro hstop herr
    unfold isr
    rw [dispatch_stop cfg ev _ hstop, srxStopRestart_of_error cfg { g with i2c_status := 0 } herr]
    exact statusUpdate_of_zero cfg _ rfl
  constructor
  · intro a ha hne
    by_cases hstop : ev.TWSR = I2C_SRX_STOP_RESTART
    · refine ⟨hstop, ?_⟩
      by_contra herr
      rw [hlatched hstop herr] at hne
      exact hne rfl
    · exfalso
      apply hne
      unfold isr
      rw [statusUpdate_ram cfg _ a ha, (dispatch_frame cfg ev _ hstop).1]
  · intro hstop herr
    rw [hlatched hstop herr]
    exact ⟨rfl, rfl, rfl, rfl, rfl⟩

/-- C2 at the committing STOP of a write of `0xAA, 0xBB` to command 0x10, and
at a STOP that follows a write to an unsupported command. -/
theorem storage_modified_only_at_commit_witness :
    (evStop.TWSR = I2C_SRX_STOP_RESTART ∧
      (run demoCfg demoInit [evWriteAddr, evData 0x10, evData 0xAA, evData 0xBB]).i2c_state
        &&& I2C_STATE_ERROR = 0)
    ∧ ((isr demoCfg evStop (run demoCfg demoInit [evWriteAddr, evData 0x77])).ram =
        (run demoCfg demoInit [evWriteAddr, evData 0x77]).ram ∧
      (isr demoCfg evStop (run demoCfg demoInit [evWriteAddr, evData 0x77])).cmdQueue =
        (run demoCfg demoInit [evWriteAddr, evData 0x77]).cmdQueue ∧
      (isr demoCfg evStop (run demoCfg demoInit [evWriteAddr, evData 0x77])).cmdQueueHead =
        (run demoCfg demoInit [evWriteAddr, evData 0x77]).cmdQueueHead ∧
      (isr demoCfg evStop (run demoCfg demoInit [evWriteAddr, evData 0x77])).cmdQueueTail =
        (run demoCfg demoInit [evWriteAddr, evData 0x77]).cmdQueueTail ∧
      (isr demoCfg evStop (run demoCfg demoInit [evWriteAddr, evData 0x77])).cmdQueueFull =
        (run demoCfg demoInit [evWriteAddr, evData 0x77]).cmdQueueFull) :=
  ⟨(storage_modified_only_at_commit demoCfg
      (run demoCfg demoInit [evWriteAddr, evData 0x10, evData 0xAA, evData 0xBB]) evStop).1
      0x10 (by decide) (by decide),
   (storage_modified_only_at_commit demoCfg
      (run demoCfg demoInit [evWriteAddr, evData 0x77]) evStop).2 (by decide) (by decide)⟩

/-! ## The handler on the events of a transaction -/

theorem isr_evWriteAddr (cfg : Config) (g : Globals) :
    isr cfg evWriteAddr g =
      { g with
        i2c_status := 0
        i2c_pec := pecStep 0 ((g.i2c_baseAddress <<< 1) % 256)
        i2c_state := g.i2c_state &&& 0xFE
        i2c_rxIdx := 0 } := by
  rfl

theorem isr_evData (cfg : Config) (b : Nat) (g : Globals) :
    isr cfg (evData b) g = statusUpdate cfg (srxDataAck cfg b { g with i2c_status := 0 }) := by
  rfl

theorem isr_evStop (cfg : Config) (g : Globals) :
    isr cfg evStop g = statusUpdate cfg (srxStopRestart cfg { g with i2c_status := 0 }) := by
  rfl

theorem isr_evReadAddr (cfg : Config) (g : Globals) :
    isr cfg evReadAddr g = statusUpdate cfg (stxDataAck cfg
      (i2c_calculatePec (((g.i2c_baseAddress <<< 1) + 1) % 256)
        { g with i2c_status := 0, i2c_txIdx := 1 })) := by
  rfl

theorem isr_evTxAck (cfg : Config) (g : Globals) :
    isr cfg evTxAck g = statusUpdate cfg (stxDataAck cfg { g with i2c_status := 0 }) := by
  rfl

/-- The command-code byte of a supported command. -/
theorem isr_cmd (cfg : Config) (c : Nat) (g : Globals)
    (hrx : g.i2c_rxIdx = 0) (hsup : cfg.i2c_registerIndex c ≠ I2C_UNSUPPORTED) :
    isr cfg (evData c) g =
      { g with
        i2c_status := 0
        i2c_command := { code := c, page := g.ram cfg.I2C_PAGE }
        i2c_registerMapIndex := cfg.i2c_registerIndex c
        writeBytes := (cfg.i2c_registerMap (cfg.i2c_registerIndex c)).writeBytes
        i2c_pec := pecStep g.i2c_pec c
        i2c_rxIdx := 1 } := by
  rw [isr_evData]
  simp [srxDataAck, hrx, Ne.symm hsup, statusUpdate, i2c_calculatePec, curCmd]

/-- The state after the write address-match and the command code of a
supported command. -/
theorem run_header (cfg : Config) (c : Nat) (g : Globals)
    (hsup : cfg.i2c_registerIndex c ≠ I2C_UNSUPPORTED) :
    run cfg g [evWriteAddr, evData c] =
      { g with
        i2c_status := 0
        i2c_state := g.i2c_state &&& 0xFE
        i2c_command := { code := c, page := g.ram cfg.I2C_PAGE }
        i2c_registerMapIndex := cfg.i2c_registerIndex c
        writeBytes := (cfg.i2c_registerMap (cfg.i2c_registerIndex c)).writeBytes
        i2c_pec := pecFold 0 [(g.i2c_baseAddress <<< 1) % 256, c]
        i2c_rxIdx := 1 } := by
  rw [run_cons, run_cons, run_nil, isr_evWriteAddr, isr_cmd cfg c _ rfl hsup]
  rfl

/-- A data byte within the declared write length that passes the page
checks is staged (body of the case). -/
theorem srxDataAck_stage (cfg : Config) (b : Nat) (g : Globals)
    (h1 : ¬ (0 = g.i2c_rxIdx))
    (h2 : ¬ (I2C_UNSUPPORTED = cfg.i2c_registerIndex g.i2c_command.code))
    (h3 : ¬ (g.i2c_rxIdx > g.writeBytes))
    (h4 : ¬ (IS_BLOCKCMD cfg g = true ∧ 1 = g.i2c_rxIdx))
    (h5 : ¬ (0x00 = (curCmd cfg g).cmdCode ∧ b ≥ cfg.I2C_NUMPAGES ∧ b < 0xFF))
    (h6 : ¬ (IS_PAGED cfg g = true ∧ 0xFF = g.ram cfg.I2C_PAGE)) :
    srxDataAck cfg b g =
      { g with
        i2c_buffer := Function.update g.i2c_buffer (stageIdx cfg g) b
        i2c_pec := pecStep g.i2c_pec b
        i2c_rxIdx := (g.i2c_rxIdx + 1) % 65536 } := by
  unfold srxDataAck
  dsimp only
  rw [if_neg h1, if_neg h2, if_neg h3, if_neg h4, if_neg h5, if_neg h6]
  rfl

theorem isr_stage (cfg : Config) (b : Nat) (g : Globals)
    (h1 : g.i2c_rxIdx ≠ 0)
    (h2 : cfg.i2c_registerIndex g.i2c_command.code ≠ I2C_UNSUPPORTED)
    (h3 : g.i2c_rxIdx ≤ g.writeBytes) (hlt : g.i2c_rxIdx < 65535)
    (h4 : ¬ (IS_BLOCKCMD cfg g = true ∧ 1 = g.i2c_rxIdx))
    (h5 : ¬ (0x00 = (curCmd cfg g).cmdCode ∧ b ≥ cfg.I2C_NUMPAGES ∧ b < 0xFF))
    (h6 : ¬ (IS_PAGED cfg g = true ∧ 0xFF = g.ram cfg.I2C_PAGE)) :
    isr cfg (evData b) g =
      { g with
        i2c_status := 0
        i2c_buffer := Function.update g.i2c_buffer (stageIdx cfg g) b
        i2c_pec := pecStep g.i2c_pec b
        i2c_rxIdx := g.i2c_rxIdx + 1 } := by
  have hmod : (g.i2c_rxIdx + 1) % 65536 = g.i2c_rxIdx + 1 := Nat.mod_eq_of_lt (by omega)
  rw [isr_evData,
    srxDataAck_stage cfg b { g with i2c_status := 0 } (fun e => h1 e.symm) (fun e => h2 e.symm)
      (by show ¬ (g.i2c_rxIdx > g.writeBytes); omega) h4 h5 h6]
  rw [statusUpdate_of_zero cfg _ rfl]
  show ({ g with i2c_status := 0
                 i2c_buffer := Function.update g.i2c_buffer (stageIdx cfg g) b
                 i2c_pec := pecStep g.i2c_pec b
                 i2c_rxIdx := (g.i2c_rxIdx + 1) % 65536 } : Globals) = _
  rw [hmod]

theorem srxDataAck_pec_ok (cfg : Config) (g : Globals)
    (h0 : ¬ (0 = g.i2c_rxIdx))
    (h2 : ¬ (I2C_UNSUPPORTED = cfg.i2c_registerIndex g.i2c_command.code))
    (hgt : g.i2c_rxIdx > g.writeBytes)
    (h1 : g.i2c_rxIdx = g.writeBytes + 1)
    (h3 : ¬ (0 = (curCmd cfg g).writeBytes ∧ (curCmd cfg g).readBytes > 0)) :
    srxDataAck cfg g.i2c_pec g = { g with i2c_rxIdx := (g.i2c_rxIdx + 1) % 65536 } := by
  have hp : ¬ (g.i2c_pec ≠ g.i2c_pec ∧
      (0 ≠ (curCmd cfg g).writeBytes ∨ 0 = (curCmd cfg g).readBytes)) := fun h => h.1 rfl
  unfold srxDataAck
  dsimp only
  rw [if_neg h0, if_neg h2, if_pos hgt, if_pos h1, if_neg hp, if_neg h3]

/-- The byte after the declared write length, equal to the running
checksum, of a command that is not read-only. -/
theorem isr_pec_ok (cfg : Config) (g : Globals)
    (h1 : g.i2c_rxIdx = g.writeBytes + 1) (hlt : g.i2c_rxIdx < 65535)
    (h2 : cfg.i2c_registerIndex g.i2c_command.code ≠ I2C_UNSUPPORTED)
    (h3 : ¬ (0 = (curCmd cfg g).writeBytes ∧ (curCmd cfg g).readBytes > 0)) :
    isr cfg (evData g.i2c_pec) g = { g with i2c_status := 0, i2c_rxIdx := g.i2c_rxIdx + 1 } := by
  have hmod : (g.i2c_rxIdx + 1) % 65536 = g.i2c_rxIdx + 1 := Nat.mod_eq_of_lt (by omega)
  rw [isr_evData]
  rw [show srxDataAck cfg g.i2c_pec { g with i2c_status := 0 } = _ from
    srxDataAck_pec_ok cfg { g with i2c_status := 0 }
      (by show ¬ (0 = g.i2c_rxIdx); omega) (fun e => h2 e.symm)
      (by show g.i2c_rxIdx > g.writeBytes; omega) h1 h3]
  rw [statusUpdate_of_zero cfg _ rfl]
  show ({ g with i2c_status := 0, i2c_rxIdx := (g.i2c_rxIdx + 1) % 65536 } : Globals) = _
  rw [hmod]

theorem srxDataAck_pec_bad (cfg : Config) (b : Nat) (g : Globals)
    (h0 : ¬ (0 = g.i2c_rxIdx))
    (h2 : ¬ (I2C_UNSUPPORTED = cfg.i2c_registerIndex g.i2c_command.code))
    (hgt : g.i2c_rxIdx > g.writeBytes)
    (h1 : g.i2c_rxIdx = g.writeBytes + 1)
    (hp : g.i2c_pec ≠ b ∧ (0 ≠ (curCmd cfg g).writeBytes ∨ 0 = (curCmd cfg g).readBytes))
    (herr : g.i2c_state &&& I2C_STATE_ERROR = 0) :
    srxDataAck cfg b g =
      { setStatus STATUS_CML_PEC_FAULT g with i2c_rxIdx := (g.i2c_rxIdx + 1) % 65536 } := by
  unfold srxDataAck
  dsimp only
  rw [if_neg h0, if_neg h2, if_pos hgt, if_pos h1, if_pos hp, if_pos herr]
  rfl

/-- The byte after the declared write length, different from the running
checksum, of a command with a write length, no fault latched so far. -/
theorem isr_pec_bad (cfg : Config) (b : Nat) (g : Globals)
    (h1 : g.i2c_rxIdx = g.writeBytes + 1)
    (h2 : cfg.i2c_registerIndex g.i2c_command.code ≠ I2C_UNSUPPORTED)
    (h3 : (curCmd cfg g).writeBytes ≠ 0)
    (herr : g.i2c_state &&& I2C_STATE_ERROR = 0)
    (hb : b ≠ g.i2c_pec) :
    isr cfg (evData b) g =
      { g with
        i2c_status := STATUS_CML_PEC_FAULT
        ram := Function.update g.ram cfg.I2C_STATUS_CML
          (g.ram cfg.I2C_STATUS_CML ||| STATUS_CML_PEC_FAULT)
        i2c_state := g.i2c_state ||| I2C_STATE_ERROR
        i2c_rxIdx := (g.i2c_rxIdx + 1) % 65536 } := by
  rw [isr_evData]
  rw [show srxDataAck cfg b { g with i2c_status := 0 } = _ from
    srxDataAck_pec_bad cfg b { g with i2c_status := 0 }
      (by show ¬ (0 = g.i2c_rxIdx); omega) (fun e => h2 e.symm)
      (by show g.i2c_rxIdx > g.writeBytes; omega) h1
      ⟨fun e => hb e.symm, Or.inl (fun e => h3 e.symm)⟩ herr]
  simp [statusUpdate, setStatus, STATUS_CML_PEC_FAULT]

/-- A STOP or repeated START with no error latched, for a command that is
not a send-byte command, after more bytes than the write length. -/
theorem isr_stop_commit (cfg : Config) (g : Globals)
    (herr : g.i2c_state &&& I2C_STATE_ERROR = 0)
    (hsb : ¬ (0 = (curCmd cfg g).readBytes ∧ 0 = (curCmd cfg g).writeBytes))
    (hgt : g.i2c_rxIdx > g.writeBytes) :
    isr cfg evStop g = commit cfg { g with i2c_status := 0, i2c_busy := 0 } := by
  have e : srxStopRestart cfg { g with i2c_status := 0 } =
      commit cfg { g with i2c_status := 0, i2c_busy := 0 } := by
    have h1 : ({ g with i2c_status := 0, i2c_busy := 0 } : Globals).i2c_state
        &&& I2C_STATE_ERROR = 0 := herr
    have h2 : ¬ (0 = (curCmd cfg { g with i2c_status := 0, i2c_busy := 0 }).readBytes ∧
        0 = (curCmd cfg { g with i2c_status := 0, i2c_busy := 0 }).writeBytes) := hsb
    have h3 : ({ g with i2c_status := 0, i2c_busy := 0 } : Globals).i2c_rxIdx >
        ({ g with i2c_status := 0, i2c_busy := 0 } : Globals).writeBytes := hgt
    unfold srxStopRestart
    simp only [h1, h2, h3, if_true, if_false]
  rw [isr_evStop, e]
  exact statusUpdate_of_zero cfg _ rfl

/-- A STOP or repeated START with no error latched, for a command that is
not a send-byte command, after no more bytes than the write length. -/
theorem isr_stop_short (cfg : Config) (g : Globals)
    (hsb : ¬ (0 = (curCmd cfg g).readBytes ∧ 0 = (curCmd cfg g).writeBytes))
    (hle : g.i2c_rxIdx ≤ g.writeBytes) :
    isr cfg evStop g = { g with i2c_status := 0, i2c_busy := 0 } := by
  have e : srxStopRestart cfg { g with i2c_status := 0 } =
      { g with i2c_status := 0, i2c_busy := 0 } := by
    have h2 : ¬ (0 = (curCmd cfg { g with i2c_status := 0, i2c_busy := 0 }).readBytes ∧
        0 = (curCmd cfg { g with i2c_status := 0, i2c_busy := 0 }).writeBytes) := hsb
    have h3 : ¬ (({ g with i2c_status := 0, i2c_busy := 0 } : Globals).i2c_rxIdx >
        ({ g with i2c_status := 0, i2c_busy := 0 } : Globals).writeBytes) := by
      show ¬ (g.i2c_rxIdx > g.writeBytes)
      omega
    unfold srxStopRestart
    simp only [h2, h3, if_false, ite_self]
  rw [isr_evStop, e]
  exact statusUpdate_of_zero cfg _ rfl

/-! ## The copy loop of the commit -/

theorem commitLoop_get (dst : Nat) (buf ram : Nat → Nat) (n i : Nat) (h : i < n) :
    commitLoop dst buf n ram (dst + i) = buf i := by
  induction n with
  | zero => omega
  | succ n ih =>
    unfold commitLoop
    by_cases hi : i = n
    · subst hi
      simp
    · have : dst + i ≠ dst + n := by omega
      rw [Function.update_noteq this]
      exact ih (by omega)

theorem commitLoop_frame (dst : Nat) (buf ram : Nat → Nat) (n a : Nat)
    (h : a < dst ∨ dst + n ≤ a) :
    commitLoop dst buf n ram a = ram a := by
  induction n with
  | zero => rfl
  | succ n ih =>
    unfold commitLoop
    have : a ≠ dst + n := by omega
    rw [Function.update_noteq this]
    exact ih (by omega)

theorem commitLoop_zero (dst : Nat) (buf ram : Nat → Nat) : commitLoop dst buf 0 ram = ram := rfl

/-! ## Staging of the payload of a non-block write -/

theorem stageBytes_frame (ds : List Nat) (k : Nat) (buf : Nat → Nat) (j : Nat) (h : j < k) :
    stageBytes k ds buf j = buf j := by
  induction ds generalizing k buf with
  | nil => rfl
  | cons d ds ih =>
    unfold stageBytes
    rw [ih (k + 1) _ (by omega), Function.update_noteq (by omega)]

theorem stageBytes_get (ds : List Nat) (k : Nat) (buf : Nat → Nat) (i : Nat) (h : i < ds.length) :
    stageBytes k ds buf (k + i) = ds[i] := by
  induction ds generalizing k buf i with
  | nil => simp at h
  | cons d ds ih =>
    unfold stageBytes
    cases i with
    | zero =>
      show stageBytes (k + 1) ds (Function.update buf k d) k = d
      rw [stageBytes_frame ds (k + 1) _ k (by omega)]
      simp
    | succ i =>
      have h' : i < ds.length := by simpa using h
      have := ih (k + 1) (Function.update buf k d) i h'
      rw [show k + (i + 1) = k + 1 + i by omega, this]
      simp

theorem stageIdx_nonblock (cfg : Config) (g : Globals) (k : Nat)
    (hb : IS_BLOCKCMD cfg g = false) (hrx : g.i2c_rxIdx = k + 1) (hlt : k < 65535) :
    stageIdx cfg g = k := by
  unfold stageIdx
  rw [hb, hrx]
  show (k + 1 + 65536 - 1) % 65536 = k
  omega

/-- The payload bytes of a write to a non-block command, each within the
declared write length and passing the page checks, are staged in order, fed
to the checksum, and raise no fault. -/
theorem run_stage (cfg : Config) (ds : List Nat) :
    ∀ (g : Globals) (k : Nat), g.i2c_status = 0 → g.i2c_rxIdx = k + 1 →
      cfg.i2c_registerIndex g.i2c_command.code ≠ I2C_UNSUPPORTED →
      k + ds.length ≤ g.writeBytes → g.writeBytes < 65535 →
      IS_BLOCKCMD cfg g = false →
      (∀ x ∈ ds, ¬ (0x00 = (curCmd cfg g).cmdCode ∧ x ≥ cfg.I2C_NUMPAGES ∧ x < 0xFF)) →
      ¬ (IS_PAGED cfg g = true ∧ 0xFF = g.ram cfg.I2C_PAGE) →
      run cfg g (ds.map evData) =
        { g with
          i2c_buffer := stageBytes k ds g.i2c_buffer
          i2c_pec := pecFold g.i2c_pec ds
          i2c_rxIdx := k + 1 + ds.length }
      ∧ raised cfg g (ds.map evData) = 0 := by
  induction ds with
  | nil =>
    intro g k _ hrx _ _ _ _ _ _
    refine ⟨?_, rfl⟩
    simp only [List.map_nil, run_nil, stageBytes, pecFold, List.foldl_nil, List.length_nil,
      Nat.add_zero, ← hrx]
  | cons d ds ih =>
    intro g k hst hrx hsup hlen hW hb hpg hp
    have hlen' : k + (ds.length + 1) ≤ g.writeBytes := by simpa using hlen
    have hk : k < 65535 := by omega
    have hstep := isr_stage cfg d g (by omega) hsup (by omega) (by omega)
      (by simp [hb]) (hpg d (List.mem_cons_self _ _)) hp
    rw [stageIdx_nonblock cfg g k hb hrx hk] at hstep
    have ih' := ih (isr cfg (evData d) g) (k + 1) (by rw [hstep]) (by rw [hstep, hrx])
      (by rw [hstep]; exact hsup) (by rw [hstep]; show k + 1 + ds.length ≤ g.writeBytes; omega)
      (by rw [hstep]; exact hW)
      (by rw [hstep]; exact hb)
      (by rw [hstep]; exact fun x hx => hpg x (List.mem_cons_of_mem _ hx))
      (by rw [hstep]; exact hp)
    constructor
    · rw [List.map_cons, run_cons, ih'.1, hstep]
      simp only [stageBytes, pecFold_cons, List.length_cons]
      rw [show k + 1 + 1 + ds.length = k + 1 + (ds.length + 1) by omega]
      cases g
      simp only at hst
      subst hst
      rfl
    · rw [List.map_cons]
      unfold raised
      rw [ih'.2, hstep]
      simp

/-! ## A complete write to a non-block command -/

/-- The globals before the STOP of a complete write with PEC of `ds` to the
command `c`. -/
theorem run_write_staged (cfg : Config) (g0 : Globals) (c : Nat) (ds : List Nat)
    (hsup : cfg.i2c_registerIndex c ≠ I2C_UNSUPPORTED)
    (hblk : (cfg.i2c_registerMap (cfg.i2c_registerIndex c)).attributes &&& I2C_BLOCK = 0)
    (hW : 1 ≤ (cfg.i2c_registerMap (cfg.i2c_registerIndex c)).writeBytes)
    (hW' : (cfg.i2c_registerMap (cfg.i2c_registerIndex c)).writeBytes < 256)
    (hds : ds.length = (cfg.i2c_registerMap (cfg.i2c_registerIndex c)).writeBytes)
    (hpg : ∀ x ∈ ds, ¬ (0x00 = (cfg.i2c_registerMap (cfg.i2c_registerIndex c)).cmdCode ∧
      x ≥ cfg.I2C_NUMPAGES ∧ x < 0xFF))
    (hp : ¬ ((cfg.I2C_ENABLE_PAGE &&
      ((cfg.i2c_registerMap (cfg.i2c_registerIndex c)).attributes &&& I2C_PAGED != 0)) = true ∧
      0xFF = g0.ram cfg.I2C_PAGE)) :
    run cfg g0 ([evWriteAddr, evData c] ++ ds.map evData
        ++ [evData (writePec g0.i2c_baseAddress c ds)]) =
      { g0 with
        i2c_status := 0
        i2c_state := g0.i2c_state &&& 0xFE
        i2c_command := { code := c, page := g0.ram cfg.I2C_PAGE }
        i2c_registerMapIndex := cfg.i2c_registerIndex c
        writeBytes := (cfg.i2c_registerMap (cfg.i2c_registerIndex c)).writeBytes
        i2c_buffer := stageBytes 0 ds g0.i2c_buffer
        i2c_pec := writePec g0.i2c_baseAddress c ds
        i2c_rxIdx := (cfg.i2c_registerMap (cfg.i2c_registerIndex c)).writeBytes + 2 }
    ∧ raised cfg g0 ([evWriteAddr, evData c] ++ ds.map evData
        ++ [evData (writePec g0.i2c_baseAddress c ds)]) = 0 := by
  have hhdr := run_header cfg c g0 hsup
  have hb : IS_BLOCKCMD cfg (run cfg g0 [evWriteAddr, evData c]) = false := by
    rw [hhdr]
    simp [IS_BLOCKCMD, curCmd, hblk]
  have hst := run_stage cfg ds (run cfg g0 [evWriteAddr, evData c]) 0
    (by rw [hhdr]) (by rw [hhdr]) (by rw [hhdr]; exact hsup)
    (by rw [hhdr]
        show 0 + ds.length ≤ (cfg.i2c_registerMap (cfg.i2c_registerIndex c)).writeBytes
        omega)
    (by rw [hhdr]
        show (cfg.i2c_registerMap (cfg.i2c_registerIndex c)).writeBytes < 65535
        omega) hb
    (by rw [hhdr]; exact hpg) (by rw [hhdr]; exact hp)
  have hfold : pecFold (pecFold 0 [(g0.i2c_baseAddress <<< 1) % 256, c]) ds =
      writePec g0.i2c_baseAddress c ds := by
    unfold writePec
    rw [pecFold_append]
  have hstaged : run cfg g0 ([evWriteAddr, evData c] ++ ds.map evData) =
      { g0 with
        i2c_status := 0
        i2c_state := g0.i2c_state &&& 0xFE
        i2c_command := { code := c, page := g0.ram cfg.I2C_PAGE }
        i2c_registerMapIndex := cfg.i2c_registerIndex c
        writeBytes := (cfg.i2c_registerMap (cfg.i2c_registerIndex c)).writeBytes
        i2c_buffer := stageBytes 0 ds g0.i2c_buffer
        i2c_pec := writePec g0.i2c_baseAddress c ds
        i2c_rxIdx := (cfg.i2c_registerMap (cfg.i2c_registerIndex c)).writeBytes + 1 } := by
    rw [run_append, hst.1, hhdr]
    simp only [hfold]
    rw [show 0 + 1 + ds.length = (cfg.i2c_registerMap (cfg.i2c_registerIndex c)).writeBytes + 1
      by omega]
  have hpec := isr_pec_ok cfg (run cfg g0 ([evWriteAddr, evData c] ++ ds.map evData))
    (by rw [hstaged])
    (by rw [hstaged]
        show (cfg.i2c_registerMap (cfg.i2c_registerIndex c)).writeBytes + 1 < 65535
        omega)
    (by rw [hstaged]; exact hsup)
    (by rw [hstaged]; show ¬ (0 = (cfg.i2c_registerMap (cfg.i2c_registerIndex c)).writeBytes ∧ _)
        omega)
  have hpecv : (run cfg g0 ([evWriteAddr, evData c] ++ ds.map evData)).i2c_pec =
      writePec g0.i2c_baseAddress c ds := by rw [hstaged]
  rw [hpecv] at hpec
  constructor
  · rw [run_append, run_cons, run_nil, hpec, hstaged]
  · rw [raised_append, raised_append]
    have h1 : raised cfg g0 [evWriteAddr, evData c] = 0 := by
      unfold raised raised raised
      rw [isr_evWriteAddr, isr_cmd cfg c _ rfl hsup]
      simp
    rw [h1, hst.2]
    unfold raised raised
    rw [hpec, hstaged]
    simp

/-- The commit of a command without block attributes copies `writeBytes`
bytes of the scratch buffer to the page of the command. -/
theorem commit_nonblock (cfg : Config) (g : Globals)
    (hb : IS_BLOCKCMD cfg g = false) (hl : IS_LBLOCK cfg g = false) :
    commit cfg g =
      { g with
        ram := (commitLoop ((curCmd cfg g).ramAddr + pageOffsetWrite cfg g)
          g.i2c_buffer g.writeBytes g.ram) } := by
  unfold commit
  simp [hb, hl, lenByte]

theorem writeTxn_eq (addr c : Nat) (ds : List Nat) :
    writeTxn addr c ds =
      ([evWriteAddr, evData c] ++ ds.map evData ++ [evData (writePec addr c ds)]) ++ [evStop] := by
  simp [writeTxn]

/-- The globals after a complete write with PEC of `ds` to a command without
block attributes: the staged bytes are committed to the page of the
command, and no event raises a fault. -/
theorem run_writeTxn (cfg : Config) (g0 : Globals) (c : Nat) (ds : List Nat)
    (hsup : cfg.i2c_registerIndex c ≠ I2C_UNSUPPORTED)
    (hblk : (cfg.i2c_registerMap (cfg.i2c_registerIndex c)).attributes &&& I2C_BLOCK = 0)
    (hlen : (cfg.i2c_registerMap (cfg.i2c_registerIndex c)).attributes &&& cfg.I2C_LEN = 0)
    (hW : 1 ≤ (cfg.i2c_registerMap (cfg.i2c_registerIndex c)).writeBytes)
    (hW' : (cfg.i2c_registerMap (cfg.i2c_registerIndex c)).writeBytes < 256)
    (hds : ds.length = (cfg.i2c_registerMap (cfg.i2c_registerIndex c)).writeBytes)
    (hpg : ∀ x ∈ ds, ¬ (0x00 = (cfg.i2c_registerMap (cfg.i2c_registerIndex c)).cmdCode ∧
      x ≥ cfg.I2C_NUMPAGES ∧ x < 0xFF))
    (hp : ¬ ((cfg.I2C_ENABLE_PAGE &&
      ((cfg.i2c_registerMap (cfg.i2c_registerIndex c)).attributes &&& I2C_PAGED != 0)) = true ∧
      0xFF = g0.ram cfg.I2C_PAGE)) :
    run cfg g0 (writeTxn g0.i2c_baseAddress c ds) =
      { g0 with
        i2c_status := 0
        i2c_busy := 0
        i2c_state := g0.i2c_state &&& 0xFE
        i2c_command := { code := c, page := g0.ram cfg.I2C_PAGE }
        i2c_registerMapIndex := cfg.i2c_registerIndex c
        writeBytes := (cfg.i2c_registerMap (cfg.i2c_registerIndex c)).writeBytes
        i2c_buffer := stageBytes 0 ds g0.i2c_buffer
        i2c_pec := writePec g0.i2c_baseAddress c ds
        i2c_rxIdx := (cfg.i2c_registerMap (cfg.i2c_registerIndex c)).writeBytes + 2
        ram := (commitLoop
          ((cfg.i2c_registerMap (cfg.i2c_registerIndex c)).ramAddr +
            (if (cfg.I2C_ENABLE_PAGE &&
                ((cfg.i2c_registerMap (cfg.i2c_registerIndex c)).attributes &&& I2C_PAGED != 0))
                = true
             then (g0.ram cfg.I2C_PAGE *
               (cfg.i2c_registerMap (cfg.i2c_registerIndex c)).writeBytes) % 65536
             else 0))
          (stageBytes 0 ds g0.i2c_buffer)
          (cfg.i2c_registerMap (cfg.i2c_registerIndex c)).writeBytes g0.ram) }
    ∧ raised cfg g0 (writeTxn g0.i2c_baseAddress c ds) = 0 := by
  have hst := run_write_staged cfg g0 c ds hsup hblk hW hW' hds hpg hp
  have hstop := isr_stop_commit cfg
    (run cfg g0 ([evWriteAddr, evData c] ++ ds.map evData
        ++ [evData (writePec g0.i2c_baseAddress c ds)]))
    (by rw [hst.1]; exact clear_error _)
    (by rw [hst.1]
        show ¬ (0 = (cfg.i2c_registerMap (cfg.i2c_registerIndex c)).readBytes ∧
          0 = (cfg.i2c_registerMap (cfg.i2c_registerIndex c)).writeBytes)
        omega)
    (by rw [hst.1]
        show (cfg.i2c_registerMap (cfg.i2c_registerIndex c)).writeBytes + 2 >
          (cfg.i2c_registerMap (cfg.i2c_registerIndex c)).writeBytes
        omega)
  rw [hst.1] at hstop
  rw [commit_nonblock cfg _ (by simp [IS_BLOCKCMD, curCmd, hblk])
    (by simp [IS_LBLOCK, curCmd, hlen])] at hstop
  constructor
  · rw [writeTxn_eq, run_append, run_cons, run_nil, hst.1, hstop]
    simp [curCmd, pageOffsetWrite, IS_PAGED, lenByte, IS_LBLOCK, hlen]
  · rw [writeTxn_eq, raised_append, hst.2]
    unfold raised raised
    rw [hst.1, hstop]
    simp

/-- C1: for a command that is not paged and has neither block attribute
(`I2C_BLOCK`, `I2C_LEN`), with write length `W >= 1`, and `W` data bytes (legal
page values when the descriptor is the page-select command, code 0): the
events write address-match, command code, the data bytes, a trailing byte equal
to the running checksum, STOP leave the data bytes in wire order at offsets
`0 .. W-1` of the command's backing storage, leave every RAM byte outside
these offsets as it was, and raise no fault bit. -/
theorem write_with_pec_commits (cfg : Config) (g0 : Globals) (c : Nat) (ds : List Nat)
    (hsup : cfg.i2c_registerIndex c ≠ I2C_UNSUPPORTED)
    (hblk : (cfg.i2c_registerMap (cfg.i2c_registerIndex c)).attributes &&& I2C_BLOCK = 0)
    (hlen : (cfg.i2c_registerMap (cfg.i2c_registerIndex c)).attributes &&& cfg.I2C_LEN = 0)
    (hunpaged : cfg.I2C_ENABLE_PAGE = false ∨
      (cfg.i2c_registerMap (cfg.i2c_registerIndex c)).attributes &&& I2C_PAGED = 0)
    (hW : 1 ≤ (cfg.i2c_registerMap (cfg.i2c_registerIndex c)).writeBytes)
    (hW' : (cfg.i2c_registerMap (cfg.i2c_registerIndex c)).writeBytes < 256)
    (hds : ds.length = (cfg.i2c_registerMap (cfg.i2c_registerIndex c)).writeBytes)
    (hpage : (cfg.i2c_registerMap (cfg.i2c_registerIndex c)).cmdCode = 0 →
      ∀ x ∈ ds, x < cfg.I2C_NUMPAGES ∨ x = 0xFF) :
    (∀ i (h : i < ds.length),
      (run cfg g0 (writeTxn g0.i2c_baseAddress c ds)).ram
        ((cfg.i2c_registerMap (cfg.i2c_registerIndex c)).ramAddr + i) = ds[i])
    ∧ (∀ a, a < (cfg.i2c_registerMap (cfg.i2c_registerIndex c)).ramAddr ∨
        (cfg.i2c_registerMap (cfg.i2c_registerIndex c)).ramAddr + ds.length ≤ a →
      (run cfg g0 (writeTxn g0.i2c_baseAddress c ds)).ram a = g0.ram a)
    ∧ raised cfg g0 (writeTxn g0.i2c_baseAddress c ds) = 0 := by
  have hnp : (cfg.I2C_ENABLE_PAGE &&
      ((cfg.i2c_registerMap (cfg.i2c_registerIndex c)).attributes &&& I2C_PAGED != 0)) = false := by
    rcases hunpaged with h | h <;> simp [h]
  have hrun := run_writeTxn cfg g0 c ds hsup hblk hlen hW hW' hds
    (by
      intro x hx hbad
      rcases hpage hbad.1.symm x hx with h | h <;> omega)
    (by rw [hnp]; simp)
  rw [hnp] at hrun
  refine ⟨?_, ?_, hrun.2⟩
  · intro i hi
    rw [hrun.1]
    show commitLoop _ _ _ _ _ = _
    simp only [Bool.false_eq_true, if_false, Nat.add_zero]
    rw [commitLoop_get _ _ _ _ _ (by omega)]
    simpa using stageBytes_get ds 0 g0.i2c_buffer i hi
  · intro a ha
    rw [hrun.1]
    show commitLoop _ _ _ _ _ = _
    simp only [Bool.false_eq_true, if_false, Nat.add_zero]
    exact commitLoop_frame _ _ _ _ _ (by omega)

set_option maxRecDepth 100000 in
/-- C1 at a write of `0xAA, 0xBB` to the two-byte command 0x10 of
`demoCfg`. -/
theorem write_with_pec_commits_witness :
    (∀ i (h : i < [0xAA, 0xBB].length),
      (run demoCfg demoInit (writeTxn demoInit.i2c_baseAddress 0x10 [0xAA, 0xBB])).ram
        ((demoCfg.i2c_registerMap (demoCfg.i2c_registerIndex 0x10)).ramAddr + i)
        = [0xAA, 0xBB][i])
    ∧ (∀ a, a < (demoCfg.i2c_registerMap (demoCfg.i2c_registerIndex 0x10)).ramAddr ∨
        (demoCfg.i2c_registerMap (demoCfg.i2c_registerIndex 0x10)).ramAddr
          + [0xAA, 0xBB].length ≤ a →
      (run demoCfg demoInit (writeTxn demoInit.i2c_baseAddress 0x10 [0xAA, 0xBB])).ram a
        = demoInit.ram a)
    ∧ raised demoCfg demoInit (writeTxn demoInit.i2c_baseAddress 0x10 [0xAA, 0xBB]) = 0 :=
  write_with_pec_commits demoCfg demoInit 0x10 [0xAA, 0xBB] (by decide) (by decide) (by decide)
    (by decide) (by decide) (by decide) (by decide) (by decide)

/-! ## Payload bytes of a write that stays short of the write length -/

/-- A received byte after the command code, for a command without the block
attribute: the receive count advances and the command, its write length and
the RAM outside the fault register stay as they are. -/
theorem isr_evData_frame (cfg : Config) (b : Nat) (g : Globals)
    (hrx : g.i2c_rxIdx ≠ 0) (hb : IS_BLOCKCMD cfg g = false) :
    (isr cfg (evData b) g).i2c_rxIdx = (g.i2c_rxIdx + 1) % 65536 ∧
    (isr cfg (evData b) g).writeBytes = g.writeBytes ∧
    (isr cfg (evData b) g).i2c_registerMapIndex = g.i2c_registerMapIndex ∧
    (isr cfg (evData b) g).i2c_command = g.i2c_command ∧
    (∀ a, a ≠ cfg.I2C_STATUS_CML → (isr cfg (evData b) g).ram a = g.ram a) := by
  rw [isr_evData]
  have hf := statusUpdate_fields cfg (srxDataAck cfg b { g with i2c_status := 0 })
  have hc := srxDataAck_command cfg b { g with i2c_status := 0 } hrx
  refine ⟨?_, ?_, ?_, ?_, ?_⟩
  · rw [hf.1, srxDataAck_rxIdx]
  · rw [hf.2.1, srxDataAck_writeBytes cfg b { g with i2c_status := 0 } hrx hb]
  · rw [hf.2.2.1, hc.2]
  · rw [hf.2.2.2.1, hc.1]
  · intro a ha
    rw [statusUpdate_ram cfg _ a ha, srxDataAck_ram]

theorem run_data_frame (cfg : Config) (ds : List Nat) :
    ∀ (g : Globals), g.i2c_rxIdx ≠ 0 → g.i2c_rxIdx + ds.length < 65536 →
      IS_BLOCKCMD cfg g = false →
      (run cfg g (ds.map evData)).i2c_rxIdx = g.i2c_rxIdx + ds.length ∧
      (run cfg g (ds.map evData)).writeBytes = g.writeBytes ∧
      (run cfg g (ds.map evData)).i2c_registerMapIndex = g.i2c_registerMapIndex ∧
      (run cfg g (ds.map evData)).i2c_command = g.i2c_command ∧
      (∀ a, a ≠ cfg.I2C_STATUS_CML → (run cfg g (ds.map evData)).ram a = g.ram a) := by
  induction ds with
  | nil =>
    intro g _ _ _
    exact ⟨rfl, rfl, rfl, rfl, fun _ _ => rfl⟩
  | cons d ds ih =>
    intro g hrx hlen hb
    have hlen' : g.i2c_rxIdx + (ds.length + 1) < 65536 := by simpa using hlen
    have hs := isr_evData_frame cfg d g hrx hb
    have hrx1 : (isr cfg (evData d) g).i2c_rxIdx = g.i2c_rxIdx + 1 := by
      rw [hs.1]
      omega
    have hb1 : IS_BLOCKCMD cfg (isr cfg (evData d) g) = false := by
      unfold IS_BLOCKCMD curCmd at hb ⊢
      rw [hs.2.2.1]
      exact hb
    have ih' := ih (isr cfg (evData d) g) (by omega) (by omega) hb1
    rw [List.map_cons, run_cons]
    refine ⟨?_, ?_, ?_, ?_, ?_⟩
    · rw [ih'.1, hrx1, List.length_cons]
      omega
    · rw [ih'.2.1, hs.2.1]
    · rw [ih'.2.2.1, hs.2.2.1]
    · rw [ih'.2.2.2.1, hs.2.2.2.1]
    · intro a ha
      rw [ih'.2.2.2.2 a ha, hs.2.2.2.2 a ha]

/-- C3: for a command without the block attribute, with write length
`W >= 1`, and `k < W` data bytes of any value: the events write address-match,
command code, the `k` data bytes, STOP/repeated START leave every RAM byte
other than the sticky fault register as it was: a short write is not
committed, not even in part. -/
theorem short_write_not_committed (cfg : Config) (g0 : Globals) (c : Nat) (ds : List Nat)
    (a : Nat)
    (hsup : cfg.i2c_registerIndex c ≠ I2C_UNSUPPORTED)
    (hblk : (cfg.i2c_registerMap (cfg.i2c_registerIndex c)).attributes &&& I2C_BLOCK = 0)
    (hW : 1 ≤ (cfg.i2c_registerMap (cfg.i2c_registerIndex c)).writeBytes)
    (hW' : (cfg.i2c_registerMap (cfg.i2c_registerIndex c)).writeBytes < 256)
    (hk : ds.length < (cfg.i2c_registerMap (cfg.i2c_registerIndex c)).writeBytes)
    (ha : a ≠ cfg.I2C_STATUS_CML) :
    (run cfg g0 ([evWriteAddr, evData c] ++ ds.map evData ++ [evStop])).ram a = g0.ram a := by
  have hhdr := run_header cfg c g0 hsup
  have hb : IS_BLOCKCMD cfg (run cfg g0 [evWriteAddr, evData c]) = false := by
    rw [hhdr]
    simp [IS_BLOCKCMD, curCmd, hblk]
  have hd := run_data_frame cfg ds (run cfg g0 [evWriteAddr, evData c])
    (by rw [hhdr]; exact Nat.one_ne_zero)
    (by rw [hhdr]; show 1 + ds.length < 65536; omega) hb
  have hstop := isr_stop_short cfg (run cfg g0 ([evWriteAddr, evData c] ++ ds.map evData))
    (by
      unfold curCmd
      rw [run_append, hd.2.2.1, hhdr]
      show ¬ (0 = (cfg.i2c_registerMap (cfg.i2c_registerIndex c)).readBytes ∧
        0 = (cfg.i2c_registerMap (cfg.i2c_registerIndex c)).writeBytes)
      omega)
    (by
      rw [run_append, hd.1, hd.2.1, hhdr]
      show 1 + ds.length ≤ (cfg.i2c_registerMap (cfg.i2c_registerIndex c)).writeBytes
      omega)
  rw [run_append, run_cons, run_nil, hstop]
  show (run cfg g0 ([evWriteAddr, evData c] ++ ds.map evData)).ram a = g0.ram a
  rw [run_append, hd.2.2.2.2 a ha, hhdr]

set_option maxRecDepth 100000 in
/-- C3 at a write of the single byte `0xAA` to the two-byte command 0x10 of
`demoCfg`, observed at the first byte of its storage. -/
theorem short_write_not_committed_witness :
    (run demoCfg demoInit ([evWriteAddr, evData 0x10] ++ [0xAA].map evData ++ [evStop])).ram 0x10
      = demoInit.ram 0x10 :=
  short_write_not_committed demoCfg demoInit 0x10 [0xAA] 0x10 (by decide) (by decide)
    (by decide) (by decide) (by decide) (by decide)

theorem or_eq_zero (a b : Nat) (h : a ||| b = 0) : a = 0 ∧ b = 0 := by
  have key : ∀ i, a.testBit i = false ∧ b.testBit i = false := by
    intro i
    have hi := congrArg (fun n => n.testBit i) h
    simp only [Nat.testBit_or, Nat.zero_testBit, Bool.or_eq_false_iff] at hi
    exact hi
  constructor
  · apply Nat.eq_of_testBit_eq
    intro i
    rw [(key i).1, Nat.zero_testBit]
  · apply Nat.eq_of_testBit_eq
    intro i
    rw [(key i).2, Nat.zero_testBit]

theorem zero_or_fault (bits : Nat) (h : bits ≠ 0) : 0 ||| bits ≠ 0 := by
  simpa using h

/-! ## Payload bytes accepted without fault -/

/-- Body of the data case for a byte within the write length that raises no
fault: the byte is fed to the checksum. -/
theorem srxDataAck_accept (cfg : Config) (b : Nat) (g : Globals)
    (h0 : ¬ (0 = g.i2c_rxIdx))
    (h2 : ¬ (I2C_UNSUPPORTED = cfg.i2c_registerIndex g.i2c_command.code))
    (h3 : ¬ (g.i2c_rxIdx > g.writeBytes))
    (hst : g.i2c_status = 0)
    (hs : (srxDataAck cfg b g).i2c_status = 0) :
    (srxDataAck cfg b g).i2c_pec = pecStep g.i2c_pec b := by
  unfold srxDataAck at hs ⊢
  dsimp only at hs ⊢
  rw [if_neg h0, if_neg h2, if_neg h3] at hs ⊢
  split_ifs at hs ⊢ with h4 h5 h6 h7
  · rfl
  · rfl
  · simp [setStatus, hst, STATUS_CML_DATA_FAULT] at hs
  · simp [setStatus, hst, STATUS_CML_DATA_FAULT] at hs
  · rfl

theorem srxDataAck_writeBytes_of_ne (cfg : Config) (b : Nat) (g : Globals)
    (h0 : ¬ (0 = g.i2c_rxIdx)) (h1 : ¬ (1 = g.i2c_rxIdx)) :
    (srxDataAck cfg b g).writeBytes = g.writeBytes := by
  have h4 : ¬ (IS_BLOCKCMD cfg g = true ∧ 1 = g.i2c_rxIdx) := fun h => h1 h.2
  unfold srxDataAck
  dsimp only
  rw [if_neg h0]
  split_ifs <;> rfl

theorem srxDataAck_writeBytes_lt (cfg : Config) (b : Nat) (g : Globals)
    (hty : ∀ i, (cfg.i2c_registerMap i).writeBytes < 256) (hw : g.writeBytes < 256) :
    (srxDataAck cfg b g).writeBytes < 256 := by
  unfold srxDataAck
  dsimp only
  split_ifs <;> first | exact hw | exact hty _ | exact Nat.mod_lt _ (by decide)

theorem run_writeBytes_lt (cfg : Config) (bs : List Nat)
    (hty : ∀ i, (cfg.i2c_registerMap i).writeBytes < 256) :
    ∀ (g : Globals), g.writeBytes < 256 → (run cfg g (bs.map evData)).writeBytes < 256 := by
  induction bs with
  | nil => intro g hw; exact hw
  | cons b bs ih =>
    intro g hw
    rw [List.map_cons, run_cons]
    apply ih
    rw [isr_evData, (statusUpdate_fields cfg _).2.1]
    exact srxDataAck_writeBytes_lt cfg b _ hty hw

/-- A payload byte within the write length that raises no fault. -/
theorem isr_accept (cfg : Config) (b : Nat) (g : Globals)
    (hrx : g.i2c_rxIdx ≠ 0)
    (hsup : cfg.i2c_registerIndex g.i2c_command.code ≠ I2C_UNSUPPORTED)
    (hle : g.i2c_rxIdx ≤ g.writeBytes) (hlt : g.i2c_rxIdx < 65535)
    (hs : (isr cfg (evData b) g).i2c_status = 0) :
    (isr cfg (evData b) g).i2c_pec = pecStep g.i2c_pec b ∧
    (isr cfg (evData b) g).i2c_rxIdx = g.i2c_rxIdx + 1 ∧
    (isr cfg (evData b) g).i2c_command = g.i2c_command ∧
    (isr cfg (evData b) g).i2c_registerMapIndex = g.i2c_registerMapIndex ∧
    (isr cfg (evData b) g).i2c_state = g.i2c_state ∧
    (isr cfg (evData b) g).ram = g.ram ∧
    (g.i2c_rxIdx ≠ 1 → (isr cfg (evData b) g).writeBytes = g.writeBytes) := by
  rw [isr_evData] at hs ⊢
  have hf := statusUpdate_fields cfg (srxDataAck cfg b { g with i2c_status := 0 })
  have hs' : (srxDataAck cfg b { g with i2c_status := 0 }).i2c_status = 0 := by
    rw [← hf.2.2.2.2.2.1]
    exact hs
  rw [statusUpdate_of_zero cfg _ hs']
  have hc := srxDataAck_command cfg b { g with i2c_status := 0 } hrx
  refine ⟨?_, ?_, hc.1, hc.2, srxDataAck_state _ _ _, srxDataAck_ram _ _ _, ?_⟩
  · exact srxDataAck_accept cfg b { g with i2c_status := 0 } (fun e => hrx e.symm)
      (fun e => hsup e.symm) (by show ¬ (g.i2c_rxIdx > g.writeBytes); omega) rfl hs'
  · rw [srxDataAck_rxIdx]
    show (g.i2c_rxIdx + 1) % 65536 = g.i2c_rxIdx + 1
    omega
  · intro h1
    exact srxDataAck_writeBytes_of_ne cfg b { g with i2c_status := 0 } (fun e => hrx e.symm)
      (fun e => h1 e.symm)

theorem run_writeBytes_const (cfg : Config) (bs : List Nat) :
    ∀ (g : Globals), 2 ≤ g.i2c_rxIdx → g.i2c_rxIdx + bs.length < 65536 →
      (run cfg g (bs.map evData)).writeBytes = g.writeBytes := by
  induction bs with
  | nil => intro g _ _; rfl
  | cons b bs ih =>
    intro g h2 hlen
    have hlen' : g.i2c_rxIdx + (bs.length + 1) < 65536 := by simpa using hlen
    have hf := statusUpdate_fields cfg (srxDataAck cfg b { g with i2c_status := 0 })
    have hrx : (isr cfg (evData b) g).i2c_rxIdx = g.i2c_rxIdx + 1 := by
      rw [isr_evData, hf.1, srxDataAck_rxIdx]
      show (g.i2c_rxIdx + 1) % 65536 = g.i2c_rxIdx + 1
      omega
    have hw : (isr cfg (evData b) g).writeBytes = g.writeBytes := by
      rw [isr_evData, hf.2.1]
      exact srxDataAck_writeBytes_of_ne cfg b { g with i2c_status := 0 }
        (by show ¬ (0 = g.i2c_rxIdx); omega) (by show ¬ (1 = g.i2c_rxIdx); omega)
    rw [List.map_cons, run_cons, ih (isr cfg (evData b) g) (by omega) (by omega), hw]

/-- Payload bytes after the first, all within the write length and raising
no fault, are fed to the checksum in order. -/
theorem run_accept (cfg : Config) (bs : List Nat) :
    ∀ (g : Globals), 2 ≤ g.i2c_rxIdx →
      cfg.i2c_registerIndex g.i2c_command.code ≠ I2C_UNSUPPORTED →
      g.i2c_rxIdx + bs.length ≤ g.writeBytes + 1 → g.writeBytes < 256 →
      raised cfg g (bs.map evData) = 0 →
      (run cfg g (bs.map evData)).i2c_pec = pecFold g.i2c_pec bs ∧
      (run cfg g (bs.map evData)).i2c_rxIdx = g.i2c_rxIdx + bs.length ∧
      (run cfg g (bs.map evData)).i2c_command = g.i2c_command ∧
      (run cfg g (bs.map evData)).i2c_registerMapIndex = g.i2c_registerMapIndex ∧
      (run cfg g (bs.map evData)).i2c_state = g.i2c_state ∧
      (run cfg g (bs.map evData)).ram = g.ram := by
  induction bs with
  | nil => intro g _ _ _ _ _; exact ⟨rfl, rfl, rfl, rfl, rfl, rfl⟩
  | cons b bs ih =>
    intro g h2 hsup hlen hw hnf
    have hlen' : g.i2c_rxIdx + (bs.length + 1) ≤ g.writeBytes + 1 := by simpa using hlen
    rw [List.map_cons] at hnf ⊢
    unfold raised at hnf
    have hz := or_eq_zero _ _ hnf
    have hs := isr_accept cfg b g (by omega) hsup (by omega) (by omega) hz.1
    have hw1 : (isr cfg (evData b) g).writeBytes = g.writeBytes := hs.2.2.2.2.2.2 (by omega)
    have ih' := ih (isr cfg (evData b) g) (by rw [hs.2.1]; omega) (by rw [hs.2.2.1]; exact hsup)
      (by rw [hs.2.1, hw1]; omega) (by rw [hw1]; exact hw) hz.2
    rw [run_cons]
    refine ⟨?_, ?_, ?_, ?_, ?_, ?_⟩
    · rw [ih'.1, hs.1, pecFold_cons]
    · rw [ih'.2.1, hs.2.1, List.length_cons]
      omega
    · rw [ih'.2.2.1, hs.2.2.1]
    · rw [ih'.2.2.2.1, hs.2.2.2.1]
    · rw [ih'.2.2.2.2.1, hs.2.2.2.2.1]
    · rw [ih'.2.2.2.2.2, hs.2.2.2.2.2.1]

/-- A STOP or repeated START with the error flag latched. -/
theorem isr_stop_of_error (cfg : Config) (g : Globals)
    (herr : g.i2c_state &&& I2C_STATE_ERROR ≠ 0) :
    isr cfg evStop g = { g with i2c_status := 0, i2c_busy := 0 } := by
  rw [isr_evStop, srxStopRestart_of_error cfg { g with i2c_status := 0 } herr]
  exact statusUpdate_of_zero cfg _ rfl

/-- C5: for a command with nonzero write length (the write lengths of the
table being bytes) and a write to it whose events so far (write address-match,
command code `c`, the bytes `bs`) raised no fault and whose bytes `bs` are
exactly the write payload in effect (the length byte of a block write
included): if the next byte differs from the running checksum over the address
byte, the command code and `bs`, the PEC-fault bit is set in the sticky fault
register, the following STOP/repeated START leaves the RAM as it is, and no
RAM byte other than the fault register differs from before the
transaction. -/
theorem pec_mismatch_discards_write (cfg : Config) (g0 : Globals) (c x : Nat) (bs : List Nat)
    (hty : ∀ i, (cfg.i2c_registerMap i).writeBytes < 256)
    (hsup : cfg.i2c_registerIndex c ≠ I2C_UNSUPPORTED)
    (hW : (cfg.i2c_registerMap (cfg.i2c_registerIndex c)).writeBytes ≠ 0)
    (hnf : raised cfg g0 ([evWriteAddr, evData c] ++ bs.map evData) = 0)
    (hlen : bs.length = (run cfg g0 ([evWriteAddr, evData c] ++ bs.map evData)).writeBytes)
    (hx : x ≠ writePec g0.i2c_baseAddress c bs) :
    (run cfg g0 ([evWriteAddr, evData c] ++ bs.map evData ++ [evData x])).ram cfg.I2C_STATUS_CML
        &&& STATUS_CML_PEC_FAULT = STATUS_CML_PEC_FAULT
    ∧ (run cfg g0 ([evWriteAddr, evData c] ++ bs.map evData ++ [evData x, evStop])).ram =
        (run cfg g0 ([evWriteAddr, evData c] ++ bs.map evData ++ [evData x])).ram
    ∧ ∀ a, a ≠ cfg.I2C_STATUS_CML →
        (run cfg g0 ([evWriteAddr, evData c] ++ bs.map evData ++ [evData x, evStop])).ram a
          = g0.ram a := by
  have hhdr := run_header cfg c g0 hsup
  rw [raised_append] at hnf
  have hnf2 := (or_eq_zero _ _ hnf).2
  have hbound : bs.length < 256 := by
    rw [hlen, run_append]
    exact run_writeBytes_lt cfg bs hty _ (by rw [hhdr]; exact hty _)
  rw [run_append] at hlen
  cases bs with
  | nil =>
    exfalso
    rw [List.map_nil, run_nil, hhdr] at hlen
    exact hW hlen.symm
  | cons b rest =>
    have hbound' : rest.length + 1 < 256 := by simpa using hbound
    rw [List.map_cons] at hnf2 hlen
    unfold raised at hnf2
    have hz := or_eq_zero _ _ hnf2
    rw [run_cons, List.length_cons] at hlen
    -- the first payload byte
    have h1 := isr_accept cfg b (run cfg g0 [evWriteAddr, evData c])
      (by rw [hhdr]; exact Nat.one_ne_zero) (by rw [hhdr]; exact hsup)
      (by rw [hhdr]
          show 1 ≤ (cfg.i2c_registerMap (cfg.i2c_registerIndex c)).writeBytes
          omega)
      (by rw [hhdr]; show 1 < 65535; omega) hz.1
    have hrx1 : (isr cfg (evData b) (run cfg g0 [evWriteAddr, evData c])).i2c_rxIdx = 2 := by
      rw [h1.2.1, hhdr]
    have hsup1 : cfg.i2c_registerIndex
        (isr cfg (evData b) (run cfg g0 [evWriteAddr, evData c])).i2c_command.code
          ≠ I2C_UNSUPPORTED := by
      rw [h1.2.2.1, hhdr]
      exact hsup
    -- the write length in effect is fixed from here on
    have hwc := run_writeBytes_const cfg rest
      (isr cfg (evData b) (run cfg g0 [evWriteAddr, evData c])) (by omega) (by omega)
    rw [hwc] at hlen
    have hr := run_accept cfg rest (isr cfg (evData b) (run cfg g0 [evWriteAddr, evData c]))
      (by omega) hsup1 (by omega) (by omega) hz.2
    -- the state before the byte `x`
    have hpre : run cfg g0 ([evWriteAddr, evData c] ++ (b :: rest).map evData) =
        run cfg (isr cfg (evData b) (run cfg g0 [evWriteAddr, evData c])) (rest.map evData) := by
      rw [run_append, List.map_cons, run_cons]
    have hpec : (run cfg g0 ([evWriteAddr, evData c] ++ (b :: rest).map evData)).i2c_pec =
        writePec g0.i2c_baseAddress c (b :: rest) := by
      rw [hpre, hr.1, h1.1, hhdr]
      unfold writePec
      rw [pecFold_append]
      rfl
    have hbad := isr_pec_bad cfg x (run cfg g0 ([evWriteAddr, evData c] ++ (b :: rest).map evData))
      (by rw [hpre, hr.2.1, hwc, hrx1]; omega)
      (by rw [hpre, hr.2.2.1]; exact hsup1)
      (by
        unfold curCmd
        rw [hpre, hr.2.2.2.1, h1.2.2.2.1, hhdr]
        exact hW)
      (by
        rw [hpre, hr.2.2.2.2.1, h1.2.2.2.2.1, hhdr]
        exact clear_error _)
      (by rw [hpec]; exact hx)
    have hram : (run cfg g0 ([evWriteAddr, evData c] ++ (b :: rest).map evData)).ram = g0.ram := by
      rw [hpre, hr.2.2.2.2.2, h1.2.2.2.2.2.1, hhdr]
    have hstop := isr_stop_of_error cfg
      (isr cfg (evData x) (run cfg g0 ([evWriteAddr, evData c] ++ (b :: rest).map evData)))
      (by rw [hbad]; exact and_error_of_or _)
    have e1 : run cfg g0 ([evWriteAddr, evData c] ++ (b :: rest).map evData ++ [evData x]) =
        isr cfg (evData x) (run cfg g0 ([evWriteAddr, evData c] ++ (b :: rest).map evData)) := by
      rw [run_append, run_cons, run_nil]
    have e2 : run cfg g0 ([evWriteAddr, evData c] ++ (b :: rest).map evData
          ++ [evData x, evStop]) =
        isr cfg evStop
          (isr cfg (evData x) (run cfg g0 ([evWriteAddr, evData c] ++ (b :: rest).map evData))) := by
      rw [run_append, run_cons, run_cons, run_nil]
    rw [e1, e2, hstop]
    refine ⟨?_, rfl, ?_⟩
    · rw [hbad]
      simp only [Function.update_same]
      exact or_and_self_bit _ _
    · intro a ha
      show (isr cfg (evData x) _).ram a = g0.ram a
      rw [hbad]
      simp only [Function.update_noteq ha, hram]

set_option maxRecDepth 100000 in
/-- C5 at a write of `0xAA, 0xBB` to command 0x10 of `demoCfg` followed by the
byte 0x00, which is not the running checksum. -/
theorem pec_mismatch_discards_write_witness :
    (run demoCfg demoInit ([evWriteAddr, evData 0x10] ++ [0xAA, 0xBB].map evData
        ++ [evData 0x00])).ram demoCfg.I2C_STATUS_CML
        &&& STATUS_CML_PEC_FAULT = STATUS_CML_PEC_FAULT
    ∧ (run demoCfg demoInit ([evWriteAddr, evData 0x10] ++ [0xAA, 0xBB].map evData
        ++ [evData 0x00, evStop])).ram =
        (run demoCfg demoInit ([evWriteAddr, evData 0x10] ++ [0xAA, 0xBB].map evData
          ++ [evData 0x00])).ram
    ∧ ∀ a, a ≠ demoCfg.I2C_STATUS_CML →
        (run demoCfg demoInit ([evWriteAddr, evData 0x10] ++ [0xAA, 0xBB].map evData
          ++ [evData 0x00, evStop])).ram a = demoInit.ram a :=
  pec_mismatch_discards_write demoCfg demoInit 0x10 0x00 [0xAA, 0xBB]
    (by intro i; unfold demoCfg demoMap; dsimp only; split <;> decide)
    (by decide) (by decide) (by decide) (by decide) (by decide)

/-! ## The transmit path for a command without block attributes -/

/-- Body of the transmit case for a data byte of a command without the
block attribute. -/
theorem stxDataAck_data (cfg : Config) (g : Globals)
    (h1 : ¬ (I2C_UNSUPPORTED = cfg.i2c_registerIndex g.i2c_command.code))
    (h2 : ¬ (0 = (curCmd cfg g).readBytes))
    (hb : IS_BLOCKCMD cfg g = false)
    (h4 : g.i2c_txIdx ≤ (curCmd cfg g).readBytes)
    (h5 : ¬ (IS_PAGED cfg g = true ∧ 0xFF = g.ram cfg.I2C_PAGE)) :
    stxDataAck cfg g =
      { g with
        TWDR := g.ram (txDataAddr cfg g g.i2c_txIdx)
        i2c_pec := pecStep g.i2c_pec (g.ram (txDataAddr cfg g g.i2c_txIdx))
        i2c_txIdx := (g.i2c_txIdx + 1) % 65536
        i2c_busy := 1 } := by
  unfold stxDataAck
  simp only [hb, Bool.false_eq_true, if_false, false_and]
  rw [if_neg h1, if_neg h2, if_pos h4, if_neg h5]
  rfl

/-- Body of the transmit case for the PEC byte of a command without the
block attribute. -/
theorem stxDataAck_pec (cfg : Config) (g : Globals)
    (h1 : ¬ (I2C_UNSUPPORTED = cfg.i2c_registerIndex g.i2c_command.code))
    (h2 : ¬ (0 = (curCmd cfg g).readBytes))
    (hb : IS_BLOCKCMD cfg g = false)
    (h4 : g.i2c_txIdx = (curCmd cfg g).readBytes + 1) :
    stxDataAck cfg g =
      { g with
        TWDR := g.i2c_pec
        i2c_txIdx := (g.i2c_txIdx + 1) % 65536
        i2c_busy := 1 } := by
  unfold stxDataAck
  simp only [hb, Bool.false_eq_true, if_false, false_and]
  rw [if_neg h1, if_neg h2, if_neg (by omega : ¬ (g.i2c_txIdx ≤ (curCmd cfg g).readBytes)),
    if_pos h4]

/-- A transmit-acknowledged event that loads a data byte. -/
theorem isr_tx_data (cfg : Config) (g : Globals)
    (h1 : cfg.i2c_registerIndex g.i2c_command.code ≠ I2C_UNSUPPORTED)
    (h2 : (curCmd cfg g).readBytes ≠ 0)
    (hb : IS_BLOCKCMD cfg g = false)
    (h4 : g.i2c_txIdx ≤ (curCmd cfg g).readBytes) (hR : (curCmd cfg g).readBytes < 256)
    (h5 : ¬ (IS_PAGED cfg g = true ∧ 0xFF = g.ram cfg.I2C_PAGE)) :
    isr cfg evTxAck g =
      { g with
        i2c_status := 0
        TWDR := g.ram (txDataAddr cfg g g.i2c_txIdx)
        i2c_pec := pecStep g.i2c_pec (g.ram (txDataAddr cfg g g.i2c_txIdx))
        i2c_txIdx := g.i2c_txIdx + 1
        i2c_busy := 1 } := by
  have hmod : (g.i2c_txIdx + 1) % 65536 = g.i2c_txIdx + 1 := Nat.mod_eq_of_lt (by omega)
  rw [isr_evTxAck]
  rw [show stxDataAck cfg { g with i2c_status := 0 } = _ from
    stxDataAck_data cfg { g with i2c_status := 0 } (fun e => h1 e.symm) (fun e => h2 e.symm)
      hb h4 h5]
  rw [statusUpdate_of_zero cfg _ rfl]
  show ({ g with
          i2c_status := 0
          TWDR := g.ram (txDataAddr cfg g g.i2c_txIdx)
          i2c_pec := pecStep g.i2c_pec (g.ram (txDataAddr cfg g g.i2c_txIdx))
          i2c_txIdx := (g.i2c_txIdx + 1) % 65536
          i2c_busy := 1 } : Globals) = _
  rw [hmod]

/-- The transmit-acknowledged event that loads the PEC byte. -/
theorem isr_tx_pec (cfg : Config) (g : Globals)
    (h1 : cfg.i2c_registerIndex g.i2c_command.code ≠ I2C_UNSUPPORTED)
    (h2 : (curCmd cfg g).readBytes ≠ 0)
    (hb : IS_BLOCKCMD cfg g = false)
    (h4 : g.i2c_txIdx = (curCmd cfg g).readBytes + 1) :
    (isr cfg evTxAck g).TWDR = g.i2c_pec := by
  rw [isr_evTxAck]
  rw [show stxDataAck cfg { g with i2c_status := 0 } = _ from
    stxDataAck_pec cfg { g with i2c_status := 0 } (fun e => h1 e.symm) (fun e => h2 e.symm)
      hb h4]
  rw [statusUpdate_of_zero cfg _ rfl]

/-- The read address-match, which loads the first data byte. -/
theorem isr_readAddr_data (cfg : Config) (g : Globals)
    (h1 : cfg.i2c_registerIndex g.i2c_command.code ≠ I2C_UNSUPPORTED)
    (h2 : (curCmd cfg g).readBytes ≠ 0)
    (hb : IS_BLOCKCMD cfg g = false)
    (h5 : ¬ (IS_PAGED cfg g = true ∧ 0xFF = g.ram cfg.I2C_PAGE)) :
    isr cfg evReadAddr g =
      { g with
        i2c_status := 0
        TWDR := g.ram (txDataAddr cfg g 1)
        i2c_pec := pecStep (pecStep g.i2c_pec (((g.i2c_baseAddress <<< 1) + 1) % 256))
          (g.ram (txDataAddr cfg g 1))
        i2c_txIdx := 2
        i2c_busy := 1 } := by
  rw [isr_evReadAddr]
  rw [show stxDataAck cfg (i2c_calculatePec (((g.i2c_baseAddress <<< 1) + 1) % 256)
        { g with i2c_status := 0, i2c_txIdx := 1 }) = _ from
    stxDataAck_data cfg (i2c_calculatePec (((g.i2c_baseAddress <<< 1) + 1) % 256)
        { g with i2c_status := 0, i2c_txIdx := 1 }) (fun e => h1 e.symm) (fun e => h2 e.symm)
      hb (by show 1 ≤ (curCmd cfg g).readBytes; omega) h5]
  rw [statusUpdate_of_zero cfg _ rfl]
  rfl

theorem transmitted_evTxAck (cfg : Config) (g : Globals) (evs : List BusEvent) :
    transmitted cfg g (evTxAck :: evs) =
      (isr cfg evTxAck g).TWDR :: transmitted cfg (isr cfg evTxAck g) evs := by
  rfl

theorem transmitted_evReadAddr (cfg : Config) (g : Globals) (evs : List BusEvent) :
    transmitted cfg g (evReadAddr :: evs) =
      (isr cfg evReadAddr g).TWDR :: transmitted cfg (isr cfg evReadAddr g) evs := by
  rfl

theorem transmitted_evWriteAddr (cfg : Config) (g : Globals) (evs : List BusEvent) :
    transmitted cfg g (evWriteAddr :: evs) = transmitted cfg (isr cfg evWriteAddr g) evs := by
  rfl

theorem transmitted_evData (cfg : Config) (g : Globals) (b : Nat) (evs : List BusEvent) :
    transmitted cfg g (evData b :: evs) = transmitted cfg (isr cfg (evData b) g) evs := by
  rfl

theorem transmitted_evStop (cfg : Config) (g : Globals) (evs : List BusEvent) :
    transmitted cfg g (evStop :: evs) = transmitted cfg (isr cfg evStop g) evs := by
  rfl

/-- The data bytes of a read, from transmit index `j` on: the bytes of the
command's storage at the transmit addresses `j, j+1, ...`. -/
theorem run_tx_data (cfg : Config) (m : Nat) :
    ∀ (g : Globals), 1 ≤ g.i2c_txIdx → g.i2c_txIdx + m ≤ (curCmd cfg g).readBytes + 1 →
      (curCmd cfg g).readBytes < 256 →
      cfg.i2c_registerIndex g.i2c_command.code ≠ I2C_UNSUPPORTED →
      IS_BLOCKCMD cfg g = false →
      ¬ (IS_PAGED cfg g = true ∧ 0xFF = g.ram cfg.I2C_PAGE) →
      transmitted cfg g (List.replicate m evTxAck) =
        (List.range' g.i2c_txIdx m).map (fun t => g.ram (txDataAddr cfg g t)) ∧
      (run cfg g (List.replicate m evTxAck)).i2c_pec =
        pecFold g.i2c_pec ((List.range' g.i2c_txIdx m).map (fun t => g.ram (txDataAddr cfg g t))) ∧
      (run cfg g (List.replicate m evTxAck)).i2c_txIdx = g.i2c_txIdx + m ∧
      (run cfg g (List.replicate m evTxAck)).i2c_command = g.i2c_command ∧
      (run cfg g (List.replicate m evTxAck)).i2c_registerMapIndex = g.i2c_registerMapIndex := by
  induction m with
  | zero =>
    intro g _ _ _ _ _ _
    exact ⟨rfl, rfl, rfl, rfl, rfl⟩
  | succ m ih =>
    intro g hj hm hR hsup hb hp
    have hstep := isr_tx_data cfg g hsup (by omega) hb (by omega) hR hp
    have ih' := ih (isr cfg evTxAck g) (by rw [hstep]; show 1 ≤ g.i2c_txIdx + 1; omega)
      (by rw [hstep]; show g.i2c_txIdx + 1 + m ≤ (curCmd cfg g).readBytes + 1; omega)
      (by rw [hstep]; exact hR) (by rw [hstep]; exact hsup) (by rw [hstep]; exact hb)
      (by rw [hstep]; exact hp)
    have haddr : ∀ t, (isr cfg evTxAck g).ram (txDataAddr cfg (isr cfg evTxAck g) t) =
        g.ram (txDataAddr cfg g t) := by
      intro t
      rw [hstep]
      rfl
    have htx : (isr cfg evTxAck g).i2c_txIdx = g.i2c_txIdx + 1 := by rw [hstep]
    simp only [haddr, htx] at ih'
    rw [List.replicate_succ, run_cons]
    refine ⟨?_, ?_, ?_, ?_, ?_⟩
    · rw [transmitted_evTxAck, ih'.1, List.range'_succ, List.map_cons]
      rw [hstep]
    · rw [ih'.2.1, List.range'_succ, List.map_cons, pecFold_cons, hstep]
    · rw [ih'.2.2.1]
      omega
    · rw [ih'.2.2.2.1, hstep]
    · rw [ih'.2.2.2.2, hstep]

/-! ## A read of a command without block attributes -/

/-- The globals after the write phase of a read (write address-match,
command code, repeated START) of a command without block attributes that has
a read length: nothing is committed. -/
theorem run_read_header (cfg : Config) (g0 : Globals) (c : Nat)
    (hsup : cfg.i2c_registerIndex c ≠ I2C_UNSUPPORTED)
    (hblk : (cfg.i2c_registerMap (cfg.i2c_registerIndex c)).attributes &&& I2C_BLOCK = 0)
    (hlen : (cfg.i2c_registerMap (cfg.i2c_registerIndex c)).attributes &&& cfg.I2C_LEN = 0)
    (hR : (cfg.i2c_registerMap (cfg.i2c_registerIndex c)).readBytes ≠ 0) :
    run cfg g0 [evWriteAddr, evData c, evStop] =
      { g0 with
        i2c_status := 0
        i2c_busy := 0
        i2c_state := g0.i2c_state &&& 0xFE
        i2c_command := { code := c, page := g0.ram cfg.I2C_PAGE }
        i2c_registerMapIndex := cfg.i2c_registerIndex c
        writeBytes := (cfg.i2c_registerMap (cfg.i2c_registerIndex c)).writeBytes
        i2c_pec := pecFold 0 [(g0.i2c_baseAddress <<< 1) % 256, c]
        i2c_rxIdx := 1 } := by
  have hhdr := run_header cfg c g0 hsup
  have e : run cfg g0 [evWriteAddr, evData c, evStop] =
      isr cfg evStop (run cfg g0 [evWriteAddr, evData c]) := rfl
  rw [e]
  have hsb : ¬ (0 = (curCmd cfg (run cfg g0 [evWriteAddr, evData c])).readBytes ∧
      0 = (curCmd cfg (run cfg g0 [evWriteAddr, evData c])).writeBytes) := by
    rw [hhdr]
    exact fun h => hR h.1.symm
  by_cases hw : 1 ≤ (cfg.i2c_registerMap (cfg.i2c_registerIndex c)).writeBytes
  · rw [isr_stop_short cfg _ hsb (by rw [hhdr]; exact hw), hhdr]
  · have hw0 : (cfg.i2c_registerMap (cfg.i2c_registerIndex c)).writeBytes = 0 := by omega
    rw [isr_stop_commit cfg _ (by rw [hhdr]; exact clear_error _) hsb
      (by rw [hhdr]
          show 1 > (cfg.i2c_registerMap (cfg.i2c_registerIndex c)).writeBytes
          omega), hhdr]
    rw [commit_nonblock cfg _ (by simp [IS_BLOCKCMD, curCmd, hblk])
      (by simp [IS_LBLOCK, curCmd, hlen])]
    simp only [hw0]
    rfl

/-- The bytes transmitted by a read of `m + 1 <= readBytes` bytes: the bytes
of the command's storage at the transmit addresses `1 .. m+1`; and the checksum
accumulated afterwards. -/
theorem transmitted_read_data (cfg : Config) (g0 : Globals) (c m : Nat)
    (hsup : cfg.i2c_registerIndex c ≠ I2C_UNSUPPORTED)
    (hblk : (cfg.i2c_registerMap (cfg.i2c_registerIndex c)).attributes &&& I2C_BLOCK = 0)
    (hlen : (cfg.i2c_registerMap (cfg.i2c_registerIndex c)).attributes &&& cfg.I2C_LEN = 0)
    (hm : m + 1 ≤ (cfg.i2c_registerMap (cfg.i2c_registerIndex c)).readBytes)
    (hR' : (cfg.i2c_registerMap (cfg.i2c_registerIndex c)).readBytes < 256)
    (hp : ¬ ((cfg.I2C_ENABLE_PAGE &&
      ((cfg.i2c_registerMap (cfg.i2c_registerIndex c)).attributes &&& I2C_PAGED != 0)) = true ∧
      0xFF = g0.ram cfg.I2C_PAGE)) :
    transmitted cfg g0 (readTxn c m) =
      (List.range' 1 (m + 1)).map (fun t => g0.ram
        (txDataAddr cfg { g0 with i2c_registerMapIndex := cfg.i2c_registerIndex c } t))
    ∧ (run cfg g0 (readTxn c m)).i2c_pec =
      pecFold 0 ([(g0.i2c_baseAddress <<< 1) % 256, c, ((g0.i2c_baseAddress <<< 1) + 1) % 256]
        ++ (List.range' 1 (m + 1)).map (fun t => g0.ram
          (txDataAddr cfg { g0 with i2c_registerMapIndex := cfg.i2c_registerIndex c } t)))
    ∧ (run cfg g0 (readTxn c m)).i2c_txIdx = m + 2
    ∧ (run cfg g0 (readTxn c m)).i2c_command.code = c
    ∧ (run cfg g0 (readTxn c m)).i2c_registerMapIndex = cfg.i2c_registerIndex c := by
  have hR : (cfg.i2c_registerMap (cfg.i2c_registerIndex c)).readBytes ≠ 0 := by omega
  have hh := run_read_header cfg g0 c hsup hblk hlen hR
  have hra := isr_readAddr_data cfg (run cfg g0 [evWriteAddr, evData c, evStop])
    (by rw [hh]; exact hsup) (by rw [hh]; exact hR)
    (by rw [hh]; simp [IS_BLOCKCMD, curCmd, hblk]) (by rw [hh]; exact hp)
  have hq : run cfg g0 [evWriteAddr, evData c, evStop, evReadAddr] =
      isr cfg evReadAddr (run cfg g0 [evWriteAddr, evData c, evStop]) := rfl
  have htx := run_tx_data cfg m (run cfg g0 [evWriteAddr, evData c, evStop, evReadAddr])
    (by rw [hq, hra]; show 1 ≤ 2; omega)
    (by rw [hq, hra, hh]
        show 2 + m ≤ (cfg.i2c_registerMap (cfg.i2c_registerIndex c)).readBytes + 1
        omega)
    (by rw [hq, hra, hh]; exact hR')
    (by rw [hq, hra, hh]; exact hsup)
    (by rw [hq, hra, hh]; simp [IS_BLOCKCMD, curCmd, hblk])
    (by rw [hq, hra, hh]; exact hp)
  have haddr : ∀ t, (run cfg g0 [evWriteAddr, evData c, evStop, evReadAddr]).ram
      (txDataAddr cfg (run cfg g0 [evWriteAddr, evData c, evStop, evReadAddr]) t) =
      g0.ram (txDataAddr cfg { g0 with i2c_registerMapIndex := cfg.i2c_registerIndex c } t) := by
    intro t
    rw [hq, hra, hh]
    rfl
  have hidx : (run cfg g0 [evWriteAddr, evData c, evStop, evReadAddr]).i2c_txIdx = 2 := by
    rw [hq, hra]
  simp only [haddr, hidx] at htx
  have hsplit : readTxn c m =
      [evWriteAddr, evData c, evStop, evReadAddr] ++ List.replicate m evTxAck := rfl
  have hfirst : transmitted cfg g0 [evWriteAddr, evData c, evStop, evReadAddr] =
      [g0.ram (txDataAddr cfg { g0 with i2c_registerMapIndex := cfg.i2c_registerIndex c } 1)] := by
    rw [transmitted_evWriteAddr, transmitted_evData, transmitted_evStop, transmitted_evReadAddr]
    show [(isr cfg evReadAddr (run cfg g0 [evWriteAddr, evData c, evStop])).TWDR] = _
    rw [hra, hh]
    rfl
  refine ⟨?_, ?_, ?_, ?_, ?_⟩
  · rw [hsplit, transmitted_append, hfirst, htx.1, List.range'_succ, List.map_cons]
    rfl
  · rw [hsplit, run_append, htx.2.1, hq, hra, hh, List.range'_succ, List.map_cons]
    rfl
  · rw [hsplit, run_append, htx.2.2.1]
    omega
  · rw [hsplit, run_append, htx.2.2.2.1, hq, hra, hh]
  · rw [hsplit, run_append, htx.2.2.2.2, hq, hra, hh]

theorem readTxn_succ (c m : Nat) : readTxn c (m + 1) = readTxn c m ++ [evTxAck] := by
  unfold readTxn
  rw [List.replicate_succ', List.append_assoc]

/-- The bytes transmitted by a complete read with PEC: the `readBytes` data
bytes, then the checksum over the write address byte, the command code, the
read address byte and the data bytes. -/
theorem transmitted_read_all (cfg : Config) (g0 : Globals) (c : Nat)
    (hsup : cfg.i2c_registerIndex c ≠ I2C_UNSUPPORTED)
    (hblk : (cfg.i2c_registerMap (cfg.i2c_registerIndex c)).attributes &&& I2C_BLOCK = 0)
    (hlen : (cfg.i2c_registerMap (cfg.i2c_registerIndex c)).attributes &&& cfg.I2C_LEN = 0)
    (hR : 1 ≤ (cfg.i2c_registerMap (cfg.i2c_registerIndex c)).readBytes)
    (hR' : (cfg.i2c_registerMap (cfg.i2c_registerIndex c)).readBytes < 256)
    (hp : ¬ ((cfg.I2C_ENABLE_PAGE &&
      ((cfg.i2c_registerMap (cfg.i2c_registerIndex c)).attributes &&& I2C_PAGED != 0)) = true ∧
      0xFF = g0.ram cfg.I2C_PAGE)) :
    transmitted cfg g0 (readTxn c (cfg.i2c_registerMap (cfg.i2c_registerIndex c)).readBytes) =
      (List.range' 1 (cfg.i2c_registerMap (cfg.i2c_registerIndex c)).readBytes).map
        (fun t => g0.ram
          (txDataAddr cfg { g0 with i2c_registerMapIndex := cfg.i2c_registerIndex c } t))
      ++ [pecFold 0
        ([(g0.i2c_baseAddress <<< 1) % 256, c, ((g0.i2c_baseAddress <<< 1) + 1) % 256]
          ++ (List.range' 1 (cfg.i2c_registerMap (cfg.i2c_registerIndex c)).readBytes).map
            (fun t => g0.ram
              (txDataAddr cfg { g0 with i2c_registerMapIndex := cfg.i2c_registerIndex c } t)))] := by
  obtain ⟨m, hm⟩ : ∃ m, (cfg.i2c_registerMap (cfg.i2c_registerIndex c)).readBytes = m + 1 :=
    ⟨(cfg.i2c_registerMap (cfg.i2c_registerIndex c)).readBytes - 1, by omega⟩
  have hd := transmitted_read_data cfg g0 c m hsup hblk hlen (by omega) hR' hp
  have hpec := isr_tx_pec cfg (run cfg g0 (readTxn c m))
    (by rw [hd.2.2.2.1]; exact hsup)
    (by unfold curCmd; rw [hd.2.2.2.2]; omega)
    (by unfold IS_BLOCKCMD curCmd; rw [hd.2.2.2.2]; simp [hblk])
    (by unfold curCmd; rw [hd.2.2.2.2, hd.2.2.1]; omega)
  rw [hm, readTxn_succ, transmitted_append, hd.1, transmitted_evTxAck, hpec, hd.2.1]
  rfl

/-- C7: for a command without block attributes, with read length
`R >= 1` (bytes), unpaged or with a page register other than 0xFF, RAM holding
bytes: a read through write address-match, command code `c`, repeated START,
read address-match and `R` transmit-acknowledged events transmits `R + 1`
bytes, and the last of them is the CRC-8 (polynomial 0x07) of the bytes
`addr<<1, c, (addr<<1)+1` followed by the `R` data bytes just transmitted. -/
theorem read_pec_byte (cfg : Config) (g0 : Globals) (c : Nat)
    (hsup : cfg.i2c_registerIndex c ≠ I2C_UNSUPPORTED)
    (hblk : (cfg.i2c_registerMap (cfg.i2c_registerIndex c)).attributes &&& I2C_BLOCK = 0)
    (hlen : (cfg.i2c_registerMap (cfg.i2c_registerIndex c)).attributes &&& cfg.I2C_LEN = 0)
    (hR : 1 ≤ (cfg.i2c_registerMap (cfg.i2c_registerIndex c)).readBytes)
    (hR' : (cfg.i2c_registerMap (cfg.i2c_registerIndex c)).readBytes < 256)
    (hp : (cfg.I2C_ENABLE_PAGE &&
      ((cfg.i2c_registerMap (cfg.i2c_registerIndex c)).attributes &&& I2C_PAGED != 0)) = true →
      g0.ram cfg.I2C_PAGE ≠ 0xFF)
    (hc : c < 256) (hram : ∀ a, g0.ram a < 256) :
    (transmitted cfg g0
        (readTxn c (cfg.i2c_registerMap (cfg.i2c_registerIndex c)).readBytes)).length
      = (cfg.i2c_registerMap (cfg.i2c_registerIndex c)).readBytes + 1
    ∧ (transmitted cfg g0
        (readTxn c (cfg.i2c_registerMap (cfg.i2c_registerIndex c)).readBytes)).getD
        (cfg.i2c_registerMap (cfg.i2c_registerIndex c)).readBytes 0
      = crc8Ref
        ([(g0.i2c_baseAddress <<< 1) % 256, c, ((g0.i2c_baseAddress <<< 1) + 1) % 256]
          ++ (transmitted cfg g0
            (readTxn c (cfg.i2c_registerMap (cfg.i2c_registerIndex c)).readBytes)).take
            (cfg.i2c_registerMap (cfg.i2c_registerIndex c)).readBytes) := by
  have hall := transmitted_read_all cfg g0 c hsup hblk hlen hR hR'
    (fun h => hp h.1 h.2.symm)
  rw [hall]
  have hl : ((List.range' 1 (cfg.i2c_registerMap (cfg.i2c_registerIndex c)).readBytes).map
      (fun t => g0.ram
        (txDataAddr cfg { g0 with i2c_registerMapIndex := cfg.i2c_registerIndex c } t))).length
      = (cfg.i2c_registerMap (cfg.i2c_registerIndex c)).readBytes := by
    simp
  refine ⟨by simp, ?_⟩
  rw [List.getD_eq_getElem?_getD, List.getElem?_append_right (by rw [hl]), hl,
    List.take_left' hl]
  simp only [Nat.sub_self, List.getElem?_cons_zero, Option.getD_some]
  unfold crc8Ref
  apply pecFold_eq_ref _ 0 (by decide)
  intro b hb
  simp only [List.mem_append, List.mem_cons, List.mem_map, List.mem_singleton,
    List.not_mem_nil, or_false] at hb
  rcases hb with (h | h | h) | ⟨t, _, h⟩
  · rw [h]; exact Nat.mod_lt _ (by decide)
  · rw [h]; exact hc
  · rw [h]; exact Nat.mod_lt _ (by decide)
  · rw [← h]; exact hram _

set_option maxRecDepth 100000 in
/-- C7 at a read of the two-byte command 0x10 of `demoCfg`. -/
theorem read_pec_byte_witness :
    (transmitted demoCfg demoInit
        (readTxn 0x10 (demoCfg.i2c_registerMap (demoCfg.i2c_registerIndex 0x10)).readBytes)).length
      = (demoCfg.i2c_registerMap (demoCfg.i2c_registerIndex 0x10)).readBytes + 1
    ∧ (transmitted demoCfg demoInit
        (readTxn 0x10 (demoCfg.i2c_registerMap (demoCfg.i2c_registerIndex 0x10)).readBytes)).getD
        (demoCfg.i2c_registerMap (demoCfg.i2c_registerIndex 0x10)).readBytes 0
      = crc8Ref
        ([(demoInit.i2c_baseAddress <<< 1) % 256, 0x10,
            ((demoInit.i2c_baseAddress <<< 1) + 1) % 256]
          ++ (transmitted demoCfg demoInit
            (readTxn 0x10
              (demoCfg.i2c_registerMap (demoCfg.i2c_registerIndex 0x10)).readBytes)).take
            (demoCfg.i2c_registerMap (demoCfg.i2c_registerIndex 0x10)).readBytes) :=
  read_pec_byte demoCfg demoInit 0x10 (by decide) (by decide) (by decide) (by decide)
    (by decide) (by decide) (by decide)
    (by intro a; unfold demoInit i2c_slave_init startup demoCfg; dsimp only
        unfold Function.update; split <;> simp)

/-! ## Write-then-read round trip -/

theorem readTxn_add (c m k : Nat) :
    readTxn c (m + k) = readTxn c m ++ List.replicate k evTxAck := by
  unfold readTxn
  rw [List.replicate_add, List.append_assoc]

/-- The transmit address of data byte `t` of a command without the length
attribute whose read length equals its write length, when the page offset is
not doubled: the address the commit writes payload byte `t - 1` to. -/
theorem txDataAddr_eq_commit (cfg : Config) (g : Globals) (page t : Nat)
    (hlen : (cfg.i2c_registerMap g.i2c_registerMapIndex).attributes &&& cfg.I2C_LEN = 0)
    (hRW : (cfg.i2c_registerMap g.i2c_registerMapIndex).readBytes =
      (cfg.i2c_registerMap g.i2c_registerMapIndex).writeBytes)
    (hpage : (cfg.I2C_ENABLE_PAGE &&
      ((cfg.i2c_registerMap g.i2c_registerMapIndex).attributes &&& I2C_PAGED != 0)) = true →
      g.ram cfg.I2C_PAGE = page)
    (hskip : (cfg.I2C_ENABLE_PAGE &&
      ((cfg.i2c_registerMap g.i2c_registerMapIndex).attributes &&& I2C_PAGED != 0)) = true →
      (cfg.i2c_registerMap g.i2c_registerMapIndex).attributes &&& cfg.I2C_SKIP_BYTE ≠ 0 →
      page = 0) :
    txDataAddr cfg g t =
      (cfg.i2c_registerMap g.i2c_registerMapIndex).ramAddr +
        (if (cfg.I2C_ENABLE_PAGE &&
            ((cfg.i2c_registerMap g.i2c_registerMapIndex).attributes &&& I2C_PAGED != 0)) = true
         then (page * (cfg.i2c_registerMap g.i2c_registerMapIndex).writeBytes) % 65536
         else 0) + t - 1 := by
  unfold txDataAddr pageOffsetRead lenByte IS_LBLOCK IS_PAGED curCmd
  simp only [hlen, bne_self_eq_false, Bool.false_eq_true, if_false, Nat.add_zero]
  cases hpg : (cfg.I2C_ENABLE_PAGE &&
      ((cfg.i2c_registerMap g.i2c_registerMapIndex).attributes &&& I2C_PAGED != 0))
  · simp
  · simp only [if_true]
    rw [hpage hpg, hRW]
    by_cases hs : (cfg.i2c_registerMap g.i2c_registerMapIndex).attributes &&& cfg.I2C_SKIP_BYTE ≠ 0
    · rw [if_pos hs, hskip hpg hs]
      simp
    · rw [if_neg hs]

set_option maxRecDepth 100000 in
/-- C6 as stated fails for a paged command with the `I2C_SKIP_BYTE`
attribute: command 0x20 of `demoCfg` (paged, skip-byte, read length = write
length = 1, no block attribute) with the legal page 1 selected.  A write of
`0xAA` with correct PEC raises no fault, leaves the page register at 1 and
stores `0xAA` at offset 1 of the storage (page 1 of one byte); the read that
follows transmits the byte at offset 2 (the page offset doubled), which is
`0x00`, not `0xAA`. -/
theorem roundtrip_skip_byte_counterexample :
    (demoCfg.i2c_registerMap (demoCfg.i2c_registerIndex 0x20)).attributes &&& I2C_BLOCK = 0
    ∧ (demoCfg.i2c_registerMap (demoCfg.i2c_registerIndex 0x20)).readBytes = 1
    ∧ (demoCfg.i2c_registerMap (demoCfg.i2c_registerIndex 0x20)).writeBytes = 1
    ∧ demoInitPage1.ram demoCfg.I2C_PAGE = 1 ∧ 1 < demoCfg.I2C_NUMPAGES
    ∧ raised demoCfg demoInitPage1 (writeTxn demoInitPage1.i2c_baseAddress 0x20 [0xAA]) = 0
    ∧ (run demoCfg demoInitPage1
        (writeTxn demoInitPage1.i2c_baseAddress 0x20 [0xAA])).ram demoCfg.I2C_PAGE = 1
    ∧ (run demoCfg demoInitPage1
        (writeTxn demoInitPage1.i2c_baseAddress 0x20 [0xAA])).ram 0x21 = 0xAA
    ∧ (transmitted demoCfg
        (run demoCfg demoInitPage1 (writeTxn demoInitPage1.i2c_baseAddress 0x20 [0xAA]))
        (readTxn 0x20 0)).take 1 = [0x00]
    ∧ (transmitted demoCfg
        (run demoCfg demoInitPage1 (writeTxn demoInitPage1.i2c_baseAddress 0x20 [0xAA]))
        (readTxn 0x20 0)).take 1 ≠ [0xAA] := by
  decide

/-- C6, amended: for a command without block attributes, with read length =
write length = `n >= 1`, that is unpaged, or paged with a page register that
is not 0xFF, is left unchanged by the write and, when the command has the
`I2C_SKIP_BYTE` attribute (which doubles the page offset on the transmit path
only), is 0: after a write with PEC of the payload `bs`, a read of the same
command (write address-match, command code, repeated START, read
address-match, then `m >= n - 1` transmit-acknowledged events) transmits `bs`
in order as its first `n` bytes. -/
theorem write_read_roundtrip (cfg : Config) (g0 : Globals) (c m : Nat) (bs : List Nat)
    (hsup : cfg.i2c_registerIndex c ≠ I2C_UNSUPPORTED)
    (hblk : (cfg.i2c_registerMap (cfg.i2c_registerIndex c)).attributes &&& I2C_BLOCK = 0)
    (hlen : (cfg.i2c_registerMap (cfg.i2c_registerIndex c)).attributes &&& cfg.I2C_LEN = 0)
    (hRW : (cfg.i2c_registerMap (cfg.i2c_registerIndex c)).readBytes =
      (cfg.i2c_registerMap (cfg.i2c_registerIndex c)).writeBytes)
    (hW : 1 ≤ (cfg.i2c_registerMap (cfg.i2c_registerIndex c)).writeBytes)
    (hW' : (cfg.i2c_registerMap (cfg.i2c_registerIndex c)).writeBytes < 256)
    (hbs : bs.length = (cfg.i2c_registerMap (cfg.i2c_registerIndex c)).writeBytes)
    (hpage : (cfg.i2c_registerMap (cfg.i2c_registerIndex c)).cmdCode = 0 →
      ∀ x ∈ bs, x < cfg.I2C_NUMPAGES ∨ x = 0xFF)
    (hlegal : (cfg.I2C_ENABLE_PAGE &&
      ((cfg.i2c_registerMap (cfg.i2c_registerIndex c)).attributes &&& I2C_PAGED != 0)) = true →
      g0.ram cfg.I2C_PAGE ≠ 0xFF)
    (hkeep : (cfg.I2C_ENABLE_PAGE &&
      ((cfg.i2c_registerMap (cfg.i2c_registerIndex c)).attributes &&& I2C_PAGED != 0)) = true →
      (run cfg g0 (writeTxn g0.i2c_baseAddress c bs)).ram cfg.I2C_PAGE = g0.ram cfg.I2C_PAGE)
    (hskip : (cfg.I2C_ENABLE_PAGE &&
      ((cfg.i2c_registerMap (cfg.i2c_registerIndex c)).attributes &&& I2C_PAGED != 0)) = true →
      (cfg.i2c_registerMap (cfg.i2c_registerIndex c)).attributes &&& cfg.I2C_SKIP_BYTE ≠ 0 →
      g0.ram cfg.I2C_PAGE = 0)
    (hm : (cfg.i2c_registerMap (cfg.i2c_registerIndex c)).writeBytes ≤ m + 1) :
    (transmitted cfg (run cfg g0 (writeTxn g0.i2c_baseAddress c bs)) (readTxn c m)).take
      (cfg.i2c_registerMap (cfg.i2c_registerIndex c)).writeBytes = bs := by
  have hw := run_writeTxn cfg g0 c bs hsup hblk hlen hW hW' hbs
    (by
      intro x hx hbad
      rcases hpage hbad.1.symm x hx with h | h <;> omega)
    (fun h => hlegal h.1 h.2.symm)
  obtain ⟨n, hn⟩ : ∃ n, (cfg.i2c_registerMap (cfg.i2c_registerIndex c)).writeBytes = n + 1 :=
    ⟨(cfg.i2c_registerMap (cfg.i2c_registerIndex c)).writeBytes - 1, by omega⟩
  obtain ⟨k, hk⟩ : ∃ k, m = n + k := ⟨m - n, by omega⟩
  have hrd := transmitted_read_data cfg (run cfg g0 (writeTxn g0.i2c_baseAddress c bs)) c n
    hsup hblk hlen (by omega) (by omega)
    (fun h => hlegal h.1 (by rw [← hkeep h.1]; exact h.2.symm))
  -- the bytes read are the bytes committed
  have hbytes : (List.range' 1 (n + 1)).map (fun t =>
      (run cfg g0 (writeTxn g0.i2c_baseAddress c bs)).ram
        (txDataAddr cfg { run cfg g0 (writeTxn g0.i2c_baseAddress c bs) with
          i2c_registerMapIndex := cfg.i2c_registerIndex c } t)) = bs := by
    apply List.ext_getElem
    · simp [hbs, hn]
    · intro i h1 h2
      rw [List.getElem_map, List.getElem_range']
      rw [txDataAddr_eq_commit cfg _ (g0.ram cfg.I2C_PAGE) (1 + 1 * i) hlen hRW hkeep hskip]
      rw [hw.1]
      show commitLoop _ _ _ _ _ = _
      have hi : i < (cfg.i2c_registerMap (cfg.i2c_registerIndex c)).writeBytes := by
        rw [← hbs]; exact h2
      rw [show ∀ b, b + (1 + 1 * i) - 1 = b + i from fun b => by omega,
        commitLoop_get _ _ _ _ _ hi]
      simpa using stageBytes_get bs 0 g0.i2c_buffer i h2
  rw [hk, readTxn_add, transmitted_append, hrd.1, hbytes, hn, ← hbs.trans hn]
  exact List.take_left' rfl

set_option maxRecDepth 100000 in
/-- C6, amended, at a write of `0xAA, 0xBB` to the paged two-byte command
0x40 of `demoCfg` with page 1 selected, read back with PEC. -/
theorem write_read_roundtrip_witness :
    (transmitted demoCfg
      (run demoCfg demoInitPage1 (writeTxn demoInitPage1.i2c_baseAddress 0x40 [0xAA, 0xBB]))
      (readTxn 0x40 2)).take
      (demoCfg.i2c_registerMap (demoCfg.i2c_registerIndex 0x40)).writeBytes = [0xAA, 0xBB] :=
  write_read_roundtrip demoCfg demoInitPage1 0x40 2 [0xAA, 0xBB] (by decide) (by decide)
    (by decide) (by decide) (by decide) (by decide) (by decide) (by decide) (by decide)
    (by decide) (by decide) (by decide)

/-! ## The deferred-command queue -/

/-- C8, the code at a failing input: with capacity 3, three pushes and a pop
leave two entries pending, yet the second pop fails (returns 0), where the
bounded FIFO of capacity 3 returns the second entry pushed. -/
theorem queue_pop_fails_on_pending :
    (queueCalls (queueCfg 3)
      [.push ⟨1, 0⟩, .push ⟨2, 0⟩, .push ⟨3, 0⟩, .pop, .pop] (queueInit 3)).1
      = [(1, none), (1, none), (1, none), (1, some ⟨1, 0⟩), (0, none)]
    ∧ (fifoCalls 3 [.push ⟨1, 0⟩, .push ⟨2, 0⟩, .push ⟨3, 0⟩, .pop, .pop] []).1
      = [(1, none), (1, none), (1, none), (1, some ⟨1, 0⟩), (1, some ⟨2, 0⟩)] := by
  decide

/-- C9, the code at a failing input: with capacity 3, after three pushes and
one pop two entries are pending (head 0, tail 1, not full), and
`i2cCmdQueueDepth` returns `(uint8_t)(0 - 1) % 3 = 255 % 3 = 0`. -/
theorem queue_depth_wrong_occupancy :
    pendingAfter (queueCfg 3) [.push ⟨1, 0⟩, .push ⟨2, 0⟩, .push ⟨3, 0⟩, .pop] (queueInit 3) []
      = [⟨2, 0⟩, ⟨3, 0⟩]
    ∧ (queueCalls (queueCfg 3)
        [.push ⟨1, 0⟩, .push ⟨2, 0⟩, .push ⟨3, 0⟩, .pop] (queueInit 3)).2.cmdQueueHead = 0
    ∧ (queueCalls (queueCfg 3)
        [.push ⟨1, 0⟩, .push ⟨2, 0⟩, .push ⟨3, 0⟩, .pop] (queueInit 3)).2.cmdQueueTail = 1
    ∧ i2cCmdQueueDepth (queueCfg 3)
        (queueCalls (queueCfg 3)
          [.push ⟨1, 0⟩, .push ⟨2, 0⟩, .push ⟨3, 0⟩, .pop] (queueInit 3)).2 = 0 := by
  decide

set_option maxRecDepth 100000 in
/-- C10 as stated fails for a capacity above 256: with capacity 300 the 8-bit
head index wraps to 0 after 256 pushes, the queue is flagged full, and the
257th of the 300 pushes returns failure. -/
theorem push_fails_before_capacity_counterexample :
    (queueCalls (queueCfg 300) ((List.replicate 300 (⟨1, 0⟩ : CmdBuffer)).map QueueCall.push)
      (queueInit 300)).1 ≠ List.replicate 300 (1, none)
    ∧ (queueCalls (queueCfg 300) ((List.replicate 257 (⟨1, 0⟩ : CmdBuffer)).map QueueCall.push)
      (queueInit 300)).1 = List.replicate 256 (1, none) ++ [(0, none)] := by
  decide

/-- Pushes onto a queue that is not full and whose tail is 0, as long as the
head stays within the capacity. -/
theorem pushes_from_empty (cfg : Config) (hN : cfg.I2C_CMD_BUFFER_SIZE ≤ 256)
    (es : List CmdBuffer) :
    ∀ (g : Globals), g.cmdQueueFull = 0 → g.cmdQueueTail = 0 →
      g.cmdQueueHead + es.length ≤ cfg.I2C_CMD_BUFFER_SIZE →
      (queueCalls cfg (es.map QueueCall.push) g).1 = List.replicate es.length (1, none) ∧
      (0 < es.length → g.cmdQueueHead + es.length = cfg.I2C_CMD_BUFFER_SIZE →
        (queueCalls cfg (es.map QueueCall.push) g).2.cmdQueueFull ≠ 0) := by
  induction es with
  | nil =>
    intro g _ _ _
    exact ⟨rfl, fun h => absurd h (by simp)⟩
  | cons e es ih =>
    intro g hfull htail hlen
    have hlen' : g.cmdQueueHead + (es.length + 1) ≤ cfg.I2C_CMD_BUFFER_SIZE := by
      simpa using hlen
    have hpush : i2cCmdQueuePush cfg e g =
        (1, { g with
          cmdQueue := Function.update g.cmdQueue g.cmdQueueHead { code := e.code, page := e.page }
          cmdQueueHead := if (g.cmdQueueHead + 1) % 256 ≥ cfg.I2C_CMD_BUFFER_SIZE then 0
            else (g.cmdQueueHead + 1) % 256
          cmdQueueFull :=
            if (if (g.cmdQueueHead + 1) % 256 ≥ cfg.I2C_CMD_BUFFER_SIZE then 0
              else (g.cmdQueueHead + 1) % 256) = g.cmdQueueTail then 1 else g.cmdQueueFull }) := by
      unfold i2cCmdQueuePush
      rw [if_neg (by rw [hfull]; simp)]
    simp only [List.map_cons, queueCalls, queueCall, hpush, List.length_cons,
      List.replicate_succ]
    by_cases hlast : g.cmdQueueHead + 1 = cfg.I2C_CMD_BUFFER_SIZE
    · -- the push that fills the queue
      have hes : es.length = 0 := by omega
      have hnil : es = [] := List.length_eq_zero.mp hes
      subst hnil
      have hwrap : (if (g.cmdQueueHead + 1) % 256 ≥ cfg.I2C_CMD_BUFFER_SIZE then 0
          else (g.cmdQueueHead + 1) % 256) = 0 := by
        split_ifs with h
        · rfl
        · omega
      simp only [List.map_nil, queueCalls, List.length_nil, List.replicate_zero, hwrap, htail,
        if_true, true_and]
      intro _ _
      exact Nat.one_ne_zero
    · have hstep : (if (g.cmdQueueHead + 1) % 256 ≥ cfg.I2C_CMD_BUFFER_SIZE then 0
          else (g.cmdQueueHead + 1) % 256) = g.cmdQueueHead + 1 := by
        split_ifs with h
        · omega
        · omega
      have hnf : (if g.cmdQueueHead + 1 = g.cmdQueueTail then 1 else g.cmdQueueFull) = 0 := by
        rw [htail, hfull]
        simp
      have ih' := ih { g with
          cmdQueue := Function.update g.cmdQueue g.cmdQueueHead { code := e.code, page := e.page }
          cmdQueueHead := g.cmdQueueHead + 1
          cmdQueueFull := 0 } rfl htail (by show g.cmdQueueHead + 1 + es.length ≤ _; omega)
      simp only [hstep, hnf]
      refine ⟨by rw [ih'.1], ?_⟩
      intro _ hfill
      exact ih'.2 (by omega) (by show g.cmdQueueHead + 1 + es.length = _; omega)

/-- C10, amended: for every capacity `N` with `1 <= N <= 256` (the range of
the 8-bit head index), starting from the initialised queue, `N` consecutive
calls of `i2cCmdQueuePush` each return success, and a further push returns
failure and leaves the globals (head, tail, full flag, every stored entry) as
they are. -/
theorem push_until_full (cfg : Config) (g : Globals) (addr allCall : Nat)
    (es : List CmdBuffer) (e : CmdBuffer)
    (hN1 : 1 ≤ cfg.I2C_CMD_BUFFER_SIZE) (hN2 : cfg.I2C_CMD_BUFFER_SIZE ≤ 256)
    (hes : es.length = cfg.I2C_CMD_BUFFER_SIZE) :
    (queueCalls cfg (es.map QueueCall.push) (i2c_slave_init cfg addr allCall g)).1
      = List.replicate cfg.I2C_CMD_BUFFER_SIZE (1, none)
    ∧ i2cCmdQueuePush cfg e
        (queueCalls cfg (es.map QueueCall.push) (i2c_slave_init cfg addr allCall g)).2
      = (0, (queueCalls cfg (es.map QueueCall.push) (i2c_slave_init cfg addr allCall g)).2) := by
  have h := pushes_from_empty cfg hN2 es (i2c_slave_init cfg addr allCall g) rfl rfl
    (by show 0 + es.length ≤ _; omega)
  refine ⟨by rw [h.1, hes], ?_⟩
  have hfull := h.2 (by omega) (by show 0 + es.length = _; omega)
  unfold i2cCmdQueuePush
  rw [if_pos hfull]

/-- C10, amended, at capacity 4 with four entries and a fifth. -/
theorem push_until_full_witness :
    (queueCalls (queueCfg 4)
        ([⟨1, 0⟩, ⟨2, 0⟩, ⟨3, 0⟩, ⟨4, 0⟩].map QueueCall.push)
        (i2c_slave_init (queueCfg 4) 0x20 0 (startup (fun _ => 0)))).1
      = List.replicate (queueCfg 4).I2C_CMD_BUFFER_SIZE (1, none)
    ∧ i2cCmdQueuePush (queueCfg 4) ⟨5, 0⟩
        (queueCalls (queueCfg 4) ([⟨1, 0⟩, ⟨2, 0⟩, ⟨3, 0⟩, ⟨4, 0⟩].map QueueCall.push)
          (i2c_slave_init (queueCfg 4) 0x20 0 (startup (fun _ => 0)))).2
      = (0, (queueCalls (queueCfg 4) ([⟨1, 0⟩, ⟨2, 0⟩, ⟨3, 0⟩, ⟨4, 0⟩].map QueueCall.push)
          (i2c_slave_init (queueCfg 4) 0x20 0 (startup (fun _ => 0)))).2) :=
  push_until_full (queueCfg 4) (startup (fun _ => 0)) 0x20 0
    [⟨1, 0⟩, ⟨2, 0⟩, ⟨3, 0⟩, ⟨4, 0⟩] ⟨5, 0⟩ (by decide) (by decide) (by decide)

/-! ## Popping the empty queue -/

/-- C11: for every state of the queue that is empty (head equal to tail,
full flag clear), `i2cCmdQueuePop` returns failure and leaves the globals
(head, tail, full flag, stored entries) and the caller's entry as they
are. -/
theorem pop_empty_fails (cfg : Config) (data : CmdBuffer) (g : Globals)
    (hempty : g.cmdQueueHead = g.cmdQueueTail) (hfull : g.cmdQueueFull = 0) :
    i2cCmdQueuePop cfg data g = (0, data, g) := by
  have hd : i2cCmdQueueDepth cfg g = 0 := by
    unfold i2cCmdQueueDepth
    rw [if_neg (by rw [hfull]; simp), hempty]
    have : (g.cmdQueueTail + 256 - g.cmdQueueTail) % 256 = 0 := by omega
    rw [this, Nat.zero_mod]
  unfold i2cCmdQueuePop
  rw [if_pos hd]

/-- C11 at the initialised queue of capacity 4 and at an emptied queue whose
head and tail are 1. -/
theorem pop_empty_fails_witness :
    i2cCmdQueuePop (queueCfg 4) ⟨7, 7⟩ (queueInit 4) = (0, ⟨7, 7⟩, queueInit 4)
    ∧ i2cCmdQueuePop (queueCfg 4) ⟨7, 7⟩
        (queueCalls (queueCfg 4) [.push ⟨1, 0⟩, .pop] (queueInit 4)).2
      = (0, ⟨7, 7⟩, (queueCalls (queueCfg 4) [.push ⟨1, 0⟩, .pop] (queueInit 4)).2) :=
  ⟨pop_empty_fails (queueCfg 4) ⟨7, 7⟩ (queueInit 4) (by decide) (by decide),
   pop_empty_fails (queueCfg 4) ⟨7, 7⟩
     (queueCalls (queueCfg 4) [.push ⟨1, 0⟩, .pop] (queueInit 4)).2 (by decide) (by decide)⟩

/-! ## Commands that are not in the table -/

/-- The command-code byte of an unsupported command. -/
theorem isr_cmd_unsupported (cfg : Config) (c : Nat) (g : Globals)
    (hrx : g.i2c_rxIdx = 0) (hun : cfg.i2c_registerIndex c = I2C_UNSUPPORTED) :
    isr cfg (evData c) g =
      { g with
        i2c_status := STATUS_CML_CMD_FAULT
        i2c_command := { code := c, page := g.ram cfg.I2C_PAGE }
        ram := Function.update g.ram cfg.I2C_STATUS_CML
          (g.ram cfg.I2C_STATUS_CML ||| STATUS_CML_CMD_FAULT)
        i2c_state := g.i2c_state ||| I2C_STATE_ERROR
        i2c_rxIdx := 1 } := by
  rw [isr_evData]
  simp [srxDataAck, hrx, hun, statusUpdate, setStatus, STATUS_CML_CMD_FAULT]

/-- The globals after the write address-match and the command code of an
unsupported command. -/
theorem run_header_unsupported (cfg : Config) (c : Nat) (g : Globals)
    (hun : cfg.i2c_registerIndex c = I2C_UNSUPPORTED) :
    run cfg g [evWriteAddr, evData c] =
      { g with
        i2c_status := STATUS_CML_CMD_FAULT
        i2c_pec := pecStep 0 ((g.i2c_baseAddress <<< 1) % 256)
        i2c_command := { code := c, page := g.ram cfg.I2C_PAGE }
        ram := Function.update g.ram cfg.I2C_STATUS_CML
          (g.ram cfg.I2C_STATUS_CML ||| STATUS_CML_CMD_FAULT)
        i2c_state := (g.i2c_state &&& 0xFE) ||| I2C_STATE_ERROR
        i2c_rxIdx := 1 } := by
  rw [run_cons, run_cons, run_nil, isr_evWriteAddr, isr_cmd_unsupported cfg c _ rfl hun]

/-- Body of the transmit case for an unsupported command. -/
theorem stxDataAck_unsupported (cfg : Config) (g : Globals)
    (hun : I2C_UNSUPPORTED = cfg.i2c_registerIndex g.i2c_command.code) :
    stxDataAck cfg g =
      { g with TWDR := 0xFF, i2c_txIdx := (g.i2c_txIdx + 1) % 65536, i2c_busy := 1 } := by
  unfold stxDataAck
  dsimp only
  rw [if_pos hun]

/-- A read address-match or transmit-acknowledged event for an unsupported
command loads 0xFF, raises no fault and keeps the command. -/
theorem isr_tx_unsupported (cfg : Config) (g : Globals)
    (hun : cfg.i2c_registerIndex g.i2c_command.code = I2C_UNSUPPORTED) :
    ((isr cfg evTxAck g).TWDR = 0xFF ∧ (isr cfg evTxAck g).i2c_status = 0 ∧
      (isr cfg evTxAck g).i2c_command = g.i2c_command) ∧
    ((isr cfg evReadAddr g).TWDR = 0xFF ∧ (isr cfg evReadAddr g).i2c_status = 0 ∧
      (isr cfg evReadAddr g).i2c_command = g.i2c_command) := by
  constructor
  · rw [isr_evTxAck, show stxDataAck cfg { g with i2c_status := 0 } = _ from
      stxDataAck_unsupported cfg { g with i2c_status := 0 } hun.symm,
      statusUpdate_of_zero cfg _ rfl]
    exact ⟨rfl, rfl, rfl⟩
  · rw [isr_evReadAddr, show stxDataAck cfg (i2c_calculatePec
        (((g.i2c_baseAddress <<< 1) + 1) % 256) { g with i2c_status := 0, i2c_txIdx := 1 }) = _
      from stxDataAck_unsupported cfg (i2c_calculatePec
        (((g.i2c_baseAddress <<< 1) + 1) % 256) { g with i2c_status := 0, i2c_txIdx := 1 })
        hun.symm,
      statusUpdate_of_zero cfg _ rfl]
    exact ⟨rfl, rfl, rfl⟩

theorem run_tx_unsupported (cfg : Config) (m : Nat) :
    ∀ (g : Globals), cfg.i2c_registerIndex g.i2c_command.code = I2C_UNSUPPORTED →
      transmitted cfg g (List.replicate m evTxAck) = List.replicate m 0xFF ∧
      raised cfg g (List.replicate m evTxAck) = 0 := by
  induction m with
  | zero => intro g _; exact ⟨rfl, rfl⟩
  | succ m ih =>
    intro g hun
    have hs := (isr_tx_unsupported cfg g hun).1
    have ih' := ih (isr cfg evTxAck g) (by rw [hs.2.2]; exact hun)
    rw [List.replicate_succ, transmitted_evTxAck, ih'.1, hs.1]
    refine ⟨rfl, ?_⟩
    unfold raised
    rw [ih'.2, hs.2.1]
    rfl

/-- C14: for a command code that is not in the table, every byte transmitted
by a read of the command (at the read address-match and at each of the `m`
transmit-acknowledged events that follow) is 0xFF, and none of these events
raises a fault bit. -/
theorem unsupported_read_sends_filler (cfg : Config) (g0 : Globals) (c m : Nat)
    (hun : cfg.i2c_registerIndex c = I2C_UNSUPPORTED) :
    transmitted cfg g0 (readTxn c m) = List.replicate (m + 1) 0xFF
    ∧ raised cfg (run cfg g0 [evWriteAddr, evData c, evStop])
        (evReadAddr :: List.replicate m evTxAck) = 0 := by
  have hh := run_header_unsupported cfg c g0 hun
  have hstop : run cfg g0 [evWriteAddr, evData c, evStop] =
      isr cfg evStop (run cfg g0 [evWriteAddr, evData c]) := rfl
  have hcode : (run cfg g0 [evWriteAddr, evData c, evStop]).i2c_command.code = c := by
    rw [hstop, isr_stop_of_error cfg _ (by rw [hh]; exact and_error_of_or _), hh]
  have hra := (isr_tx_unsupported cfg (run cfg g0 [evWriteAddr, evData c, evStop])
    (by rw [hcode]; exact hun)).2
  have htx := run_tx_unsupported cfg m
    (isr cfg evReadAddr (run cfg g0 [evWriteAddr, evData c, evStop]))
    (by rw [hra.2.2, hcode]; exact hun)
  constructor
  · have hsplit : readTxn c m =
        [evWriteAddr, evData c, evStop] ++ (evReadAddr :: List.replicate m evTxAck) := rfl
    have hnone : transmitted cfg g0 [evWriteAddr, evData c, evStop] = [] := rfl
    rw [hsplit, transmitted_append, hnone, List.nil_append, transmitted_evReadAddr, htx.1,
      hra.1, List.replicate_succ]
  · unfold raised
    rw [htx.2, hra.2.1]
    rfl

set_option maxRecDepth 100000 in
/-- C14 at the unsupported code 0x77 of `demoCfg`, read for four bytes. -/
theorem unsupported_read_sends_filler_witness :
    transmitted demoCfg demoInit (readTxn 0x77 3) = List.replicate (3 + 1) 0xFF
    ∧ raised demoCfg (run demoCfg demoInit [evWriteAddr, evData 0x77, evStop])
        (evReadAddr :: List.replicate 3 evTxAck) = 0 :=
  unsupported_read_sends_filler demoCfg demoInit 0x77 3 (by decide)

/-! ## Read-only commands that receive a byte -/

theorem srxDataAck_readonly (cfg : Config) (b : Nat) (g : Globals)
    (h0 : ¬ (0 = g.i2c_rxIdx))
    (h2 : ¬ (I2C_UNSUPPORTED = cfg.i2c_registerIndex g.i2c_command.code))
    (hgt : g.i2c_rxIdx > g.writeBytes)
    (h1 : g.i2c_rxIdx = g.writeBytes + 1)
    (hro : 0 = (curCmd cfg g).writeBytes ∧ (curCmd cfg g).readBytes > 0) :
    srxDataAck cfg b g =
      { setStatus STATUS_CML_DATA_FAULT g with i2c_rxIdx := (g.i2c_rxIdx + 1) % 65536 } := by
  have hp : ¬ (g.i2c_pec ≠ b ∧
      (0 ≠ (curCmd cfg g).writeBytes ∨ 0 = (curCmd cfg g).readBytes)) := by
    intro h
    rcases h.2 with h' | h'
    · exact h' hro.1
    · omega
  unfold srxDataAck
  dsimp only
  rw [if_neg h0, if_neg h2, if_pos hgt, if_pos h1, if_neg hp, if_pos hro]
  rfl

/-- A byte received right after the command code of a read-only command. -/
theorem isr_readonly (cfg : Config) (b : Nat) (g : Globals)
    (h1 : g.i2c_rxIdx = g.writeBytes + 1)
    (h2 : cfg.i2c_registerIndex g.i2c_command.code ≠ I2C_UNSUPPORTED)
    (hro : 0 = (curCmd cfg g).writeBytes ∧ (curCmd cfg g).readBytes > 0) :
    isr cfg (evData b) g =
      { g with
        i2c_status := STATUS_CML_DATA_FAULT
        ram := Function.update g.ram cfg.I2C_STATUS_CML
          (g.ram cfg.I2C_STATUS_CML ||| STATUS_CML_DATA_FAULT)
        i2c_state := g.i2c_state ||| I2C_STATE_ERROR
        i2c_rxIdx := (g.i2c_rxIdx + 1) % 65536 } := by
  rw [isr_evData]
  rw [show srxDataAck cfg b { g with i2c_status := 0 } = _ from
    srxDataAck_readonly cfg b { g with i2c_status := 0 }
      (by show ¬ (0 = g.i2c_rxIdx); omega) (fun e => h2 e.symm)
      (by show g.i2c_rxIdx > g.writeBytes; omega) h1 hro]
  simp [statusUpdate, setStatus, STATUS_CML_DATA_FAULT]

theorem or_and_other_bit (x : Nat) :
    (x ||| STATUS_CML_DATA_FAULT) &&& STATUS_CML_PEC_FAULT = x &&& STATUS_CML_PEC_FAULT := by
  rw [Nat.and_distrib_right]
  have h : STATUS_CML_DATA_FAULT &&& STATUS_CML_PEC_FAULT = 0 := by decide
  rw [h, Nat.or_zero]

/-- C15: for a command with read length > 0 and write length 0 and every
value `b` of the byte received right after the command code (a value equal to
the running checksum included), that event raises exactly the data-fault bit:
the bit is set in the sticky fault register and the PEC-fault bit of the
register is as before. -/
theorem read_only_payload_data_fault (cfg : Config) (g0 : Globals) (c b : Nat)
    (hsup : cfg.i2c_registerIndex c ≠ I2C_UNSUPPORTED)
    (hR : 0 < (cfg.i2c_registerMap (cfg.i2c_registerIndex c)).readBytes)
    (hW : (cfg.i2c_registerMap (cfg.i2c_registerIndex c)).writeBytes = 0) :
    (isr cfg (evData b) (run cfg g0 [evWriteAddr, evData c])).i2c_status = STATUS_CML_DATA_FAULT
    ∧ (run cfg g0 [evWriteAddr, evData c, evData b]).ram cfg.I2C_STATUS_CML
        &&& STATUS_CML_DATA_FAULT = STATUS_CML_DATA_FAULT
    ∧ (run cfg g0 [evWriteAddr, evData c, evData b]).ram cfg.I2C_STATUS_CML
        &&& STATUS_CML_PEC_FAULT = g0.ram cfg.I2C_STATUS_CML &&& STATUS_CML_PEC_FAULT := by
  have hhdr := run_header cfg c g0 hsup
  have hstep := isr_readonly cfg b (run cfg g0 [evWriteAddr, evData c])
    (by rw [hhdr]
        show 1 = (cfg.i2c_registerMap (cfg.i2c_registerIndex c)).writeBytes + 1
        omega)
    (by rw [hhdr]; exact hsup)
    (by rw [hhdr]; exact ⟨hW.symm, hR⟩)
  have hrun : run cfg g0 [evWriteAddr, evData c, evData b] =
      isr cfg (evData b) (run cfg g0 [evWriteAddr, evData c]) := rfl
  have hcml : (run cfg g0 [evWriteAddr, evData c]).ram = g0.ram := by rw [hhdr]
  rw [hrun, hstep]
  refine ⟨rfl, ?_, ?_⟩
  · simp only [Function.update_same]
    exact or_and_self_bit _ _
  · simp only [Function.update_same, hcml]
    exact or_and_other_bit _

set_option maxRecDepth 100000 in
/-- C15 at the read-only command 0x50 of `demoCfg` and the byte that equals
the running checksum after the command code. -/
theorem read_only_payload_data_fault_witness :
    (isr demoCfg (evData (writePec demoInit.i2c_baseAddress 0x50 []))
        (run demoCfg demoInit [evWriteAddr, evData 0x50])).i2c_status = STATUS_CML_DATA_FAULT
    ∧ (run demoCfg demoInit [evWriteAddr, evData 0x50,
          evData (writePec demoInit.i2c_baseAddress 0x50 [])]).ram demoCfg.I2C_STATUS_CML
        &&& STATUS_CML_DATA_FAULT = STATUS_CML_DATA_FAULT
    ∧ (run demoCfg demoInit [evWriteAddr, evData 0x50,
          evData (writePec demoInit.i2c_baseAddress 0x50 [])]).ram demoCfg.I2C_STATUS_CML
        &&& STATUS_CML_PEC_FAULT = demoInit.ram demoCfg.I2C_STATUS_CML &&& STATUS_CML_PEC_FAULT :=
  read_only_payload_data_fault demoCfg demoInit 0x50
    (writePec demoInit.i2c_baseAddress 0x50 []) (by decide) (by decide) (by decide)

/-! ## Send-byte commands -/

/-- A STOP or repeated START with no error latched, for a send-byte
command: the command is pushed. -/
theorem isr_stop_sendbyte (cfg : Config) (g : Globals)
    (herr : g.i2c_state &&& I2C_STATE_ERROR = 0)
    (hsb : 0 = (curCmd cfg g).readBytes ∧ 0 = (curCmd cfg g).writeBytes) :
    isr cfg evStop g =
      (i2cCmdQueuePush cfg g.i2c_command { g with i2c_status := 0, i2c_busy := 0 }).2 := by
  have e : srxStopRestart cfg { g with i2c_status := 0 } =
      (i2cCmdQueuePush cfg g.i2c_command { g with i2c_status := 0, i2c_busy := 0 }).2 := by
    have h1 : ({ g with i2c_status := 0, i2c_busy := 0 } : Globals).i2c_state
        &&& I2C_STATE_ERROR = 0 := herr
    have h2 : 0 = (curCmd cfg { g with i2c_status := 0, i2c_busy := 0 }).readBytes ∧
        0 = (curCmd cfg { g with i2c_status := 0, i2c_busy := 0 }).writeBytes := hsb
    unfold srxStopRestart
    dsimp only
    rw [if_pos h1, if_pos h2]
  rw [isr_evStop, e]
  apply statusUpdate_of_zero
  unfold i2cCmdQueuePush
  dsimp only
  split_ifs <;> rfl

/-- The queue after a push depends on the queue before it only. -/
theorem push_sameQueue (cfg : Config) (e : CmdBuffer) (g g' : Globals) (h : sameQueue g g') :
    sameQueue (i2cCmdQueuePush cfg e g).2 (i2cCmdQueuePush cfg e g').2 := by
  obtain ⟨h1, h2, h3, h4⟩ := h
  unfold i2cCmdQueuePush sameQueue
  dsimp only
  rw [h1, h2, h3, h4]
  split_ifs <;> first | exact ⟨rfl, rfl, rfl, rfl⟩ | exact ⟨h1, h2, h3, h4⟩

theorem push_ram (cfg : Config) (e : CmdBuffer) (g : Globals) :
    (i2cCmdQueuePush cfg e g).2.ram = g.ram := by
  unfold i2cCmdQueuePush
  dsimp only
  split_ifs <;> rfl

theorem push_not_full (cfg : Config) (e : CmdBuffer) (g : Globals) (hfull : g.cmdQueueFull = 0) :
    (i2cCmdQueuePush cfg e g).1 = 1 ∧ (i2cCmdQueuePush cfg e g).2.cmdQueue g.cmdQueueHead = e := by
  unfold i2cCmdQueuePush
  dsimp only
  rw [if_neg (by rw [hfull]; simp)]
  exact ⟨rfl, by simp⟩

/-- The byte after the command code of a send-byte command, different from
the running checksum. -/
theorem isr_pec_bad_sendbyte (cfg : Config) (b : Nat) (g : Globals)
    (h1 : g.i2c_rxIdx = g.writeBytes + 1)
    (h2 : cfg.i2c_registerIndex g.i2c_command.code ≠ I2C_UNSUPPORTED)
    (h3 : 0 = (curCmd cfg g).readBytes)
    (herr : g.i2c_state &&& I2C_STATE_ERROR = 0)
    (hb : b ≠ g.i2c_pec) :
    isr cfg (evData b) g =
      { g with
        i2c_status := STATUS_CML_PEC_FAULT
        ram := Function.update g.ram cfg.I2C_STATUS_CML
          (g.ram cfg.I2C_STATUS_CML ||| STATUS_CML_PEC_FAULT)
        i2c_state := g.i2c_state ||| I2C_STATE_ERROR
        i2c_rxIdx := (g.i2c_rxIdx + 1) % 65536 } := by
  rw [isr_evData]
  rw [show srxDataAck cfg b { g with i2c_status := 0 } = _ from
    srxDataAck_pec_bad cfg b { g with i2c_status := 0 }
      (by show ¬ (0 = g.i2c_rxIdx); omega) (fun e => h2 e.symm)
      (by show g.i2c_rxIdx > g.writeBytes; omega) h1
      ⟨fun e => hb e.symm, Or.inr h3⟩ herr]
  simp [statusUpdate, setStatus, STATUS_CML_PEC_FAULT]

/-- C12: for a send-byte command (read length 0, write length 0) and a queue
that is not full: the events write address-match, command code `c`, STOP or
repeated START, with or without one byte equal to the running checksum before
the STOP, leave the queue as one successful `i2cCmdQueuePush` of the entry
`{c, page register}` leaves it (the entry stored at the head slot) and leave
the RAM as it is; with a byte that differs from the running checksum instead,
the queue is left as it was, as is the RAM outside the fault register. -/
theorem send_byte_enqueues (cfg : Config) (g0 : Globals) (c : Nat)
    (hsup : cfg.i2c_registerIndex c ≠ I2C_UNSUPPORTED)
    (hR : (cfg.i2c_registerMap (cfg.i2c_registerIndex c)).readBytes = 0)
    (hW : (cfg.i2c_registerMap (cfg.i2c_registerIndex c)).writeBytes = 0)
    (hfull : g0.cmdQueueFull = 0) :
    (i2cCmdQueuePush cfg ⟨c, g0.ram cfg.I2C_PAGE⟩ g0).1 = 1
    ∧ (sameQueue (run cfg g0 [evWriteAddr, evData c, evStop])
          (i2cCmdQueuePush cfg ⟨c, g0.ram cfg.I2C_PAGE⟩ g0).2
        ∧ (run cfg g0 [evWriteAddr, evData c, evStop]).cmdQueue g0.cmdQueueHead
          = ⟨c, g0.ram cfg.I2C_PAGE⟩
        ∧ (run cfg g0 [evWriteAddr, evData c, evStop]).ram = g0.ram)
    ∧ (sameQueue
          (run cfg g0 [evWriteAddr, evData c, evData (writePec g0.i2c_baseAddress c []), evStop])
          (i2cCmdQueuePush cfg ⟨c, g0.ram cfg.I2C_PAGE⟩ g0).2
        ∧ (run cfg g0 [evWriteAddr, evData c, evData (writePec g0.i2c_baseAddress c []),
            evStop]).cmdQueue g0.cmdQueueHead = ⟨c, g0.ram cfg.I2C_PAGE⟩
        ∧ (run cfg g0 [evWriteAddr, evData c, evData (writePec g0.i2c_baseAddress c []),
            evStop]).ram = g0.ram)
    ∧ ∀ x, x ≠ writePec g0.i2c_baseAddress c [] →
        sameQueue (run cfg g0 [evWriteAddr, evData c, evData x, evStop]) g0
        ∧ ∀ a, a ≠ cfg.I2C_STATUS_CML →
          (run cfg g0 [evWriteAddr, evData c, evData x, evStop]).ram a = g0.ram a := by
  have hhdr := run_header cfg c g0 hsup
  have hpush := push_not_full cfg ⟨c, g0.ram cfg.I2C_PAGE⟩ g0 hfull
  have hpecv : (run cfg g0 [evWriteAddr, evData c]).i2c_pec = writePec g0.i2c_baseAddress c [] := by
    rw [hhdr]
    rfl
  refine ⟨hpush.1, ?_, ?_, ?_⟩
  · -- no byte after the command code
    have hrun : run cfg g0 [evWriteAddr, evData c, evStop] =
        isr cfg evStop (run cfg g0 [evWriteAddr, evData c]) := rfl
    have hstop := isr_stop_sendbyte cfg (run cfg g0 [evWriteAddr, evData c])
      (by rw [hhdr]; exact clear_error _) (by rw [hhdr]; exact ⟨hR.symm, hW.symm⟩)
    rw [hrun, hstop, hhdr]
    refine ⟨push_sameQueue cfg _ _ _ ⟨rfl, rfl, rfl, rfl⟩, ?_, push_ram cfg _ _⟩
    refine (push_not_full cfg _ _ ?_).2
    exact hfull
  · -- one byte equal to the running checksum
    have hrun : run cfg g0 [evWriteAddr, evData c, evData (writePec g0.i2c_baseAddress c []),
          evStop] =
        isr cfg evStop (isr cfg (evData (writePec g0.i2c_baseAddress c []))
          (run cfg g0 [evWriteAddr, evData c])) := rfl
    have hpec := isr_pec_ok cfg (run cfg g0 [evWriteAddr, evData c])
      (by rw [hhdr]
          show 1 = (cfg.i2c_registerMap (cfg.i2c_registerIndex c)).writeBytes + 1
          omega)
      (by rw [hhdr]; show 1 < 65535; omega) (by rw [hhdr]; exact hsup)
      (by rw [hhdr]
          show ¬ (0 = (cfg.i2c_registerMap (cfg.i2c_registerIndex c)).writeBytes ∧
            (cfg.i2c_registerMap (cfg.i2c_registerIndex c)).readBytes > 0)
          omega)
    rw [hpecv] at hpec
    have hstop := isr_stop_sendbyte cfg
      (isr cfg (evData (writePec g0.i2c_baseAddress c [])) (run cfg g0 [evWriteAddr, evData c]))
      (by rw [hpec, hhdr]; exact clear_error _)
      (by rw [hpec, hhdr]; exact ⟨hR.symm, hW.symm⟩)
    rw [hrun, hstop, hpec, hhdr]
    refine ⟨push_sameQueue cfg _ _ _ ⟨rfl, rfl, rfl, rfl⟩, ?_, push_ram cfg _ _⟩
    refine (push_not_full cfg _ _ ?_).2
    exact hfull
  · -- one byte that differs from the running checksum
    intro x hx
    have hrun : run cfg g0 [evWriteAddr, evData c, evData x, evStop] =
        isr cfg evStop (isr cfg (evData x) (run cfg g0 [evWriteAddr, evData c])) := rfl
    have hbad := isr_pec_bad_sendbyte cfg x (run cfg g0 [evWriteAddr, evData c])
      (by rw [hhdr]
          show 1 = (cfg.i2c_registerMap (cfg.i2c_registerIndex c)).writeBytes + 1
          omega)
      (by rw [hhdr]; exact hsup) (by rw [hhdr]; exact hR.symm)
      (by rw [hhdr]; exact clear_error _) (by rw [hpecv]; exact hx)
    have hstop := isr_stop_of_error cfg
      (isr cfg (evData x) (run cfg g0 [evWriteAddr, evData c]))
      (by rw [hbad]; exact and_error_of_or _)
    rw [hrun, hstop, hbad, hhdr]
    refine ⟨⟨rfl, rfl, rfl, rfl⟩, ?_⟩
    intro a ha
    show Function.update g0.ram cfg.I2C_STATUS_CML _ a = g0.ram a
    exact Function.update_noteq ha _ _

set_option maxRecDepth 100000 in
/-- C12 at the send-byte command 0x30 of `demoCfg` and the initialised
queue. -/
theorem send_byte_enqueues_witness :
    (i2cCmdQueuePush demoCfg ⟨0x30, demoInit.ram demoCfg.I2C_PAGE⟩ demoInit).1 = 1
    ∧ (sameQueue (run demoCfg demoInit [evWriteAddr, evData 0x30, evStop])
          (i2cCmdQueuePush demoCfg ⟨0x30, demoInit.ram demoCfg.I2C_PAGE⟩ demoInit).2
        ∧ (run demoCfg demoInit [evWriteAddr, evData 0x30, evStop]).cmdQueue
            demoInit.cmdQueueHead = ⟨0x30, demoInit.ram demoCfg.I2C_PAGE⟩
        ∧ (run demoCfg demoInit [evWriteAddr, evData 0x30, evStop]).ram = demoInit.ram)
    ∧ (sameQueue
          (run demoCfg demoInit [evWriteAddr, evData 0x30,
            evData (writePec demoInit.i2c_baseAddress 0x30 []), evStop])
          (i2cCmdQueuePush demoCfg ⟨0x30, demoInit.ram demoCfg.I2C_PAGE⟩ demoInit).2
        ∧ (run demoCfg demoInit [evWriteAddr, evData 0x30,
            evData (writePec demoInit.i2c_baseAddress 0x30 []), evStop]).cmdQueue
            demoInit.cmdQueueHead = ⟨0x30, demoInit.ram demoCfg.I2C_PAGE⟩
        ∧ (run demoCfg demoInit [evWriteAddr, evData 0x30,
            evData (writePec demoInit.i2c_baseAddress 0x30 []), evStop]).ram = demoInit.ram)
    ∧ ∀ x, x ≠ writePec demoInit.i2c_baseAddress 0x30 [] →
        sameQueue (run demoCfg demoInit [evWriteAddr, evData 0x30, evData x, evStop]) demoInit
        ∧ ∀ a, a ≠ demoCfg.I2C_STATUS_CML →
          (run demoCfg demoInit [evWriteAddr, evData 0x30, evData x, evStop]).ram a
            = demoInit.ram a :=
  send_byte_enqueues demoCfg demoInit 0x30 (by decide) (by decide) (by decide) (by decide)

/-! ## Data bytes after a fault -/

theorem faultCount_append (cfg : Config) (g : Globals) (xs ys : List BusEvent) :
    faultCount cfg g (xs ++ ys) = faultCount cfg g xs + faultCount cfg (run cfg g xs) ys := by
  induction xs generalizing g with
  | nil => simp [faultCount, run_nil]
  | cons x xs ih =>
    show (if (isr cfg x g).i2c_status ≠ 0 then 1 else 0)
        + faultCount cfg (isr cfg x g) (xs ++ ys)
      = ((if (isr cfg x g).i2c_status ≠ 0 then 1 else 0) + faultCount cfg (isr cfg x g) xs)
        + faultCount cfg (run cfg (isr cfg x g) xs) ys
    rw [ih]
    omega

/-- A received byte never clears the error flag, and changes neither the RAM
outside the fault register nor the queue. -/
theorem isr_evData_latched (cfg : Config) (b : Nat) (g : Globals)
    (herr : g.i2c_state &&& I2C_STATE_ERROR ≠ 0) :
    (isr cfg (evData b) g).i2c_state &&& I2C_STATE_ERROR ≠ 0 ∧
    (∀ a, a ≠ cfg.I2C_STATUS_CML → (isr cfg (evData b) g).ram a = g.ram a) ∧
    sameQueue (isr cfg (evData b) g) g := by
  rw [isr_evData]
  refine ⟨?_, ?_, ?_⟩
  · rw [statusUpdate_state, srxDataAck_state]
    split_ifs
    · exact and_error_of_or _
    · exact herr
  · intro a ha
    rw [statusUpdate_ram cfg _ a ha, srxDataAck_ram]
  · have h1 := statusUpdate_cmdQueue cfg (srxDataAck cfg b { g with i2c_status := 0 })
    have h2 := srxDataAck_cmdQueue cfg b { g with i2c_status := 0 }
    exact ⟨h1.1.trans h2.1, h1.2.1.trans h2.2.1, h1.2.2.1.trans h2.2.2.1,
      h1.2.2.2.trans h2.2.2.2⟩

/-- Any number of received bytes after a fault: the error flag stays
latched, the RAM outside the fault register and the queue stay as they
are. -/
theorem run_data_latched (cfg : Config) (bs : List Nat) :
    ∀ (g : Globals), g.i2c_state &&& I2C_STATE_ERROR ≠ 0 →
      (run cfg g (bs.map evData)).i2c_state &&& I2C_STATE_ERROR ≠ 0 ∧
      (∀ a, a ≠ cfg.I2C_STATUS_CML → (run cfg g (bs.map evData)).ram a = g.ram a) ∧
      sameQueue (run cfg g (bs.map evData)) g := by
  induction bs with
  | nil =>
    intro g herr
    exact ⟨herr, fun _ _ => rfl, rfl, rfl, rfl, rfl⟩
  | cons b bs ih =>
    intro g herr
    have hs := isr_evData_latched cfg b g herr
    have ih' := ih (isr cfg (evData b) g) hs.1
    rw [List.map_cons, run_cons]
    refine ⟨ih'.1, ?_, ?_⟩
    · intro a ha
      rw [ih'.2.1 a ha, hs.2.1 a ha]
    · exact ⟨ih'.2.2.1.trans hs.2.2.1, ih'.2.2.2.1.trans hs.2.2.2.1,
        ih'.2.2.2.2.1.trans hs.2.2.2.2.1, ih'.2.2.2.2.2.trans hs.2.2.2.2.2⟩

/-! ## The length byte of a block write -/

/-- Body of the receive case at the length byte of a block write. -/
theorem srxDataAck_blocklen (cfg : Config) (data : Nat) (g : Globals)
    (h1 : ¬ (0 = g.i2c_rxIdx))
    (h2 : ¬ (I2C_UNSUPPORTED = cfg.i2c_registerIndex g.i2c_command.code))
    (h3 : ¬ (g.i2c_rxIdx > g.writeBytes))
    (h4 : IS_BLOCKCMD cfg g = true ∧ 1 = g.i2c_rxIdx) :
    srxDataAck cfg data g =
      { i2c_calculatePec data
          { (if data > (curCmd cfg g).writeBytes then setStatus STATUS_CML_DATA_FAULT g else g)
            with writeBytes := (data + 1) % 256 }
        with i2c_rxIdx := (g.i2c_rxIdx + 1) % 65536 } := by
  unfold srxDataAck
  dsimp only
  rw [if_neg h1, if_neg h2, if_neg h3, if_pos h4]
  split_ifs <;> rfl

/-- A length byte above the declared write length of a block command. -/
theorem isr_blocklen_over (cfg : Config) (L : Nat) (g : Globals)
    (hrx : g.i2c_rxIdx = 1)
    (h2 : cfg.i2c_registerIndex g.i2c_command.code ≠ I2C_UNSUPPORTED)
    (h3 : 1 ≤ g.writeBytes)
    (hb : IS_BLOCKCMD cfg g = true)
    (hL : L > (curCmd cfg g).writeBytes) :
    isr cfg (evData L) g =
      { g with
        i2c_status := STATUS_CML_DATA_FAULT
        ram := Function.update g.ram cfg.I2C_STATUS_CML
          (g.ram cfg.I2C_STATUS_CML ||| STATUS_CML_DATA_FAULT)
        i2c_state := g.i2c_state ||| I2C_STATE_ERROR
        writeBytes := (L + 1) % 256
        i2c_pec := pecStep g.i2c_pec L
        i2c_rxIdx := 2 } := by
  rw [isr_evData]
  rw [show srxDataAck cfg L { g with i2c_status := 0 } = _ from
    srxDataAck_blocklen cfg L { g with i2c_status := 0 }
      (by show ¬ (0 = g.i2c_rxIdx); omega) (fun e => h2 e.symm)
      (by show ¬ (g.i2c_rxIdx > g.writeBytes); omega) ⟨hb, hrx.symm⟩]
  have hL' : L > (curCmd cfg { g with i2c_status := 0 }).writeBytes := hL
  rw [if_pos hL']
  simp [statusUpdate, setStatus, i2c_calculatePec, STATUS_CML_DATA_FAULT, hrx]

/-- A length byte within the declared write length of a block command. -/
theorem isr_blocklen_ok (cfg : Config) (L : Nat) (g : Globals)
    (hrx : g.i2c_rxIdx = 1)
    (h2 : cfg.i2c_registerIndex g.i2c_command.code ≠ I2C_UNSUPPORTED)
    (h3 : 1 ≤ g.writeBytes)
    (hb : IS_BLOCKCMD cfg g = true)
    (hL : L ≤ (curCmd cfg g).writeBytes) :
    isr cfg (evData L) g =
      { g with
        i2c_status := 0
        writeBytes := (L + 1) % 256
        i2c_pec := pecStep g.i2c_pec L
        i2c_rxIdx := 2 } := by
  rw [isr_evData]
  rw [show srxDataAck cfg L { g with i2c_status := 0 } = _ from
    srxDataAck_blocklen cfg L { g with i2c_status := 0 }
      (by show ¬ (0 = g.i2c_rxIdx); omega) (fun e => h2 e.symm)
      (by show ¬ (g.i2c_rxIdx > g.writeBytes); omega) ⟨hb, hrx.symm⟩]
  have hL' : ¬ (L > (curCmd cfg { g with i2c_status := 0 }).writeBytes) := by
    show ¬ (L > (curCmd cfg g).writeBytes)
    omega
  rw [if_neg hL']
  rw [statusUpdate_of_zero cfg _ rfl]
  simp [i2c_calculatePec, hrx]

/-- C18: for a block command (attribute `I2C_BLOCK`) with declared write
length `M >= 1` and a length byte `L > M` received right after the command
code: that event raises the data-fault bit (and no other), the bit is set in
the sticky fault register, and whatever data bytes `bs` follow, the
STOP/repeated START of the transaction leaves the RAM as it is, every RAM
byte other than the fault register being as before the transaction. -/
theorem block_length_over_max_rejected (cfg : Config) (g0 : Globals) (c L : Nat)
    (bs : List Nat)
    (hsup : cfg.i2c_registerIndex c ≠ I2C_UNSUPPORTED)
    (hblk : (cfg.i2c_registerMap (cfg.i2c_registerIndex c)).attributes &&& I2C_BLOCK ≠ 0)
    (hM : 1 ≤ (cfg.i2c_registerMap (cfg.i2c_registerIndex c)).writeBytes)
    (hL : L > (cfg.i2c_registerMap (cfg.i2c_registerIndex c)).writeBytes) :
    (isr cfg (evData L) (run cfg g0 [evWriteAddr, evData c])).i2c_status
        = STATUS_CML_DATA_FAULT
    ∧ (isr cfg (evData L) (run cfg g0 [evWriteAddr, evData c])).ram cfg.I2C_STATUS_CML
        &&& STATUS_CML_DATA_FAULT = STATUS_CML_DATA_FAULT
    ∧ (run cfg g0 ([evWriteAddr, evData c, evData L] ++ bs.map evData ++ [evStop])).ram
        = (run cfg g0 ([evWriteAddr, evData c, evData L] ++ bs.map evData)).ram
    ∧ ∀ a, a ≠ cfg.I2C_STATUS_CML →
        (run cfg g0 ([evWriteAddr, evData c, evData L] ++ bs.map evData ++ [evStop])).ram a
          = g0.ram a := by
  have hhdr := run_header cfg c g0 hsup
  have hlen := isr_blocklen_over cfg L (run cfg g0 [evWriteAddr, evData c])
    (by rw [hhdr]) (by rw [hhdr]; exact hsup) (by rw [hhdr]; exact hM)
    (by rw [hhdr]; simp [IS_BLOCKCMD, curCmd, hblk]) (by rw [hhdr]; exact hL)
  have h3 : run cfg g0 [evWriteAddr, evData c, evData L] =
      isr cfg (evData L) (run cfg g0 [evWriteAddr, evData c]) := rfl
  have herr : (run cfg g0 [evWriteAddr, evData c, evData L]).i2c_state &&& I2C_STATE_ERROR ≠ 0 := by
    rw [h3, hlen]
    exact and_error_of_or _
  have hd := run_data_latched cfg bs (run cfg g0 [evWriteAddr, evData c, evData L]) herr
  have hstop := isr_stop_of_error cfg
    (run cfg g0 ([evWriteAddr, evData c, evData L] ++ bs.map evData))
    (by rw [run_append]; exact hd.1)
  have hram : (run cfg g0 ([evWriteAddr, evData c, evData L] ++ bs.map evData ++ [evStop])).ram
      = (run cfg g0 ([evWriteAddr, evData c, evData L] ++ bs.map evData)).ram := by
    rw [run_append _ _ (_ ++ _) [evStop], run_cons, run_nil, hstop]
  refine ⟨by rw [hlen], ?_, hram, ?_⟩
  · rw [hlen]
    simp only [Function.update_same]
    exact or_and_self_bit _ _
  · intro a ha
    rw [hram, run_append, hd.2.1 a ha, h3, hlen]
    show Function.update _ _ _ a = _
    rw [Function.update_noteq ha, hhdr]

set_option maxRecDepth 100000 in
/-- C18 at the block command 0x60 of `blockCfg` (write length 4), length
byte 5, followed by two data bytes, observed at the first byte of the
storage of the command. -/
theorem block_length_over_max_rejected_witness :
    (isr blockCfg (evData 5) (run blockCfg (blockInit 0 0) [evWriteAddr, evData 0x60])).i2c_status
        = STATUS_CML_DATA_FAULT
    ∧ (run blockCfg (blockInit 0 0)
        ([evWriteAddr, evData 0x60, evData 5] ++ [0xAA, 0xBB].map evData ++ [evStop])).ram 0x60
          = (blockInit 0 0).ram 0x60 :=
  have h := block_length_over_max_rejected blockCfg (blockInit 0 0) 0x60 5 [0xAA, 0xBB]
    (by decide) (by decide) (by decide) (by decide)
  ⟨h.1, h.2.2.2 0x60 (by decide)⟩

/-! ## Writes to commands that are not in the table -/

/-- A byte after the command code of an unsupported command is ignored. -/
theorem isr_absorb (cfg : Config) (b : Nat) (g : Globals)
    (hrx : g.i2c_rxIdx ≠ 0)
    (hun : cfg.i2c_registerIndex g.i2c_command.code = I2C_UNSUPPORTED) :
    isr cfg (evData b) g =
      { g with i2c_status := 0, i2c_rxIdx := (g.i2c_rxIdx + 1) % 65536 } := by
  have h1 : ¬ (0 = ({ g with i2c_status := 0 } : Globals).i2c_rxIdx) := fun e => hrx e.symm
  have h2 : I2C_UNSUPPORTED =
      cfg.i2c_registerIndex ({ g with i2c_status := 0 } : Globals).i2c_command.code := hun.symm
  rw [isr_evData]
  unfold srxDataAck
  dsimp only
  rw [if_neg h1, if_pos h2]
  exact statusUpdate_of_zero cfg _ rfl

/-- The bytes after the command code of an unsupported command, as long as
the 16-bit receive count does not wrap to zero before the last of them: no
fault is raised, and the receive count advances. -/
theorem run_absorb (cfg : Config) (bs : List Nat) :
    ∀ (g : Globals), (bs ≠ [] → g.i2c_rxIdx ≠ 0) → g.i2c_rxIdx < 65536 →
      g.i2c_rxIdx + bs.length ≤ 65536 →
      cfg.i2c_registerIndex g.i2c_command.code = I2C_UNSUPPORTED →
      faultCount cfg g (bs.map evData) = 0 ∧
      raised cfg g (bs.map evData) = 0 ∧
      (run cfg g (bs.map evData)).i2c_rxIdx = (g.i2c_rxIdx + bs.length) % 65536 ∧
      (run cfg g (bs.map evData)).i2c_command = g.i2c_command := by
  induction bs with
  | nil =>
    intro g _ hlt _ _
    refine ⟨rfl, rfl, ?_, rfl⟩
    show g.i2c_rxIdx = (g.i2c_rxIdx + 0) % 65536
    omega
  | cons b bs ih =>
    intro g hrx hlt hlen hun
    have hlen' : g.i2c_rxIdx + (bs.length + 1) ≤ 65536 := by simpa using hlen
    have hrx0 : g.i2c_rxIdx ≠ 0 := hrx (List.cons_ne_nil _ _)
    have hs := isr_absorb cfg b g hrx0 hun
    have ih' := ih (isr cfg (evData b) g)
      (by
        intro hne
        have : 0 < bs.length := List.length_pos.mpr hne
        rw [hs]
        show (g.i2c_rxIdx + 1) % 65536 ≠ 0
        omega)
      (by
        rw [hs]
        show (g.i2c_rxIdx + 1) % 65536 < 65536
        omega)
      (by
        rw [hs]
        show (g.i2c_rxIdx + 1) % 65536 + bs.length ≤ 65536
        omega)
      (by rw [hs]; exact hun)
    rw [List.map_cons, run_cons]
    refine ⟨?_, ?_, ?_, ?_⟩
    · unfold faultCount
      rw [ih'.1, hs]
      simp
    · unfold raised
      rw [ih'.2.1, hs]
      simp
    · rw [ih'.2.2.1, hs, List.length_cons]
      show ((g.i2c_rxIdx + 1) % 65536 + bs.length) % 65536 = _
      omega
    · rw [ih'.2.2.2, hs]

/-- A write to an unsupported command with 65535 bytes `zs` after the
command code and then one more byte that is an unsupported code: the receive
count has wrapped to zero, and the last byte raises a second fault. -/
theorem faultCount_wrap (cfg : Config) (g0 : Globals) (c : Nat) (zs : List Nat)
    (hzs : zs.length = 65535)
    (hun : cfg.i2c_registerIndex c = I2C_UNSUPPORTED) :
    faultCount cfg g0
      ([evWriteAddr, evData c] ++ zs.map evData ++ [evData c] ++ [evStop]) = 2 := by
  have hhdr := run_header_unsupported cfg c g0 hun
  have hab := run_absorb cfg zs (run cfg g0 [evWriteAddr, evData c])
    (by intro _; rw [hhdr]; exact Nat.one_ne_zero)
    (by rw [hhdr]; show 1 < 65536; omega)
    (by rw [hhdr]; show 1 + zs.length ≤ 65536; omega)
    (by rw [hhdr]; exact hun)
  have hrx : (run cfg g0 ([evWriteAddr, evData c] ++ zs.map evData)).i2c_rxIdx = 0 := by
    rw [run_append, hab.2.2.1, hhdr]
    show (1 + zs.length) % 65536 = 0
    omega
  have hcmd := isr_cmd_unsupported cfg c
    (run cfg g0 ([evWriteAddr, evData c] ++ zs.map evData)) hrx hun
  have hh : faultCount cfg g0 [evWriteAddr, evData c] = 1 := by
    unfold faultCount faultCount faultCount
    rw [isr_evWriteAddr, isr_cmd_unsupported cfg c _ rfl hun]
    simp [STATUS_CML_CMD_FAULT]
  have herr : (isr cfg (evData c)
      (run cfg g0 ([evWriteAddr, evData c] ++ zs.map evData))).i2c_state
      &&& I2C_STATE_ERROR ≠ 0 := by
    rw [hcmd]
    exact and_error_of_or _
  have hstop := isr_stop_of_error cfg _ herr
  have h1 : faultCount cfg (run cfg g0 ([evWriteAddr, evData c] ++ zs.map evData)) [evData c]
      = 1 := by
    unfold faultCount faultCount
    rw [hcmd]
    simp [STATUS_CML_CMD_FAULT]
  have h2 : faultCount cfg
      (run cfg g0 ([evWriteAddr, evData c] ++ zs.map evData ++ [evData c])) [evStop] = 0 := by
    unfold faultCount faultCount
    rw [run_append _ _ _ [evData c], run_cons, run_nil, hstop]
    simp
  rw [faultCount_append, faultCount_append, faultCount_append, hh, hab.1, h1, h2]

/-- C13, as stated, fails: in the write to the unsupported command 0x77 of
`demoCfg` with 65536 further bytes (65535 zero bytes, then 0x77), the 16-bit
receive count has wrapped to zero at the last byte, which is taken for a
command code: two events of the transaction raise a fault. -/
theorem unsupported_write_wrap_counterexample :
    demoCfg.i2c_registerIndex 0x77 = I2C_UNSUPPORTED ∧
    faultCount demoCfg demoInit
      ([evWriteAddr, evData 0x77] ++ (List.replicate 65535 0).map evData ++ [evData 0x77]
        ++ [evStop]) = 2 :=
  ⟨by decide, faultCount_wrap demoCfg demoInit 0x77 (List.replicate 65535 0)
    (List.length_replicate _ _) (by decide)⟩

/-- C13, amended: for a command code `c` that is not in the table and a
write to it (write address-match, `c`, the bytes `bs`, STOP/repeated START):
if at most 65535 bytes follow the command code, exactly one event of the
transaction raises a fault and the bits raised are the command-fault bit;
for any number of bytes, every RAM byte other than the fault register and the
deferred-command queue are as before the transaction. -/
theorem unsupported_write_absorbed (cfg : Config) (g0 : Globals) (c : Nat) (bs : List Nat)
    (hun : cfg.i2c_registerIndex c = I2C_UNSUPPORTED) :
    (bs.length ≤ 65535 →
      faultCount cfg g0 ([evWriteAddr, evData c] ++ bs.map evData ++ [evStop]) = 1 ∧
      raised cfg g0 ([evWriteAddr, evData c] ++ bs.map evData ++ [evStop])
        = STATUS_CML_CMD_FAULT)
    ∧ (∀ a, a ≠ cfg.I2C_STATUS_CML →
        (run cfg g0 ([evWriteAddr, evData c] ++ bs.map evData ++ [evStop])).ram a = g0.ram a)
    ∧ sameQueue (run cfg g0 ([evWriteAddr, evData c] ++ bs.map evData ++ [evStop])) g0 := by
  have hhdr := run_header_unsupported cfg c g0 hun
  have herr0 : (run cfg g0 [evWriteAddr, evData c]).i2c_state &&& I2C_STATE_ERROR ≠ 0 := by
    rw [hhdr]
    exact and_error_of_or _
  have hd := run_data_latched cfg bs (run cfg g0 [evWriteAddr, evData c]) herr0
  have hstop := isr_stop_of_error cfg (run cfg g0 ([evWriteAddr, evData c] ++ bs.map evData))
    (by rw [run_append]; exact hd.1)
  have hrun : run cfg g0 ([evWriteAddr, evData c] ++ bs.map evData ++ [evStop]) =
      { run cfg g0 ([evWriteAddr, evData c] ++ bs.map evData) with
        i2c_status := 0, i2c_busy := 0 } := by
    rw [run_append _ _ (_ ++ _) [evStop], run_cons, run_nil, hstop]
  refine ⟨?_, ?_, ?_⟩
  · intro hlen
    have hab := run_absorb cfg bs (run cfg g0 [evWriteAddr, evData c])
      (by intro _; rw [hhdr]; exact Nat.one_ne_zero)
      (by rw [hhdr]; show 1 < 65536; omega)
      (by rw [hhdr]; show 1 + bs.length ≤ 65536; omega)
      (by rw [hhdr]; exact hun)
    constructor
    · have hh : faultCount cfg g0 [evWriteAddr, evData c] = 1 := by
        unfold faultCount faultCount faultCount
        rw [isr_evWriteAddr, isr_cmd_unsupported cfg c _ rfl hun]
        simp [STATUS_CML_CMD_FAULT]
      rw [faultCount_append, faultCount_append, hh, hab.1]
      unfold faultCount faultCount
      rw [hstop]
      simp
    · have hh : raised cfg g0 [evWriteAddr, evData c] = STATUS_CML_CMD_FAULT := by
        unfold raised raised raised
        rw [isr_evWriteAddr, isr_cmd_unsupported cfg c _ rfl hun]
        simp
      rw [raised_append, raised_append, hh, hab.2.1]
      unfold raised raised
      rw [hstop]
      simp
  · intro a ha
    rw [hrun]
    show (run cfg g0 ([evWriteAddr, evData c] ++ bs.map evData)).ram a = g0.ram a
    rw [run_append, hd.2.1 a ha, hhdr]
    show Function.update g0.ram cfg.I2C_STATUS_CML _ a = g0.ram a
    exact Function.update_noteq ha _ _
  · rw [hrun]
    have hq := hd.2.2
    rw [← run_append] at hq
    have h0 : sameQueue (run cfg g0 [evWriteAddr, evData c]) g0 := by
      rw [hhdr]
      exact ⟨rfl, rfl, rfl, rfl⟩
    exact ⟨hq.1.trans h0.1, hq.2.1.trans h0.2.1, hq.2.2.1.trans h0.2.2.1,
      hq.2.2.2.trans h0.2.2.2⟩

set_option maxRecDepth 100000 in
/-- C13, amended, at the unsupported command 0x77 of `demoCfg` with three
further bytes. -/
theorem unsupported_write_absorbed_witness :
    [1, 2, 3].length ≤ 65535 ∧
    faultCount demoCfg demoInit ([evWriteAddr, evData 0x77] ++ [1, 2, 3].map evData ++ [evStop])
      = 1 ∧
    raised demoCfg demoInit ([evWriteAddr, evData 0x77] ++ [1, 2, 3].map evData ++ [evStop])
      = STATUS_CML_CMD_FAULT :=
  ⟨by decide, (unsupported_write_absorbed demoCfg demoInit 0x77 [1, 2, 3] (by decide)).1
    (by decide)⟩

/-! ## Block commands with a stored length byte: evaluations -/

set_option maxRecDepth 100000 in
/-- C16, the code at a failing input: command 0x61 of `blockCfg` is a
read-only block command (write length 0, read length 4) whose storage at 0x70
starts with the length byte, holding 4.  The write of the command code
followed by a repeated START (the opening of every read) raises no fault and
stores 255 in the length byte, which the read then transmits as the block
length. -/
theorem read_only_length_byte_overwritten :
    (blockCfg.i2c_registerMap (blockCfg.i2c_registerIndex 0x61)).writeBytes = 0
    ∧ (blockCfg.i2c_registerMap (blockCfg.i2c_registerIndex 0x61)).readBytes = 4
    ∧ (blockInit 0 4).ram 0x70 = 4
    ∧ (run blockCfg (blockInit 0 4) [evWriteAddr, evData 0x61, evStop]).ram 0x70 = 255
    ∧ raised blockCfg (blockInit 0 4) [evWriteAddr, evData 0x61, evStop] = 0
    ∧ transmitted blockCfg (blockInit 0 4) (readTxn 0x61 0) = [255] := by
  decide

set_option maxRecDepth 100000 in
/-- C19, the code at a failing input: command 0x62 of `blockCfg` is a paged
block command with a stored length byte (write length 2, storage at 0x80);
the page register holds 0xFF.  The write of the command code and the length
byte 0, then STOP, raises no fault bit and stores 0 at
`0x80 + 255 * (2 + 1)`, a byte that held 0x5A. -/
theorem paged_block_write_page_ff_commits :
    (blockCfg.i2c_registerMap (blockCfg.i2c_registerIndex 0x62)).attributes &&& I2C_PAGED ≠ 0
    ∧ (blockCfg.i2c_registerMap (blockCfg.i2c_registerIndex 0x62)).writeBytes = 2
    ∧ (blockInit 0xFF 0x5A).ram blockCfg.I2C_PAGE = 0xFF
    ∧ raised blockCfg (blockInit 0xFF 0x5A) [evWriteAddr, evData 0x62, evData 0, evStop] = 0
    ∧ (run blockCfg (blockInit 0xFF 0x5A)
        [evWriteAddr, evData 0x62, evData 0, evStop]).ram blockCfg.I2C_STATUS_CML = 0
    ∧ (blockInit 0xFF 0x5A).ram (0x80 + 255 * (2 + 1)) = 0x5A
    ∧ (run blockCfg (blockInit 0xFF 0x5A)
        [evWriteAddr, evData 0x62, evData 0, evStop]).ram (0x80 + 255 * (2 + 1)) = 0 := by
  decide

set_option maxRecDepth 100000 in
/-- C20, the code at a failing input: command 0x62 of `blockCfg` is a paged
block command with a stored length byte (read length 2, storage at 0x80); the
page register holds 0xFF.  The read address-match event raises no fault bit
and transmits the RAM byte at `0x80 + 255 * (2 + 1)`: two runs that differ
only in the contents of the RAM (0x5A or 0x11 in every byte but the page and
fault registers) transmit different first bytes and different checksums. -/
theorem paged_block_read_page_ff_reads_storage :
    (blockCfg.i2c_registerMap (blockCfg.i2c_registerIndex 0x62)).attributes &&& I2C_PAGED ≠ 0
    ∧ (blockCfg.i2c_registerMap (blockCfg.i2c_registerIndex 0x62)).readBytes = 2
    ∧ (blockInit 0xFF 0x5A).ram blockCfg.I2C_PAGE = 0xFF
    ∧ (blockInit 0xFF 0x11).ram blockCfg.I2C_PAGE = 0xFF
    ∧ raised blockCfg (run blockCfg (blockInit 0xFF 0x5A) [evWriteAddr, evData 0x62, evStop])
        [evReadAddr] = 0
    ∧ transmitted blockCfg (blockInit 0xFF 0x5A) (readTxn 0x62 0) = [0x5A]
    ∧ transmitted blockCfg (blockInit 0xFF 0x11) (readTxn 0x62 0) = [0x11]
    ∧ transmitted blockCfg (blockInit 0xFF 0x5A) (readTxn 0x62 4) = [0x5A, 0, 0, 71, 255]
    ∧ transmitted blockCfg (blockInit 0xFF 0x11) (readTxn 0x62 4) = [0x11, 0, 0, 177, 255] := by
  decide

/-! ## A complete write to a block command with a stored length byte -/

theorem stageIdx_block (cfg : Config) (g : Globals) (k : Nat)
    (hb : IS_BLOCKCMD cfg g = true) (hrx : g.i2c_rxIdx = k + 2) (hlt : k < 65534) :
    stageIdx cfg g = k := by
  unfold stageIdx
  rw [hb, hrx]
  show (k + 2 + 65536 - 2) % 65536 = k
  omega

/-- The payload bytes of a block write after the length byte, each within
the write length in effect and passing the page checks, are staged in order,
fed to the checksum, and raise no fault. -/
theorem run_stage_block (cfg : Config) (ds : List Nat) :
    ∀ (g : Globals) (k : Nat), g.i2c_status = 0 → g.i2c_rxIdx = k + 2 →
      cfg.i2c_registerIndex g.i2c_command.code ≠ I2C_UNSUPPORTED →
      k + 1 + ds.length ≤ g.writeBytes → g.writeBytes < 65535 →
      IS_BLOCKCMD cfg g = true →
      (∀ x ∈ ds, ¬ (0x00 = (curCmd cfg g).cmdCode ∧ x ≥ cfg.I2C_NUMPAGES ∧ x < 0xFF)) →
      ¬ (IS_PAGED cfg g = true ∧ 0xFF = g.ram cfg.I2C_PAGE) →
      run cfg g (ds.map evData) =
        { g with
          i2c_buffer := stageBytes k ds g.i2c_buffer
          i2c_pec := pecFold g.i2c_pec ds
          i2c_rxIdx := k + 2 + ds.length }
      ∧ raised cfg g (ds.map evData) = 0 := by
  induction ds with
  | nil =>
    intro g k _ hrx _ _ _ _ _ _
    refine ⟨?_, rfl⟩
    simp only [List.map_nil, run_nil, stageBytes, pecFold, List.foldl_nil, List.length_nil,
      Nat.add_zero, ← hrx]
  | cons d ds ih =>
    intro g k hst hrx hsup hlen hW hb hpg hp
    have hlen' : k + 1 + (ds.length + 1) ≤ g.writeBytes := by simpa using hlen
    have hk : k < 65534 := by omega
    have hstep := isr_stage cfg d g (by omega) hsup (by omega) (by omega)
      (by rw [hrx]; intro h; have := h.2; omega) (hpg d (List.mem_cons_self _ _)) hp
    rw [stageIdx_block cfg g k hb hrx hk] at hstep
    have ih' := ih (isr cfg (evData d) g) (k + 1) (by rw [hstep]) (by rw [hstep, hrx])
      (by rw [hstep]; exact hsup)
      (by rw [hstep]; show k + 1 + 1 + ds.length ≤ g.writeBytes; omega)
      (by rw [hstep]; exact hW)
      (by rw [hstep]; exact hb)
      (by rw [hstep]; exact fun x hx => hpg x (List.mem_cons_of_mem _ hx))
      (by rw [hstep]; exact hp)
    constructor
    · rw [List.map_cons, run_cons, ih'.1, hstep]
      simp only [stageBytes, pecFold_cons, List.length_cons]
      rw [show k + 1 + 2 + ds.length = k + 2 + (ds.length + 1) by omega]
      cases g
      simp only at hst
      subst hst
      rfl
    · rw [List.map_cons]
      unfold raised
      rw [ih'.2, hstep]
      simp

/-- The commit of a block command with a stored length byte: the length in
effect, less one, goes to the first byte of the page of the command, and as
many bytes of the scratch buffer to the bytes after it. -/
theorem commit_lblock (cfg : Config) (g : Globals)
    (hb : IS_BLOCKCMD cfg g = true) (hl : IS_LBLOCK cfg g = true) :
    commit cfg g =
      { g with
        ram := commitLoop ((curCmd cfg g).ramAddr + pageOffsetWrite cfg g + 1)
          g.i2c_buffer (g.writeBytes - 1)
          (Function.update g.ram ((curCmd cfg g).ramAddr + pageOffsetWrite cfg g)
            ((g.writeBytes + 255) % 256)) } := by
  unfold commit
  simp [hb, hl, lenByte]

/-- The globals before the STOP of a block write with PEC: length byte
`ds.length`, payload `ds`. -/
theorem run_block_write_staged (cfg : Config) (g0 : Globals) (c : Nat) (ds : List Nat)
    (hsup : cfg.i2c_registerIndex c ≠ I2C_UNSUPPORTED)
    (hblk : (cfg.i2c_registerMap (cfg.i2c_registerIndex c)).attributes &&& I2C_BLOCK ≠ 0)
    (hM : 1 ≤ (cfg.i2c_registerMap (cfg.i2c_registerIndex c)).writeBytes)
    (hL : ds.length ≤ (cfg.i2c_registerMap (cfg.i2c_registerIndex c)).writeBytes)
    (hL' : ds.length < 255)
    (hpg : ∀ x ∈ ds, ¬ (0x00 = (cfg.i2c_registerMap (cfg.i2c_registerIndex c)).cmdCode ∧
      x ≥ cfg.I2C_NUMPAGES ∧ x < 0xFF))
    (hp : ¬ ((cfg.I2C_ENABLE_PAGE &&
      ((cfg.i2c_registerMap (cfg.i2c_registerIndex c)).attributes &&& I2C_PAGED != 0)) = true ∧
      0xFF = g0.ram cfg.I2C_PAGE)) :
    run cfg g0 ([evWriteAddr, evData c] ++ (ds.length :: ds).map evData
        ++ [evData (writePec g0.i2c_baseAddress c (ds.length :: ds))]) =
      { g0 with
        i2c_status := 0
        i2c_state := g0.i2c_state &&& 0xFE
        i2c_command := { code := c, page := g0.ram cfg.I2C_PAGE }
        i2c_registerMapIndex := cfg.i2c_registerIndex c
        writeBytes := ds.length + 1
        i2c_buffer := stageBytes 0 ds g0.i2c_buffer
        i2c_pec := writePec g0.i2c_baseAddress c (ds.length :: ds)
        i2c_rxIdx := ds.length + 3 }
    ∧ raised cfg g0 ([evWriteAddr, evData c] ++ (ds.length :: ds).map evData
        ++ [evData (writePec g0.i2c_baseAddress c (ds.length :: ds))]) = 0 := by
  have hhdr := run_header cfg c g0 hsup
  have hb : IS_BLOCKCMD cfg (run cfg g0 [evWriteAddr, evData c]) = true := by
    rw [hhdr]
    simp [IS_BLOCKCMD, curCmd, hblk]
  have hblen := isr_blocklen_ok cfg ds.length (run cfg g0 [evWriteAddr, evData c])
    (by rw [hhdr]) (by rw [hhdr]; exact hsup) (by rw [hhdr]; exact hM) hb
    (by rw [hhdr]; exact hL)
  have hmod : (ds.length + 1) % 256 = ds.length + 1 := Nat.mod_eq_of_lt (by omega)
  have hs2 : run cfg g0 ([evWriteAddr, evData c] ++ [evData ds.length]) =
      { g0 with
        i2c_status := 0
        i2c_state := g0.i2c_state &&& 0xFE
        i2c_command := { code := c, page := g0.ram cfg.I2C_PAGE }
        i2c_registerMapIndex := cfg.i2c_registerIndex c
        writeBytes := ds.length + 1
        i2c_pec := pecFold 0 [(g0.i2c_baseAddress <<< 1) % 256, c, ds.length]
        i2c_rxIdx := 2 } := by
    rw [run_append, run_cons, run_nil, hblen, hhdr, hmod]
    rfl
  have hb2 : IS_BLOCKCMD cfg (run cfg g0 ([evWriteAddr, evData c] ++ [evData ds.length]))
      = true := by
    rw [hs2]
    simp [IS_BLOCKCMD, curCmd, hblk]
  have hst := run_stage_block cfg ds (run cfg g0 ([evWriteAddr, evData c] ++ [evData ds.length])) 0
    (by rw [hs2]) (by rw [hs2]) (by rw [hs2]; exact hsup)
    (by rw [hs2]; show 0 + 1 + ds.length ≤ ds.length + 1; omega)
    (by rw [hs2]; show ds.length + 1 < 65535; omega) hb2
    (by rw [hs2]; exact hpg) (by rw [hs2]; exact hp)
  have hfold : pecFold (pecFold 0 [(g0.i2c_baseAddress <<< 1) % 256, c, ds.length]) ds =
      writePec g0.i2c_baseAddress c (ds.length :: ds) := by
    unfold writePec
    rw [← pecFold_append]
    rfl
  have hlist : [evWriteAddr, evData c] ++ (ds.length :: ds).map evData =
      ([evWriteAddr, evData c] ++ [evData ds.length]) ++ ds.map evData := by
    simp
  have hstaged : run cfg g0 ([evWriteAddr, evData c] ++ (ds.length :: ds).map evData) =
      { g0 with
        i2c_status := 0
        i2c_state := g0.i2c_state &&& 0xFE
        i2c_command := { code := c, page := g0.ram cfg.I2C_PAGE }
        i2c_registerMapIndex := cfg.i2c_registerIndex c
        writeBytes := ds.length + 1
        i2c_buffer := stageBytes 0 ds g0.i2c_buffer
        i2c_pec := writePec g0.i2c_baseAddress c (ds.length :: ds)
        i2c_rxIdx := ds.length + 2 } := by
    rw [hlist, run_append, hst.1, hs2]
    simp only [hfold]
    rw [show 0 + 2 + ds.length = ds.length + 2 by omega]
  have hpec := isr_pec_ok cfg (run cfg g0 ([evWriteAddr, evData c] ++ (ds.length :: ds).map evData))
    (by rw [hstaged])
    (by rw [hstaged]; show ds.length + 2 < 65535; omega)
    (by rw [hstaged]; exact hsup)
    (by rw [hstaged]; show ¬ (0 = (cfg.i2c_registerMap (cfg.i2c_registerIndex c)).writeBytes ∧ _)
        omega)
  have hpecv : (run cfg g0 ([evWriteAddr, evData c] ++ (ds.length :: ds).map evData)).i2c_pec =
      writePec g0.i2c_baseAddress c (ds.length :: ds) := by rw [hstaged]
  rw [hpecv] at hpec
  constructor
  · rw [run_append, run_cons, run_nil, hpec, hstaged]
  · rw [raised_append, hlist, raised_append, raised_append]
    have h1 : raised cfg g0 [evWriteAddr, evData c] = 0 := by
      unfold raised raised raised
      rw [isr_evWriteAddr, isr_cmd cfg c _ rfl hsup]
      simp
    have h2 : raised cfg (run cfg g0 [evWriteAddr, evData c]) [evData ds.length] = 0 := by
      unfold raised raised
      rw [hblen]
      simp
    rw [h1, h2, hst.2]
    rw [← hlist]
    unfold raised raised
    rw [hpec, hstaged]
    simp

set_option maxRecDepth 100000 in
/-- C17, as stated, fails: command 0x62 of `blockCfg` is a paged block
command with a stored length byte and declared write length 2; with the page
register at 0xFF, the write of length byte 1, one payload byte and the
matching checksum raises the data-fault bit at the payload byte and leaves the
storage of the page as it was. -/
theorem block_write_page_ff_counterexample :
    (blockCfg.i2c_registerMap (blockCfg.i2c_registerIndex 0x62)).attributes &&& I2C_BLOCK ≠ 0
    ∧ (blockCfg.i2c_registerMap (blockCfg.i2c_registerIndex 0x62)).attributes
        &&& blockCfg.I2C_LEN ≠ 0
    ∧ [0xAA].length ≤ (blockCfg.i2c_registerMap (blockCfg.i2c_registerIndex 0x62)).writeBytes
    ∧ raised blockCfg (blockInit 0xFF 0x5A)
        (writeTxn (blockInit 0xFF 0x5A).i2c_baseAddress 0x62 ([0xAA].length :: [0xAA]))
        = STATUS_CML_DATA_FAULT
    ∧ (run blockCfg (blockInit 0xFF 0x5A)
        (writeTxn (blockInit 0xFF 0x5A).i2c_baseAddress 0x62 ([0xAA].length :: [0xAA]))).ram
          (0x80 + 255 * (2 + 1)) = 0x5A
    ∧ (run blockCfg (blockInit 0xFF 0x5A)
        (writeTxn (blockInit 0xFF 0x5A).i2c_baseAddress 0x62 ([0xAA].length :: [0xAA]))).ram
          (0x80 + 255 * (2 + 1) + 1) = 0x5A := by
  decide

/-- C17, amended: for a block command with a stored length byte (attributes
`I2C_BLOCK` and `I2C_LEN`), declared write length `1 <= M` (a byte), and a
payload `ds` of `L <= M`, `L <= 254` bytes (legal page values when the
descriptor has command code 0), the page register holding a value below 0xFF
when the command is paged: the events write address-match, command code,
length byte `L`, the `L` payload bytes, a trailing byte equal to the running
checksum, STOP store `L` in the first byte of the page of the command (at
`ramAddr + page * (M + 1)`, page 0 when the command is not paged) and the
payload in wire order in the `L` bytes after it, leave every RAM byte outside
these `L + 1` bytes as it was, and raise no fault bit. -/
theorem block_write_with_length_commits (cfg : Config) (g0 : Globals) (c : Nat) (ds : List Nat)
    (hsup : cfg.i2c_registerIndex c ≠ I2C_UNSUPPORTED)
    (hblk : (cfg.i2c_registerMap (cfg.i2c_registerIndex c)).attributes &&& I2C_BLOCK ≠ 0)
    (hlen : (cfg.i2c_registerMap (cfg.i2c_registerIndex c)).attributes &&& cfg.I2C_LEN ≠ 0)
    (hM : 1 ≤ (cfg.i2c_registerMap (cfg.i2c_registerIndex c)).writeBytes)
    (hM' : (cfg.i2c_registerMap (cfg.i2c_registerIndex c)).writeBytes < 256)
    (hL : ds.length ≤ (cfg.i2c_registerMap (cfg.i2c_registerIndex c)).writeBytes)
    (hL' : ds.length < 255)
    (hcode : (cfg.i2c_registerMap (cfg.i2c_registerIndex c)).cmdCode = 0 →
      ∀ x ∈ ds, x < cfg.I2C_NUMPAGES ∨ x = 0xFF)
    (hpage : (cfg.I2C_ENABLE_PAGE &&
        ((cfg.i2c_registerMap (cfg.i2c_registerIndex c)).attributes &&& I2C_PAGED != 0)) = true →
      g0.ram cfg.I2C_PAGE < 0xFF) :
    (run cfg g0 (writeTxn g0.i2c_baseAddress c (ds.length :: ds))).ram
        ((cfg.i2c_registerMap (cfg.i2c_registerIndex c)).ramAddr +
          (if (cfg.I2C_ENABLE_PAGE &&
              ((cfg.i2c_registerMap (cfg.i2c_registerIndex c)).attributes &&& I2C_PAGED != 0))
              = true
           then g0.ram cfg.I2C_PAGE *
             ((cfg.i2c_registerMap (cfg.i2c_registerIndex c)).writeBytes + 1)
           else 0)) = ds.length
    ∧ (∀ i (h : i < ds.length),
        (run cfg g0 (writeTxn g0.i2c_baseAddress c (ds.length :: ds))).ram
          ((cfg.i2c_registerMap (cfg.i2c_registerIndex c)).ramAddr +
            (if (cfg.I2C_ENABLE_PAGE &&
                ((cfg.i2c_registerMap (cfg.i2c_registerIndex c)).attributes &&& I2C_PAGED != 0))
                = true
             then g0.ram cfg.I2C_PAGE *
               ((cfg.i2c_registerMap (cfg.i2c_registerIndex c)).writeBytes + 1)
             else 0) + 1 + i) = ds[i])
    ∧ (∀ a,
        a < (cfg.i2c_registerMap (cfg.i2c_registerIndex c)).ramAddr +
            (if (cfg.I2C_ENABLE_PAGE &&
                ((cfg.i2c_registerMap (cfg.i2c_registerIndex c)).attributes &&& I2C_PAGED != 0))
                = true
             then g0.ram cfg.I2C_PAGE *
               ((cfg.i2c_registerMap (cfg.i2c_registerIndex c)).writeBytes + 1)
             else 0)
        ∨ (cfg.i2c_registerMap (cfg.i2c_registerIndex c)).ramAddr +
            (if (cfg.I2C_ENABLE_PAGE &&
                ((cfg.i2c_registerMap (cfg.i2c_registerIndex c)).attributes &&& I2C_PAGED != 0))
                = true
             then g0.ram cfg.I2C_PAGE *
               ((cfg.i2c_registerMap (cfg.i2c_registerIndex c)).writeBytes + 1)
             else 0) + ds.length + 1 ≤ a →
        (run cfg g0 (writeTxn g0.i2c_baseAddress c (ds.length :: ds))).ram a = g0.ram a)
    ∧ raised cfg g0 (writeTxn g0.i2c_baseAddress c (ds.length :: ds)) = 0 := by
  have hst := run_block_write_staged cfg g0 c ds hsup hblk hM hL hL'
    (by
      intro x hx hbad
      rcases hcode hbad.1.symm x hx with h | h <;> omega)
    (by
      intro h
      have := hpage h.1
      omega)
  have hstop := isr_stop_commit cfg
    (run cfg g0 ([evWriteAddr, evData c] ++ (ds.length :: ds).map evData
        ++ [evData (writePec g0.i2c_baseAddress c (ds.length :: ds))]))
    (by rw [hst.1]; exact clear_error _)
    (by rw [hst.1]
        show ¬ (0 = (cfg.i2c_registerMap (cfg.i2c_registerIndex c)).readBytes ∧
          0 = (cfg.i2c_registerMap (cfg.i2c_registerIndex c)).writeBytes)
        omega)
    (by rw [hst.1]
        show ds.length + 3 > ds.length + 1
        omega)
  have hrun : run cfg g0 (writeTxn g0.i2c_baseAddress c (ds.length :: ds)) =
      isr cfg evStop (run cfg g0 ([evWriteAddr, evData c] ++ (ds.length :: ds).map evData
        ++ [evData (writePec g0.i2c_baseAddress c (ds.length :: ds))])) := by
    rw [writeTxn_eq, run_append, run_cons, run_nil]
  have hcommit : run cfg g0 (writeTxn g0.i2c_baseAddress c (ds.length :: ds)) = commit cfg
      { g0 with
        i2c_status := 0
        i2c_busy := 0
        i2c_state := g0.i2c_state &&& 0xFE
        i2c_command := { code := c, page := g0.ram cfg.I2C_PAGE }
        i2c_registerMapIndex := cfg.i2c_registerIndex c
        writeBytes := ds.length + 1
        i2c_buffer := stageBytes 0 ds g0.i2c_buffer
        i2c_pec := writePec g0.i2c_baseAddress c (ds.length :: ds)
        i2c_rxIdx := ds.length + 3 } := by
    rw [hrun, hstop, hst.1]
  have hfinal : (run cfg g0 (writeTxn g0.i2c_baseAddress c (ds.length :: ds))).ram =
      commitLoop
        ((cfg.i2c_registerMap (cfg.i2c_registerIndex c)).ramAddr + pageOffsetWrite cfg
          { g0 with
        i2c_status := 0
        i2c_busy := 0
        i2c_state := g0.i2c_state &&& 0xFE
        i2c_command := { code := c, page := g0.ram cfg.I2C_PAGE }
        i2c_registerMapIndex := cfg.i2c_registerIndex c
        writeBytes := ds.length + 1
        i2c_buffer := stageBytes 0 ds g0.i2c_buffer
        i2c_pec := writePec g0.i2c_baseAddress c (ds.length :: ds)
        i2c_rxIdx := ds.length + 3 } + 1)
        (stageBytes 0 ds g0.i2c_buffer) (ds.length + 1 - 1)
        (Function.update g0.ram
          ((cfg.i2c_registerMap (cfg.i2c_registerIndex c)).ramAddr + pageOffsetWrite cfg
            { g0 with
        i2c_status := 0
        i2c_busy := 0
        i2c_state := g0.i2c_state &&& 0xFE
        i2c_command := { code := c, page := g0.ram cfg.I2C_PAGE }
        i2c_registerMapIndex := cfg.i2c_registerIndex c
        writeBytes := ds.length + 1
        i2c_buffer := stageBytes 0 ds g0.i2c_buffer
        i2c_pec := writePec g0.i2c_baseAddress c (ds.length :: ds)
        i2c_rxIdx := ds.length + 3 })
          ((ds.length + 1 + 255) % 256)) := by
    rw [hcommit, commit_lblock cfg _ (by simp [IS_BLOCKCMD, curCmd, hblk])
      (by simp [IS_LBLOCK, curCmd, hlen])]
    rfl
  -- the page offset of the commit
  have hpo : pageOffsetWrite cfg
      { g0 with
        i2c_status := 0
        i2c_busy := 0
        i2c_state := g0.i2c_state &&& 0xFE
        i2c_command := { code := c, page := g0.ram cfg.I2C_PAGE }
        i2c_registerMapIndex := cfg.i2c_registerIndex c
        writeBytes := ds.length + 1
        i2c_buffer := stageBytes 0 ds g0.i2c_buffer
        i2c_pec := writePec g0.i2c_baseAddress c (ds.length :: ds)
        i2c_rxIdx := ds.length + 3 } =
      (if (cfg.I2C_ENABLE_PAGE &&
          ((cfg.i2c_registerMap (cfg.i2c_registerIndex c)).attributes &&& I2C_PAGED != 0)) = true
       then g0.ram cfg.I2C_PAGE *
         ((cfg.i2c_registerMap (cfg.i2c_registerIndex c)).writeBytes + 1)
       else 0) := by
    unfold pageOffsetWrite
    have hlb : lenByte cfg
        { g0 with
        i2c_status := 0
        i2c_busy := 0
        i2c_state := g0.i2c_state &&& 0xFE
        i2c_command := { code := c, page := g0.ram cfg.I2C_PAGE }
        i2c_registerMapIndex := cfg.i2c_registerIndex c
        writeBytes := ds.length + 1
        i2c_buffer := stageBytes 0 ds g0.i2c_buffer
        i2c_pec := writePec g0.i2c_baseAddress c (ds.length :: ds)
        i2c_rxIdx := ds.length + 3 } = 1 := by
      simp [lenByte, IS_LBLOCK, curCmd, hlen]
    rw [hlb]
    by_cases hpgd : (cfg.I2C_ENABLE_PAGE &&
        ((cfg.i2c_registerMap (cfg.i2c_registerIndex c)).attributes &&& I2C_PAGED != 0)) = true
    · have hlt := hpage hpgd
      have hmul : g0.ram cfg.I2C_PAGE *
          ((cfg.i2c_registerMap (cfg.i2c_registerIndex c)).writeBytes + 1) ≤ 254 * 256 :=
        Nat.mul_le_mul (by omega) (by omega)
      have hIS : IS_PAGED cfg
          { g0 with
        i2c_status := 0
        i2c_busy := 0
        i2c_state := g0.i2c_state &&& 0xFE
        i2c_command := { code := c, page := g0.ram cfg.I2C_PAGE }
        i2c_registerMapIndex := cfg.i2c_registerIndex c
        writeBytes := ds.length + 1
        i2c_buffer := stageBytes 0 ds g0.i2c_buffer
        i2c_pec := writePec g0.i2c_baseAddress c (ds.length :: ds)
        i2c_rxIdx := ds.length + 3 } = true := hpgd
      rw [if_pos hIS, if_pos hpgd]
      show (g0.ram cfg.I2C_PAGE *
        ((cfg.i2c_registerMap (cfg.i2c_registerIndex c)).writeBytes + 1)) % 65536 = _
      exact Nat.mod_eq_of_lt (by omega)
    · have hIS : ¬ (IS_PAGED cfg
          { g0 with
        i2c_status := 0
        i2c_busy := 0
        i2c_state := g0.i2c_state &&& 0xFE
        i2c_command := { code := c, page := g0.ram cfg.I2C_PAGE }
        i2c_registerMapIndex := cfg.i2c_registerIndex c
        writeBytes := ds.length + 1
        i2c_buffer := stageBytes 0 ds g0.i2c_buffer
        i2c_pec := writePec g0.i2c_baseAddress c (ds.length :: ds)
        i2c_rxIdx := ds.length + 3 } = true) := hpgd
      rw [if_neg hIS, if_neg hpgd]
  rw [hpo] at hfinal
  have hlenb : (ds.length + 1 + 255) % 256 = ds.length := by omega
  refine ⟨?_, ?_, ?_, ?_⟩
  · rw [hfinal, commitLoop_frame _ _ _ _ _ (Or.inl (by omega)), Function.update_same]
    exact hlenb
  · intro i hi
    rw [hfinal, commitLoop_get _ _ _ _ _ (by omega)]
    simpa using stageBytes_get ds 0 g0.i2c_buffer i hi
  · intro a ha
    rw [hfinal, commitLoop_frame _ _ _ _ _ (by omega), Function.update_noteq (by omega)]
  · rw [writeTxn_eq, raised_append, hst.2]
    unfold raised raised
    rw [hstop]
    simp [commit]

set_option maxRecDepth 100000 in
/-- C17, amended, at the paged block command 0x62 of `blockCfg` (write
length 2), page 1, payload `0xAA`. -/
theorem block_write_with_length_commits_witness :
    (run blockCfg (blockInit 1 0x5A)
        (writeTxn (blockInit 1 0x5A).i2c_baseAddress 0x62 ([0xAA].length :: [0xAA]))).ram
      (0x80 + 1 * (2 + 1)) = 1
    ∧ (run blockCfg (blockInit 1 0x5A)
        (writeTxn (blockInit 1 0x5A).i2c_baseAddress 0x62 ([0xAA].length :: [0xAA]))).ram
      (0x80 + 1 * (2 + 1) + 1 + 0) = 0xAA
    ∧ raised blockCfg (blockInit 1 0x5A)
        (writeTxn (blockInit 1 0x5A).i2c_baseAddress 0x62 ([0xAA].length :: [0xAA])) = 0 :=
  have h := block_write_with_length_commits blockCfg (blockInit 1 0x5A) 0x62 [0xAA]
    (by decide) (by decide) (by decide) (by decide) (by decide) (by decide) (by decide)
    (by decide) (by decide)
  ⟨h.1, h.2.1 0 (by decide), h.2.2.2⟩

/-! ## Address-match events and the checksum -/

set_option maxRecDepth 100000 in
/-- C23, as stated, fails at the read address-match: for a read of command
0x10 of `demoCfg`, the accumulator after the event depends on the accumulator
before it (0 or 1), and with the accumulator at 0 before the event it is not
the CRC-8 of the address+read byte alone (the event also feeds the first
transmitted byte).  It also fails at the general call: the address+direction
byte of a general call is 0x00, and the accumulator after the event is not
the CRC-8 of that byte. -/
theorem read_address_match_no_reseed_counterexample :
    (isr demoCfg evReadAddr
        { run demoCfg demoInit [evWriteAddr, evData 0x10, evStop] with i2c_pec := 0 }).i2c_pec
      ≠ (isr demoCfg evReadAddr
        { run demoCfg demoInit [evWriteAddr, evData 0x10, evStop] with i2c_pec := 1 }).i2c_pec
    ∧ (isr demoCfg evReadAddr
        { run demoCfg demoInit [evWriteAddr, evData 0x10, evStop] with i2c_pec := 0 }).i2c_pec
      ≠ crc8Ref [((demoInit.i2c_baseAddress <<< 1) + 1) % 256]
    ∧ (isr demoCfg evGenCall demoInit).i2c_pec ≠ crc8Ref [0x00] := by
  decide

/-- C23, amended: on the own-address write address-match the accumulator
after the event is the CRC-8 of the single byte `i2c_baseAddress << 1` (own
address and write bit, as an 8-bit value); on that match and on the
general-call match the accumulator after the event does not depend on what it
held before, the error flag is clear and the receive index is 0. -/
theorem write_address_match_reseeds (cfg : Config) (g : Globals) (ev : BusEvent)
    (hev : ev.TWSR = I2C_SRX_ADR_ACK ∨ ev.TWSR = I2C_SRX_GEN_ACK) :
    (ev.TWSR = I2C_SRX_ADR_ACK →
      (isr cfg ev g).i2c_pec = crc8Ref [(g.i2c_baseAddress <<< 1) % 256])
    ∧ (∀ p : Nat, (isr cfg ev { g with i2c_pec := p }).i2c_pec = (isr cfg ev g).i2c_pec)
    ∧ (isr cfg ev g).i2c_state &&& I2C_STATE_ERROR = 0
    ∧ (isr cfg ev g).i2c_rxIdx = 0 := by
  have hd : ∀ s : Globals, dispatch cfg ev { s with i2c_status := 0 }
      = srxAdrAck { s with i2c_status := 0 } := by
    intro s
    unfold dispatch
    rcases hev with h | h <;>
      simp [h, I2C_SRX_ADR_ACK, I2C_SRX_GEN_ACK, I2C_STX_ADR_ACK, I2C_STX_DATA_ACK,
        I2C_STX_DATA_NACK]
  have hst : ∀ s : Globals, (srxAdrAck { s with i2c_status := 0 }).i2c_status = 0 :=
    fun _ => rfl
  have hisr : ∀ s : Globals, isr cfg ev s = srxAdrAck { s with i2c_status := 0 } := by
    intro s
    unfold isr
    rw [hd, statusUpdate_of_zero cfg _ (hst s)]
  refine ⟨fun _ => ?_, fun p => ?_, ?_, ?_⟩
  · rw [hisr]
    show pecStep 0 ((g.i2c_baseAddress <<< 1) % 256) = _
    have h := pecFold_eq_ref [(g.i2c_baseAddress <<< 1) % 256] 0 (by decide)
      (by intro b hb
          rw [List.mem_singleton] at hb
          rw [hb]
          exact Nat.mod_lt _ (by decide))
    unfold crc8Ref
    rw [← h]
    rfl
  · rw [hisr, hisr]
    rfl
  · rw [hisr]
    exact clear_error _
  · rw [hisr]
    rfl

set_option maxRecDepth 100000 in
/-- C23, amended, at an own-address write address-match with the accumulator
at 0x55, the error flag set and the receive index at 3 before the event. -/
theorem write_address_match_reseeds_witness :
    (evWriteAddr.TWSR = I2C_SRX_ADR_ACK ∨ evWriteAddr.TWSR = I2C_SRX_GEN_ACK)
    ∧ (isr demoCfg evWriteAddr
        { demoInit with i2c_pec := 0x55, i2c_state := 1, i2c_rxIdx := 3 }).i2c_pec
      = crc8Ref [(0x20 <<< 1) % 256]
    ∧ (isr demoCfg evWriteAddr
        { demoInit with i2c_pec := 0x55, i2c_state := 1, i2c_rxIdx := 3 }).i2c_pec
      = (isr demoCfg evWriteAddr demoInit).i2c_pec
    ∧ (isr demoCfg evWriteAddr
        { demoInit with i2c_pec := 0x55, i2c_state := 1, i2c_rxIdx := 3 }).i2c_state
          &&& I2C_STATE_ERROR = 0
    ∧ (isr demoCfg evWriteAddr
        { demoInit with i2c_pec := 0x55, i2c_state := 1, i2c_rxIdx := 3 }).i2c_rxIdx = 0 :=
  have h := write_address_match_reseeds demoCfg
    { demoInit with i2c_pec := 0x55, i2c_state := 1, i2c_rxIdx := 3 } evWriteAddr
    (Or.inl rfl)
  ⟨Or.inl rfl, h.1 rfl, by decide, h.2.2.1, h.2.2.2⟩

/-! ## The queue under an interrupt -/

set_option maxRecDepth 100000 in
/-- C24, the code at a failing interleaving: capacity 4, three entries
pending (`i2cCmdQueueDepth` returns 3).  The test of `cmdQueueFull` in
`i2cCmdQueueDepth` is made before its atomic block; when the handler pushes a
fourth entry between the two, the head index wraps onto the tail and the
function returns 0, where the queue holds 4 entries (as the next uninterrupted
call reports); `i2cCmdQueuePop`, which starts with that call, returns failure
on the full queue. -/
theorem queue_depth_torn_by_interrupt :
    i2cCmdQueueDepth (queueCfg 4)
        (queueCalls (queueCfg 4) [.push ⟨1, 0⟩, .push ⟨2, 0⟩, .push ⟨3, 0⟩] (queueInit 4)).2 = 3
    ∧ (i2cCmdQueuePush (queueCfg 4) ⟨4, 0⟩
        (queueCalls (queueCfg 4) [.push ⟨1, 0⟩, .push ⟨2, 0⟩, .push ⟨3, 0⟩] (queueInit 4)).2).1 = 1
    ∧ (i2cCmdQueueDepthIrq (queueCfg 4) ⟨4, 0⟩
        (queueCalls (queueCfg 4) [.push ⟨1, 0⟩, .push ⟨2, 0⟩, .push ⟨3, 0⟩] (queueInit 4)).2).1 = 0
    ∧ i2cCmdQueueDepth (queueCfg 4)
        (i2cCmdQueueDepthIrq (queueCfg 4) ⟨4, 0⟩
          (queueCalls (queueCfg 4) [.push ⟨1, 0⟩, .push ⟨2, 0⟩, .push ⟨3, 0⟩]
            (queueInit 4)).2).2 = 4
    ∧ (i2cCmdQueuePopIrq (queueCfg 4) ⟨4, 0⟩ ⟨0, 0⟩
        (queueCalls (queueCfg 4) [.push ⟨1, 0⟩, .push ⟨2, 0⟩, .push ⟨3, 0⟩] (queueInit 4)).2).1 = 0 := by
  decide

/-! ## The sticky fault register -/

theorem and_or_self_left (x s : Nat) : x &&& (x ||| s) = x := by
  apply Nat.eq_of_testBit_eq
  intro i
  simp only [Nat.testBit_and, Nat.testBit_or]
  cases x.testBit i <;> cases s.testBit i <;> rfl

set_option maxRecDepth 100000 in
/-- C25, as stated, fails at a STOP that commits a write to a command backed
by the fault register: in `auxCfg` command 0x7E stores in `I2C_STATUS_CML[0]`.
After a write to an unsupported command the register holds 0x80; a write of
0x00 to command 0x7E is staged without fault, and its STOP raises no fault bit
and leaves the register at 0. -/
theorem stop_commit_clears_fault_register_counterexample :
    (auxCfg.i2c_registerMap (auxCfg.i2c_registerIndex 0x7E)).ramAddr = auxCfg.I2C_STATUS_CML
    ∧ (run auxCfg (auxInit 0)
        [evWriteAddr, evData 0x55, evStop, evWriteAddr, evData 0x7E, evData 0]).ram
          auxCfg.I2C_STATUS_CML = 0x80
    ∧ (isr auxCfg evStop (run auxCfg (auxInit 0)
        [evWriteAddr, evData 0x55, evStop, evWriteAddr, evData 0x7E, evData 0])).i2c_status = 0
    ∧ (isr auxCfg evStop (run auxCfg (auxInit 0)
        [evWriteAddr, evData 0x55, evStop, evWriteAddr, evData 0x7E, evData 0])).ram
          auxCfg.I2C_STATUS_CML = 0 := by
  decide

/-- The commit leaves every address outside `commitWrites` as it was. -/
theorem commit_ram_of_not_written (cfg : Config) (g : Globals) (a : Nat)
    (h : ¬ commitWrites cfg g a) : (commit cfg g).ram a = g.ram a := by
  unfold commitWrites at h
  have h1 : ¬ (IS_LBLOCK cfg g = true ∧ a = (curCmd cfg g).ramAddr + pageOffsetWrite cfg g) :=
    fun e => h (Or.inl e)
  have h2 : a < (curCmd cfg g).ramAddr + pageOffsetWrite cfg g + lenByte cfg g
      ∨ (curCmd cfg g).ramAddr + pageOffsetWrite cfg g + lenByte cfg g
        + (if IS_BLOCKCMD cfg g then g.writeBytes - 1 else g.writeBytes) ≤ a := by
    by_contra hc
    exact h (Or.inr ⟨by omega, by omega⟩)
  unfold commit
  dsimp only
  rw [commitLoop_frame _ _ _ _ a h2]
  by_cases hl : IS_LBLOCK cfg g = true
  · rw [if_pos hl]
    exact Function.update_noteq (fun e => h1 ⟨hl, e⟩) _ _
  · rw [if_neg hl]

/-- The commit stores into every address of `commitWrites`: the length byte
or a staged byte. -/
theorem commit_ram_of_written (cfg : Config) (g : Globals) (a : Nat)
    (h : commitWrites cfg g a) :
    (commit cfg g).ram a = (g.writeBytes + 255) % 256
    ∨ ∃ i, i < (if IS_BLOCKCMD cfg g then g.writeBytes - 1 else g.writeBytes)
        ∧ (commit cfg g).ram a = g.i2c_buffer i := by
  by_cases h2 : (curCmd cfg g).ramAddr + pageOffsetWrite cfg g + lenByte cfg g ≤ a
      ∧ a < (curCmd cfg g).ramAddr + pageOffsetWrite cfg g + lenByte cfg g
        + (if IS_BLOCKCMD cfg g then g.writeBytes - 1 else g.writeBytes)
  · right
    refine ⟨a - ((curCmd cfg g).ramAddr + pageOffsetWrite cfg g + lenByte cfg g),
      by omega, ?_⟩
    have ha : a = (curCmd cfg g).ramAddr + pageOffsetWrite cfg g + lenByte cfg g
        + (a - ((curCmd cfg g).ramAddr + pageOffsetWrite cfg g + lenByte cfg g)) := by omega
    unfold commit
    dsimp only
    conv_lhs => rw [ha]
    exact commitLoop_get _ _ _ _ _ (by omega)
  · left
    unfold commitWrites at h
    rcases h with ⟨hl, e⟩ | h
    · have hf : a < (curCmd cfg g).ramAddr + pageOffsetWrite cfg g + lenByte cfg g
          ∨ (curCmd cfg g).ramAddr + pageOffsetWrite cfg g + lenByte cfg g
            + (if IS_BLOCKCMD cfg g then g.writeBytes - 1 else g.writeBytes) ≤ a := by
        by_contra hc
        exact h2 ⟨by omega, by omega⟩
      unfold commit
      dsimp only
      rw [commitLoop_frame _ _ _ _ a hf, if_pos hl, e, Function.update_same]
    · exact absurd h h2

/-- C25, amended: for every state of the globals and every bus event, the
error flag is set after the event whenever the event raised a fault bit; and
unless the event is a STOP/repeated START that commits a write (error flag
clear, not a send-byte command, more bytes received than the write length in
effect) of a command whose commit stores into the sticky fault register
itself, the sticky fault register after the event is its value before ORed
with the fault bits raised by the event, so that no bit of it is cleared. -/
theorem fault_register_accumulates (cfg : Config) (g : Globals) (ev : BusEvent) :
    ((isr cfg ev g).i2c_status ≠ 0 → (isr cfg ev g).i2c_state &&& I2C_STATE_ERROR ≠ 0)
    ∧ (¬ (ev.TWSR = I2C_SRX_STOP_RESTART ∧ g.i2c_state &&& I2C_STATE_ERROR = 0 ∧
          ¬ (0 = (curCmd cfg g).readBytes ∧ 0 = (curCmd cfg g).writeBytes) ∧
          g.i2c_rxIdx > g.writeBytes ∧ commitWrites cfg g cfg.I2C_STATUS_CML) →
        (isr cfg ev g).ram cfg.I2C_STATUS_CML
          = g.ram cfg.I2C_STATUS_CML ||| (isr cfg ev g).i2c_status
        ∧ g.ram cfg.I2C_STATUS_CML &&& (isr cfg ev g).ram cfg.I2C_STATUS_CML
          = g.ram cfg.I2C_STATUS_CML) := by
  constructor
  · intro hs
    unfold isr at hs ⊢
    rw [(statusUpdate_fields cfg _).2.2.2.2.2.1] at hs
    rw [statusUpdate_state, if_pos hs]
    exact and_error_of_or _
  · intro hnc
    have hram : (dispatch cfg ev { g with i2c_status := 0 }).ram cfg.I2C_STATUS_CML
        = g.ram cfg.I2C_STATUS_CML := by
      by_cases hstop : ev.TWSR = I2C_SRX_STOP_RESTART
      · rw [dispatch_stop cfg ev _ hstop]
        unfold srxStopRestart
        dsimp only
        split_ifs with h1 h2 h3
        · rw [push_ram cfg _ _]
        · exact commit_ram_of_not_written cfg { g with i2c_status := 0, i2c_busy := 0 } _
            (fun hw => hnc ⟨hstop, h1, h2, h3, hw⟩)
        · rfl
        · rfl
      · rw [(dispatch_frame cfg ev _ hstop).1]
    have hreg : (isr cfg ev g).ram cfg.I2C_STATUS_CML
        = g.ram cfg.I2C_STATUS_CML ||| (isr cfg ev g).i2c_status := by
      unfold isr
      rw [(statusUpdate_fields cfg _).2.2.2.2.2.1]
      unfold statusUpdate
      split_ifs with hs
      · show Function.update _ _ _ _ = _
        rw [Function.update_same, hram]
      · have h0 : (dispatch cfg ev { g with i2c_status := 0 }).i2c_status = 0 := by
          by_contra h
          exact hs h
        rw [h0, hram]
        simp
    exact ⟨hreg, by rw [hreg]; exact and_or_self_left _ _⟩

set_option maxRecDepth 100000 in
/-- C25, amended, at the STOP that commits the write of `0xAA, 0xBB` to
command 0x10 of `demoCfg` (backed by the addresses 0x10 and 0x11) with the
fault register, at address 1, holding the command-fault bit: the commit
stores the two bytes and the register keeps 0x80. -/
theorem fault_register_accumulates_witness :
    ¬ commitWrites demoCfg
        (run demoCfg demoInit [evWriteAddr, evData 0x77, evStop, evWriteAddr, evData 0x10,
          evData 0xAA, evData 0xBB]) demoCfg.I2C_STATUS_CML
    ∧ (isr demoCfg evStop
        (run demoCfg demoInit [evWriteAddr, evData 0x77, evStop, evWriteAddr, evData 0x10,
          evData 0xAA, evData 0xBB])).ram demoCfg.I2C_STATUS_CML
      = (run demoCfg demoInit [evWriteAddr, evData 0x77, evStop, evWriteAddr, evData 0x10,
          evData 0xAA, evData 0xBB]).ram demoCfg.I2C_STATUS_CML
        ||| (isr demoCfg evStop
          (run demoCfg demoInit [evWriteAddr, evData 0x77, evStop, evWriteAddr, evData 0x10,
            evData 0xAA, evData 0xBB])).i2c_status
    ∧ (isr demoCfg evStop
        (run demoCfg demoInit [evWriteAddr, evData 0x77, evStop, evWriteAddr, evData 0x10,
          evData 0xAA, evData 0xBB])).ram demoCfg.I2C_STATUS_CML = 0x80
    ∧ (isr demoCfg evStop
        (run demoCfg demoInit [evWriteAddr, evData 0x77, evStop, evWriteAddr, evData 0x10,
          evData 0xAA, evData 0xBB])).ram 0x11 = 0xBB :=
  have hw : ¬ commitWrites demoCfg
      (run demoCfg demoInit [evWriteAddr, evData 0x77, evStop, evWriteAddr, evData 0x10,
        evData 0xAA, evData 0xBB]) demoCfg.I2C_STATUS_CML := by
    unfold commitWrites
    decide
  ⟨hw, ((fault_register_accumulates demoCfg
      (run demoCfg demoInit [evWriteAddr, evData 0x77, evStop, evWriteAddr, evData 0x10,
        evData 0xAA, evData 0xBB]) evStop).2 (fun h => hw h.2.2.2.2)).1, by decide, by decide⟩

/-! ## A write transaction without a command code -/

set_option maxRecDepth 100000 in
/-- C29, the code at a failing input: in `demoCfg` command 0x30 is a
send-byte command.  After the write of its command code and STOP the queue
holds one entry; a following write address-match and STOP, with no command
code in between, finds the descriptor and `i2c_command` of the preceding
transaction and enqueues the entry again: the queue holds two entries
`{0x30, 0}`. -/
theorem empty_write_enqueues_again :
    (demoCfg.i2c_registerMap (demoCfg.i2c_registerIndex 0x30)).readBytes = 0
    ∧ (demoCfg.i2c_registerMap (demoCfg.i2c_registerIndex 0x30)).writeBytes = 0
    ∧ i2cCmdQueueDepth demoCfg (run demoCfg demoInit [evWriteAddr, evData 0x30, evStop]) = 1
    ∧ i2cCmdQueueDepth demoCfg
        (run demoCfg (run demoCfg demoInit [evWriteAddr, evData 0x30, evStop])
          [evWriteAddr, evStop]) = 2
    ∧ (run demoCfg (run demoCfg demoInit [evWriteAddr, evData 0x30, evStop])
          [evWriteAddr, evStop]).cmdQueue 1 = ⟨0x30, 0⟩
    ∧ raised demoCfg (run demoCfg demoInit [evWriteAddr, evData 0x30, evStop])
          [evWriteAddr, evStop] = 0 := by
  decide

/-! ## Transmit and commit addresses of a paged command -/

/-- The globals after a complete write without PEC of `ds` to a command
without block attributes: the staged bytes are committed to the page of the
command, and no event raises a fault. -/
theorem run_write_nopec (cfg : Config) (g0 : Globals) (c : Nat) (ds : List Nat)
    (hsup : cfg.i2c_registerIndex c ≠ I2C_UNSUPPORTED)
    (hblk : (cfg.i2c_registerMap (cfg.i2c_registerIndex c)).attributes &&& I2C_BLOCK = 0)
    (hlen : (cfg.i2c_registerMap (cfg.i2c_registerIndex c)).attributes &&& cfg.I2C_LEN = 0)
    (hW : 1 ≤ (cfg.i2c_registerMap (cfg.i2c_registerIndex c)).writeBytes)
    (hW' : (cfg.i2c_registerMap (cfg.i2c_registerIndex c)).writeBytes < 256)
    (hds : ds.length = (cfg.i2c_registerMap (cfg.i2c_registerIndex c)).writeBytes)
    (hpg : ∀ x ∈ ds, ¬ (0x00 = (cfg.i2c_registerMap (cfg.i2c_registerIndex c)).cmdCode ∧
      x ≥ cfg.I2C_NUMPAGES ∧ x < 0xFF))
    (hp : ¬ ((cfg.I2C_ENABLE_PAGE &&
      ((cfg.i2c_registerMap (cfg.i2c_registerIndex c)).attributes &&& I2C_PAGED != 0)) = true ∧
      0xFF = g0.ram cfg.I2C_PAGE)) :
    (run cfg g0 ([evWriteAddr, evData c] ++ ds.map evData ++ [evStop])).ram =
      commitLoop
        ((cfg.i2c_registerMap (cfg.i2c_registerIndex c)).ramAddr +
          (if (cfg.I2C_ENABLE_PAGE &&
              ((cfg.i2c_registerMap (cfg.i2c_registerIndex c)).attributes &&& I2C_PAGED != 0))
              = true
           then (g0.ram cfg.I2C_PAGE *
             (cfg.i2c_registerMap (cfg.i2c_registerIndex c)).writeBytes) % 65536
           else 0))
        (stageBytes 0 ds g0.i2c_buffer)
        (cfg.i2c_registerMap (cfg.i2c_registerIndex c)).writeBytes g0.ram
    ∧ raised cfg g0 ([evWriteAddr, evData c] ++ ds.map evData ++ [evStop]) = 0 := by
  have hhdr := run_header cfg c g0 hsup
  have hb : IS_BLOCKCMD cfg (run cfg g0 [evWriteAddr, evData c]) = false := by
    rw [hhdr]
    simp [IS_BLOCKCMD, curCmd, hblk]
  have hst := run_stage cfg ds (run cfg g0 [evWriteAddr, evData c]) 0
    (by rw [hhdr]) (by rw [hhdr]) (by rw [hhdr]; exact hsup)
    (by rw [hhdr]
        show 0 + ds.length ≤ (cfg.i2c_registerMap (cfg.i2c_registerIndex c)).writeBytes
        omega)
    (by rw [hhdr]
        show (cfg.i2c_registerMap (cfg.i2c_registerIndex c)).writeBytes < 65535
        omega) hb
    (by rw [hhdr]; exact hpg) (by rw [hhdr]; exact hp)
  have hstaged : run cfg g0 ([evWriteAddr, evData c] ++ ds.map evData) =
      { g0 with
        i2c_status := 0
        i2c_state := g0.i2c_state &&& 0xFE
        i2c_command := { code := c, page := g0.ram cfg.I2C_PAGE }
        i2c_registerMapIndex := cfg.i2c_registerIndex c
        writeBytes := (cfg.i2c_registerMap (cfg.i2c_registerIndex c)).writeBytes
        i2c_buffer := stageBytes 0 ds g0.i2c_buffer
        i2c_pec := pecFold (pecFold 0 [(g0.i2c_baseAddress <<< 1) % 256, c]) ds
        i2c_rxIdx := (cfg.i2c_registerMap (cfg.i2c_registerIndex c)).writeBytes + 1 } := by
    rw [run_append, hst.1, hhdr]
    rw [show 0 + 1 + ds.length = (cfg.i2c_registerMap (cfg.i2c_registerIndex c)).writeBytes + 1
      by omega]
  have hstop := isr_stop_commit cfg (run cfg g0 ([evWriteAddr, evData c] ++ ds.map evData))
    (by rw [hstaged]; exact clear_error _)
    (by rw [hstaged]
        show ¬ (0 = (cfg.i2c_registerMap (cfg.i2c_registerIndex c)).readBytes ∧
          0 = (cfg.i2c_registerMap (cfg.i2c_registerIndex c)).writeBytes)
        omega)
    (by rw [hstaged]
        show (cfg.i2c_registerMap (cfg.i2c_registerIndex c)).writeBytes + 1 >
          (cfg.i2c_registerMap (cfg.i2c_registerIndex c)).writeBytes
        omega)
  rw [hstaged] at hstop
  rw [commit_nonblock cfg _ (by simp [IS_BLOCKCMD, curCmd, hblk])
    (by simp [IS_LBLOCK, curCmd, hlen])] at hstop
  constructor
  · rw [run_append _ _ (_ ++ _) [evStop], run_cons, run_nil, hstaged, hstop]
    simp [curCmd, pageOffsetWrite, IS_PAGED, lenByte, IS_LBLOCK, hlen]
  · rw [raised_append, raised_append]
    have h1 : raised cfg g0 [evWriteAddr, evData c] = 0 := by
      unfold raised raised raised
      rw [isr_evWriteAddr, isr_cmd cfg c _ rfl hsup]
      simp
    rw [h1, hst.2]
    unfold raised raised
    rw [hstaged, hstop]
    simp

/-- C22: for a command with neither block attribute, write length `W >= 1`
(a byte), and `W` data bytes that pass the page checks (legal page values when
the descriptor has command code 0; a page register other than 0xFF when the
command is paged): the events write address-match, command code, the data
bytes, STOP, with no PEC byte, leave the RAM exactly as the same write with a
trailing byte equal to the running checksum leaves it, with the data bytes in
wire order at the page of the command, and raise no fault bit. -/
theorem write_without_pec_commits (cfg : Config) (g0 : Globals) (c : Nat) (ds : List Nat)
    (hsup : cfg.i2c_registerIndex c ≠ I2C_UNSUPPORTED)
    (hblk : (cfg.i2c_registerMap (cfg.i2c_registerIndex c)).attributes &&& I2C_BLOCK = 0)
    (hlen : (cfg.i2c_registerMap (cfg.i2c_registerIndex c)).attributes &&& cfg.I2C_LEN = 0)
    (hW : 1 ≤ (cfg.i2c_registerMap (cfg.i2c_registerIndex c)).writeBytes)
    (hW' : (cfg.i2c_registerMap (cfg.i2c_registerIndex c)).writeBytes < 256)
    (hds : ds.length = (cfg.i2c_registerMap (cfg.i2c_registerIndex c)).writeBytes)
    (hpage : (cfg.i2c_registerMap (cfg.i2c_registerIndex c)).cmdCode = 0 →
      ∀ x ∈ ds, x < cfg.I2C_NUMPAGES ∨ x = 0xFF)
    (hlegal : (cfg.I2C_ENABLE_PAGE &&
      ((cfg.i2c_registerMap (cfg.i2c_registerIndex c)).attributes &&& I2C_PAGED != 0)) = true →
      g0.ram cfg.I2C_PAGE ≠ 0xFF) :
    (run cfg g0 ([evWriteAddr, evData c] ++ ds.map evData ++ [evStop])).ram
      = (run cfg g0 (writeTxn g0.i2c_baseAddress c ds)).ram
    ∧ (∀ i (h : i < ds.length),
        (run cfg g0 ([evWriteAddr, evData c] ++ ds.map evData ++ [evStop])).ram
          ((cfg.i2c_registerMap (cfg.i2c_registerIndex c)).ramAddr +
            (if (cfg.I2C_ENABLE_PAGE &&
                ((cfg.i2c_registerMap (cfg.i2c_registerIndex c)).attributes &&& I2C_PAGED != 0))
                = true
             then (g0.ram cfg.I2C_PAGE *
               (cfg.i2c_registerMap (cfg.i2c_registerIndex c)).writeBytes) % 65536
             else 0) + i) = ds[i])
    ∧ raised cfg g0 ([evWriteAddr, evData c] ++ ds.map evData ++ [evStop]) = 0 := by
  have hpg : ∀ x ∈ ds, ¬ (0x00 = (cfg.i2c_registerMap (cfg.i2c_registerIndex c)).cmdCode ∧
      x ≥ cfg.I2C_NUMPAGES ∧ x < 0xFF) := by
    intro x hx hbad
    rcases hpage hbad.1.symm x hx with h | h <;> omega
  have hp : ¬ ((cfg.I2C_ENABLE_PAGE &&
      ((cfg.i2c_registerMap (cfg.i2c_registerIndex c)).attributes &&& I2C_PAGED != 0)) = true ∧
      0xFF = g0.ram cfg.I2C_PAGE) := fun h => hlegal h.1 h.2.symm
  have hno := run_write_nopec cfg g0 c ds hsup hblk hlen hW hW' hds hpg hp
  have hpec := run_writeTxn cfg g0 c ds hsup hblk hlen hW hW' hds hpg hp
  refine ⟨?_, ?_, hno.2⟩
  · rw [hno.1, hpec.1]
  · intro i hi
    rw [hno.1, commitLoop_get _ _ _ _ _ (by omega)]
    simpa using stageBytes_get ds 0 g0.i2c_buffer i hi

set_option maxRecDepth 100000 in
/-- C22 at a write of `0xAA, 0xBB` to the paged two-byte command 0x40 of
`demoCfg` with page 1 selected. -/
theorem write_without_pec_commits_witness :
    (run demoCfg demoInitPage1 ([evWriteAddr, evData 0x40] ++ [0xAA, 0xBB].map evData
        ++ [evStop])).ram
      = (run demoCfg demoInitPage1 (writeTxn demoInitPage1.i2c_baseAddress 0x40 [0xAA, 0xBB])).ram
    ∧ (run demoCfg demoInitPage1 ([evWriteAddr, evData 0x40] ++ [0xAA, 0xBB].map evData
        ++ [evStop])).ram 0x43 = 0xBB
    ∧ raised demoCfg demoInitPage1 ([evWriteAddr, evData 0x40] ++ [0xAA, 0xBB].map evData
        ++ [evStop]) = 0 :=
  have h := write_without_pec_commits demoCfg demoInitPage1 0x40 [0xAA, 0xBB]
    (by decide) (by decide) (by decide) (by decide) (by decide) (by decide) (by decide)
    (by decide)
  ⟨h.1, h.2.1 1 (by decide), h.2.2⟩

/-! ## The page-select command -/

/-- Body of the receive case for a data byte of the command with code 0 that
is not a legal page value. -/
theorem srxDataAck_page_illegal (cfg : Config) (b : Nat) (g : Globals)
    (h1 : ¬ (0 = g.i2c_rxIdx))
    (h2 : ¬ (I2C_UNSUPPORTED = cfg.i2c_registerIndex g.i2c_command.code))
    (h3 : ¬ (g.i2c_rxIdx > g.writeBytes))
    (h4 : ¬ (IS_BLOCKCMD cfg g = true ∧ 1 = g.i2c_rxIdx))
    (h5 : 0x00 = (curCmd cfg g).cmdCode ∧ b ≥ cfg.I2C_NUMPAGES ∧ b < 0xFF) :
    srxDataAck cfg b g =
      { setStatus STATUS_CML_DATA_FAULT g with i2c_rxIdx := (g.i2c_rxIdx + 1) % 65536 } := by
  unfold srxDataAck
  dsimp only
  rw [if_neg h1, if_neg h2, if_neg h3, if_neg h4, if_pos h5]
  rfl

/-- A data byte of the command with code 0 that is not a legal page value:
the data fault is raised and nothing is staged. -/
theorem isr_page_illegal (cfg : Config) (b : Nat) (g : Globals)
    (h1 : g.i2c_rxIdx ≠ 0)
    (h2 : cfg.i2c_registerIndex g.i2c_command.code ≠ I2C_UNSUPPORTED)
    (h3 : g.i2c_rxIdx ≤ g.writeBytes)
    (h4 : ¬ (IS_BLOCKCMD cfg g = true ∧ 1 = g.i2c_rxIdx))
    (h5 : 0x00 = (curCmd cfg g).cmdCode ∧ b ≥ cfg.I2C_NUMPAGES ∧ b < 0xFF) :
    isr cfg (evData b) g =
      { g with
        i2c_status := STATUS_CML_DATA_FAULT
        ram := Function.update g.ram cfg.I2C_STATUS_CML
          (g.ram cfg.I2C_STATUS_CML ||| STATUS_CML_DATA_FAULT)
        i2c_state := g.i2c_state ||| I2C_STATE_ERROR
        i2c_rxIdx := (g.i2c_rxIdx + 1) % 65536 } := by
  rw [isr_evData]
  rw [show srxDataAck cfg b { g with i2c_status := 0 } = _ from
    srxDataAck_page_illegal cfg b { g with i2c_status := 0 } (fun e => h1 e.symm)
      (fun e => h2 e.symm) (by show ¬ (g.i2c_rxIdx > g.writeBytes); omega) h4 h5]
  simp [statusUpdate, setStatus, STATUS_CML_DATA_FAULT]

/-- C21: for the page-select command (code 0, found in the table with
command code 0, write length 1, no block attribute, not paged, backed by the
page register, which is not the fault register) and a byte `v`: if
`v < I2C_NUMPAGES` or `v = 0xFF`, the write of `v` with a trailing byte equal
to the running checksum, and the write of `v` without PEC byte, both end with
the page register equal to `v` and raise no fault bit; otherwise the data byte
raises the data-fault bit, which is set in the fault register, the scratch
buffer is left as it was, and whatever bytes follow, the page register after
the STOP is as before the transaction. -/
theorem page_select_write (cfg : Config) (g0 : Globals) (v : Nat)
    (hsup : cfg.i2c_registerIndex 0 ≠ I2C_UNSUPPORTED)
    (hcode : (cfg.i2c_registerMap (cfg.i2c_registerIndex 0)).cmdCode = 0)
    (hW : (cfg.i2c_registerMap (cfg.i2c_registerIndex 0)).writeBytes = 1)
    (haddr : (cfg.i2c_registerMap (cfg.i2c_registerIndex 0)).ramAddr = cfg.I2C_PAGE)
    (hblk : (cfg.i2c_registerMap (cfg.i2c_registerIndex 0)).attributes &&& I2C_BLOCK = 0)
    (hlen : (cfg.i2c_registerMap (cfg.i2c_registerIndex 0)).attributes &&& cfg.I2C_LEN = 0)
    (hunpaged : cfg.I2C_ENABLE_PAGE = false ∨
      (cfg.i2c_registerMap (cfg.i2c_registerIndex 0)).attributes &&& I2C_PAGED = 0)
    (hne : cfg.I2C_PAGE ≠ cfg.I2C_STATUS_CML)
    (hv : v < 256) :
    ((v < cfg.I2C_NUMPAGES ∨ v = 0xFF) →
      (run cfg g0 (writeTxn g0.i2c_baseAddress 0 [v])).ram cfg.I2C_PAGE = v
      ∧ raised cfg g0 (writeTxn g0.i2c_baseAddress 0 [v]) = 0
      ∧ (run cfg g0 [evWriteAddr, evData 0, evData v, evStop]).ram cfg.I2C_PAGE = v
      ∧ raised cfg g0 [evWriteAddr, evData 0, evData v, evStop] = 0)
    ∧ (¬ (v < cfg.I2C_NUMPAGES ∨ v = 0xFF) →
      (isr cfg (evData v) (run cfg g0 [evWriteAddr, evData 0])).i2c_status
        = STATUS_CML_DATA_FAULT
      ∧ (isr cfg (evData v) (run cfg g0 [evWriteAddr, evData 0])).ram cfg.I2C_STATUS_CML
        &&& STATUS_CML_DATA_FAULT = STATUS_CML_DATA_FAULT
      ∧ (isr cfg (evData v) (run cfg g0 [evWriteAddr, evData 0])).i2c_buffer = g0.i2c_buffer
      ∧ ∀ bs : List Nat,
        (run cfg g0 ([evWriteAddr, evData 0, evData v] ++ bs.map evData ++ [evStop])).ram
          cfg.I2C_PAGE = g0.ram cfg.I2C_PAGE) := by
  have hnp : (cfg.I2C_ENABLE_PAGE &&
      ((cfg.i2c_registerMap (cfg.i2c_registerIndex 0)).attributes &&& I2C_PAGED != 0)) = false := by
    rcases hunpaged with h | h <;> simp [h]
  constructor
  · intro hleg
    have hpg : ∀ x ∈ [v], ¬ (0x00 = (cfg.i2c_registerMap (cfg.i2c_registerIndex 0)).cmdCode ∧
        x ≥ cfg.I2C_NUMPAGES ∧ x < 0xFF) := by
      intro x hx hbad
      rw [List.mem_singleton] at hx
      subst hx
      rcases hleg with h | h <;> omega
    have hp : ¬ ((cfg.I2C_ENABLE_PAGE &&
        ((cfg.i2c_registerMap (cfg.i2c_registerIndex 0)).attributes &&& I2C_PAGED != 0)) = true ∧
        0xFF = g0.ram cfg.I2C_PAGE) := by
      rw [hnp]
      simp
    have hpec := run_writeTxn cfg g0 0 [v] hsup hblk hlen (by omega) (by omega)
      (by rw [hW]; rfl) hpg hp
    have hno := run_write_nopec cfg g0 0 [v] hsup hblk hlen (by omega) (by omega)
      (by rw [hW]; rfl) hpg hp
    have hloop : commitLoop
        ((cfg.i2c_registerMap (cfg.i2c_registerIndex 0)).ramAddr +
          (if (cfg.I2C_ENABLE_PAGE &&
              ((cfg.i2c_registerMap (cfg.i2c_registerIndex 0)).attributes &&& I2C_PAGED != 0))
              = true
           then (g0.ram cfg.I2C_PAGE *
             (cfg.i2c_registerMap (cfg.i2c_registerIndex 0)).writeBytes) % 65536
           else 0))
        (stageBytes 0 [v] g0.i2c_buffer)
        (cfg.i2c_registerMap (cfg.i2c_registerIndex 0)).writeBytes g0.ram cfg.I2C_PAGE = v := by
      rw [hnp, hW, haddr]
      simp [commitLoop, stageBytes]
    refine ⟨?_, hpec.2, ?_, hno.2⟩
    · rw [hpec.1]
      exact hloop
    · have e : [evWriteAddr, evData 0, evData v, evStop] =
          [evWriteAddr, evData 0] ++ [v].map evData ++ [evStop] := rfl
      rw [e, hno.1]
      exact hloop
  · intro hill
    have hhdr := run_header cfg 0 g0 hsup
    have hbad := isr_page_illegal cfg v (run cfg g0 [evWriteAddr, evData 0])
      (by rw [hhdr]; exact Nat.one_ne_zero) (by rw [hhdr]; exact hsup)
      (by rw [hhdr]; show 1 ≤ (cfg.i2c_registerMap (cfg.i2c_registerIndex 0)).writeBytes; omega)
      (by rw [hhdr]; simp [IS_BLOCKCMD, curCmd, hblk])
      (by rw [hhdr]
          show 0 = (cfg.i2c_registerMap (cfg.i2c_registerIndex 0)).cmdCode ∧ _
          refine ⟨hcode.symm, ?_, ?_⟩ <;> omega)
    refine ⟨by rw [hbad], ?_, by rw [hbad, hhdr], ?_⟩
    · rw [hbad]
      simp only [Function.update_same]
      exact or_and_self_bit _ _
    · intro bs
      have h3 : run cfg g0 [evWriteAddr, evData 0, evData v] =
          isr cfg (evData v) (run cfg g0 [evWriteAddr, evData 0]) := rfl
      have herr : (run cfg g0 [evWriteAddr, evData 0, evData v]).i2c_state
          &&& I2C_STATE_ERROR ≠ 0 := by
        rw [h3, hbad]
        exact and_error_of_or _
      have hd := run_data_latched cfg bs (run cfg g0 [evWriteAddr, evData 0, evData v]) herr
      have hstop := isr_stop_of_error cfg
        (run cfg g0 ([evWriteAddr, evData 0, evData v] ++ bs.map evData))
        (by rw [run_append]; exact hd.1)
      rw [run_append _ _ (_ ++ _) [evStop], run_cons, run_nil, hstop]
      show (run cfg g0 ([evWriteAddr, evData 0, evData v] ++ bs.map evData)).ram cfg.I2C_PAGE = _
      rw [run_append, hd.2.1 _ hne, h3, hbad]
      show Function.update _ _ _ _ = _
      rw [Function.update_noteq hne, hhdr]

set_option maxRecDepth 100000 in
/-- C21 at the page-select command of `demoCfg` (two pages): the legal page
1, and the illegal value 7 followed by one more byte. -/
theorem page_select_write_witness :
    ((run demoCfg demoInit (writeTxn demoInit.i2c_baseAddress 0 [1])).ram demoCfg.I2C_PAGE = 1
      ∧ raised demoCfg demoInit (writeTxn demoInit.i2c_baseAddress 0 [1]) = 0
      ∧ (run demoCfg demoInit [evWriteAddr, evData 0, evData 1, evStop]).ram demoCfg.I2C_PAGE = 1
      ∧ raised demoCfg demoInit [evWriteAddr, evData 0, evData 1, evStop] = 0)
    ∧ ((isr demoCfg (evData 7) (run demoCfg demoInit [evWriteAddr, evData 0])).i2c_status
        = STATUS_CML_DATA_FAULT
      ∧ (run demoCfg demoInit
          ([evWriteAddr, evData 0, evData 7] ++ [0x55].map evData ++ [evStop])).ram
          demoCfg.I2C_PAGE = demoInit.ram demoCfg.I2C_PAGE) :=
  ⟨(page_select_write demoCfg demoInit 1 (by decide) (by decide) (by decide) (by decide)
      (by decide) (by decide) (by decide) (by decide) (by decide)).1 (by decide),
   ((page_select_write demoCfg demoInit 7 (by decide) (by decide) (by decide) (by decide)
      (by decide) (by decide) (by decide) (by decide) (by decide)).2 (by decide)).1,
   ((page_select_write demoCfg demoInit 7 (by decide) (by decide) (by decide) (by decide)
      (by decide) (by decide) (by decide) (by decide) (by decide)).2 (by decide)).2.2.2 [0x55]⟩

/-! ## The transmit path for a block command -/

/-- Body of the transmit case for the length byte of a block read. -/
theorem stxDataAck_blocklen (cfg : Config) (g : Globals)
    (h1 : ¬ (I2C_UNSUPPORTED = cfg.i2c_registerIndex g.i2c_command.code))
    (h2 : ¬ (0 = (curCmd cfg g).readBytes))
    (h3 : IS_BLOCKCMD cfg g = true ∧ 1 = g.i2c_txIdx) :
    stxDataAck cfg g =
      { g with
        TWDR := (if IS_LBLOCK cfg g then g.ram ((curCmd cfg g).ramAddr + pageOffsetRead cfg g)
          else (curCmd cfg g).readBytes)
        i2c_pec := pecStep g.i2c_pec
          (if IS_LBLOCK cfg g then g.ram ((curCmd cfg g).ramAddr + pageOffsetRead cfg g)
            else (curCmd cfg g).readBytes)
        i2c_txIdx := (g.i2c_txIdx + 1) % 65536
        i2c_busy := 1 } := by
  unfold stxDataAck
  dsimp only
  rw [if_neg h1, if_neg h2, if_pos h3]
  rfl

/-- The read address-match of a block command, which loads the block
length. -/
theorem isr_readAddr_blocklen (cfg : Config) (g : Globals)
    (h1 : cfg.i2c_registerIndex g.i2c_command.code ≠ I2C_UNSUPPORTED)
    (h2 : (curCmd cfg g).readBytes ≠ 0)
    (hb : IS_BLOCKCMD cfg g = true) :
    isr cfg evReadAddr g =
      { g with
        i2c_status := 0
        TWDR := (if IS_LBLOCK cfg g then g.ram ((curCmd cfg g).ramAddr + pageOffsetRead cfg g)
          else (curCmd cfg g).readBytes)
        i2c_pec := pecStep (pecStep g.i2c_pec (((g.i2c_baseAddress <<< 1) + 1) % 256))
          (if IS_LBLOCK cfg g then g.ram ((curCmd cfg g).ramAddr + pageOffsetRead cfg g)
            else (curCmd cfg g).readBytes)
        i2c_txIdx := 2
        i2c_busy := 1 } := by
  rw [isr_evReadAddr]
  rw [show stxDataAck cfg (i2c_calculatePec (((g.i2c_baseAddress <<< 1) + 1) % 256)
        { g with i2c_status := 0, i2c_txIdx := 1 }) = _ from
    stxDataAck_blocklen cfg (i2c_calculatePec (((g.i2c_baseAddress <<< 1) + 1) % 256)
        { g with i2c_status := 0, i2c_txIdx := 1 }) (fun e => h1 e.symm) (fun e => h2 e.symm)
      ⟨hb, rfl⟩]
  rw [statusUpdate_of_zero cfg _ rfl]
  rfl

/-- Body of the transmit case for a payload byte of a block read. -/
theorem stxDataAck_block_data (cfg : Config) (g : Globals) (j : Nat)
    (h1 : ¬ (I2C_UNSUPPORTED = cfg.i2c_registerIndex g.i2c_command.code))
    (h2 : ¬ (0 = (curCmd cfg g).readBytes))
    (hb : IS_BLOCKCMD cfg g = true)
    (htx : g.i2c_txIdx = j + 1) (hj : 1 ≤ j) (hjR : j ≤ (curCmd cfg g).readBytes)
    (hR : (curCmd cfg g).readBytes < 256)
    (h5 : ¬ (IS_PAGED cfg g = true ∧ 0xFF = g.ram cfg.I2C_PAGE)) :
    stxDataAck cfg g =
      { g with
        TWDR := g.ram (txDataAddr cfg g j)
        i2c_pec := pecStep g.i2c_pec (g.ram (txDataAddr cfg g j))
        i2c_txIdx := j + 2
        i2c_busy := 1 } := by
  have hidx : (g.i2c_txIdx + 65535) % 65536 = j := by omega
  have h3 : ¬ (IS_BLOCKCMD cfg g = true ∧ 1 = g.i2c_txIdx) := by
    intro h
    have := h.2
    omega
  have hmod : (g.i2c_txIdx + 1) % 65536 = j + 2 := by omega
  unfold stxDataAck
  dsimp only
  rw [if_neg h1, if_neg h2, if_neg h3, if_pos hb, hidx, if_pos hjR, if_neg h5]
  show ({ g with
          TWDR := g.ram (txDataAddr cfg g j)
          i2c_pec := pecStep g.i2c_pec (g.ram (txDataAddr cfg g j))
          i2c_txIdx := (g.i2c_txIdx + 1) % 65536
          i2c_busy := 1 } : Globals) = _
  rw [hmod]

/-- Body of the transmit case for the PEC byte of a block read. -/
theorem stxDataAck_block_pec (cfg : Config) (g : Globals)
    (h1 : ¬ (I2C_UNSUPPORTED = cfg.i2c_registerIndex g.i2c_command.code))
    (h2 : ¬ (0 = (curCmd cfg g).readBytes))
    (hb : IS_BLOCKCMD cfg g = true)
    (htx : g.i2c_txIdx = (curCmd cfg g).readBytes + 2)
    (hR : (curCmd cfg g).readBytes < 256) :
    (stxDataAck cfg g).TWDR = g.i2c_pec ∧ (stxDataAck cfg g).i2c_status = g.i2c_status := by
  have hidx : (g.i2c_txIdx + 65535) % 65536 = (curCmd cfg g).readBytes + 1 := by omega
  have h3 : ¬ (IS_BLOCKCMD cfg g = true ∧ 1 = g.i2c_txIdx) := by
    intro h
    have := h.2
    omega
  unfold stxDataAck
  dsimp only
  rw [if_neg h1, if_neg h2, if_neg h3, if_pos hb, hidx,
    if_neg (by omega : ¬ ((curCmd cfg g).readBytes + 1 ≤ (curCmd cfg g).readBytes)),
    if_pos rfl]
  exact ⟨rfl, rfl⟩

/-- A transmit-acknowledged event that loads a payload byte of a block
read. -/
theorem isr_tx_block_data (cfg : Config) (g : Globals) (j : Nat)
    (h1 : cfg.i2c_registerIndex g.i2c_command.code ≠ I2C_UNSUPPORTED)
    (h2 : (curCmd cfg g).readBytes ≠ 0)
    (hb : IS_BLOCKCMD cfg g = true)
    (htx : g.i2c_txIdx = j + 1) (hj : 1 ≤ j) (hjR : j ≤ (curCmd cfg g).readBytes)
    (hR : (curCmd cfg g).readBytes < 256)
    (h5 : ¬ (IS_PAGED cfg g = true ∧ 0xFF = g.ram cfg.I2C_PAGE)) :
    isr cfg evTxAck g =
      { g with
        i2c_status := 0
        TWDR := g.ram (txDataAddr cfg g j)
        i2c_pec := pecStep g.i2c_pec (g.ram (txDataAddr cfg g j))
        i2c_txIdx := j + 2
        i2c_busy := 1 } := by
  rw [isr_evTxAck]
  rw [show stxDataAck cfg { g with i2c_status := 0 } = _ from
    stxDataAck_block_data cfg { g with i2c_status := 0 } j (fun e => h1 e.symm)
      (fun e => h2 e.symm) hb htx hj hjR hR h5]
  rw [statusUpdate_of_zero cfg _ rfl]
  rfl

/-- The transmit-acknowledged event that loads the PEC byte of a block
read. -/
theorem isr_tx_block_pec (cfg : Config) (g : Globals)
    (h1 : cfg.i2c_registerIndex g.i2c_command.code ≠ I2C_UNSUPPORTED)
    (h2 : (curCmd cfg g).readBytes ≠ 0)
    (hb : IS_BLOCKCMD cfg g = true)
    (htx : g.i2c_txIdx = (curCmd cfg g).readBytes + 2)
    (hR : (curCmd cfg g).readBytes < 256) :
    (isr cfg evTxAck g).TWDR = g.i2c_pec := by
  have h := stxDataAck_block_pec cfg { g with i2c_status := 0 } (fun e => h1 e.symm)
    (fun e => h2 e.symm) hb htx hR
  rw [isr_evTxAck, statusUpdate_of_zero cfg _ h.2]
  exact h.1

/-- The payload bytes of a block read, from payload index `j` on. -/
theorem run_tx_block_data (cfg : Config) (m : Nat) :
    ∀ (g : Globals) (j : Nat), g.i2c_txIdx = j + 1 → 1 ≤ j →
      j + m ≤ (curCmd cfg g).readBytes + 1 →
      (curCmd cfg g).readBytes < 256 →
      cfg.i2c_registerIndex g.i2c_command.code ≠ I2C_UNSUPPORTED →
      IS_BLOCKCMD cfg g = true →
      ¬ (IS_PAGED cfg g = true ∧ 0xFF = g.ram cfg.I2C_PAGE) →
      transmitted cfg g (List.replicate m evTxAck) =
        (List.range' j m).map (fun t => g.ram (txDataAddr cfg g t)) ∧
      (run cfg g (List.replicate m evTxAck)).i2c_pec =
        pecFold g.i2c_pec ((List.range' j m).map (fun t => g.ram (txDataAddr cfg g t))) ∧
      (run cfg g (List.replicate m evTxAck)).i2c_txIdx = j + 1 + m ∧
      (run cfg g (List.replicate m evTxAck)).i2c_command = g.i2c_command ∧
      (run cfg g (List.replicate m evTxAck)).i2c_registerMapIndex = g.i2c_registerMapIndex := by
  induction m with
  | zero =>
    intro g j htx _ _ _ _ _ _
    exact ⟨rfl, rfl, htx, rfl, rfl⟩
  | succ m ih =>
    intro g j htx hj hm hR hsup hb hp
    have hstep := isr_tx_block_data cfg g j hsup (by omega) hb htx hj (by omega) hR hp
    have ih' := ih (isr cfg evTxAck g) (j + 1) (by rw [hstep]) (by omega)
      (by rw [hstep]; show j + 1 + m ≤ (curCmd cfg g).readBytes + 1; omega)
      (by rw [hstep]; exact hR) (by rw [hstep]; exact hsup) (by rw [hstep]; exact hb)
      (by rw [hstep]; exact hp)
    have haddr : ∀ t, (isr cfg evTxAck g).ram (txDataAddr cfg (isr cfg evTxAck g) t) =
        g.ram (txDataAddr cfg g t) := by
      intro t
      rw [hstep]
      rfl
    simp only [haddr] at ih'
    rw [List.replicate_succ, run_cons]
    refine ⟨?_, ?_, ?_, ?_, ?_⟩
    · rw [transmitted_evTxAck, ih'.1, List.range'_succ, List.map_cons]
      rw [hstep]
    · rw [ih'.2.1, List.range'_succ, List.map_cons, pecFold_cons, hstep]
    · rw [ih'.2.2.1]
      omega
    · rw [ih'.2.2.2.1, hstep]
    · rw [ih'.2.2.2.2, hstep]

/-! ## A read of a block command -/

/-- The commit of a block command without a stored length byte copies
`writeBytes - 1` bytes. -/
theorem commit_block_nolen (cfg : Config) (g : Globals)
    (hb : IS_BLOCKCMD cfg g = true) (hl : IS_LBLOCK cfg g = false) :
    commit cfg g =
      { g with
        ram := (commitLoop ((curCmd cfg g).ramAddr + pageOffsetWrite cfg g)
          g.i2c_buffer (g.writeBytes - 1) g.ram) } := by
  unfold commit
  simp [hb, hl, lenByte]

/-- The globals after the write phase of a read (write address-match,
command code, repeated START) of a block command that has a read length and,
when its storage has a length byte, a write length: nothing is committed. -/
theorem run_read_header_block (cfg : Config) (g0 : Globals) (c : Nat)
    (hsup : cfg.i2c_registerIndex c ≠ I2C_UNSUPPORTED)
    (hblk : (cfg.i2c_registerMap (cfg.i2c_registerIndex c)).attributes &&& I2C_BLOCK ≠ 0)
    (hR : (cfg.i2c_registerMap (cfg.i2c_registerIndex c)).readBytes ≠ 0)
    (hlw : (cfg.i2c_registerMap (cfg.i2c_registerIndex c)).attributes &&& cfg.I2C_LEN ≠ 0 →
      1 ≤ (cfg.i2c_registerMap (cfg.i2c_registerIndex c)).writeBytes) :
    run cfg g0 [evWriteAddr, evData c, evStop] =
      { g0 with
        i2c_status := 0
        i2c_busy := 0
        i2c_state := g0.i2c_state &&& 0xFE
        i2c_command := { code := c, page := g0.ram cfg.I2C_PAGE }
        i2c_registerMapIndex := cfg.i2c_registerIndex c
        writeBytes := (cfg.i2c_registerMap (cfg.i2c_registerIndex c)).writeBytes
        i2c_pec := pecFold 0 [(g0.i2c_baseAddress <<< 1) % 256, c]
        i2c_rxIdx := 1 } := by
  have hhdr := run_header cfg c g0 hsup
  have e : run cfg g0 [evWriteAddr, evData c, evStop] =
      isr cfg evStop (run cfg g0 [evWriteAddr, evData c]) := rfl
  rw [e]
  have hsb : ¬ (0 = (curCmd cfg (run cfg g0 [evWriteAddr, evData c])).readBytes ∧
      0 = (curCmd cfg (run cfg g0 [evWriteAddr, evData c])).writeBytes) := by
    rw [hhdr]
    exact fun h => hR h.1.symm
  by_cases hw : 1 ≤ (cfg.i2c_registerMap (cfg.i2c_registerIndex c)).writeBytes
  · rw [isr_stop_short cfg _ hsb (by rw [hhdr]; exact hw), hhdr]
  · have hw0 : (cfg.i2c_registerMap (cfg.i2c_registerIndex c)).writeBytes = 0 := by omega
    have hlen : (cfg.i2c_registerMap (cfg.i2c_registerIndex c)).attributes &&& cfg.I2C_LEN = 0 := by
      by_contra h
      exact hw (hlw h)
    rw [isr_stop_commit cfg _ (by rw [hhdr]; exact clear_error _) hsb
      (by rw [hhdr]
          show 1 > (cfg.i2c_registerMap (cfg.i2c_registerIndex c)).writeBytes
          omega), hhdr]
    rw [commit_block_nolen cfg _ (by simp [IS_BLOCKCMD, curCmd, hblk])
      (by simp [IS_LBLOCK, curCmd, hlen])]
    simp only [hw0]
    rfl

/-- The page offset of the transmit path and the transmit address of payload
byte `t` without 16-bit wrap and doubling: for a page register below 0xFF that
is 0 when the command is paged and has `I2C_SKIP_BYTE`. -/
theorem txDataAddr_plain (cfg : Config) (g : Globals) (t : Nat)
    (hR : (curCmd cfg g).readBytes < 256)
    (hpage : IS_PAGED cfg g = true → g.ram cfg.I2C_PAGE < 0xFF)
    (hskip : IS_PAGED cfg g = true → (curCmd cfg g).attributes &&& cfg.I2C_SKIP_BYTE ≠ 0 →
      g.ram cfg.I2C_PAGE = 0) :
    pageOffsetRead cfg g =
      (if IS_PAGED cfg g = true then
        g.ram cfg.I2C_PAGE * ((curCmd cfg g).readBytes + lenByte cfg g) else 0)
    ∧ txDataAddr cfg g t =
      (curCmd cfg g).ramAddr +
        (if IS_PAGED cfg g = true then
          g.ram cfg.I2C_PAGE * ((curCmd cfg g).readBytes + lenByte cfg g) else 0)
        + lenByte cfg g + t - 1 := by
  have hlb : lenByte cfg g ≤ 1 := by
    unfold lenByte
    split_ifs <;> omega
  have hpo : pageOffsetRead cfg g =
      (if IS_PAGED cfg g = true then
        g.ram cfg.I2C_PAGE * ((curCmd cfg g).readBytes + lenByte cfg g) else 0) := by
    unfold pageOffsetRead
    by_cases hp : IS_PAGED cfg g = true
    · have hlt := hpage hp
      have hmul : g.ram cfg.I2C_PAGE * ((curCmd cfg g).readBytes + lenByte cfg g) ≤ 254 * 257 :=
        Nat.mul_le_mul (by omega) (by omega)
      rw [if_pos hp, if_pos hp]
      exact Nat.mod_eq_of_lt (by omega)
    · rw [if_neg hp, if_neg hp]
  refine ⟨hpo, ?_⟩
  unfold txDataAddr
  dsimp only
  rw [hpo]
  by_cases hs : (curCmd cfg g).attributes &&& cfg.I2C_SKIP_BYTE ≠ 0
  · rw [if_pos hs]
    by_cases hp : IS_PAGED cfg g = true
    · rw [if_pos hp, hskip hp hs]
      simp
    · rw [if_neg hp]
  · rw [if_neg hs]

set_option maxRecDepth 100000 in
/-- C27, as stated, fails for a paged block command with `I2C_SKIP_BYTE`:
command 0x71 of `auxCfg` (stored length byte, read length 2, storage at 0x200)
with the legal page 1 selected, every RAM byte holding the low byte of its
address.  The length is read at the page offset `1 * (2 + 1)` (address 0x203)
and the payload at the doubled page offset (addresses 0x207, 0x208), not at
the two bytes after the length byte. -/
theorem block_read_skip_byte_counterexample :
    (auxCfg.i2c_registerMap (auxCfg.i2c_registerIndex 0x71)).attributes &&& I2C_BLOCK ≠ 0
    ∧ (auxCfg.i2c_registerMap (auxCfg.i2c_registerIndex 0x71)).readBytes = 2
    ∧ (auxInit 1).ram auxCfg.I2C_PAGE = 1 ∧ 1 < auxCfg.I2C_NUMPAGES
    ∧ (transmitted auxCfg (auxInit 1) (readTxn 0x71 3)).take 3 = [0x03, 0x07, 0x08]
    ∧ [(auxInit 1).ram 0x203, (auxInit 1).ram 0x204, (auxInit 1).ram 0x205]
        = [0x03, 0x04, 0x05] := by
  decide

/-- C27, amended: for a block command `c` with descriptor `d`, read length
`1 <= R` (a byte) and, when its storage has a length byte, a write length of
at least 1; unpaged, or paged with a page register below 0xFF that is 0 when
the command has `I2C_SKIP_BYTE`; command code and RAM being bytes: a read
(write address-match, command code, repeated START, read address-match, `R + 1`
transmit-acknowledged events) transmits first the block length (the byte at
the start of the page of the command when the storage has a length byte,
otherwise `R`), then the `R` payload bytes of the page in order (after the
length byte when present), then the CRC-8 of the write address byte, the
command code, the read address byte, the length byte and the `R` payload
bytes.  `po` is the page offset `page * (R + length-byte reservation)`. -/
theorem block_read_transmits (cfg : Config) (g0 : Globals) (c : Nat) (d : i2cCommand)
    (po : Nat)
    (hsup : cfg.i2c_registerIndex c ≠ I2C_UNSUPPORTED)
    (hd : cfg.i2c_registerMap (cfg.i2c_registerIndex c) = d)
    (hblk : d.attributes &&& I2C_BLOCK ≠ 0)
    (hR : 1 ≤ d.readBytes) (hR' : d.readBytes < 256)
    (hlw : d.attributes &&& cfg.I2C_LEN ≠ 0 → 1 ≤ d.writeBytes)
    (hpo : po = if (cfg.I2C_ENABLE_PAGE && (d.attributes &&& I2C_PAGED != 0)) = true
      then g0.ram cfg.I2C_PAGE *
        (d.readBytes + (if d.attributes &&& cfg.I2C_LEN ≠ 0 then 1 else 0))
      else 0)
    (hpage : (cfg.I2C_ENABLE_PAGE && (d.attributes &&& I2C_PAGED != 0)) = true →
      g0.ram cfg.I2C_PAGE < 0xFF)
    (hskip : (cfg.I2C_ENABLE_PAGE && (d.attributes &&& I2C_PAGED != 0)) = true →
      d.attributes &&& cfg.I2C_SKIP_BYTE ≠ 0 → g0.ram cfg.I2C_PAGE = 0)
    (hc : c < 256) (hram : ∀ a, g0.ram a < 256) :
    transmitted cfg g0 (readTxn c (d.readBytes + 1)) =
      [if d.attributes &&& cfg.I2C_LEN ≠ 0 then g0.ram (d.ramAddr + po) else d.readBytes]
      ++ (List.range d.readBytes).map (fun k =>
          g0.ram (d.ramAddr + po + (if d.attributes &&& cfg.I2C_LEN ≠ 0 then 1 else 0) + k))
      ++ [crc8Ref
          ([(g0.i2c_baseAddress <<< 1) % 256, c, ((g0.i2c_baseAddress <<< 1) + 1) % 256,
              (if d.attributes &&& cfg.I2C_LEN ≠ 0 then g0.ram (d.ramAddr + po)
                else d.readBytes)]
            ++ (List.range d.readBytes).map (fun k =>
              g0.ram (d.ramAddr + po
                + (if d.attributes &&& cfg.I2C_LEN ≠ 0 then 1 else 0) + k)))] := by
  subst hd
  have hh := run_read_header_block cfg g0 c hsup hblk (by omega) hlw
  have hra := isr_readAddr_blocklen cfg (run cfg g0 [evWriteAddr, evData c, evStop])
    (by rw [hh]; exact hsup)
    (by rw [hh]; show (cfg.i2c_registerMap (cfg.i2c_registerIndex c)).readBytes ≠ 0; omega)
    (by rw [hh]; simp [IS_BLOCKCMD, curCmd, hblk])
  have hq : run cfg g0 [evWriteAddr, evData c, evStop, evReadAddr] =
      isr cfg evReadAddr (run cfg g0 [evWriteAddr, evData c, evStop]) := rfl
  -- the state at the read address-match
  have hSram : (run cfg g0 [evWriteAddr, evData c, evStop]).ram = g0.ram := by rw [hh]
  have hScmd : curCmd cfg (run cfg g0 [evWriteAddr, evData c, evStop]) =
      cfg.i2c_registerMap (cfg.i2c_registerIndex c) := by rw [hh]; rfl
  have hSpaged : IS_PAGED cfg (run cfg g0 [evWriteAddr, evData c, evStop]) =
      (cfg.I2C_ENABLE_PAGE &&
        ((cfg.i2c_registerMap (cfg.i2c_registerIndex c)).attributes &&& I2C_PAGED != 0)) := by
    rw [hh]; rfl
  have hSL : IS_LBLOCK cfg (run cfg g0 [evWriteAddr, evData c, evStop]) =
      ((cfg.i2c_registerMap (cfg.i2c_registerIndex c)).attributes &&& cfg.I2C_LEN != 0) := by
    rw [hh]; rfl
  have hSlb : lenByte cfg (run cfg g0 [evWriteAddr, evData c, evStop]) =
      (if (cfg.i2c_registerMap (cfg.i2c_registerIndex c)).attributes &&& cfg.I2C_LEN ≠ 0
        then 1 else 0) := by
    unfold lenByte
    rw [hSL]
    by_cases h : (cfg.i2c_registerMap (cfg.i2c_registerIndex c)).attributes &&& cfg.I2C_LEN = 0
    · simp [h]
    · simp [h]
  have hSpo := (txDataAddr_plain cfg (run cfg g0 [evWriteAddr, evData c, evStop]) 0
    (by rw [hScmd]; exact hR') (by rw [hSpaged, hSram]; exact hpage)
    (by rw [hSpaged, hScmd, hSram]; exact hskip)).1
  rw [hSpaged, hSram, hScmd, hSlb, ← hpo] at hSpo
  -- the state after the read address-match
  have hQram : (run cfg g0 [evWriteAddr, evData c, evStop, evReadAddr]).ram = g0.ram := by
    rw [hq, hra, hh]
  have hQcmd : curCmd cfg (run cfg g0 [evWriteAddr, evData c, evStop, evReadAddr]) =
      cfg.i2c_registerMap (cfg.i2c_registerIndex c) := by rw [hq, hra, hh]; rfl
  have hQpaged : IS_PAGED cfg (run cfg g0 [evWriteAddr, evData c, evStop, evReadAddr]) =
      (cfg.I2C_ENABLE_PAGE &&
        ((cfg.i2c_registerMap (cfg.i2c_registerIndex c)).attributes &&& I2C_PAGED != 0)) := by
    rw [hq, hra, hh]; rfl
  have hQlb : lenByte cfg (run cfg g0 [evWriteAddr, evData c, evStop, evReadAddr]) =
      (if (cfg.i2c_registerMap (cfg.i2c_registerIndex c)).attributes &&& cfg.I2C_LEN ≠ 0
        then 1 else 0) := by
    rw [← hSlb, hq, hra]
    rfl
  have hQtx : (run cfg g0 [evWriteAddr, evData c, evStop, evReadAddr]).i2c_txIdx = 1 + 1 := by
    rw [hq, hra]
  have hQsup : cfg.i2c_registerIndex
      (run cfg g0 [evWriteAddr, evData c, evStop, evReadAddr]).i2c_command.code
      ≠ I2C_UNSUPPORTED := by
    rw [hq, hra, hh]; exact hsup
  have hQblk : IS_BLOCKCMD cfg (run cfg g0 [evWriteAddr, evData c, evStop, evReadAddr])
      = true := by
    rw [hq, hra, hh]; simp [IS_BLOCKCMD, curCmd, hblk]
  have hQtwdr : (run cfg g0 [evWriteAddr, evData c, evStop, evReadAddr]).TWDR =
      (if (cfg.i2c_registerMap (cfg.i2c_registerIndex c)).attributes &&& cfg.I2C_LEN ≠ 0
        then g0.ram ((cfg.i2c_registerMap (cfg.i2c_registerIndex c)).ramAddr + po)
        else (cfg.i2c_registerMap (cfg.i2c_registerIndex c)).readBytes) := by
    rw [hq, hra]
    show (if IS_LBLOCK cfg (run cfg g0 [evWriteAddr, evData c, evStop]) = true then _ else _) = _
    rw [hSL, hSpo, hSram, hScmd]
    by_cases h : (cfg.i2c_registerMap (cfg.i2c_registerIndex c)).attributes &&& cfg.I2C_LEN = 0
    · simp [h]
    · simp [h]
  have hQpec : (run cfg g0 [evWriteAddr, evData c, evStop, evReadAddr]).i2c_pec =
      pecFold 0 [(g0.i2c_baseAddress <<< 1) % 256, c, ((g0.i2c_baseAddress <<< 1) + 1) % 256,
        (run cfg g0 [evWriteAddr, evData c, evStop, evReadAddr]).TWDR] := by
    rw [hq, hra, hh]
    rfl
  have hp5 : ¬ (IS_PAGED cfg (run cfg g0 [evWriteAddr, evData c, evStop, evReadAddr]) = true ∧
      0xFF = (run cfg g0 [evWriteAddr, evData c, evStop, evReadAddr]).ram cfg.I2C_PAGE) := by
    rw [hQpaged, hQram]
    intro h
    have := hpage h.1
    omega
  have htx := run_tx_block_data cfg (cfg.i2c_registerMap (cfg.i2c_registerIndex c)).readBytes
    (run cfg g0 [evWriteAddr, evData c, evStop, evReadAddr]) 1 hQtx (Nat.le_refl 1)
    (by rw [hQcmd]; omega) (by rw [hQcmd]; exact hR') hQsup hQblk hp5
  -- the payload addresses
  have hpayload : (List.range' 1 (cfg.i2c_registerMap (cfg.i2c_registerIndex c)).readBytes).map
      (fun t => (run cfg g0 [evWriteAddr, evData c, evStop, evReadAddr]).ram
        (txDataAddr cfg (run cfg g0 [evWriteAddr, evData c, evStop, evReadAddr]) t)) =
      (List.range (cfg.i2c_registerMap (cfg.i2c_registerIndex c)).readBytes).map (fun k =>
        g0.ram ((cfg.i2c_registerMap (cfg.i2c_registerIndex c)).ramAddr + po +
          (if (cfg.i2c_registerMap (cfg.i2c_registerIndex c)).attributes &&& cfg.I2C_LEN ≠ 0
            then 1 else 0) + k)) := by
    rw [List.range'_eq_map_range, List.map_map]
    apply List.map_congr_left
    intro k _
    have hpl := (txDataAddr_plain cfg (run cfg g0 [evWriteAddr, evData c, evStop, evReadAddr])
      (1 + k) (by rw [hQcmd]; exact hR') (by rw [hQpaged, hQram]; exact hpage)
      (by rw [hQpaged, hQcmd, hQram]; exact hskip)).2
    rw [hQpaged, hQram, hQcmd, hQlb, ← hpo] at hpl
    show (run cfg g0 [evWriteAddr, evData c, evStop, evReadAddr]).ram
      (txDataAddr cfg (run cfg g0 [evWriteAddr, evData c, evStop, evReadAddr]) (1 + k)) = _
    rw [hQram, hpl]
    congr 1
    omega
  rw [hpayload] at htx
  -- the PEC byte
  have hpecev := isr_tx_block_pec cfg
    (run cfg (run cfg g0 [evWriteAddr, evData c, evStop, evReadAddr])
      (List.replicate (cfg.i2c_registerMap (cfg.i2c_registerIndex c)).readBytes evTxAck))
    (by rw [htx.2.2.2.1]; exact hQsup)
    (by unfold curCmd; rw [htx.2.2.2.2]; show (curCmd cfg _).readBytes ≠ 0; rw [hQcmd]; omega)
    (by unfold IS_BLOCKCMD curCmd; rw [htx.2.2.2.2]; exact hQblk)
    (by unfold curCmd; rw [htx.2.2.2.2, htx.2.2.1]
        show _ = (curCmd cfg _).readBytes + 2
        rw [hQcmd]
        omega)
    (by unfold curCmd; rw [htx.2.2.2.2]; show (curCmd cfg _).readBytes < 256; rw [hQcmd]
        exact hR')
  have hsplit : readTxn c ((cfg.i2c_registerMap (cfg.i2c_registerIndex c)).readBytes + 1) =
      [evWriteAddr, evData c, evStop, evReadAddr]
        ++ List.replicate (cfg.i2c_registerMap (cfg.i2c_registerIndex c)).readBytes evTxAck
        ++ [evTxAck] := by
    rw [readTxn_succ]
    rfl
  have hfirst : transmitted cfg g0 [evWriteAddr, evData c, evStop, evReadAddr] =
      [(run cfg g0 [evWriteAddr, evData c, evStop, evReadAddr]).TWDR] := by
    rw [transmitted_evWriteAddr, transmitted_evData, transmitted_evStop, transmitted_evReadAddr]
    rfl
  rw [hsplit, transmitted_append, transmitted_append, hfirst, htx.1, run_append,
    transmitted_evTxAck, hpecev, htx.2.1, hQpec, ← pecFold_append, hQtwdr]
  have hcrc : pecFold 0
      ([(g0.i2c_baseAddress <<< 1) % 256, c, ((g0.i2c_baseAddress <<< 1) + 1) % 256,
          (if (cfg.i2c_registerMap (cfg.i2c_registerIndex c)).attributes &&& cfg.I2C_LEN ≠ 0
            then g0.ram ((cfg.i2c_registerMap (cfg.i2c_registerIndex c)).ramAddr + po)
            else (cfg.i2c_registerMap (cfg.i2c_registerIndex c)).readBytes)]
        ++ (List.range (cfg.i2c_registerMap (cfg.i2c_registerIndex c)).readBytes).map (fun k =>
          g0.ram ((cfg.i2c_registerMap (cfg.i2c_registerIndex c)).ramAddr + po +
            (if (cfg.i2c_registerMap (cfg.i2c_registerIndex c)).attributes &&& cfg.I2C_LEN ≠ 0
              then 1 else 0) + k)))
      = crc8Ref
      ([(g0.i2c_baseAddress <<< 1) % 256, c, ((g0.i2c_baseAddress <<< 1) + 1) % 256,
          (if (cfg.i2c_registerMap (cfg.i2c_registerIndex c)).attributes &&& cfg.I2C_LEN ≠ 0
            then g0.ram ((cfg.i2c_registerMap (cfg.i2c_registerIndex c)).ramAddr + po)
            else (cfg.i2c_registerMap (cfg.i2c_registerIndex c)).readBytes)]
        ++ (List.range (cfg.i2c_registerMap (cfg.i2c_registerIndex c)).readBytes).map (fun k =>
          g0.ram ((cfg.i2c_registerMap (cfg.i2c_registerIndex c)).ramAddr + po +
            (if (cfg.i2c_registerMap (cfg.i2c_registerIndex c)).attributes &&& cfg.I2C_LEN ≠ 0
              then 1 else 0) + k))) := by
    unfold crc8Ref
    apply pecFold_eq_ref _ 0 (by decide)
    intro b hb
    simp only [List.mem_append, List.mem_cons, List.mem_map, List.mem_singleton,
      List.not_mem_nil, or_false] at hb
    rcases hb with (h | h | h | h) | ⟨t, _, h⟩
    · rw [h]; exact Nat.mod_lt _ (by decide)
    · rw [h]; exact hc
    · rw [h]; exact Nat.mod_lt _ (by decide)
    · rw [h]
      split_ifs
      · exact hram _
      · exact hR'
    · rw [← h]; exact hram _
  rw [hcrc]
  simp [transmitted]

set_option maxRecDepth 100000 in
/-- C27, amended, at the paged block command 0x62 of `blockCfg` (stored
length byte, read length 2, storage at 0x80) with page 1 selected and every
other RAM byte holding 0x5A: the page offset is 3. -/
theorem block_read_transmits_witness :
    transmitted blockCfg (blockInit 1 0x5A) (readTxn 0x62 (2 + 1)) =
      [(blockInit 1 0x5A).ram (0x80 + 3)]
      ++ (List.range 2).map (fun k => (blockInit 1 0x5A).ram (0x80 + 3 + 1 + k))
      ++ [crc8Ref
          ([((blockInit 1 0x5A).i2c_baseAddress <<< 1) % 256, 0x62,
              (((blockInit 1 0x5A).i2c_baseAddress <<< 1) + 1) % 256,
              (blockInit 1 0x5A).ram (0x80 + 3)]
            ++ (List.range 2).map (fun k => (blockInit 1 0x5A).ram (0x80 + 3 + 1 + k)))] :=
  block_read_transmits blockCfg (blockInit 1 0x5A) 0x62
    (blockCfg.i2c_registerMap (blockCfg.i2c_registerIndex 0x62)) 3
    (by decide) rfl (by decide) (by decide) (by decide) (by decide) (by decide) (by decide)
    (by decide) (by decide)
    (by intro a; unfold blockInit i2c_slave_init startup blockCfg; dsimp only
        unfold Function.update; dsimp only; split_ifs <;> first | omega | simp)

/-! ## First fault wins -/

/-- The fault bit and the write length in effect after a byte that follows
the command code of a supported command. -/
theorem srxDataAck_supported_cases (cfg : Config) (b : Nat) (g : Globals)
    (h1 : g.i2c_rxIdx ≠ 0)
    (h2 : cfg.i2c_registerIndex g.i2c_command.code ≠ I2C_UNSUPPORTED)
    (hst : g.i2c_status = 0) :
    (g.i2c_rxIdx > g.writeBytes →
      (srxDataAck cfg b g).writeBytes = g.writeBytes ∧
      ((srxDataAck cfg b g).i2c_status = 0 ∨
       ((srxDataAck cfg b g).i2c_status = STATUS_CML_PEC_FAULT ∧
          g.i2c_state &&& I2C_STATE_ERROR = 0) ∨
       ((srxDataAck cfg b g).i2c_status = STATUS_CML_DATA_FAULT ∧
          g.i2c_rxIdx = g.writeBytes + 1 ∧ 0 = (curCmd cfg g).writeBytes) ∨
       ((srxDataAck cfg b g).i2c_status = STATUS_CML_DATA_FAULT ∧
          g.i2c_state &&& I2C_STATE_ERROR = 0)))
    ∧ (¬ g.i2c_rxIdx > g.writeBytes →
      ((srxDataAck cfg b g).i2c_status = 0 ∨
        (srxDataAck cfg b g).i2c_status = STATUS_CML_DATA_FAULT) ∧
      ((srxDataAck cfg b g).writeBytes = g.writeBytes ∨ g.i2c_rxIdx = 1)) := by
  have h1' : ¬ (0 = g.i2c_rxIdx) := fun e => h1 e.symm
  have h2' : ¬ (I2C_UNSUPPORTED = cfg.i2c_registerIndex g.i2c_command.code) :=
    fun e => h2 e.symm
  constructor
  · intro hgt
    unfold srxDataAck
    dsimp only
    rw [if_neg h1', if_neg h2', if_pos hgt]
    split_ifs with ha hb hc hd he
    · exact ⟨rfl, Or.inr (Or.inl ⟨by simp [setStatus, hst], hc⟩)⟩
    · exact ⟨rfl, Or.inl hst⟩
    · exact ⟨rfl, Or.inr (Or.inr (Or.inl ⟨by simp [setStatus, hst], ha, hd.1⟩))⟩
    · exact ⟨rfl, Or.inl hst⟩
    · exact ⟨rfl, Or.inr (Or.inr (Or.inr ⟨by simp [setStatus, hst], he⟩))⟩
    · exact ⟨rfl, Or.inl hst⟩
  · intro hle
    unfold srxDataAck
    dsimp only
    rw [if_neg h1', if_neg h2', if_neg hle]
    split_ifs with ha hb hc hd
    · exact ⟨Or.inr (by simp [setStatus, i2c_calculatePec, hst]), Or.inr ha.2.symm⟩
    · exact ⟨Or.inl (by simp [i2c_calculatePec, hst]), Or.inr ha.2.symm⟩
    · exact ⟨Or.inr (by simp [setStatus, hst]), Or.inl rfl⟩
    · exact ⟨Or.inr (by simp [setStatus, hst]), Or.inl rfl⟩
    · exact ⟨Or.inl (by simp [i2c_calculatePec, hst]), Or.inl rfl⟩

/-- The fields of the globals after a received byte, in terms of the body
of the case. -/
theorem isr_evData_fields (cfg : Config) (b : Nat) (g : Globals) :
    (isr cfg (evData b) g).i2c_status = (srxDataAck cfg b { g with i2c_status := 0 }).i2c_status
    ∧ (isr cfg (evData b) g).writeBytes = (srxDataAck cfg b { g with i2c_status := 0 }).writeBytes
    ∧ (isr cfg (evData b) g).i2c_rxIdx = (g.i2c_rxIdx + 1) % 65536
    ∧ (isr cfg (evData b) g).ram cfg.I2C_STATUS_CML =
        g.ram cfg.I2C_STATUS_CML ||| (isr cfg (evData b) g).i2c_status
    ∧ (isr cfg (evData b) g).i2c_state =
        (if (isr cfg (evData b) g).i2c_status ≠ 0 then g.i2c_state ||| I2C_STATE_ERROR
          else g.i2c_state) := by
  have hf := statusUpdate_fields cfg (srxDataAck cfg b { g with i2c_status := 0 })
  rw [isr_evData]
  refine ⟨hf.2.2.2.2.2.1, hf.2.1, ?_, ?_, ?_⟩
  · rw [hf.1, srxDataAck_rxIdx]
  · rw [hf.2.2.2.2.2.1]
    unfold statusUpdate
    split_ifs with hs
    · show Function.update _ _ _ _ = _
      rw [Function.update_same, srxDataAck_ram]
    · have h0 : (srxDataAck cfg b { g with i2c_status := 0 }).i2c_status = 0 := by
        by_contra h
        exact hs h
      rw [h0, srxDataAck_ram]
      simp
  · rw [statusUpdate_state, hf.2.2.2.2.2.1, srxDataAck_state]

theorem fault_or_self (F st : Nat)
    (hF : F = STATUS_CML_DATA_FAULT) (hst : st = 0 ∨ st = STATUS_CML_DATA_FAULT) :
    F ||| st = F := by
  rcases hst with h | h
  · rw [h]
    exact Nat.or_zero F
  · rw [h, hF]
    exact Nat.or_self _

/-- A received byte after the command code keeps the invariant, and raises
no new fault bit once a fault is latched. -/
theorem faultInv_step (cfg : Config) (cml0 b : Nat) (s : Globals) (F : Nat)
    (hinv : faultInv cfg cml0 s F) (hlt : s.i2c_rxIdx < 65535) :
    faultInv cfg cml0 (isr cfg (evData b) s) (F ||| (isr cfg (evData b) s).i2c_status)
    ∧ (F ≠ 0 → F ||| (isr cfg (evData b) s).i2c_status = F) := by
  obtain ⟨hrx, hcml, hset, hiff, hsupp⟩ := hinv
  have hrx0 : s.i2c_rxIdx ≠ 0 := by omega
  have hf := isr_evData_fields cfg b s
  have hcmd : (isr cfg (evData b) s).i2c_command = s.i2c_command ∧
      (isr cfg (evData b) s).i2c_registerMapIndex = s.i2c_registerMapIndex := by
    have h := srxDataAck_command cfg b { s with i2c_status := 0 } hrx0
    have hf' := statusUpdate_fields cfg (srxDataAck cfg b { s with i2c_status := 0 })
    rw [isr_evData]
    exact ⟨hf'.2.2.2.1.trans h.1, hf'.2.2.1.trans h.2⟩
  have hcur : curCmd cfg (isr cfg (evData b) s) = curCmd cfg s := by
    unfold curCmd
    rw [hcmd.2]
  have hrx' : (isr cfg (evData b) s).i2c_rxIdx = s.i2c_rxIdx + 1 := by
    rw [hf.2.2.1]
    omega
  -- what the byte raises
  have hkey : (F ||| (isr cfg (evData b) s).i2c_status = 0
        ∨ F ||| (isr cfg (evData b) s).i2c_status = STATUS_CML_CMD_FAULT
        ∨ F ||| (isr cfg (evData b) s).i2c_status = STATUS_CML_DATA_FAULT
        ∨ F ||| (isr cfg (evData b) s).i2c_status = STATUS_CML_PEC_FAULT)
      ∧ (F ≠ 0 → F ||| (isr cfg (evData b) s).i2c_status = F)
      ∧ (cfg.i2c_registerIndex s.i2c_command.code ≠ I2C_UNSUPPORTED →
          ((curCmd cfg s).writeBytes = 0 → (isr cfg (evData b) s).writeBytes = 0) ∧
          (F ||| (isr cfg (evData b) s).i2c_status ≠ 0 →
            F ||| (isr cfg (evData b) s).i2c_status = STATUS_CML_DATA_FAULT ∨
            s.i2c_rxIdx + 1 > (isr cfg (evData b) s).writeBytes + 1)) := by
    by_cases hsup : cfg.i2c_registerIndex s.i2c_command.code = I2C_UNSUPPORTED
    · have habs := isr_absorb cfg b s hrx0 hsup
      have hst0 : (isr cfg (evData b) s).i2c_status = 0 := by rw [habs]
      rw [hst0, Nat.or_zero]
      exact ⟨hset, fun _ => rfl, fun h => absurd hsup h⟩
    · obtain ⟨hone, hW0, hthird⟩ := hsupp hsup
      have hc := srxDataAck_supported_cases cfg b { s with i2c_status := 0 } hrx0 hsup rfl
      rw [hf.1, hf.2.1]
      by_cases hgt : s.i2c_rxIdx > s.writeBytes
      · obtain ⟨hwb, hcase⟩ := hc.1 hgt
        have hwb' : (srxDataAck cfg b { s with i2c_status := 0 }).writeBytes = s.writeBytes := hwb
        rw [hwb']
        rcases hcase with h | ⟨h, herr⟩ | ⟨h, hr1, hw⟩ | ⟨h, herr⟩
        · rw [h, Nat.or_zero]
          refine ⟨hset, fun _ => rfl, fun _ => ⟨hW0, fun hF => ?_⟩⟩
          rcases hthird hF with h3 | h3
          · exact Or.inl h3
          · exact Or.inr (by omega)
        · have hF0 : F = 0 := hiff.mpr herr
          rw [h, hF0, Nat.zero_or]
          refine ⟨Or.inr (Or.inr (Or.inr rfl)), fun hne => absurd rfl hne,
            fun _ => ⟨hW0, fun _ => Or.inr ?_⟩⟩
          by_contra hcon
          have hle : s.i2c_rxIdx ≤ s.writeBytes := by omega
          omega
        · have hwb0 : s.writeBytes = 0 := hW0 hw.symm
          have hr1' : s.i2c_rxIdx = 1 := by
            have : ({ s with i2c_status := 0 } : Globals).i2c_rxIdx
                = ({ s with i2c_status := 0 } : Globals).writeBytes + 1 := hr1
            show s.i2c_rxIdx = 1
            have h' : s.i2c_rxIdx = s.writeBytes + 1 := this
            omega
          have hF0 : F = 0 := (hone hr1').1
          rw [h, hF0, Nat.zero_or]
          exact ⟨Or.inr (Or.inr (Or.inl rfl)), fun hne => absurd rfl hne,
            fun _ => ⟨hW0, fun _ => Or.inl rfl⟩⟩
        · have hF0 : F = 0 := hiff.mpr herr
          rw [h, hF0, Nat.zero_or]
          exact ⟨Or.inr (Or.inr (Or.inl rfl)), fun hne => absurd rfl hne,
            fun _ => ⟨hW0, fun _ => Or.inl rfl⟩⟩
      · obtain ⟨hst, hwb⟩ := hc.2 hgt
        have hle : s.i2c_rxIdx ≤ s.writeBytes := by omega
        have hWne : (curCmd cfg s).writeBytes ≠ 0 := by
          intro h0
          have := hW0 h0
          omega
        by_cases hF0 : F = 0
        · rw [hF0, Nat.zero_or]
          refine ⟨?_, fun hne => absurd rfl hne, fun _ => ⟨fun h0 => absurd h0 hWne, fun hne => ?_⟩⟩
          · rcases hst with h | h
            · exact Or.inl h
            · exact Or.inr (Or.inr (Or.inl h))
          · rcases hst with h | h
            · exact absurd h hne
            · exact Or.inl h
        · have hFD : F = STATUS_CML_DATA_FAULT := by
            rcases hthird hF0 with h3 | h3
            · exact h3
            · omega
          have hself := fault_or_self F _ hFD hst
          rw [hself]
          exact ⟨hset, fun _ => rfl, fun _ => ⟨fun h0 => absurd h0 hWne, fun _ => Or.inl hFD⟩⟩
  obtain ⟨hset', hkeep, hsupp'⟩ := hkey
  refine ⟨⟨by omega, ?_, hset', ?_, ?_⟩, hkeep⟩
  · rw [hf.2.2.2.1, hcml, Nat.or_assoc]
  · rw [hf.2.2.2.2]
    by_cases hs0 : (isr cfg (evData b) s).i2c_status = 0
    · rw [hs0, Nat.or_zero, if_neg (by simp)]
      exact hiff
    · rw [if_pos hs0]
      constructor
      · intro h
        exact absurd (or_eq_zero _ _ h).2 hs0
      · intro h
        exact absurd h (and_error_of_or _)
  · rw [hcmd.1, hcur, hrx']
    intro hsup
    obtain ⟨hW0', hthird'⟩ := hsupp' hsup
    exact ⟨fun h => by omega, hW0', hthird'⟩

/-- Any number of received bytes after the command code, short of the wrap
of the receive count, keep the invariant; once a fault is latched they add no
fault bit. -/
theorem run_faultInv (cfg : Config) (cml0 : Nat) (bs : List Nat) :
    ∀ (s : Globals) (F : Nat), faultInv cfg cml0 s F → s.i2c_rxIdx + bs.length < 65536 →
      faultInv cfg cml0 (run cfg s (bs.map evData)) (F ||| raised cfg s (bs.map evData))
      ∧ (F ≠ 0 → F ||| raised cfg s (bs.map evData) = F) := by
  induction bs with
  | nil =>
    intro s F hinv _
    have e : F ||| raised cfg s ([].map evData) = F := Nat.or_zero F
    rw [e]
    exact ⟨hinv, fun _ => rfl⟩
  | cons b bs ih =>
    intro s F hinv hlen
    have hlen' : s.i2c_rxIdx + (bs.length + 1) < 65536 := by simpa using hlen
    have hstep := faultInv_step cfg cml0 b s F hinv (by omega)
    have hrx' : (isr cfg (evData b) s).i2c_rxIdx = s.i2c_rxIdx + 1 := by
      rw [(isr_evData_fields cfg b s).2.2.1]
      omega
    have ih' := ih (isr cfg (evData b) s) (F ||| (isr cfg (evData b) s).i2c_status) hstep.1
      (by rw [hrx']; omega)
    have e : F ||| raised cfg s ((b :: bs).map evData) =
        (F ||| (isr cfg (evData b) s).i2c_status)
          ||| raised cfg (isr cfg (evData b) s) (bs.map evData) := by
      rw [List.map_cons]
      show F ||| ((isr cfg (evData b) s).i2c_status
        ||| raised cfg (isr cfg (evData b) s) (bs.map evData)) = _
      rw [Nat.or_assoc]
    rw [e, List.map_cons, run_cons]
    refine ⟨ih'.1, fun hF => ?_⟩
    have h1 := hstep.2 hF
    rw [h1] at ih' ⊢
    exact ih'.2 hF

/-- The command byte of a write transaction establishes the invariant. -/
theorem faultInv_cmd (cfg : Config) (c : Nat) (s : Globals)
    (hrx : s.i2c_rxIdx = 0) (herr : s.i2c_state &&& I2C_STATE_ERROR = 0) :
    faultInv cfg (s.ram cfg.I2C_STATUS_CML) (isr cfg (evData c) s)
      (isr cfg (evData c) s).i2c_status := by
  by_cases hsup : cfg.i2c_registerIndex c = I2C_UNSUPPORTED
  · rw [isr_cmd_unsupported cfg c s hrx hsup]
    refine ⟨Nat.le_refl 1, ?_, Or.inr (Or.inl rfl), ?_, fun h => absurd hsup h⟩
    · show Function.update _ _ _ _ = _
      rw [Function.update_same]
    · constructor
      · intro h
        exact absurd h (show STATUS_CML_CMD_FAULT ≠ 0 by decide)
      · intro h
        exact absurd h (and_error_of_or _)
  · rw [isr_cmd cfg c s hrx hsup]
    refine ⟨Nat.le_refl 1, (Nat.or_zero _).symm, Or.inl rfl, ⟨fun _ => herr, fun _ => rfl⟩,
      fun _ => ⟨fun _ => ⟨rfl, rfl⟩, fun h => h, fun h => absurd rfl h⟩⟩

theorem run_data_rxIdx (cfg : Config) (bs : List Nat) :
    ∀ (s : Globals), s.i2c_rxIdx + bs.length < 65536 →
      (run cfg s (bs.map evData)).i2c_rxIdx = s.i2c_rxIdx + bs.length := by
  induction bs with
  | nil => intro s _; rfl
  | cons b bs ih =>
    intro s hlen
    have hlen' : s.i2c_rxIdx + (bs.length + 1) < 65536 := by simpa using hlen
    have hrx' : (isr cfg (evData b) s).i2c_rxIdx = s.i2c_rxIdx + 1 := by
      rw [(isr_evData_fields cfg b s).2.2.1]
      omega
    rw [List.map_cons, run_cons, ih _ (by rw [hrx']; omega), hrx', List.length_cons]
    omega

/-- The received bytes of a write transaction, from the address match on:
the invariant holds after a nonempty list of bytes, with the fault bits raised
by the bytes. -/
theorem faultInv_prefix (cfg : Config) (s0 : Globals) (c : Nat) (bs : List Nat)
    (hrx : s0.i2c_rxIdx = 0) (herr : s0.i2c_state &&& I2C_STATE_ERROR = 0)
    (hlen : bs.length + 1 < 65536) :
    faultInv cfg (s0.ram cfg.I2C_STATUS_CML) (run cfg s0 ((c :: bs).map evData))
      (raised cfg s0 ((c :: bs).map evData)) := by
  have hc := faultInv_cmd cfg c s0 hrx herr
  have hrx1 : (isr cfg (evData c) s0).i2c_rxIdx = 1 := by
    rw [(isr_evData_fields cfg c s0).2.2.1, hrx]
  exact (run_faultInv cfg _ bs _ _ hc (by rw [hrx1]; omega)).1

/-- First fault wins, for the bytes received after an address match. -/
theorem first_fault_wins_bytes (cfg : Config) (s0 : Globals) (bs1 bs2 : List Nat)
    (hrx : s0.i2c_rxIdx = 0) (herr : s0.i2c_state &&& I2C_STATE_ERROR = 0)
    (hlen : bs1.length + bs2.length < 65536) :
    ((run cfg s0 (bs1.map evData)).i2c_state &&& I2C_STATE_ERROR ≠ 0 →
      (run cfg s0 ((bs1 ++ bs2).map evData)).ram cfg.I2C_STATUS_CML
        = (run cfg s0 (bs1.map evData)).ram cfg.I2C_STATUS_CML
      ∧ (run cfg s0 ((bs1 ++ bs2).map evData)).i2c_state &&& I2C_STATE_ERROR ≠ 0)
    ∧ (raised cfg s0 ((bs1 ++ bs2).map evData) = 0
        ∨ raised cfg s0 ((bs1 ++ bs2).map evData) = STATUS_CML_CMD_FAULT
        ∨ raised cfg s0 ((bs1 ++ bs2).map evData) = STATUS_CML_DATA_FAULT
        ∨ raised cfg s0 ((bs1 ++ bs2).map evData) = STATUS_CML_PEC_FAULT)
    ∧ (run cfg s0 ((bs1 ++ bs2).map evData)).ram cfg.I2C_STATUS_CML
        = s0.ram cfg.I2C_STATUS_CML ||| raised cfg s0 ((bs1 ++ bs2).map evData) := by
  refine ⟨?_, ?_⟩
  · intro hlatched
    cases bs1 with
    | nil => exact absurd herr hlatched
    | cons c r1 =>
      have hlen' : r1.length + 1 + bs2.length < 65536 := by simpa using hlen
      have h1 := faultInv_prefix cfg s0 c r1 hrx herr (by omega)
      have hF : raised cfg s0 ((c :: r1).map evData) ≠ 0 := fun h => hlatched (h1.2.2.2.1.mp h)
      have hrx1 := run_data_rxIdx cfg (c :: r1) s0 (by rw [hrx, List.length_cons]; omega)
      have h2 := run_faultInv cfg (s0.ram cfg.I2C_STATUS_CML) bs2 _ _ h1
        (by rw [hrx1, hrx, List.length_cons]; omega)
      rw [h2.2 hF] at h2
      rw [List.map_append, run_append]
      exact ⟨h2.1.2.1.trans h1.2.1.symm, fun h => hF (h2.1.2.2.2.1.mpr h)⟩
  · cases hbs : bs1 ++ bs2 with
    | nil =>
      exact ⟨Or.inl rfl, (Nat.or_zero _).symm⟩
    | cons c r =>
      have hl : (bs1 ++ bs2).length = r.length + 1 := by rw [hbs]; rfl
      rw [List.length_append] at hl
      have h := faultInv_prefix cfg s0 c r hrx herr (by omega)
      exact ⟨h.2.2.1, h.2.1⟩

/-- The handler takes the general-call address match as the own-address
match. -/
theorem isr_of_addr_match (cfg : Config) (g : Globals) (a : BusEvent)
    (ha : a.TWSR = I2C_SRX_ADR_ACK ∨ a.TWSR = I2C_SRX_GEN_ACK) :
    isr cfg a g = isr cfg evWriteAddr g := by
  have h1 : dispatch cfg a { g with i2c_status := 0 } = srxAdrAck { g with i2c_status := 0 } := by
    unfold dispatch
    rcases ha with h | h <;>
      simp [h, I2C_SRX_ADR_ACK, I2C_SRX_GEN_ACK, I2C_STX_ADR_ACK, I2C_STX_DATA_ACK,
        I2C_STX_DATA_NACK]
  have h2 : dispatch cfg evWriteAddr { g with i2c_status := 0 }
      = srxAdrAck { g with i2c_status := 0 } := by
    unfold dispatch
    simp [evWriteAddr, I2C_SRX_ADR_ACK, I2C_SRX_GEN_ACK, I2C_STX_ADR_ACK, I2C_STX_DATA_ACK,
      I2C_STX_DATA_NACK]
  unfold isr
  rw [h1, h2]

/-- The handler takes a byte received after a general call as a byte
received after the own-address match. -/
theorem isr_of_data (cfg : Config) (g : Globals) (e : BusEvent)
    (he : e.TWSR = I2C_SRX_ADR_DATA_ACK ∨ e.TWSR = I2C_SRX_GEN_DATA_ACK) :
    isr cfg e g = isr cfg (evData e.TWDR) g := by
  have h1 : dispatch cfg e { g with i2c_status := 0 }
      = srxDataAck cfg e.TWDR { g with i2c_status := 0 } := by
    unfold dispatch
    rcases he with h | h <;>
      simp [h, I2C_SRX_ADR_DATA_ACK, I2C_SRX_GEN_DATA_ACK, I2C_SRX_ADR_ACK, I2C_SRX_GEN_ACK,
        I2C_STX_ADR_ACK, I2C_STX_DATA_ACK, I2C_STX_DATA_NACK]
  rw [isr_evData]
  unfold isr
  rw [h1]

theorem run_of_data (cfg : Config) (ds : List BusEvent)
    (hd : ∀ e ∈ ds, e.TWSR = I2C_SRX_ADR_DATA_ACK ∨ e.TWSR = I2C_SRX_GEN_DATA_ACK) :
    ∀ g : Globals, run cfg g ds = run cfg g ((ds.map BusEvent.TWDR).map evData)
      ∧ raised cfg g ds = raised cfg g ((ds.map BusEvent.TWDR).map evData) := by
  induction ds with
  | nil => intro g; exact ⟨rfl, rfl⟩
  | cons e ds ih =>
    intro g
    have he := isr_of_data cfg g e (hd e (List.mem_cons_self _ _))
    have ih' := ih (fun x hx => hd x (List.mem_cons_of_mem _ hx)) (isr cfg e g)
    constructor
    · rw [List.map_cons, List.map_cons, run_cons, run_cons, ← he]
      exact ih'.1
    · rw [List.map_cons, List.map_cons]
      show (isr cfg e g).i2c_status ||| raised cfg (isr cfg e g) ds
        = (isr cfg (evData e.TWDR) g).i2c_status ||| raised cfg (isr cfg (evData e.TWDR) g) _
      rw [← he, ih'.2]

theorem isr_evStop_status (cfg : Config) (g : Globals) : (isr cfg evStop g).i2c_status = 0 := by
  rw [isr_evStop, (statusUpdate_fields cfg _).2.2.2.2.2.1]
  unfold srxStopRestart
  dsimp only
  split_ifs
  · unfold i2cCmdQueuePush
    dsimp only
    split_ifs <;> rfl
  · rfl
  · rfl
  · rfl

/-- C26: in a write transaction (a write or general-call address-match `a`,
received bytes `ds1` then `ds2`, fewer than 65536 in all, STOP/repeated START):
if the error flag is latched after the bytes `ds1`, the sticky fault register
after the bytes `ds2` and after the STOP is what it was after `ds1`; the fault
bits raised by the events of the transaction are none or a single one
(command, data or PEC fault), and the register before the STOP is its value
before the transaction ORed with them. -/
theorem first_fault_wins (cfg : Config) (g0 : Globals) (a : BusEvent) (ds1 ds2 : List BusEvent)
    (ha : a.TWSR = I2C_SRX_ADR_ACK ∨ a.TWSR = I2C_SRX_GEN_ACK)
    (hd1 : ∀ e ∈ ds1, e.TWSR = I2C_SRX_ADR_DATA_ACK ∨ e.TWSR = I2C_SRX_GEN_DATA_ACK)
    (hd2 : ∀ e ∈ ds2, e.TWSR = I2C_SRX_ADR_DATA_ACK ∨ e.TWSR = I2C_SRX_GEN_DATA_ACK)
    (hlen : ds1.length + ds2.length < 65536) :
    ((run cfg g0 (a :: ds1)).i2c_state &&& I2C_STATE_ERROR ≠ 0 →
      (run cfg g0 (a :: ds1 ++ ds2)).ram cfg.I2C_STATUS_CML
        = (run cfg g0 (a :: ds1)).ram cfg.I2C_STATUS_CML
      ∧ (run cfg g0 (a :: ds1 ++ ds2 ++ [evStop])).ram cfg.I2C_STATUS_CML
        = (run cfg g0 (a :: ds1)).ram cfg.I2C_STATUS_CML)
    ∧ (raised cfg g0 (a :: ds1 ++ ds2 ++ [evStop]) = 0
        ∨ raised cfg g0 (a :: ds1 ++ ds2 ++ [evStop]) = STATUS_CML_CMD_FAULT
        ∨ raised cfg g0 (a :: ds1 ++ ds2 ++ [evStop]) = STATUS_CML_DATA_FAULT
        ∨ raised cfg g0 (a :: ds1 ++ ds2 ++ [evStop]) = STATUS_CML_PEC_FAULT)
    ∧ (run cfg g0 (a :: ds1 ++ ds2)).ram cfg.I2C_STATUS_CML
        = g0.ram cfg.I2C_STATUS_CML ||| raised cfg g0 (a :: ds1 ++ ds2 ++ [evStop]) := by
  have hs0 : isr cfg a g0 = isr cfg evWriteAddr g0 := isr_of_addr_match cfg g0 a ha
  have hrx : (isr cfg a g0).i2c_rxIdx = 0 := by rw [hs0, isr_evWriteAddr]
  have herr : (isr cfg a g0).i2c_state &&& I2C_STATE_ERROR = 0 := by
    rw [hs0, isr_evWriteAddr]
    exact clear_error _
  have hcml : (isr cfg a g0).ram cfg.I2C_STATUS_CML = g0.ram cfg.I2C_STATUS_CML := by
    rw [hs0, isr_evWriteAddr]
  have hst : (isr cfg a g0).i2c_status = 0 := by rw [hs0, isr_evWriteAddr]
  have hb := first_fault_wins_bytes cfg (isr cfg a g0) (ds1.map BusEvent.TWDR)
    (ds2.map BusEvent.TWDR) hrx herr (by simpa using hlen)
  have hd12 : ∀ e ∈ ds1 ++ ds2,
      e.TWSR = I2C_SRX_ADR_DATA_ACK ∨ e.TWSR = I2C_SRX_GEN_DATA_ACK := by
    intro e he
    rcases List.mem_append.mp he with h | h
    · exact hd1 e h
    · exact hd2 e h
  have h1 := run_of_data cfg ds1 hd1 (isr cfg a g0)
  have h12 := run_of_data cfg (ds1 ++ ds2) hd12 (isr cfg a g0)
  rw [List.map_append] at h12
  rw [← h1.1, ← h12.1, ← h12.2, hcml] at hb
  have hraised : raised cfg g0 (a :: ds1 ++ ds2 ++ [evStop])
      = raised cfg (isr cfg a g0) (ds1 ++ ds2) := by
    rw [List.cons_append, List.cons_append]
    show (isr cfg a g0).i2c_status ||| raised cfg (isr cfg a g0) (ds1 ++ ds2 ++ [evStop]) = _
    rw [hst, Nat.zero_or, raised_append]
    show _ ||| ((isr cfg evStop (run cfg (isr cfg a g0) (ds1 ++ ds2))).i2c_status ||| 0) = _
    rw [isr_evStop_status]
    simp
  have hrun1 : run cfg g0 (a :: ds1) = run cfg (isr cfg a g0) ds1 := rfl
  have hrun12 : run cfg g0 (a :: ds1 ++ ds2) = run cfg (isr cfg a g0) (ds1 ++ ds2) := rfl
  rw [hraised, hrun1, hrun12]
  refine ⟨fun hl => ?_, hb.2.1, hb.2.2⟩
  obtain ⟨hkeep, hl2⟩ := hb.1 hl
  refine ⟨hkeep, ?_⟩
  have hstop := isr_stop_of_error cfg (run cfg (isr cfg a g0) (ds1 ++ ds2)) hl2
  have hrunS : run cfg g0 (a :: ds1 ++ ds2 ++ [evStop])
      = isr cfg evStop (run cfg (isr cfg a g0) (ds1 ++ ds2)) := by
    rw [run_append, hrun12, run_cons, run_nil]
  rw [hrunS, hstop]
  exact hkeep

set_option maxRecDepth 100000 in
/-- C26 at a write to the paged two-byte command 0x40 of `demoCfg` with the
page register at 0xFF: the first data byte raises the data fault, the bytes
after it leave the register as it is, and the data fault is the one bit
raised. -/
theorem first_fault_wins_witness :
    ((run demoCfg (run demoCfg demoInit (writeTxn demoInit.i2c_baseAddress 0 [0xFF]))
        (evWriteAddr :: [evData 0x40, evData 0xAA] ++ [evData 0xBB, evData 0x00])).ram
        demoCfg.I2C_STATUS_CML
      = (run demoCfg (run demoCfg demoInit (writeTxn demoInit.i2c_baseAddress 0 [0xFF]))
        (evWriteAddr :: [evData 0x40, evData 0xAA])).ram demoCfg.I2C_STATUS_CML
    ∧ (run demoCfg (run demoCfg demoInit (writeTxn demoInit.i2c_baseAddress 0 [0xFF]))
        (evWriteAddr :: [evData 0x40, evData 0xAA] ++ [evData 0xBB, evData 0x00]
          ++ [evStop])).ram demoCfg.I2C_STATUS_CML
      = (run demoCfg (run demoCfg demoInit (writeTxn demoInit.i2c_baseAddress 0 [0xFF]))
        (evWriteAddr :: [evData 0x40, evData 0xAA])).ram demoCfg.I2C_STATUS_CML)
    ∧ raised demoCfg (run demoCfg demoInit (writeTxn demoInit.i2c_baseAddress 0 [0xFF]))
        (evWriteAddr :: [evData 0x40, evData 0xAA] ++ [evData 0xBB, evData 0x00] ++ [evStop])
      = STATUS_CML_DATA_FAULT :=
  ⟨(first_fault_wins demoCfg (run demoCfg demoInit (writeTxn demoInit.i2c_baseAddress 0 [0xFF]))
      evWriteAddr [evData 0x40, evData 0xAA] [evData 0xBB, evData 0x00]
      (Or.inl rfl) (by decide) (by decide) (by decide)).1 (by decide), by decide⟩

/-! ## Independence of stale scratch-buffer contents -/

theorem statusUpdate_buf (cfg : Config) (g : Globals) (buf : Nat → Nat) :
    statusUpdate cfg { g with i2c_buffer := buf }
      = { statusUpdate cfg g with i2c_buffer := buf } := by
  unfold statusUpdate
  dsimp only
  split_ifs <;> rfl

theorem defs_buf (cfg : Config) (g : Globals) (buf : Nat → Nat) :
    curCmd cfg { g with i2c_buffer := buf } = curCmd cfg g
    ∧ IS_BLOCKCMD cfg { g with i2c_buffer := buf } = IS_BLOCKCMD cfg g
    ∧ IS_LBLOCK cfg { g with i2c_buffer := buf } = IS_LBLOCK cfg g
    ∧ IS_PAGED cfg { g with i2c_buffer := buf } = IS_PAGED cfg g
    ∧ pageOffsetRead cfg { g with i2c_buffer := buf } = pageOffsetRead cfg g
    ∧ pageOffsetWrite cfg { g with i2c_buffer := buf } = pageOffsetWrite cfg g
    ∧ lenByte cfg { g with i2c_buffer := buf } = lenByte cfg g
    ∧ stageIdx cfg { g with i2c_buffer := buf } = stageIdx cfg g
    ∧ (∀ t, txDataAddr cfg { g with i2c_buffer := buf } t = txDataAddr cfg g t) :=
  ⟨rfl, rfl, rfl, rfl, rfl, rfl, rfl, rfl, fun _ => rfl⟩

theorem stxDataAck_buf (cfg : Config) (g : Globals) (buf : Nat → Nat) :
    stxDataAck cfg { g with i2c_buffer := buf } = { stxDataAck cfg g with i2c_buffer := buf } := by
  have h := defs_buf cfg g buf
  unfold stxDataAck
  dsimp only
  rw [h.1, h.2.1, h.2.2.1, h.2.2.2.1, h.2.2.2.2.1]
  simp only [h.2.2.2.2.2.2.2.2]
  split_ifs <;> rfl

theorem srxDataAck_buf (cfg : Config) (b : Nat) (g : Globals) (buf : Nat → Nat) :
    srxDataAck cfg b { g with i2c_buffer := buf }
      = { srxDataAck cfg b g with
          i2c_buffer := (srxDataAck cfg b { g with i2c_buffer := buf }).i2c_buffer } := by
  have h := defs_buf cfg g buf
  unfold srxDataAck
  dsimp only
  rw [h.1, h.2.1, h.2.2.2.1, h.2.2.2.2.2.2.2.1]
  split_ifs <;> rfl

theorem push_buf (cfg : Config) (e : CmdBuffer) (g : Globals) (buf : Nat → Nat) :
    (i2cCmdQueuePush cfg e { g with i2c_buffer := buf }).2
      = { (i2cCmdQueuePush cfg e g).2 with i2c_buffer := buf } := by
  unfold i2cCmdQueuePush
  dsimp only
  split_ifs <;> rfl

theorem dispatch_kinds (cfg : Config) (ev : BusEvent) :
    (∀ g, dispatch cfg ev g = stxDataAck cfg
      (i2c_calculatePec (((g.i2c_baseAddress <<< 1) + 1) % 256) { g with i2c_txIdx := 1 }))
    ∨ (∀ g, dispatch cfg ev g = stxDataAck cfg g)
    ∨ (∀ g, dispatch cfg ev g = srxAdrAck g)
    ∨ (∀ g, dispatch cfg ev g = srxDataAck cfg ev.TWDR g)
    ∨ (∀ g, dispatch cfg ev g = srxStopRestart cfg g)
    ∨ (∀ g, dispatch cfg ev g = { g with i2c_busy := 0 })
    ∨ (∀ g, dispatch cfg ev g = g) := by
  by_cases h1 : ev.TWSR = I2C_STX_ADR_ACK
  · exact Or.inl (fun g => by unfold dispatch; rw [if_pos h1])
  by_cases h2 : ev.TWSR = I2C_STX_DATA_ACK
  · exact Or.inr (Or.inl (fun g => by unfold dispatch; rw [if_neg h1, if_pos h2]))
  by_cases h3 : ev.TWSR = I2C_STX_DATA_NACK
  · exact Or.inr (Or.inr (Or.inr (Or.inr (Or.inr (Or.inl
      (fun g => by unfold dispatch; rw [if_neg h1, if_neg h2, if_pos h3]))))))
  by_cases h4 : ev.TWSR = I2C_SRX_GEN_ACK ∨ ev.TWSR = I2C_SRX_ADR_ACK
  · exact Or.inr (Or.inr (Or.inl
      (fun g => by unfold dispatch; rw [if_neg h1, if_neg h2, if_neg h3, if_pos h4])))
  by_cases h5 : ev.TWSR = I2C_SRX_ADR_DATA_ACK ∨ ev.TWSR = I2C_SRX_GEN_DATA_ACK
  · exact Or.inr (Or.inr (Or.inr (Or.inl
      (fun g => by unfold dispatch; rw [if_neg h1, if_neg h2, if_neg h3, if_neg h4, if_pos h5]))))
  by_cases h6 : ev.TWSR = I2C_SRX_STOP_RESTART
  · exact Or.inr (Or.inr (Or.inr (Or.inr (Or.inl
      (fun g => by
        unfold dispatch
        rw [if_neg h1, if_neg h2, if_neg h3, if_neg h4, if_neg h5, if_pos h6])))))
  by_cases h7 : ev.TWSR = I2C_SRX_ADR_DATA_NACK ∨ ev.TWSR = I2C_SRX_GEN_DATA_NACK
      ∨ ev.TWSR = I2C_STX_DATA_ACK_LAST_BYTE ∨ ev.TWSR = I2C_BUS_ERROR
  · exact Or.inr (Or.inr (Or.inr (Or.inr (Or.inr (Or.inr
      (fun g => by
        unfold dispatch
        rw [if_neg h1, if_neg h2, if_neg h3, if_neg h4, if_neg h5, if_neg h6, if_pos h7]))))))
  · exact Or.inr (Or.inr (Or.inr (Or.inr (Or.inr (Or.inl
      (fun g => by
        unfold dispatch
        rw [if_neg h1, if_neg h2, if_neg h3, if_neg h4, if_neg h5, if_neg h6, if_neg h7]))))))

/-- The status update clears no error flag. -/
theorem statusUpdate_err_clear (cfg : Config) (g : Globals)
    (h : (statusUpdate cfg g).i2c_state &&& I2C_STATE_ERROR = 0) :
    g.i2c_state &&& I2C_STATE_ERROR = 0 ∧ g.i2c_status = 0 := by
  rw [statusUpdate_state] at h
  by_cases hs : g.i2c_status ≠ 0
  · rw [if_pos hs] at h
    exact absurd h (and_error_of_or _)
  · rw [if_neg hs] at h
    exact ⟨h, by_contra hs⟩

theorem stxDataAck_frame (cfg : Config) (g : Globals) :
    (stxDataAck cfg g).i2c_rxIdx = g.i2c_rxIdx ∧
    (stxDataAck cfg g).writeBytes = g.writeBytes ∧
    (stxDataAck cfg g).i2c_command = g.i2c_command ∧
    (stxDataAck cfg g).i2c_registerMapIndex = g.i2c_registerMapIndex ∧
    (stxDataAck cfg g).i2c_buffer = g.i2c_buffer ∧
    (stxDataAck cfg g).i2c_state = g.i2c_state := by
  unfold stxDataAck
  dsimp only
  split_ifs <;> exact ⟨rfl, rfl, rfl, rfl, rfl, rfl⟩

theorem push_frame (cfg : Config) (e : CmdBuffer) (g : Globals) :
    (i2cCmdQueuePush cfg e g).2.i2c_rxIdx = g.i2c_rxIdx ∧
    (i2cCmdQueuePush cfg e g).2.writeBytes = g.writeBytes ∧
    (i2cCmdQueuePush cfg e g).2.i2c_command = g.i2c_command ∧
    (i2cCmdQueuePush cfg e g).2.i2c_registerMapIndex = g.i2c_registerMapIndex ∧
    (i2cCmdQueuePush cfg e g).2.i2c_buffer = g.i2c_buffer ∧
    (i2cCmdQueuePush cfg e g).2.i2c_state = g.i2c_state := by
  unfold i2cCmdQueuePush
  dsimp only
  split_ifs <;> exact ⟨rfl, rfl, rfl, rfl, rfl, rfl⟩

/-- The relation passes to states that keep the receive count, the write
length, the command and the scratch buffers, and clear no error flag. -/
theorem bufRel_of_frame (cfg : Config) (s t : Globals) (buf : Nat → Nat)
    (hlt : s.i2c_rxIdx < 65536)
    (hag : s.i2c_state &&& I2C_STATE_ERROR = 0 → 1 ≤ s.i2c_rxIdx →
      cfg.i2c_registerIndex s.i2c_command.code ≠ I2C_UNSUPPORTED ∧
      ∀ j, j + (if IS_BLOCKCMD cfg s then 2 else 1) < s.i2c_rxIdx →
        j + (if IS_BLOCKCMD cfg s then 2 else 1) < s.writeBytes + 1 →
        s.i2c_buffer j = buf j)
    (hrx : t.i2c_rxIdx = s.i2c_rxIdx) (hwb : t.writeBytes = s.writeBytes)
    (hcmd : t.i2c_command = s.i2c_command)
    (hidx : t.i2c_registerMapIndex = s.i2c_registerMapIndex)
    (hbuf : t.i2c_buffer = s.i2c_buffer)
    (herr : t.i2c_state &&& I2C_STATE_ERROR = 0 → s.i2c_state &&& I2C_STATE_ERROR = 0) :
    bufRel cfg t { t with i2c_buffer := buf } := by
  have hblk : IS_BLOCKCMD cfg t = IS_BLOCKCMD cfg s := by
    unfold IS_BLOCKCMD curCmd
    rw [hidx]
  refine ⟨buf, rfl, by omega, fun he hr => ?_⟩
  rw [hrx, hwb, hcmd, hblk, hbuf]
  exact hag (herr he) (by omega)

theorem commitLoop_congr (dst : Nat) (buf buf' ram : Nat → Nat) (n : Nat)
    (h : ∀ j, j < n → buf j = buf' j) :
    commitLoop dst buf n ram = commitLoop dst buf' n ram := by
  induction n with
  | zero => rfl
  | succ n ih =>
    unfold commitLoop
    rw [ih (fun j hj => h j (by omega)), h n (by omega)]

/-- The commit reads the scratch bytes below the number of bytes it
copies. -/
theorem commit_buf (cfg : Config) (g : Globals) (buf : Nat → Nat)
    (h : ∀ j, j < (if IS_BLOCKCMD cfg g then g.writeBytes - 1 else g.writeBytes) →
      g.i2c_buffer j = buf j) :
    commit cfg { g with i2c_buffer := buf } = { commit cfg g with i2c_buffer := buf } := by
  have hd := defs_buf cfg g buf
  unfold commit
  dsimp only
  rw [hd.1, hd.2.1, hd.2.2.1, hd.2.2.2.2.2.1, hd.2.2.2.2.2.2.1,
    commitLoop_congr _ buf g.i2c_buffer _ _ (fun j hj => (h j hj).symm)]

theorem commit_frame (cfg : Config) (g : Globals) :
    (commit cfg g).i2c_rxIdx = g.i2c_rxIdx ∧
    (commit cfg g).writeBytes = g.writeBytes ∧
    (commit cfg g).i2c_command = g.i2c_command ∧
    (commit cfg g).i2c_registerMapIndex = g.i2c_registerMapIndex ∧
    (commit cfg g).i2c_buffer = g.i2c_buffer ∧
    (commit cfg g).i2c_state = g.i2c_state :=
  ⟨rfl, rfl, rfl, rfl, rfl, rfl⟩

/-- The scratch buffer after a byte that follows the command code of a
supported command. -/
theorem srxDataAck_buffer_cases (cfg : Config) (b : Nat) (g : Globals)
    (h1 : g.i2c_rxIdx ≠ 0)
    (h2 : cfg.i2c_registerIndex g.i2c_command.code ≠ I2C_UNSUPPORTED)
    (hst : g.i2c_status = 0) :
    (g.i2c_rxIdx > g.writeBytes →
      (srxDataAck cfg b g).i2c_buffer = g.i2c_buffer ∧
      (srxDataAck cfg b g).writeBytes = g.writeBytes)
    ∧ (¬ g.i2c_rxIdx > g.writeBytes →
      (IS_BLOCKCMD cfg g = true ∧ 1 = g.i2c_rxIdx ∧
        (srxDataAck cfg b g).i2c_buffer = g.i2c_buffer)
      ∨ (¬ (IS_BLOCKCMD cfg g = true ∧ 1 = g.i2c_rxIdx) ∧
        (srxDataAck cfg b g).writeBytes = g.writeBytes ∧
        ((srxDataAck cfg b g).i2c_status ≠ 0 ∨
          (srxDataAck cfg b g).i2c_buffer = Function.update g.i2c_buffer (stageIdx cfg g) b))) := by
  have h1' : ¬ (0 = g.i2c_rxIdx) := fun e => h1 e.symm
  have h2' : ¬ (I2C_UNSUPPORTED = cfg.i2c_registerIndex g.i2c_command.code) :=
    fun e => h2 e.symm
  have hne : STATUS_CML_DATA_FAULT ≠ 0 := by decide
  constructor
  · intro hgt
    unfold srxDataAck
    dsimp only
    rw [if_neg h1', if_neg h2', if_pos hgt]
    split_ifs <;> exact ⟨rfl, rfl⟩
  · intro hle
    unfold srxDataAck
    dsimp only
    rw [if_neg h1', if_neg h2', if_neg hle]
    split_ifs with ha hb hc hd
    · exact Or.inl ⟨ha.1, ha.2, rfl⟩
    · exact Or.inl ⟨ha.1, ha.2, rfl⟩
    · exact Or.inr ⟨ha, rfl, Or.inl (by simp [setStatus, hst, hne])⟩
    · exact Or.inr ⟨ha, rfl, Or.inl (by simp [setStatus, hst, hne])⟩
    · exact Or.inr ⟨ha, rfl, Or.inr rfl⟩

/-- A received byte keeps the relation. -/
theorem bufRel_data (cfg : Config) (b : Nat) (s s' : Globals) (h : bufRel cfg s s') :
    bufRel cfg (isr cfg (evData b) s) (isr cfg (evData b) s') := by
  obtain ⟨buf, rfl, hlt, hag⟩ := h
  have hcong : isr cfg (evData b) { s with i2c_buffer := buf } =
      { isr cfg (evData b) s with
        i2c_buffer := (srxDataAck cfg b { s with i2c_status := 0, i2c_buffer := buf }).i2c_buffer } := by
    rw [isr_evData, isr_evData]
    rw [show srxDataAck cfg b { ({ s with i2c_buffer := buf } : Globals) with i2c_status := 0 } = _
      from srxDataAck_buf cfg b { s with i2c_status := 0 } buf]
    rw [statusUpdate_buf]
  have hf := isr_evData_fields cfg b s
  have hsf := statusUpdate_fields cfg (srxDataAck cfg b { s with i2c_status := 0 })
  have htbuf : (isr cfg (evData b) s).i2c_buffer
      = (srxDataAck cfg b { s with i2c_status := 0 }).i2c_buffer := by
    rw [isr_evData]
    exact hsf.2.2.2.2.2.2.1
  rw [hcong]
  refine ⟨_, rfl, by rw [hf.2.2.1]; exact Nat.mod_lt _ (by decide), fun he hr => ?_⟩
  -- no fault is raised by the byte, and none was latched before it
  have he' : (isr cfg (evData b) s).i2c_state &&& I2C_STATE_ERROR = 0 := he
  rw [isr_evData] at he'
  obtain ⟨herr, hst0⟩ := statusUpdate_err_clear cfg _ he'
  rw [srxDataAck_state] at herr
  have herr_s : s.i2c_state &&& I2C_STATE_ERROR = 0 := herr
  have hrx1 : (s.i2c_rxIdx + 1) % 65536 = s.i2c_rxIdx + 1 := by
    have : 1 ≤ (isr cfg (evData b) s).i2c_rxIdx := hr
    rw [hf.2.2.1] at this
    omega
  by_cases hrx0 : s.i2c_rxIdx = 0
  · -- the command byte
    by_cases hsup : cfg.i2c_registerIndex b = I2C_UNSUPPORTED
    · have hcu := isr_cmd_unsupported cfg b s hrx0 hsup
      have : (isr cfg (evData b) s).i2c_state &&& I2C_STATE_ERROR ≠ 0 := by
        rw [hcu]
        exact and_error_of_or _
      exact absurd he this
    · have hcs := isr_cmd cfg b s hrx0 hsup
      rw [hcs]
      refine ⟨hsup, fun j hj _ => ?_⟩
      have hj' : j + (if IS_BLOCKCMD cfg _ = true then 2 else 1) < 1 := hj
      split_ifs at hj' <;> omega
  · -- a byte after the command code
    have hr_s : 1 ≤ s.i2c_rxIdx := by omega
    obtain ⟨hsup, hagree⟩ := hag herr_s hr_s
    have hcmd := srxDataAck_command cfg b { s with i2c_status := 0 } hrx0
    have htcmd : (isr cfg (evData b) s).i2c_command = s.i2c_command := by
      rw [isr_evData]
      exact hsf.2.2.2.1.trans hcmd.1
    have htidx : (isr cfg (evData b) s).i2c_registerMapIndex = s.i2c_registerMapIndex := by
      rw [isr_evData]
      exact hsf.2.2.1.trans hcmd.2
    have htblk : IS_BLOCKCMD cfg (isr cfg (evData b) s) = IS_BLOCKCMD cfg s := by
      unfold IS_BLOCKCMD curCmd
      rw [htidx]
    have hc := srxDataAck_buffer_cases cfg b { s with i2c_status := 0 } hrx0 hsup rfl
    have hc' := srxDataAck_buffer_cases cfg b { s with i2c_status := 0, i2c_buffer := buf }
      hrx0 hsup rfl
    have hst' : (srxDataAck cfg b { s with i2c_status := 0, i2c_buffer := buf }).i2c_status
        = 0 := by
      rw [show srxDataAck cfg b { s with i2c_status := 0, i2c_buffer := buf } = _
        from srxDataAck_buf cfg b { s with i2c_status := 0 } buf]
      exact hst0
    refine ⟨by rw [htcmd]; exact hsup, fun j hj hjw => ?_⟩
    rw [htblk, hf.2.2.1, hrx1] at hj
    rw [htblk, hf.2.1] at hjw
    rw [htbuf]
    show (srxDataAck cfg b { s with i2c_status := 0 }).i2c_buffer j
      = (srxDataAck cfg b { s with i2c_status := 0, i2c_buffer := buf }).i2c_buffer j
    by_cases hgt : s.i2c_rxIdx > s.writeBytes
    · have h1 := hc.1 hgt
      have h2 := hc'.1 hgt
      rw [h1.2] at hjw
      rw [h1.1, h2.1]
      exact hagree j (by
        have hjw' : j + (if IS_BLOCKCMD cfg s = true then 2 else 1) < s.writeBytes + 1 := hjw
        omega) hjw
    · rcases hc.2 hgt with ⟨hblk, hone, _⟩ | ⟨hnb, hwb, hcase⟩
      · -- the length byte of a block write
        have hblk' : IS_BLOCKCMD cfg s = true := hblk
        rw [if_pos hblk'] at hj
        have : s.i2c_rxIdx = 1 := hone.symm
        omega
      · rcases hcase with hbad | hupd
        · exact absurd hst0 hbad
        · rcases hc'.2 hgt with ⟨hblk, hone, _⟩ | ⟨_, _, hcase'⟩
          · exact absurd ⟨hblk, hone⟩ hnb
          · rcases hcase' with hbad' | hupd'
            · exact absurd hst' hbad'
            · rw [hwb] at hjw
              rw [hupd, hupd']
              have hsi : stageIdx cfg { s with i2c_status := 0, i2c_buffer := buf }
                  = stageIdx cfg { s with i2c_status := 0 } := rfl
              rw [hsi]
              have hidx : stageIdx cfg { s with i2c_status := 0 }
                  = s.i2c_rxIdx - (if IS_BLOCKCMD cfg s = true then 2 else 1) := by
                unfold stageIdx
                show (s.i2c_rxIdx + 65536 - (if IS_BLOCKCMD cfg s = true then 2 else 1)) % 65536
                  = _
                have hnb' : ¬ (IS_BLOCKCMD cfg s = true ∧ 1 = s.i2c_rxIdx) := hnb
                by_cases hb : IS_BLOCKCMD cfg s = true
                · have : s.i2c_rxIdx ≠ 1 := fun e => hnb' ⟨hb, e.symm⟩
                  rw [if_pos hb]
                  omega
                · rw [if_neg hb]
                  omega
              have hoff : (if IS_BLOCKCMD cfg s = true then 2 else 1) ≤ s.i2c_rxIdx := by
                have hnb' : ¬ (IS_BLOCKCMD cfg s = true ∧ 1 = s.i2c_rxIdx) := hnb
                by_cases hb : IS_BLOCKCMD cfg s = true
                · have : s.i2c_rxIdx ≠ 1 := fun e => hnb' ⟨hb, e.symm⟩
                  rw [if_pos hb]
                  omega
                · rw [if_neg hb]
                  omega
              rw [hidx]
              by_cases hjs : j = s.i2c_rxIdx - (if IS_BLOCKCMD cfg s = true then 2 else 1)
              · rw [hjs, Function.update_same, Function.update_same]
              · rw [Function.update_noteq hjs, Function.update_noteq hjs]
                exact hagree j (by omega) hjw

/-- A handler body that commutes with a change of the scratch buffer and
keeps the receive count, the write length, the command and the error flag
keeps the relation. -/
theorem bufRel_step_frame (cfg : Config) (ev : BusEvent) (s : Globals) (buf : Nat → Nat)
    (f : Globals → Globals) (hd : ∀ g, dispatch cfg ev g = f g)
    (hlt : s.i2c_rxIdx < 65536)
    (hag : s.i2c_state &&& I2C_STATE_ERROR = 0 → 1 ≤ s.i2c_rxIdx →
      cfg.i2c_registerIndex s.i2c_command.code ≠ I2C_UNSUPPORTED ∧
      ∀ j, j + (if IS_BLOCKCMD cfg s then 2 else 1) < s.i2c_rxIdx →
        j + (if IS_BLOCKCMD cfg s then 2 else 1) < s.writeBytes + 1 →
        s.i2c_buffer j = buf j)
    (hcong : f { s with i2c_status := 0, i2c_buffer := buf }
      = { f { s with i2c_status := 0 } with i2c_buffer := buf })
    (hfr : (f { s with i2c_status := 0 }).i2c_rxIdx = s.i2c_rxIdx ∧
      (f { s with i2c_status := 0 }).writeBytes = s.writeBytes ∧
      (f { s with i2c_status := 0 }).i2c_command = s.i2c_command ∧
      (f { s with i2c_status := 0 }).i2c_registerMapIndex = s.i2c_registerMapIndex ∧
      (f { s with i2c_status := 0 }).i2c_buffer = s.i2c_buffer ∧
      (f { s with i2c_status := 0 }).i2c_state = s.i2c_state) :
    bufRel cfg (isr cfg ev s) (isr cfg ev { s with i2c_buffer := buf }) := by
  have h1 : isr cfg ev s = statusUpdate cfg (f { s with i2c_status := 0 }) := by
    unfold isr
    rw [hd]
  have h2 : isr cfg ev { s with i2c_buffer := buf }
      = { isr cfg ev s with i2c_buffer := buf } := by
    rw [h1]
    unfold isr
    rw [hd]
    rw [show f { ({ s with i2c_buffer := buf } : Globals) with i2c_status := 0 } = _ from hcong]
    rw [statusUpdate_buf]
  rw [h2]
  have hsf := statusUpdate_fields cfg (f { s with i2c_status := 0 })
  refine bufRel_of_frame cfg s (isr cfg ev s) buf hlt hag ?_ ?_ ?_ ?_ ?_ ?_
  · rw [h1, hsf.1]; exact hfr.1
  · rw [h1, hsf.2.1]; exact hfr.2.1
  · rw [h1, hsf.2.2.2.1]; exact hfr.2.2.1
  · rw [h1, hsf.2.2.1]; exact hfr.2.2.2.1
  · rw [h1, hsf.2.2.2.2.2.2.1]; exact hfr.2.2.2.2.1
  · intro he
    rw [h1] at he
    have := (statusUpdate_err_clear cfg _ he).1
    rw [hfr.2.2.2.2.2] at this
    exact this

/-- An address match for writing opens the relation: the receive count is
zero after it, whatever the scratch buffers hold. -/
theorem bufRel_addr (cfg : Config) (a : BusEvent) (g : Globals) (buf : Nat → Nat)
    (ha : a.TWSR = I2C_SRX_ADR_ACK ∨ a.TWSR = I2C_SRX_GEN_ACK) :
    bufRel cfg (isr cfg a g) (isr cfg a { g with i2c_buffer := buf }) := by
  rw [isr_of_addr_match cfg g a ha, isr_of_addr_match cfg _ a ha]
  have h1 : ∀ g : Globals, isr cfg evWriteAddr g
      = statusUpdate cfg (srxAdrAck { g with i2c_status := 0 }) := fun g => rfl
  have h2 : isr cfg evWriteAddr { g with i2c_buffer := buf }
      = { isr cfg evWriteAddr g with i2c_buffer := buf } := by
    rw [h1, h1]
    rw [show srxAdrAck { ({ g with i2c_buffer := buf } : Globals) with i2c_status := 0 }
      = { srxAdrAck { g with i2c_status := 0 } with i2c_buffer := buf } from rfl]
    rw [statusUpdate_buf]
  have hrx : (isr cfg evWriteAddr g).i2c_rxIdx = 0 := by
    rw [h1, (statusUpdate_fields cfg _).1]
    rfl
  rw [h2]
  refine ⟨buf, rfl, by rw [hrx]; decide, fun _ hr => ?_⟩
  rw [hrx] at hr
  omega

/-- A STOP or repeated START keeps the relation: the bytes the commit
copies lie in the range on which the scratch buffers agree. -/
theorem bufRel_stop (cfg : Config) (s s' : Globals) (h : bufRel cfg s s') :
    bufRel cfg (isr cfg evStop s) (isr cfg evStop s') := by
  obtain ⟨buf, rfl, hlt, hag⟩ := h
  by_cases herr : s.i2c_state &&& I2C_STATE_ERROR = 0
  · by_cases hsb : 0 = (curCmd cfg s).readBytes ∧ 0 = (curCmd cfg s).writeBytes
    · have e1 := isr_stop_sendbyte cfg s herr hsb
      have e2 := isr_stop_sendbyte cfg { s with i2c_buffer := buf } herr hsb
      have hp := push_buf cfg s.i2c_command { s with i2c_status := 0, i2c_busy := 0 } buf
      have hfr := push_frame cfg s.i2c_command { s with i2c_status := 0, i2c_busy := 0 }
      have e3 : isr cfg evStop { s with i2c_buffer := buf }
          = { isr cfg evStop s with i2c_buffer := buf } := by
        rw [e2, e1]
        exact hp
      rw [e3]
      refine bufRel_of_frame cfg s (isr cfg evStop s) buf hlt hag ?_ ?_ ?_ ?_ ?_ ?_
      · rw [e1]; exact hfr.1
      · rw [e1]; exact hfr.2.1
      · rw [e1]; exact hfr.2.2.1
      · rw [e1]; exact hfr.2.2.2.1
      · rw [e1]; exact hfr.2.2.2.2.1
      · rw [e1, hfr.2.2.2.2.2]; exact fun h => h
    · by_cases hgt : s.i2c_rxIdx > s.writeBytes
      · have e1 := isr_stop_commit cfg s herr hsb hgt
        have e2 := isr_stop_commit cfg { s with i2c_buffer := buf } herr hsb hgt
        obtain ⟨_, hagree⟩ := hag herr (by omega)
        have hc := commit_buf cfg { s with i2c_status := 0, i2c_busy := 0 } buf (by
          intro j hj
          have hj' : j < (if IS_BLOCKCMD cfg s = true then s.writeBytes - 1 else s.writeBytes) :=
            hj
          show s.i2c_buffer j = buf j
          by_cases hb : IS_BLOCKCMD cfg s = true
          · rw [if_pos hb] at hj'
            exact hagree j (by rw [if_pos hb]; omega) (by rw [if_pos hb]; omega)
          · rw [if_neg hb] at hj'
            exact hagree j (by rw [if_neg hb]; omega) (by rw [if_neg hb]; omega))
        have e3 : isr cfg evStop { s with i2c_buffer := buf }
            = { isr cfg evStop s with i2c_buffer := buf } := by
          rw [e2, e1]
          exact hc
        rw [e3]
        refine bufRel_of_frame cfg s (isr cfg evStop s) buf hlt hag ?_ ?_ ?_ ?_ ?_ ?_
        · rw [e1]; rfl
        · rw [e1]; rfl
        · rw [e1]; rfl
        · rw [e1]; rfl
        · rw [e1]; rfl
        · rw [e1]; exact fun h => h
      · have e1 := isr_stop_short cfg s hsb (by omega)
        have e2 := isr_stop_short cfg { s with i2c_buffer := buf } hsb (by
          show s.i2c_rxIdx ≤ s.writeBytes
          omega)
        have e3 : isr cfg evStop { s with i2c_buffer := buf }
            = { isr cfg evStop s with i2c_buffer := buf } := by
          rw [e2, e1]
        rw [e3]
        refine bufRel_of_frame cfg s (isr cfg evStop s) buf hlt hag ?_ ?_ ?_ ?_ ?_ ?_
        · rw [e1]
        · rw [e1]
        · rw [e1]
        · rw [e1]
        · rw [e1]
        · rw [e1]; exact fun h => h
  · have e1 := isr_stop_of_error cfg s herr
    have e2 := isr_stop_of_error cfg { s with i2c_buffer := buf } herr
    have e3 : isr cfg evStop { s with i2c_buffer := buf }
        = { isr cfg evStop s with i2c_buffer := buf } := by
      rw [e2, e1]
    rw [e3]
    refine bufRel_of_frame cfg s (isr cfg evStop s) buf hlt hag ?_ ?_ ?_ ?_ ?_ ?_
    · rw [e1]
    · rw [e1]
    · rw [e1]
    · rw [e1]
    · rw [e1]
    · rw [e1]; exact fun h => h

/-- Every bus event keeps the relation. -/
theorem bufRel_isr (cfg : Config) (ev : BusEvent) (s s' : Globals) (h : bufRel cfg s s') :
    bufRel cfg (isr cfg ev s) (isr cfg ev s') := by
  rcases dispatch_kinds cfg ev with hd | hd | hd | hd | hd | hd | hd
  · obtain ⟨buf, rfl, hlt, hag⟩ := h
    refine bufRel_step_frame cfg ev s buf _ hd hlt hag ?_ ?_
    · exact stxDataAck_buf cfg
        (i2c_calculatePec (((s.i2c_baseAddress <<< 1) + 1) % 256)
          { s with i2c_status := 0, i2c_txIdx := 1 }) buf
    · exact stxDataAck_frame cfg _
  · obtain ⟨buf, rfl, hlt, hag⟩ := h
    refine bufRel_step_frame cfg ev s buf _ hd hlt hag ?_ ?_
    · exact stxDataAck_buf cfg { s with i2c_status := 0 } buf
    · exact stxDataAck_frame cfg _
  · obtain ⟨buf, rfl, _, _⟩ := h
    have e : ∀ g, isr cfg ev g = isr cfg evWriteAddr g := by
      intro g
      unfold isr
      rw [hd]
      rfl
    rw [e, e]
    exact bufRel_addr cfg evWriteAddr s buf (Or.inl rfl)
  · have e : ∀ g, isr cfg ev g = isr cfg (evData ev.TWDR) g := by
      intro g
      rw [isr_evData]
      unfold isr
      rw [hd]
    rw [e, e]
    exact bufRel_data cfg _ s s' h
  · have e : ∀ g, isr cfg ev g = isr cfg evStop g := by
      intro g
      rw [isr_evStop]
      unfold isr
      rw [hd]
    rw [e, e]
    exact bufRel_stop cfg s s' h
  · obtain ⟨buf, rfl, hlt, hag⟩ := h
    exact bufRel_step_frame cfg ev s buf _ hd hlt hag rfl ⟨rfl, rfl, rfl, rfl, rfl, rfl⟩
  · obtain ⟨buf, rfl, hlt, hag⟩ := h
    exact bufRel_step_frame cfg ev s buf _ hd hlt hag rfl ⟨rfl, rfl, rfl, rfl, rfl, rfl⟩

/-- The relation holds along two runs over the same events, and the two runs
transmit the same bytes. -/
theorem bufRel_run (cfg : Config) (evs : List BusEvent) :
    ∀ s s' : Globals, bufRel cfg s s' →
      bufRel cfg (run cfg s evs) (run cfg s' evs)
      ∧ transmitted cfg s evs = transmitted cfg s' evs := by
  induction evs with
  | nil => intro s s' h; exact ⟨h, rfl⟩
  | cons ev evs ih =>
    intro s s' h
    have hs := bufRel_isr cfg ev s s' h
    obtain ⟨hr, ht⟩ := ih _ _ hs
    refine ⟨hr, ?_⟩
    have htw : (isr cfg ev s).TWDR = (isr cfg ev s').TWDR := by
      obtain ⟨buf, e, _, _⟩ := hs
      rw [e]
    show (if ev.TWSR = I2C_STX_ADR_ACK ∨ ev.TWSR = I2C_STX_DATA_ACK then
        (isr cfg ev s).TWDR :: transmitted cfg (isr cfg ev s) evs
      else transmitted cfg (isr cfg ev s) evs)
      = (if ev.TWSR = I2C_STX_ADR_ACK ∨ ev.TWSR = I2C_STX_DATA_ACK then
        (isr cfg ev s').TWDR :: transmitted cfg (isr cfg ev s') evs
      else transmitted cfg (isr cfg ev s') evs)
    rw [ht, htw]

/-- C30: two runs that start in states identical except for the contents of
the scratch buffer, and that handle the same bus events beginning with an
address match for writing (own address or general call), end with the same
RAM (backing storage, page register and sticky fault register), the same
deferred-command queue and the same transmitted bytes. -/
theorem stale_buffer_noninterference (cfg : Config) (g : Globals) (buf : Nat → Nat)
    (a : BusEvent) (evs : List BusEvent)
    (ha : a.TWSR = I2C_SRX_ADR_ACK ∨ a.TWSR = I2C_SRX_GEN_ACK) :
    (run cfg { g with i2c_buffer := buf } (a :: evs)).ram = (run cfg g (a :: evs)).ram
    ∧ sameQueue (run cfg { g with i2c_buffer := buf } (a :: evs)) (run cfg g (a :: evs))
    ∧ transmitted cfg { g with i2c_buffer := buf } (a :: evs)
        = transmitted cfg g (a :: evs) := by
  have h0 := bufRel_addr cfg a g buf ha
  obtain ⟨hr, ht⟩ := bufRel_run cfg evs _ _ h0
  have hne : ¬ (a.TWSR = I2C_STX_ADR_ACK ∨ a.TWSR = I2C_STX_DATA_ACK) := by
    rcases ha with h | h <;> rw [h] <;> decide
  have ht1 : ∀ s : Globals, transmitted cfg s (a :: evs) = transmitted cfg (isr cfg a s) evs := by
    intro s
    show (if a.TWSR = I2C_STX_ADR_ACK ∨ a.TWSR = I2C_STX_DATA_ACK then
        (isr cfg a s).TWDR :: transmitted cfg (isr cfg a s) evs
      else transmitted cfg (isr cfg a s) evs) = _
    rw [if_neg hne]
  have hr1 : ∀ s : Globals, run cfg s (a :: evs) = run cfg (isr cfg a s) evs := fun s => rfl
  obtain ⟨b, e, _, _⟩ := hr
  rw [ht1, ht1, hr1, hr1, e]
  exact ⟨rfl, ⟨rfl, rfl, rfl, rfl⟩, ht.symm⟩

set_option maxRecDepth 100000 in
theorem stale_buffer_noninterference_witness :
    (evWriteAddr.TWSR = I2C_SRX_ADR_ACK ∨ evWriteAddr.TWSR = I2C_SRX_GEN_ACK)
    ∧ (run demoCfg { demoInit with i2c_buffer := fun _ => 0x99 }
        (evWriteAddr :: [evData 0x10, evData 0xAA, evData 0xBB, evStop,
          evWriteAddr, evData 0x10, evStop, evReadAddr, evTxAck])).ram
      = (run demoCfg demoInit
        (evWriteAddr :: [evData 0x10, evData 0xAA, evData 0xBB, evStop,
          evWriteAddr, evData 0x10, evStop, evReadAddr, evTxAck])).ram
    ∧ transmitted demoCfg { demoInit with i2c_buffer := fun _ => 0x99 }
        (evWriteAddr :: [evData 0x10, evData 0xAA, evData 0xBB, evStop,
          evWriteAddr, evData 0x10, evStop, evReadAddr, evTxAck])
      = transmitted demoCfg demoInit
        (evWriteAddr :: [evData 0x10, evData 0xAA, evData 0xBB, evStop,
          evWriteAddr, evData 0x10, evStop, evReadAddr, evTxAck])
    ∧ (run demoCfg { demoInit with i2c_buffer := fun _ => 0x99 }
        (evWriteAddr :: [evData 0x10, evData 0xAA, evData 0xBB, evStop,
          evWriteAddr, evData 0x10, evStop, evReadAddr, evTxAck])).ram 0x11 = 0xBB
    ∧ transmitted demoCfg { demoInit with i2c_buffer := fun _ => 0x99 }
        (evWriteAddr :: [evData 0x10, evData 0xAA, evData 0xBB, evStop,
          evWriteAddr, evData 0x10, evStop, evReadAddr, evTxAck]) = [0xAA, 0xBB] :=
  have h := stale_buffer_noninterference demoCfg demoInit (fun _ => 0x99) evWriteAddr
    [evData 0x10, evData 0xAA, evData 0xBB, evStop,
      evWriteAddr, evData 0x10, evStop, evReadAddr, evTxAck] (Or.inl rfl)
  ⟨Or.inl rfl, h.1, h.2.2, by decide, by decide⟩

/-! ## Bounds of the scratch-buffer accesses -/

/-- The scratch buffer is written exactly on the path of `stagesByte`, at
the index `stageIdx`. -/
theorem srxDataAck_buffer (cfg : Config) (b : Nat) (g : Globals) :
    (stagesByte cfg b g →
      (srxDataAck cfg b g).i2c_buffer = Function.update g.i2c_buffer (stageIdx cfg g) b)
    ∧ (¬ stagesByte cfg b g → (srxDataAck cfg b g).i2c_buffer = g.i2c_buffer) := by
  constructor
  · rintro ⟨h1, h2, h3, h4, h5, h6⟩
    unfold srxDataAck
    dsimp only
    rw [if_neg h1, if_neg h2, if_neg h3, if_neg h4, if_neg h5, if_neg h6]
    rfl
  · intro hn
    unfold srxDataAck
    dsimp only
    split_ifs <;>
      first
      | rfl
      | exact absurd ⟨‹_›, ‹_›, ‹_›, ‹_›, ‹_›, ‹_›⟩ hn

/-- Every bus event keeps the write length within a byte. -/
theorem isr_writeBytes_lt (cfg : Config) (ev : BusEvent) (g : Globals)
    (hty : ∀ i, (cfg.i2c_registerMap i).writeBytes < 256) (hw : g.writeBytes < 256) :
    (isr cfg ev g).writeBytes < 256 := by
  unfold isr
  rw [(statusUpdate_fields cfg _).2.1]
  rcases dispatch_kinds cfg ev with hd | hd | hd | hd | hd | hd | hd <;> rw [hd]
  · rw [(stxDataAck_frame cfg _).2.1]; exact hw
  · rw [(stxDataAck_frame cfg _).2.1]; exact hw
  · exact hw
  · exact srxDataAck_writeBytes_lt cfg _ _ hty hw
  · unfold srxStopRestart
    dsimp only
    split_ifs
    · rw [(push_frame cfg _ _).2.1]; exact hw
    · exact hw
    · exact hw
    · exact hw
  · exact hw
  · exact hw

theorem run_writeBytes_lt_all (cfg : Config) (evs : List BusEvent)
    (hty : ∀ i, (cfg.i2c_registerMap i).writeBytes < 256) :
    ∀ g : Globals, g.writeBytes < 256 → (run cfg g evs).writeBytes < 256 := by
  induction evs with
  | nil => intro g hw; exact hw
  | cons ev evs ih =>
    intro g hw
    rw [run_cons]
    exact ih _ (isr_writeBytes_lt cfg ev g hty hw)

/-- Only a received data byte changes the scratch buffer. -/
theorem isr_buffer_of_not_data (cfg : Config) (ev : BusEvent) (g : Globals)
    (hnd : ¬ (ev.TWSR = I2C_SRX_ADR_DATA_ACK ∨ ev.TWSR = I2C_SRX_GEN_DATA_ACK)) :
    (isr cfg ev g).i2c_buffer = g.i2c_buffer := by
  unfold isr
  rw [(statusUpdate_fields cfg _).2.2.2.2.2.2.1]
  unfold dispatch
  split_ifs
  · exact (stxDataAck_frame cfg _).2.2.2.2.1
  · exact (stxDataAck_frame cfg _).2.2.2.2.1
  · rfl
  · rfl
  · unfold srxStopRestart
    dsimp only
    split_ifs
    · exact (push_frame cfg _ _).2.2.2.2.1
    · rfl
    · rfl
    · rfl
  · rfl
  · rfl

/-- The RAM after a STOP or repeated START depends on the scratch buffer only
through the bytes below the number of bytes the commit copies. -/
theorem isr_stop_ram_buf (cfg : Config) (g : Globals) (buf : Nat → Nat)
    (h : ∀ j, j < (if IS_BLOCKCMD cfg g then g.writeBytes - 1 else g.writeBytes) →
      g.i2c_buffer j = buf j) :
    (isr cfg evStop { g with i2c_buffer := buf }).ram = (isr cfg evStop g).ram := by
  by_cases herr : g.i2c_state &&& I2C_STATE_ERROR = 0
  · by_cases hsb : 0 = (curCmd cfg g).readBytes ∧ 0 = (curCmd cfg g).writeBytes
    · rw [isr_stop_sendbyte cfg g herr hsb,
        isr_stop_sendbyte cfg { g with i2c_buffer := buf } herr hsb]
      have hp := push_buf cfg g.i2c_command { g with i2c_status := 0, i2c_busy := 0 } buf
      have hr := congrArg Globals.ram hp
      exact hr
    · by_cases hgt : g.i2c_rxIdx > g.writeBytes
      · rw [isr_stop_commit cfg g herr hsb hgt,
          isr_stop_commit cfg { g with i2c_buffer := buf } herr hsb hgt]
        have hc := commit_buf cfg { g with i2c_status := 0, i2c_busy := 0 } buf h
        have hr := congrArg Globals.ram hc
        exact hr
      · rw [isr_stop_short cfg g hsb (by omega),
          isr_stop_short cfg { g with i2c_buffer := buf } hsb (by
            show g.i2c_rxIdx ≤ g.writeBytes
            omega)]
  · rw [isr_stop_of_error cfg g herr, isr_stop_of_error cfg { g with i2c_buffer := buf } herr]

/-- C31: for every command table whose write lengths are bytes, in every
state reached by bus events from a state whose write length is a byte: a
received byte that is staged is written at the index rxIdx - (2 for a block
command, 1 otherwise), which does not underflow and is at most 255, and no
other event changes the scratch buffer; every index the commit loop reads is
at most 254, and the RAM after a STOP does not depend on what the scratch
buffer holds above index 254. -/
theorem scratch_buffer_accesses_in_bounds (cfg : Config) (g0 : Globals)
    (evs : List BusEvent) (ev : BusEvent)
    (hty : ∀ i, (cfg.i2c_registerMap i).writeBytes < 256) (h0 : g0.writeBytes < 256) :
    (((ev.TWSR = I2C_SRX_ADR_DATA_ACK ∨ ev.TWSR = I2C_SRX_GEN_DATA_ACK)
        ∧ stagesByte cfg ev.TWDR (run cfg g0 evs)) →
      (if IS_BLOCKCMD cfg (run cfg g0 evs) then 2 else 1) ≤ (run cfg g0 evs).i2c_rxIdx
      ∧ (run cfg g0 evs).i2c_rxIdx - (if IS_BLOCKCMD cfg (run cfg g0 evs) then 2 else 1) ≤ 255
      ∧ stageIdx cfg (run cfg g0 evs)
          = (run cfg g0 evs).i2c_rxIdx - (if IS_BLOCKCMD cfg (run cfg g0 evs) then 2 else 1)
      ∧ (isr cfg ev (run cfg g0 evs)).i2c_buffer
          = Function.update (run cfg g0 evs).i2c_buffer
              ((run cfg g0 evs).i2c_rxIdx
                - (if IS_BLOCKCMD cfg (run cfg g0 evs) then 2 else 1)) ev.TWDR)
    ∧ (¬ ((ev.TWSR = I2C_SRX_ADR_DATA_ACK ∨ ev.TWSR = I2C_SRX_GEN_DATA_ACK)
        ∧ stagesByte cfg ev.TWDR (run cfg g0 evs)) →
      (isr cfg ev (run cfg g0 evs)).i2c_buffer = (run cfg g0 evs).i2c_buffer)
    ∧ (∀ i, i < (if IS_BLOCKCMD cfg (run cfg g0 evs) then (run cfg g0 evs).writeBytes - 1
          else (run cfg g0 evs).writeBytes) → i ≤ 254)
    ∧ (∀ buf : Nat → Nat, (∀ j, j ≤ 254 → (run cfg g0 evs).i2c_buffer j = buf j) →
        (isr cfg evStop { run cfg g0 evs with i2c_buffer := buf }).ram
          = (isr cfg evStop (run cfg g0 evs)).ram) := by
  have hw := run_writeBytes_lt_all cfg evs hty g0 h0
  generalize run cfg g0 evs = g at hw ⊢
  have hn : ∀ i, i < (if IS_BLOCKCMD cfg g then g.writeBytes - 1 else g.writeBytes) →
      i ≤ 254 := by
    intro i hi
    split_ifs at hi <;> omega
  refine ⟨?_, ?_, hn, fun buf hb => isr_stop_ram_buf cfg g buf (fun j hj => hb j (hn j hj))⟩
  · rintro ⟨hd, hs⟩
    have hbuf : (isr cfg ev g).i2c_buffer
        = Function.update g.i2c_buffer (stageIdx cfg g) ev.TWDR := by
      rw [isr_of_data cfg g ev hd, isr_evData, (statusUpdate_fields cfg _).2.2.2.2.2.2.1]
      exact (srxDataAck_buffer cfg ev.TWDR { g with i2c_status := 0 }).1 hs
    obtain ⟨h1, _, h3, h4, _, _⟩ := hs
    have hoff : (if IS_BLOCKCMD cfg g then 2 else 1) ≤ g.i2c_rxIdx := by
      by_cases hb : IS_BLOCKCMD cfg g = true
      · have : g.i2c_rxIdx ≠ 1 := fun e => h4 ⟨hb, e.symm⟩
        rw [if_pos hb]
        omega
      · rw [if_neg hb]
        omega
    have hidx : stageIdx cfg g
        = g.i2c_rxIdx - (if IS_BLOCKCMD cfg g then 2 else 1) := by
      unfold stageIdx
      split_ifs at hoff ⊢ <;> omega
    refine ⟨hoff, by omega, hidx, ?_⟩
    rw [hbuf, hidx]
  · intro hn'
    by_cases hd : ev.TWSR = I2C_SRX_ADR_DATA_ACK ∨ ev.TWSR = I2C_SRX_GEN_DATA_ACK
    · rw [isr_of_data cfg g ev hd, isr_evData, (statusUpdate_fields cfg _).2.2.2.2.2.2.1]
      exact (srxDataAck_buffer cfg ev.TWDR { g with i2c_status := 0 }).2
        (fun hs => hn' ⟨hd, hs⟩)
    · exact isr_buffer_of_not_data cfg ev g hd

set_option maxRecDepth 100000 in
/-- C31 at the first payload byte `0xAA` of a write to the two-byte command
0x10 of `demoCfg`: the byte is staged at index 0. -/
theorem scratch_buffer_accesses_in_bounds_witness :
    ((evData 0xAA).TWSR = I2C_SRX_ADR_DATA_ACK ∨ (evData 0xAA).TWSR = I2C_SRX_GEN_DATA_ACK)
    ∧ stagesByte demoCfg (evData 0xAA).TWDR (run demoCfg demoInit [evWriteAddr, evData 0x10])
    ∧ (if IS_BLOCKCMD demoCfg (run demoCfg demoInit [evWriteAddr, evData 0x10]) then 2 else 1)
        ≤ (run demoCfg demoInit [evWriteAddr, evData 0x10]).i2c_rxIdx
    ∧ (run demoCfg demoInit [evWriteAddr, evData 0x10]).i2c_rxIdx
        - (if IS_BLOCKCMD demoCfg (run demoCfg demoInit [evWriteAddr, evData 0x10]) then 2
            else 1) ≤ 255
    ∧ (isr demoCfg (evData 0xAA) (run demoCfg demoInit [evWriteAddr, evData 0x10])).i2c_buffer 0
        = 0xAA :=
  have hs : stagesByte demoCfg (evData 0xAA).TWDR
      (run demoCfg demoInit [evWriteAddr, evData 0x10]) := by
    unfold stagesByte
    decide
  have h := (scratch_buffer_accesses_in_bounds demoCfg demoInit [evWriteAddr, evData 0x10]
    (evData 0xAA)
    (by intro i; unfold demoCfg demoMap; dsimp only; split <;> decide) (by decide)).1
    ⟨Or.inl rfl, hs⟩
  ⟨Or.inl rfl, hs, h.1, h.2.1, by decide⟩

/-! ## Representation invariant of the queue -/

/-- A push keeps the ring indices below the capacity and sets the full flag
only when the indices meet. -/
theorem push_indices (cfg : Config) (e : CmdBuffer) (g : Globals)
    (hN : 1 ≤ cfg.I2C_CMD_BUFFER_SIZE)
    (hh : g.cmdQueueHead < cfg.I2C_CMD_BUFFER_SIZE)
    (ht : g.cmdQueueTail < cfg.I2C_CMD_BUFFER_SIZE)
    (hf : g.cmdQueueFull ≠ 0 → g.cmdQueueHead = g.cmdQueueTail) :
    (i2cCmdQueuePush cfg e g).2.cmdQueueHead < cfg.I2C_CMD_BUFFER_SIZE
    ∧ (i2cCmdQueuePush cfg e g).2.cmdQueueTail < cfg.I2C_CMD_BUFFER_SIZE
    ∧ ((i2cCmdQueuePush cfg e g).2.cmdQueueFull ≠ 0 →
        (i2cCmdQueuePush cfg e g).2.cmdQueueHead = (i2cCmdQueuePush cfg e g).2.cmdQueueTail) := by
  unfold i2cCmdQueuePush
  dsimp only
  by_cases hfull : g.cmdQueueFull ≠ 0
  · rw [if_pos hfull]
    exact ⟨hh, ht, hf⟩
  · rw [if_neg hfull]
    dsimp only
    refine ⟨?_, ht, ?_⟩
    · split_ifs <;> omega
    · intro h
      by_cases he : (if (g.cmdQueueHead + 1) % 256 ≥ cfg.I2C_CMD_BUFFER_SIZE then 0
          else (g.cmdQueueHead + 1) % 256) = g.cmdQueueTail
      · exact he
      · rw [if_neg he] at h
        exact absurd h hfull

/-- A pop keeps the ring indices below the capacity and leaves the full flag
clear unless it fails. -/
theorem pop_indices (cfg : Config) (d : CmdBuffer) (g : Globals)
    (hN : 1 ≤ cfg.I2C_CMD_BUFFER_SIZE)
    (hh : g.cmdQueueHead < cfg.I2C_CMD_BUFFER_SIZE)
    (ht : g.cmdQueueTail < cfg.I2C_CMD_BUFFER_SIZE)
    (hf : g.cmdQueueFull ≠ 0 → g.cmdQueueHead = g.cmdQueueTail) :
    (i2cCmdQueuePop cfg d g).2.2.cmdQueueHead < cfg.I2C_CMD_BUFFER_SIZE
    ∧ (i2cCmdQueuePop cfg d g).2.2.cmdQueueTail < cfg.I2C_CMD_BUFFER_SIZE
    ∧ ((i2cCmdQueuePop cfg d g).2.2.cmdQueueFull ≠ 0 →
        (i2cCmdQueuePop cfg d g).2.2.cmdQueueHead = (i2cCmdQueuePop cfg d g).2.2.cmdQueueTail) := by
  unfold i2cCmdQueuePop
  dsimp only
  by_cases hd : i2cCmdQueueDepth cfg g = 0
  · rw [if_pos hd]
    exact ⟨hh, ht, hf⟩
  · rw [if_neg hd]
    dsimp only
    refine ⟨hh, ?_, fun h => absurd rfl h⟩
    split_ifs <;> omega

/-- The queue variables after a bus event: unchanged, or those after a push
of some entry. -/
theorem isr_queue_cases (cfg : Config) (ev : BusEvent) (g : Globals) :
    ((isr cfg ev g).cmdQueueHead = g.cmdQueueHead
      ∧ (isr cfg ev g).cmdQueueTail = g.cmdQueueTail
      ∧ (isr cfg ev g).cmdQueueFull = g.cmdQueueFull)
    ∨ ∃ (e : CmdBuffer) (s : Globals),
      s.cmdQueueHead = g.cmdQueueHead ∧ s.cmdQueueTail = g.cmdQueueTail
      ∧ s.cmdQueueFull = g.cmdQueueFull
      ∧ (isr cfg ev g).cmdQueueHead = (i2cCmdQueuePush cfg e s).2.cmdQueueHead
      ∧ (isr cfg ev g).cmdQueueTail = (i2cCmdQueuePush cfg e s).2.cmdQueueTail
      ∧ (isr cfg ev g).cmdQueueFull = (i2cCmdQueuePush cfg e s).2.cmdQueueFull := by
  have hsu := fun s => statusUpdate_cmdQueue cfg s
  by_cases hstop : ev.TWSR = I2C_SRX_STOP_RESTART
  · have e : isr cfg ev g = isr cfg evStop g := by
      rw [isr_evStop]
      unfold isr
      rw [dispatch_stop cfg ev _ hstop]
    rw [e]
    by_cases herr : g.i2c_state &&& I2C_STATE_ERROR = 0
    · by_cases hsb : 0 = (curCmd cfg g).readBytes ∧ 0 = (curCmd cfg g).writeBytes
      · right
        refine ⟨g.i2c_command, { g with i2c_status := 0, i2c_busy := 0 }, rfl, rfl, rfl, ?_⟩
        rw [isr_stop_sendbyte cfg g herr hsb]
        exact ⟨rfl, rfl, rfl⟩
      · by_cases hgt : g.i2c_rxIdx > g.writeBytes
        · left
          rw [isr_stop_commit cfg g herr hsb hgt]
          exact ⟨rfl, rfl, rfl⟩
        · left
          rw [isr_stop_short cfg g hsb (by omega)]
          exact ⟨rfl, rfl, rfl⟩
    · left
      rw [isr_stop_of_error cfg g herr]
      exact ⟨rfl, rfl, rfl⟩
  · left
    have hd := dispatch_frame cfg ev { g with i2c_status := 0 } hstop
    unfold isr
    rw [(hsu _).2.1, (hsu _).2.2.1, (hsu _).2.2.2]
    exact ⟨hd.2.2.1, hd.2.2.2.1, hd.2.2.2.2⟩

/-- Every step keeps the ring indices below the capacity and the full flag
set only when the indices meet. -/
theorem sysStep_indices (cfg : Config) (st : SysStep) (g : Globals)
    (hN : 1 ≤ cfg.I2C_CMD_BUFFER_SIZE)
    (hh : g.cmdQueueHead < cfg.I2C_CMD_BUFFER_SIZE)
    (ht : g.cmdQueueTail < cfg.I2C_CMD_BUFFER_SIZE)
    (hf : g.cmdQueueFull ≠ 0 → g.cmdQueueHead = g.cmdQueueTail) :
    (sysStep cfg st g).cmdQueueHead < cfg.I2C_CMD_BUFFER_SIZE
    ∧ (sysStep cfg st g).cmdQueueTail < cfg.I2C_CMD_BUFFER_SIZE
    ∧ ((sysStep cfg st g).cmdQueueFull ≠ 0 →
        (sysStep cfg st g).cmdQueueHead = (sysStep cfg st g).cmdQueueTail) := by
  cases st with
  | call c =>
    cases c with
    | push data => exact push_indices cfg data g hN hh ht hf
    | pop => exact pop_indices cfg { code := 0, page := 0 } g hN hh ht hf
  | bus ev =>
    show (isr cfg ev g).cmdQueueHead < _ ∧ (isr cfg ev g).cmdQueueTail < _
      ∧ ((isr cfg ev g).cmdQueueFull ≠ 0 →
        (isr cfg ev g).cmdQueueHead = (isr cfg ev g).cmdQueueTail)
    rcases isr_queue_cases cfg ev g with ⟨e1, e2, e3⟩ | ⟨e, s, s1, s2, s3, e1, e2, e3⟩
    · rw [e1, e2, e3]
      exact ⟨hh, ht, hf⟩
    · rw [e1, e2, e3]
      exact push_indices cfg e s hN (by rw [s1]; exact hh) (by rw [s2]; exact ht)
        (by rw [s1, s2, s3]; exact hf)

/-- C32: for every capacity N ≥ 1, after `i2c_slave_init` and after every
further call of `i2cCmdQueuePush` and `i2cCmdQueuePop` (by the application
or by the handler while it serves bus events), the head and tail indices are
below N and the full flag is set only when head equals tail. -/
theorem queue_indices_invariant (cfg : Config) (addr allCall : Nat) (g0 : Globals)
    (steps : List SysStep) (hN : 1 ≤ cfg.I2C_CMD_BUFFER_SIZE) :
    (sysRun cfg (i2c_slave_init cfg addr allCall g0) steps).cmdQueueHead
        < cfg.I2C_CMD_BUFFER_SIZE
    ∧ (sysRun cfg (i2c_slave_init cfg addr allCall g0) steps).cmdQueueTail
        < cfg.I2C_CMD_BUFFER_SIZE
    ∧ ((sysRun cfg (i2c_slave_init cfg addr allCall g0) steps).cmdQueueFull ≠ 0 →
        (sysRun cfg (i2c_slave_init cfg addr allCall g0) steps).cmdQueueHead
          = (sysRun cfg (i2c_slave_init cfg addr allCall g0) steps).cmdQueueTail) := by
  have key : ∀ (steps : List SysStep) (g : Globals),
      g.cmdQueueHead < cfg.I2C_CMD_BUFFER_SIZE →
      g.cmdQueueTail < cfg.I2C_CMD_BUFFER_SIZE →
      (g.cmdQueueFull ≠ 0 → g.cmdQueueHead = g.cmdQueueTail) →
      (sysRun cfg g steps).cmdQueueHead < cfg.I2C_CMD_BUFFER_SIZE
      ∧ (sysRun cfg g steps).cmdQueueTail < cfg.I2C_CMD_BUFFER_SIZE
      ∧ ((sysRun cfg g steps).cmdQueueFull ≠ 0 →
          (sysRun cfg g steps).cmdQueueHead = (sysRun cfg g steps).cmdQueueTail) := by
    intro steps
    induction steps with
    | nil => intro g hh ht hf; exact ⟨hh, ht, hf⟩
    | cons st steps ih =>
      intro g hh ht hf
      obtain ⟨h1, h2, h3⟩ := sysStep_indices cfg st g hN hh ht hf
      exact ih (sysStep cfg st g) h1 h2 h3
  exact key steps _ hN hN (fun _ => rfl)

set_option maxRecDepth 100000 in
theorem queue_indices_invariant_witness :
    1 ≤ (queueCfg 3).I2C_CMD_BUFFER_SIZE
    ∧ ((sysRun (queueCfg 3) (i2c_slave_init (queueCfg 3) 0x20 0 (startup (fun _ => 0)))
        [.call (.push ⟨1, 0⟩), .call (.push ⟨2, 0⟩), .call (.push ⟨3, 0⟩), .call .pop,
          .bus evWriteAddr, .call (.push ⟨4, 0⟩)]).cmdQueueHead
          < (queueCfg 3).I2C_CMD_BUFFER_SIZE
      ∧ (sysRun (queueCfg 3) (i2c_slave_init (queueCfg 3) 0x20 0 (startup (fun _ => 0)))
        [.call (.push ⟨1, 0⟩), .call (.push ⟨2, 0⟩), .call (.push ⟨3, 0⟩), .call .pop,
          .bus evWriteAddr, .call (.push ⟨4, 0⟩)]).cmdQueueTail
          < (queueCfg 3).I2C_CMD_BUFFER_SIZE
      ∧ ((sysRun (queueCfg 3) (i2c_slave_init (queueCfg 3) 0x20 0 (startup (fun _ => 0)))
        [.call (.push ⟨1, 0⟩), .call (.push ⟨2, 0⟩), .call (.push ⟨3, 0⟩), .call .pop,
          .bus evWriteAddr, .call (.push ⟨4, 0⟩)]).cmdQueueFull ≠ 0 →
        (sysRun (queueCfg 3) (i2c_slave_init (queueCfg 3) 0x20 0 (startup (fun _ => 0)))
          [.call (.push ⟨1, 0⟩), .call (.push ⟨2, 0⟩), .call (.push ⟨3, 0⟩), .call .pop,
            .bus evWriteAddr, .call (.push ⟨4, 0⟩)]).cmdQueueHead
        = (sysRun (queueCfg 3) (i2c_slave_init (queueCfg 3) 0x20 0 (startup (fun _ => 0)))
          [.call (.push ⟨1, 0⟩), .call (.push ⟨2, 0⟩), .call (.push ⟨3, 0⟩), .call .pop,
            .bus evWriteAddr, .call (.push ⟨4, 0⟩)]).cmdQueueTail))
    ∧ (sysRun (queueCfg 3) (i2c_slave_init (queueCfg 3) 0x20 0 (startup (fun _ => 0)))
        [.call (.push ⟨1, 0⟩), .call (.push ⟨2, 0⟩), .call (.push ⟨3, 0⟩), .call .pop,
          .bus evWriteAddr, .call (.push ⟨4, 0⟩)]).cmdQueueFull = 1 :=
  ⟨by decide,
    queue_indices_invariant (queueCfg 3) 0x20 0 (startup (fun _ => 0))
      [.call (.push ⟨1, 0⟩), .call (.push ⟨2, 0⟩), .call (.push ⟨3, 0⟩), .call .pop,
        .bus evWriteAddr, .call (.push ⟨4, 0⟩)] (by decide),
    by decide⟩

/-! ## Writes to the plain register-map slave -/

theorem slaveIsr_evWriteAddr (g : SlaveGlobals) :
    slaveIsr evWriteAddr g = { g with i2c_rxIdx := 0, i2c_busy := 1 } := rfl

theorem slaveIsr_evData (b : Nat) (g : SlaveGlobals) :
    slaveIsr (evData b) g = slaveSrxDataAck b g := rfl

theorem slaveRun_cons (g : SlaveGlobals) (ev : BusEvent) (evs : List BusEvent) :
    slaveRun g (ev :: evs) = slaveRun (slaveIsr ev g) evs := rfl

theorem slaveStxDataAck_registerMap (g : SlaveGlobals) :
    (slaveStxDataAck g).i2c_registerMap = g.i2c_registerMap := by
  unfold slaveStxDataAck
  dsimp only
  split_ifs <;> rfl

/-- A received byte does not store into register 0: the store of line 86 is
reached only with a nonzero receive index. -/
theorem slaveSrxDataAck_register_zero (i : Nat) (g : SlaveGlobals) :
    (slaveSrxDataAck i g).i2c_registerMap 0 = g.i2c_registerMap 0 := by
  unfold slaveSrxDataAck
  dsimp only
  by_cases h1 : 0 = g.i2c_rxIdx
  · rw [if_pos h1]
  · rw [if_neg h1]
    have hu : Function.update g.i2c_registerMap g.i2c_rxIdx i 0 = g.i2c_registerMap 0 :=
      Function.update_noteq h1 _ _
    split_ifs <;> first | rfl | exact hu

/-- No bus event stores into register 0. -/
theorem slaveIsr_register_zero (ev : BusEvent) (g : SlaveGlobals) :
    (slaveIsr ev g).i2c_registerMap 0 = g.i2c_registerMap 0 := by
  unfold slaveIsr
  split_ifs
  · rw [slaveStxDataAck_registerMap]
  · rw [slaveStxDataAck_registerMap]
  · rfl
  · rfl
  · exact slaveSrxDataAck_register_zero _ g
  · rfl
  · rfl
  · rfl

theorem slaveRun_register_zero (evs : List BusEvent) :
    ∀ g : SlaveGlobals, (slaveRun g evs).i2c_registerMap 0 = g.i2c_registerMap 0 := by
  induction evs with
  | nil => intro g; rfl
  | cons ev evs ih =>
    intro g
    rw [slaveRun_cons, ih, slaveIsr_register_zero]

/-- A data byte received with the receive index at a register below the map
size: stored unless the register is read-only, and the index advances. -/
theorem slaveSrxDataAck_store (d : Nat) (g : SlaveGlobals)
    (h0 : 1 ≤ g.i2c_rxIdx) (hlt : g.i2c_rxIdx < g.i2c_registerMapSize)
    (hsz : g.i2c_registerMapSize ≤ 255) :
    (slaveSrxDataAck d g).i2c_rxIdx = g.i2c_rxIdx + 1
    ∧ (slaveSrxDataAck d g).i2c_registerMapSize = g.i2c_registerMapSize
    ∧ (slaveSrxDataAck d g).i2c_registerAttributes = g.i2c_registerAttributes
    ∧ (slaveSrxDataAck d g).i2c_registerMap
        = (if g.i2c_registerAttributes g.i2c_rxIdx &&& I2CREG_ATTR_READONLY = 0 then
            Function.update g.i2c_registerMap g.i2c_rxIdx d
          else g.i2c_registerMap) := by
  have h1 : ¬ (0 = g.i2c_rxIdx) := by omega
  have h2 : ¬ (g.i2c_rxIdx ≥ g.i2c_registerMapSize) := by omega
  have h3 : (g.i2c_rxIdx + 1) % 256 = g.i2c_rxIdx + 1 := by omega
  have h4 : 255 ≠ g.i2c_rxIdx := by omega
  unfold slaveSrxDataAck
  dsimp only
  rw [if_neg h1, if_neg h2]
  by_cases ha : g.i2c_registerAttributes g.i2c_rxIdx &&& I2CREG_ATTR_READONLY = 0
  · rw [if_pos ha, if_pos ha, if_pos h4]
    exact ⟨h3, rfl, rfl, rfl⟩
  · rw [if_neg ha, if_neg ha, if_pos h4]
    exact ⟨h3, rfl, rfl, rfl⟩

/-- The data bytes `ds` received with the receive index at a nonzero
register `n`, all within the map. -/
theorem slaveRun_data (ds : List Nat) :
    ∀ (g : SlaveGlobals), 1 ≤ g.i2c_rxIdx →
      g.i2c_rxIdx + ds.length ≤ g.i2c_registerMapSize → g.i2c_registerMapSize ≤ 255 →
      (slaveRun g (ds.map evData)).i2c_registerAttributes = g.i2c_registerAttributes
      ∧ ∀ r, (slaveRun g (ds.map evData)).i2c_registerMap r
        = (if g.i2c_rxIdx ≤ r ∧ r < g.i2c_rxIdx + ds.length
              ∧ g.i2c_registerAttributes r &&& I2CREG_ATTR_READONLY = 0 then
            ds.getD (r - g.i2c_rxIdx) 0
          else g.i2c_registerMap r) := by
  induction ds with
  | nil =>
    intro g _ _ _
    refine ⟨rfl, fun r => ?_⟩
    have : ¬ (g.i2c_rxIdx ≤ r ∧ r < g.i2c_rxIdx + ([] : List Nat).length
        ∧ g.i2c_registerAttributes r &&& I2CREG_ATTR_READONLY = 0) := by
      simp only [List.length_nil]
      omega
    rw [if_neg this]
    rfl
  | cons d ds ih =>
    intro g h0 hlen hsz
    have hl : (d :: ds).length = ds.length + 1 := rfl
    rw [hl] at hlen
    obtain ⟨e1, e2, e3, e4⟩ := slaveSrxDataAck_store d g h0 (by omega) hsz
    have hstep : slaveRun g ((d :: ds).map evData)
        = slaveRun (slaveSrxDataAck d g) (ds.map evData) := rfl
    obtain ⟨ia, im⟩ := ih (slaveSrxDataAck d g) (by rw [e1]; omega)
      (by rw [e1, e2]; omega) (by rw [e2]; exact hsz)
    rw [hstep]
    refine ⟨ia.trans e3, fun r => ?_⟩
    rw [im r, e1, e3, e4, hl]
    by_cases hr : r = g.i2c_rxIdx
    · subst hr
      have hn : ¬ (g.i2c_rxIdx + 1 ≤ g.i2c_rxIdx ∧ g.i2c_rxIdx < g.i2c_rxIdx + 1 + ds.length
          ∧ g.i2c_registerAttributes g.i2c_rxIdx &&& I2CREG_ATTR_READONLY = 0) := by omega
      rw [if_neg hn]
      by_cases ha : g.i2c_registerAttributes g.i2c_rxIdx &&& I2CREG_ATTR_READONLY = 0
      · rw [if_pos ha, if_pos ⟨le_refl _, by omega, ha⟩, Function.update_same,
          Nat.sub_self]
        rfl
      · rw [if_neg ha, if_neg (fun h => ha h.2.2)]
    · have hu : (if g.i2c_registerAttributes g.i2c_rxIdx &&& I2CREG_ATTR_READONLY = 0 then
            Function.update g.i2c_registerMap g.i2c_rxIdx d
          else g.i2c_registerMap) r = g.i2c_registerMap r := by
        split_ifs
        · exact Function.update_noteq hr _ _
        · rfl
      rw [hu]
      by_cases hc : g.i2c_rxIdx + 1 ≤ r ∧ r < g.i2c_rxIdx + 1 + ds.length
          ∧ g.i2c_registerAttributes r &&& I2CREG_ATTR_READONLY = 0
      · rw [if_pos hc, if_pos ⟨by omega, by omega, hc.2.2⟩]
        have : r - g.i2c_rxIdx = (r - (g.i2c_rxIdx + 1)) + 1 := by omega
        rw [this]
        rfl
      · rw [if_neg hc, if_neg (fun h => hc ⟨by omega, by omega, h.2.2⟩)]

/-- A write that starts at a nonzero register `a`: the transaction write
address-match, `a`, `ds` stores `ds[j]` into register `a + j` unless that
register is read-only, and leaves every other register unchanged. -/
theorem slave_write_from_nonzero (g : SlaveGlobals) (a : Nat) (ds : List Nat)
    (ha : 1 ≤ a) (hlen : a + ds.length ≤ g.i2c_registerMapSize)
    (hsz : g.i2c_registerMapSize ≤ 255) (r : Nat) :
    (slaveRun g ([evWriteAddr, evData a] ++ ds.map evData)).i2c_registerMap r
      = (if a ≤ r ∧ r < a + ds.length
            ∧ g.i2c_registerAttributes r &&& I2CREG_ATTR_READONLY = 0 then
          ds.getD (r - a) 0
        else g.i2c_registerMap r) := by
  have hhdr : slaveRun g ([evWriteAddr, evData a] ++ ds.map evData)
      = slaveRun { g with i2c_rxIdx := a, i2c_registerIdx := a, i2c_busy := 1 }
          (ds.map evData) := rfl
  rw [hhdr]
  exact (slaveRun_data ds { g with i2c_rxIdx := a, i2c_registerIdx := a, i2c_busy := 1 }
    ha hlen hsz).2 r

set_option maxRecDepth 100000 in
/-- C33 at writes that start at register 0 of the eight-register slave
`slaveDemo`, all registers of which hold zero.  The write `0, 5` (k = 1) does
not store 5 into register 0: the byte 5 is taken as a register index.  The
write `0, 2, 7` (k = 2) stores neither 2 into register 0 nor 7 into
register 1, and stores 7 into register 2, which the transaction does not
address.  The same write starting at register 1 stores both bytes. -/
theorem slave_write_at_register_zero_misdirected :
    0 + [5].length ≤ slaveDemo.i2c_registerMapSize
    ∧ slaveDemo.i2c_registerAttributes 0 &&& I2CREG_ATTR_READONLY = 0
    ∧ (slaveRun slaveDemo ([evWriteAddr, evData 0] ++ [5].map evData)).i2c_registerMap 0 = 0
    ∧ (slaveRun slaveDemo ([evWriteAddr, evData 0] ++ [5].map evData)).i2c_rxIdx = 5
    ∧ (slaveRun slaveDemo ([evWriteAddr, evData 0] ++ [2, 7].map evData)).i2c_registerMap 0 = 0
    ∧ (slaveRun slaveDemo ([evWriteAddr, evData 0] ++ [2, 7].map evData)).i2c_registerMap 1 = 0
    ∧ (slaveRun slaveDemo ([evWriteAddr, evData 0] ++ [2, 7].map evData)).i2c_registerMap 2 = 7
    ∧ (slaveRun slaveDemo ([evWriteAddr, evData 1] ++ [2, 7].map evData)).i2c_registerMap 1 = 2
    ∧ (slaveRun slaveDemo ([evWriteAddr, evData 1] ++ [2, 7].map evData)).i2c_registerMap 2 = 7 := by
  decide

end AvrI2C
